import Mathlib

/-! # libzip layered sources: stream engine, window layer, compression layer

A shallow embedding of the source pipeline of `lib/zip_source_open.c`,
`lib/zip_source_close.c`, `lib/zip_source_read.c`, `lib/zip_realloc.c`,
`lib/zip_source_tell.c`, `lib/zip_source_window.c` and `lib/zip_source_compress.c`.

Conventions of the embedding.

* A `zip_source_t *` is the value of the source.  The lower source `src->src`
  is stored inside its owner (field `src`); functions return the updated source.
* `void *user_stream` is the per-stream object itself (`Option`, `none` = NULL).
* Byte buffers are lists of naturals; a callee returns the bytes it wrote.
* `zip_uint64_t` values are naturals, arithmetic that can wrap is taken modulo `2^64`.
* What the C code obtains from its environment (allocator outcomes, callback
  bodies, algorithm plug-ins) is an explicit input of the model.
-/

namespace Libzip

/-! ## Constants and small types -/

/-- The ZIP_ER_ error codes the sources use. -/
inductive zip_error_code
  | ZIP_ER_OK | ZIP_ER_ZIPCLOSED | ZIP_ER_OPEN | ZIP_ER_MEMORY | ZIP_ER_EOF
  | ZIP_ER_INVAL | ZIP_ER_INTERNAL | ZIP_ER_INCONS | ZIP_ER_DELETED
  | ZIP_ER_OPNOTSUPP | ZIP_ER_INUSE | ZIP_ER_TELL | ZIP_ER_COMPNOTSUPP
  deriving DecidableEq, Repr

open zip_error_code

/-- A zip_error_t: library error code and system detail. -/
structure zip_error_t where
  zip_err : zip_error_code
  sys_err : Int
  deriving DecidableEq, Repr

/-- The effect of zip_error_set. -/
def zip_error_set (ze : zip_error_code) (se : Int) : zip_error_t := ⟨ze, se⟩

/-- The cleared error (zip_error_init, _zip_error_clear). -/
def zip_error_clear : zip_error_t := ⟨ZIP_ER_OK, 0⟩

def ZIP_UINT64_MAX : Nat := 2 ^ 64 - 1

def ZIP_INT64_MAX : Nat := 2 ^ 63 - 1

/-- Conversion of a zip_uint64_t to zip_int64_t (two's complement). -/
def to_int64 (n : Nat) : Int :=
  if n % 2 ^ 64 < 2 ^ 63 then ((n % 2 ^ 64 : Nat) : Int) else ((n % 2 ^ 64 : Nat) : Int) - 2 ^ 64

/-- Conversion of a zip_int64_t to zip_uint64_t. -/
def to_uint64 (i : Int) : Nat := (i % 2 ^ 64).toNat

/-- Unsigned 64-bit increment. -/
def incr64 (n : Nat) : Nat := (n + 1) % 2 ^ 64

/-- Unsigned 64-bit decrement. -/
def decr64 (n : Nat) : Nat := (n + (2 ^ 64 - 1)) % 2 ^ 64

/-- Source commands (zip_source_cmd_t) used by the core. -/
inductive zip_source_cmd
  | ZIP_SOURCE_OPEN | ZIP_SOURCE_READ | ZIP_SOURCE_CLOSE | ZIP_SOURCE_STAT
  | ZIP_SOURCE_ERROR | ZIP_SOURCE_FREE | ZIP_SOURCE_SEEK | ZIP_SOURCE_TELL
  | ZIP_SOURCE_SUPPORTS | ZIP_SOURCE_GET_FILE_ATTRIBUTES
  | ZIP_SOURCE_OPEN_STREAM | ZIP_SOURCE_READ_STREAM | ZIP_SOURCE_CLOSE_STREAM
  | ZIP_SOURCE_SEEK_STREAM | ZIP_SOURCE_TELL_STREAM
  deriving DecidableEq, Repr

open zip_source_cmd

/-- The write state of a source, as far as the read path looks at it. -/
inductive zip_source_write_state
  | ZIP_SOURCE_WRITE_CLOSED | ZIP_SOURCE_WRITE_REMOVED
  deriving DecidableEq, Repr

open zip_source_write_state

/-! ## Allocation -/

/-- Outcome of the next allocator call: the head of the list of scripted
outcomes; an exhausted script means the allocation succeeds. -/
def alloc_next (heap : List Bool) : Bool × List Bool :=
  match heap with
  | [] => (true, [])
  | b :: rest => (b, rest)

/-- The function _zip_realloc (zip_realloc.c) on the element count: returns the
error code, the count after the call and the remaining allocator script.  The
allocator is consulted only when both overflow checks pass. -/
def _zip_realloc (heap : List Bool) (old_alloced element_size additional_elements : Nat) :
    zip_error_code × Nat × List Bool :=
  let additional_elements := if additional_elements = 0 then 1 else additional_elements
  if old_alloced > ZIP_UINT64_MAX - additional_elements then (ZIP_ER_MEMORY, old_alloced, heap)
  else
    let new_alloced := old_alloced + additional_elements
    if new_alloced > ZIP_UINT64_MAX / element_size then (ZIP_ER_MEMORY, old_alloced, heap)
    else
      match alloc_next heap with
      | (false, rest) => (ZIP_ER_MEMORY, old_alloced, rest)
      | (true, rest) => (ZIP_ER_OK, new_alloced, rest)

/-! ## Sources -/

/-- A zip_stream_t: one concurrent reader of a source. -/
structure zip_stream_t (υ : Type) where
  parent_stream_id : Int
  eof : Bool
  had_read_error : Bool
  bytes_read : Nat
  user_stream : Option υ
  deriving DecidableEq

/-- The carrier zip_source_args_stream_t of the stream commands. -/
structure zip_source_args_stream_t (υ : Type) where
  user_stream : Option υ
  data : List Nat
  len : Nat

/-- The seek arguments zip_source_args_seek_t. -/
structure zip_source_args_seek_t where
  offset : Int
  whence : Int
  deriving DecidableEq, Repr

def SEEK_SET : Int := 0

def SEEK_CUR : Int := 1

def SEEK_END : Int := 2

/-- The fields of a zip_stat_t the compression layer touches: size, comp_size,
comp_method, and the bits ZIP_STAT_SIZE, ZIP_STAT_COMP_SIZE and
ZIP_STAT_COMP_METHOD of valid. -/
structure zip_stat_t where
  valid_size : Bool
  valid_comp_size : Bool
  valid_comp_method : Bool
  size : Nat
  comp_size : Nat
  comp_method : Int
  deriving DecidableEq, Repr

/-- The effect of zip_stat_init on these fields. -/
def zip_stat_init : zip_stat_t := ⟨false, false, false, 0, 0, 0⟩

/-- What the pair (void *data, zip_uint64_t len) of a command points to: a plain
buffer of len bytes (raw, holding the bytes the callee wrote), a stream carrier,
seek arguments (with the user stream for the stream variant), a zip_stat_t, or
nothing. -/
inductive zip_source_data (υ : Type)
  | null
  | raw (data : List Nat) (len : Nat)
  | stream (args : zip_source_args_stream_t υ)
  | seek (user_stream : Option υ) (args : zip_source_args_seek_t)
  | stat (st : zip_stat_t)

/-- The mutable part of a struct zip_source.  The field src is the lower source
(any value for a source that is not layered), ud the private data of the layer,
heap the scripted outcomes of the allocator calls made for this source. -/
structure zip_source_t (τ σ υ : Type) where
  src : τ
  ud : σ
  error : zip_error_t
  supports : zip_source_cmd → Bool
  open_count : Nat
  write_state : zip_source_write_state
  source_closed : Bool
  eof : Bool
  had_read_error : Bool
  bytes_read : Nat
  streams : List (Option (zip_stream_t υ))
  nstreams : Nat
  nstreams_alloced : Nat
  free_stream_ids : List Nat
  nfree_stream_ids : Nat
  nfree_stream_ids_alloced : Nat
  heap : List Bool

/-- What a layer can do with its lower source: the API functions of the lower,
as state transformers on the lower source.  zip_source_close_stream returns
none when the C function ends without a return statement. -/
structure zip_source_ops (τ : Type) where
  zip_source_open : τ → Int × τ
  zip_source_close : τ → Int × τ
  zip_source_read : τ → Nat → Int × List Nat × τ
  zip_source_read_stream : τ → Int → Nat → Int × List Nat × τ
  _zip_source_seek : τ → Int → Int → Int → Int × τ
  _zip_source_tell : τ → Int → Int × τ
  zip_source_stat : τ → Int × zip_stat_t × τ
  zip_source_get_file_attributes : τ → Int × τ
  zip_source_open_stream : τ → Int × τ
  zip_source_close_stream : τ → Int → Option Int × τ
  zip_source_error : τ → zip_error_t

/-- The result of a callback invocation. -/
structure zip_source_call_result (τ σ υ : Type) where
  ret : Int
  data : zip_source_data υ
  src : τ
  ud : σ

/-- The immutable part of a struct zip_source: whether it is layered (and then
what the lower source offers), and the callback
cb(src->src, stream_id, ud, data, len, cmd).  The field junk_negative fixes
how an indeterminate int (a call of zip_source_close_stream that ended without
a return statement) compares with 0 at the call site.  The field
freed_parent_stream_id fixes what the read of stream->parent_stream_id yields
after free(stream) in zip_source_close_stream, given the value the record held
when it was freed: the memory belongs to the allocator by then, so the value
read is indeterminate (the identity stands for an allocator that left the
block untouched). -/
structure zip_source_class (τ σ υ : Type) where
  lower : Option (zip_source_ops τ)
  cb : τ → Int → σ → zip_source_data υ → zip_source_cmd → zip_source_call_result τ σ υ
  junk_negative : Bool
  freed_parent_stream_id : Int → Int

/-- ZIP_SOURCE_IS_LAYERED(src): src->src != NULL. -/
def ZIP_SOURCE_IS_LAYERED {τ σ υ : Type} (K : zip_source_class τ σ υ) : Bool :=
  K.lower.isSome

/-- Modelled from the spec: the macro ZIP_SOURCE_IS_OPEN_READING of zipint.h
(not part of the sources at hand); I1: open reading state iff open_count > 0. -/
def ZIP_SOURCE_IS_OPEN_READING {τ σ υ : Type} (src : zip_source_t τ σ υ) : Bool :=
  decide (0 < src.open_count)

/-- The slot streams[i] (NULL when empty; a slot outside the table reads as NULL). -/
def stream_at {τ σ υ : Type} (src : zip_source_t τ σ υ) (i : Nat) : Option (zip_stream_t υ) :=
  (src.streams.get? i).join

/-- Modelled from the spec: the macro ZIP_SOURCE_IS_VALID_STREAM_ID of zipint.h
(not part of the sources at hand).  Section 4.4 validates a stream ID against
the live set, which I2 describes as the IDs in [0, nstreams) whose slot is
present. -/
def ZIP_SOURCE_IS_VALID_STREAM_ID {τ σ υ : Type} (src : zip_source_t τ σ υ) (stream_id : Int) : Bool :=
  decide (0 ≤ stream_id) && decide (stream_id.toNat < src.nstreams)
    && (stream_at src stream_id.toNat).isSome

/-- Modelled from the spec: the dispatcher _zip_source_call of zip_source_call.c
(not part of the sources at hand).  Section 4.1: it invokes the callback of the
layer with exactly the given parameters and does not interpret the result. -/
def _zip_source_call {τ σ υ : Type} (K : zip_source_class τ σ υ) (src : zip_source_t τ σ υ)
    (stream_id : Int) (data : zip_source_data υ) (cmd : zip_source_cmd) :
    Int × zip_source_data υ × zip_source_t τ σ υ :=
  let r := K.cb src.src stream_id src.ud data cmd
  (r.ret, r.data, { src with src := r.src, ud := r.ud })

/-- The length that accompanies the data pointer of a command: the buffer length
for a plain buffer, the size of the structure otherwise (three 8-byte fields for
the stream carrier, an 8-byte offset and a padded int for the seek arguments). -/
def zip_source_data.size {υ : Type} : zip_source_data υ → Nat
  | .null => 0
  | .raw _ len => len
  | .stream _ => 24
  | .seek _ _ => 16
  | .stat _ => 64

/-- The user_stream field of a stream carrier after a call. -/
def zip_source_data.user_stream {υ : Type} : zip_source_data υ → Option υ
  | .stream args => args.user_stream
  | .seek us _ => us
  | _ => none

/-- The first n bytes a callee left in a plain buffer or in the data of a carrier. -/
def zip_source_data.written {υ : Type} (d : zip_source_data υ) (n : Nat) : List Nat :=
  match d with
  | .raw data _ => data.take n
  | .stream args => args.data.take n
  | _ => []

/-! ## Stream-mode lifecycle (zip_source_open.c, zip_source_close.c) -/

/-- The call zip_source_close_stream(src->src, id) made by a layered source on its
lower source; for a source that is not layered nothing happens. -/
def lower_close_stream {τ σ υ : Type} (K : zip_source_class τ σ υ) (src : zip_source_t τ σ υ)
    (id : Int) : Option Int × zip_source_t τ σ υ :=
  match K.lower with
  | none => (some 0, src)
  | some A =>
    let r := A.zip_source_close_stream src.src id
    (r.1, { src with src := r.2 })

/-- The test (x < 0) on the int returned by zip_source_close_stream. -/
def ret_negative {τ σ υ : Type} (K : zip_source_class τ σ υ) (x : Option Int) : Bool :=
  match x with
  | some v => decide (v < 0)
  | none => K.junk_negative

/-- The function zip_source_close_stream (zip_source_close.c).  The result none
stands for the path that reaches the closing brace of the function without a
return statement.  The CLOSE_STREAM callback gets the parent_stream_id saved in
a local before free(stream); the call on the lower source gets
stream->parent_stream_id, read from the record after it was freed, which is
the value K.freed_parent_stream_id makes of the saved one. -/
def zip_source_close_stream {τ σ υ : Type} (K : zip_source_class τ σ υ)
    (src : zip_source_t τ σ υ) (stream_id : Int) : Option Int × zip_source_t τ σ υ :=
  if !ZIP_SOURCE_IS_VALID_STREAM_ID src stream_id then
    (some (-1), { src with error := zip_error_set ZIP_ER_INVAL 0 })
  else
    match stream_at src stream_id.toNat with
    | none => (some (-1), { src with error := zip_error_set ZIP_ER_INVAL 0 })
    | some stream =>
      let user_stream := stream.user_stream
      let parent_stream_id := stream.parent_stream_id
      let src := { src with streams := src.streams.set stream_id.toNat none,
                            nstreams := decr64 src.nstreams }
      let args : zip_source_args_stream_t υ := ⟨user_stream, [], 0⟩
      let c := _zip_source_call K src parent_stream_id (.stream args) ZIP_SOURCE_CLOSE_STREAM
      let failed := decide (c.1 < 0)
      let src := c.2.2
      let l := if ZIP_SOURCE_IS_LAYERED K then
                 lower_close_stream K src (K.freed_parent_stream_id parent_stream_id)
               else (some 0, src)
      let lower_failed := ZIP_SOURCE_IS_LAYERED K && ret_negative K l.1
      let src := l.2
      let src := if lower_failed && !failed then
                   { src with error := zip_error_set ZIP_ER_INTERNAL 0 } else src
      let failed := failed || lower_failed
      if failed then (some (-1), src)
      else if stream_id.toNat = src.nstreams then (some 0, src)
      else
        /- record free stream ID if we made a hole in streams array -/
        if incr64 src.nfree_stream_ids > src.nfree_stream_ids_alloced then
          match _zip_realloc src.heap src.nfree_stream_ids_alloced 8 (src.nfree_stream_ids_alloced / 2) with
          | (ZIP_ER_OK, new_alloced, heap) =>
            let grown := src.free_stream_ids ++ List.replicate (new_alloced - src.nfree_stream_ids_alloced) 0
            (none, { src with heap := heap, nfree_stream_ids_alloced := new_alloced,
                              free_stream_ids := grown.set src.nfree_stream_ids stream_id.toNat,
                              nfree_stream_ids := incr64 src.nfree_stream_ids })
          | (err, _, heap) =>
            (some (-1), { src with heap := heap, error := zip_error_set err 0 })
        else
          (none, { src with free_stream_ids := src.free_stream_ids.set src.nfree_stream_ids stream_id.toNat,
                            nfree_stream_ids := incr64 src.nfree_stream_ids })

/-- The clean-up of zip_source_open_stream after a failure that follows the
OPEN_STREAM callback: zip_source_close_stream(src->src, parent_stream_id) when
layered. -/
def open_stream_undo_lower {τ σ υ : Type} (K : zip_source_class τ σ υ) (src : zip_source_t τ σ υ)
    (parent_stream_id : Int) : zip_source_t τ σ υ :=
  if ZIP_SOURCE_IS_LAYERED K then (lower_close_stream K src parent_stream_id).2 else src

/-- The tail of zip_source_open_stream from the malloc of the stream record on
(zip_source_open.c, lines 98 to 115). -/
def open_stream_store {τ σ υ : Type} (K : zip_source_class τ σ υ) (src : zip_source_t τ σ υ)
    (parent_stream_id : Int) (args : zip_source_args_stream_t υ) (stream_id : Nat) :
    Int × zip_source_t τ σ υ :=
  match alloc_next src.heap with
  | (false, heap) =>
    let src := { src with heap := heap, nstreams := decr64 src.nstreams }
    let c := _zip_source_call K src parent_stream_id (.stream args) ZIP_SOURCE_CLOSE_STREAM
    let src := open_stream_undo_lower K c.2.2 parent_stream_id
    (-1, { src with error := zip_error_set ZIP_ER_MEMORY 0 })
  | (true, heap) =>
    let stream : zip_stream_t υ := ⟨parent_stream_id, false, false, 0, args.user_stream⟩
    (to_int64 stream_id,
      { src with heap := heap, streams := src.streams.set stream_id (some stream) })

/-- The part of zip_source_open_stream that picks the stream ID and stores the
stream record (zip_source_open.c, lines 79 to 115), entered once the
OPEN_STREAM callback has delivered a user stream. -/
def open_stream_slot {τ σ υ : Type} (K : zip_source_class τ σ υ) (src : zip_source_t τ σ υ)
    (parent_stream_id : Int) (args : zip_source_args_stream_t υ) : Int × zip_source_t τ σ υ :=
  if 0 < src.nfree_stream_ids then
    let src := { src with nfree_stream_ids := decr64 src.nfree_stream_ids }
    let stream_id := src.free_stream_ids.getD src.nfree_stream_ids 0
    open_stream_store K src parent_stream_id args stream_id
  else
    if incr64 src.nstreams > src.nstreams_alloced then
      match _zip_realloc src.heap src.nstreams_alloced 8 (src.nstreams_alloced / 2) with
      | (ZIP_ER_OK, new_alloced, heap) =>
        let src := { src with heap := heap, nstreams_alloced := new_alloced,
                              streams := src.streams ++ List.replicate (new_alloced - src.nstreams_alloced) none }
        let stream_id := src.nstreams
        open_stream_store K { src with nstreams := incr64 src.nstreams } parent_stream_id args stream_id
      | (err, _, heap) =>
        let src := { src with heap := heap }
        let c := _zip_source_call K src parent_stream_id (.stream args) ZIP_SOURCE_CLOSE_STREAM
        let src := open_stream_undo_lower K c.2.2 parent_stream_id
        (-1, { src with error := zip_error_set err 0 })
    else
      let stream_id := src.nstreams
      open_stream_store K { src with nstreams := incr64 src.nstreams } parent_stream_id args stream_id

/-- The function zip_source_open_stream (zip_source_open.c).  The element size
passed to _zip_realloc is that of a pointer, 8 bytes. -/
def zip_source_open_stream {τ σ υ : Type} (K : zip_source_class τ σ υ)
    (src : zip_source_t τ σ υ) : Int × zip_source_t τ σ υ :=
  if src.source_closed then (-1, src)
  else if src.write_state = ZIP_SOURCE_WRITE_REMOVED then
    (-1, { src with error := zip_error_set ZIP_ER_DELETED 0 })
  else
    let p : Int × zip_source_t τ σ υ :=
      match K.lower with
      | none => (-1, src)
      | some A =>
        let r := A.zip_source_open_stream src.src
        (r.1, { src with src := r.2 })
    let parent_stream_id := p.1
    let src := p.2
    if ZIP_SOURCE_IS_LAYERED K && decide (parent_stream_id < 0) then
      match K.lower with
      | none => (-1, src)
      | some A => (-1, { src with error := A.zip_source_error src.src })
    else
      let args : zip_source_args_stream_t υ := ⟨none, [], 0⟩
      let c := _zip_source_call K src parent_stream_id (.stream args) ZIP_SOURCE_OPEN_STREAM
      let args : zip_source_args_stream_t υ := ⟨c.2.1.user_stream, [], 0⟩
      let src := c.2.2
      if c.1 < 0 then (-1, open_stream_undo_lower K src parent_stream_id)
      else if args.user_stream.isNone then
        let src := open_stream_undo_lower K src parent_stream_id
        (-1, { src with error := zip_error_set ZIP_ER_OPEN 0 })
      else open_stream_slot K src parent_stream_id args

/-! ## Primary-mode open and close -/

/-- The function zip_source_open (zip_source_open.c). -/
def zip_source_open {τ σ υ : Type} (K : zip_source_class τ σ υ) (src : zip_source_t τ σ υ) :
    Int × zip_source_t τ σ υ :=
  let finish (src : zip_source_t τ σ υ) : Int × zip_source_t τ σ υ :=
    (0, { src with eof := false, had_read_error := false, error := zip_error_clear,
                   bytes_read := 0, open_count := src.open_count + 1 })
  if src.source_closed then (-1, src)
  else if src.write_state = ZIP_SOURCE_WRITE_REMOVED then
    (-1, { src with error := zip_error_set ZIP_ER_DELETED 0 })
  else if ZIP_SOURCE_IS_OPEN_READING src then
    if !src.supports ZIP_SOURCE_SEEK then (-1, { src with error := zip_error_set ZIP_ER_INUSE 0 })
    else finish src
  else
    let p : Int × zip_source_t τ σ υ :=
      match K.lower with
      | none => (0, src)
      | some A =>
        let r := A.zip_source_open src.src
        (r.1, { src with src := r.2 })
    let src := p.2
    if p.1 < 0 then
      match K.lower with
      | none => (-1, src)
      | some A => (-1, { src with error := A.zip_source_error src.src })
    else
      let c := _zip_source_call K src (-1) .null ZIP_SOURCE_OPEN
      let src := c.2.2
      if c.1 < 0 then
        match K.lower with
        | none => (-1, src)
        | some A => (-1, { src with src := (A.zip_source_close src.src).2 })
      else finish src

/-- The function zip_source_close (zip_source_close.c). -/
def zip_source_close {τ σ υ : Type} (K : zip_source_class τ σ υ) (src : zip_source_t τ σ υ) :
    Int × zip_source_t τ σ υ :=
  if !ZIP_SOURCE_IS_OPEN_READING src then (-1, { src with error := zip_error_set ZIP_ER_INVAL 0 })
  else
    let src := { src with open_count := src.open_count - 1 }
    if src.open_count = 0 then
      let c := _zip_source_call K src (-1) .null ZIP_SOURCE_CLOSE
      let src := c.2.2
      match K.lower with
      | none => (0, src)
      | some A =>
        let r := A.zip_source_close src.src
        let src := { src with src := r.2 }
        if r.1 < 0 then (-1, { src with error := zip_error_set ZIP_ER_INTERNAL 0 })
        else (0, src)
    else (0, src)

/-- The dispatch _zip_source_close (zip_source_close.c) on a lower source. -/
def _zip_source_close {τ : Type} (A : zip_source_ops τ) (src : τ) (stream_id : Int) : Option Int × τ :=
  if stream_id < 0 then
    let r := A.zip_source_close src
    (some r.1, r.2)
  else A.zip_source_close_stream src stream_id

/-! ## Reading (zip_source_read.c) -/

/-- The saturating update of a bytes_read counter at the end of
zip_source_read and zip_source_read_stream. -/
def bytes_read_add (old bytes_read : Nat) : Nat :=
  if (old + bytes_read) % 2 ^ 64 < old then ZIP_UINT64_MAX else (old + bytes_read) % 2 ^ 64

/-- The while loop of zip_source_read.  The first component of the result is
some v when the function returned v from inside the loop, none when the loop
was left by break or by its condition.  The recursion is on a bound for the
number of iterations: every iteration that continues adds at least one byte. -/
def zip_source_read_loop {τ σ υ : Type} (K : zip_source_class τ σ υ) (len : Nat) :
    Nat → zip_source_t τ σ υ → Nat → List Nat → Option Int × zip_source_t τ σ υ × Nat × List Nat
  | 0, src, bytes_read, data => (none, src, bytes_read, data)
  | fuel + 1, src, bytes_read, data =>
    if bytes_read < len then
      let c := _zip_source_call K src (-1) (.raw [] (len - bytes_read)) ZIP_SOURCE_READ
      let n := c.1
      if n < 0 then
        let src := { c.2.2 with had_read_error := true }
        if bytes_read = 0 then (some (-1), src, bytes_read, data)
        else (some (to_int64 bytes_read), src, bytes_read, data)
      else if n = 0 then
        (none, { c.2.2 with eof := true }, bytes_read, data)
      else
        zip_source_read_loop K len fuel c.2.2 (bytes_read + n.toNat) (data ++ c.2.1.written n.toNat)
    else (none, src, bytes_read, data)

/-- The function zip_source_read (zip_source_read.c); the buffer of the caller
is taken to be non-NULL.  Returns the value, the bytes stored into the buffer
and the source. -/
def zip_source_read {τ σ υ : Type} (K : zip_source_class τ σ υ) (src : zip_source_t τ σ υ)
    (len : Nat) : Int × List Nat × zip_source_t τ σ υ :=
  if src.source_closed then (-1, [], src)
  else if !ZIP_SOURCE_IS_OPEN_READING src || decide (len > ZIP_INT64_MAX) then
    (-1, [], { src with error := zip_error_set ZIP_ER_INVAL 0 })
  else if src.had_read_error then (-1, [], src)
  else if src.eof then (0, [], src)
  else if len = 0 then (0, [], src)
  else
    match zip_source_read_loop K len len src 0 [] with
    | (some v, src, _, data) => (v, data, src)
    | (none, src, bytes_read, data) =>
      (to_int64 bytes_read, data, { src with bytes_read := bytes_read_add src.bytes_read bytes_read })

/-- The while loop of zip_source_read_stream, on the stream record. -/
def zip_source_read_stream_loop {τ σ υ : Type} (K : zip_source_class τ σ υ) (len : Nat) :
    Nat → zip_source_t τ σ υ → zip_stream_t υ → Nat → List Nat →
      Option Int × zip_source_t τ σ υ × zip_stream_t υ × Nat × List Nat
  | 0, src, stream, bytes_read, data => (none, src, stream, bytes_read, data)
  | fuel + 1, src, stream, bytes_read, data =>
    if bytes_read < len then
      let args : zip_source_args_stream_t υ := ⟨stream.user_stream, [], len - bytes_read⟩
      let c := _zip_source_call K src stream.parent_stream_id (.stream args) ZIP_SOURCE_READ_STREAM
      let n := c.1
      let stream := { stream with user_stream := c.2.1.user_stream }
      if n < 0 then
        let stream := { stream with had_read_error := true }
        if bytes_read = 0 then (some (-1), c.2.2, stream, bytes_read, data)
        else (none, c.2.2, stream, bytes_read, data)
      else if n = 0 then
        (none, c.2.2, { stream with eof := true }, bytes_read, data)
      else
        zip_source_read_stream_loop K len fuel c.2.2 stream (bytes_read + n.toNat)
          (data ++ c.2.1.written n.toNat)
    else (none, src, stream, bytes_read, data)

/-- The function zip_source_read_stream (zip_source_read.c). -/
def zip_source_read_stream {τ σ υ : Type} (K : zip_source_class τ σ υ) (src : zip_source_t τ σ υ)
    (stream_id : Int) (len : Nat) : Int × List Nat × zip_source_t τ σ υ :=
  if src.source_closed then (-1, [], src)
  else if !ZIP_SOURCE_IS_VALID_STREAM_ID src stream_id || decide (len > ZIP_INT64_MAX) then
    (-1, [], { src with error := zip_error_set ZIP_ER_INVAL 0 })
  else
    match stream_at src stream_id.toNat with
    | none => (-1, [], { src with error := zip_error_set ZIP_ER_INVAL 0 })
    | some stream =>
      if stream.had_read_error then (-1, [], src)
      else if stream.eof then (0, [], src)
      else if len = 0 then (0, [], src)
      else
        match zip_source_read_stream_loop K len len src stream 0 [] with
        | (some v, src, stream, _, data) =>
          (v, data, { src with streams := src.streams.set stream_id.toNat (some stream) })
        | (none, src, stream, bytes_read, data) =>
          let stream := { stream with bytes_read := bytes_read_add stream.bytes_read bytes_read }
          (to_int64 bytes_read, data,
            { src with streams := src.streams.set stream_id.toNat (some stream) })

/-- The dispatch _zip_source_read (zip_source_read.c) on a lower source. -/
def _zip_source_read {τ : Type} (A : zip_source_ops τ) (src : τ) (stream_id : Int) (len : Nat) :
    Int × List Nat × τ :=
  if stream_id < 0 then A.zip_source_read src len
  else A.zip_source_read_stream src stream_id len

/-- Modelled from the spec: _zip_source_seek of zip_source_seek.c (not part of
the sources at hand).  Sections 4.3 to 4.5: a seek is dispatched to the callback
(SEEK for the primary reader, SEEK_STREAM with the recorded user stream for a
valid stream), and a successful seek restarts reading: it clears the eof flag
of the reader. -/
def _zip_source_seek {τ σ υ : Type} (K : zip_source_class τ σ υ) (src : zip_source_t τ σ υ)
    (stream_id : Int) (offset : Int) (whence : Int) : Int × zip_source_t τ σ υ :=
  if src.source_closed then (-1, src)
  else if stream_id < 0 then
    if !ZIP_SOURCE_IS_OPEN_READING src then (-1, { src with error := zip_error_set ZIP_ER_INVAL 0 })
    else
      let c := _zip_source_call K src (-1) (.seek none ⟨offset, whence⟩) ZIP_SOURCE_SEEK
      if c.1 < 0 then (-1, c.2.2) else (0, { c.2.2 with eof := false })
  else
    match stream_at src stream_id.toNat with
    | none => (-1, { src with error := zip_error_set ZIP_ER_INVAL 0 })
    | some stream =>
      if !ZIP_SOURCE_IS_VALID_STREAM_ID src stream_id then
        (-1, { src with error := zip_error_set ZIP_ER_INVAL 0 })
      else
        let c := _zip_source_call K src stream.parent_stream_id
          (.seek stream.user_stream ⟨offset, whence⟩) ZIP_SOURCE_SEEK_STREAM
        let stream := { stream with user_stream := c.2.1.user_stream }
        let stream := if c.1 < 0 then stream else { stream with eof := false }
        (if c.1 < 0 then -1 else 0,
          { c.2.2 with streams := c.2.2.streams.set stream_id.toNat (some stream) })

/-! ## Position (zip_source_tell.c) -/

/-- Modelled from the spec: zip_source_supports_multi_open_readable (not part
of the sources at hand).  Section 3: readable streams = supports READ_STREAM,
OPEN_STREAM and CLOSE_STREAM. -/
def zip_source_supports_multi_open_readable {τ σ υ : Type} (src : zip_source_t τ σ υ) : Bool :=
  src.supports ZIP_SOURCE_READ_STREAM && src.supports ZIP_SOURCE_OPEN_STREAM
    && src.supports ZIP_SOURCE_CLOSE_STREAM

/-- Modelled from the spec: zip_source_supports_multi_open_seekable (not part
of the sources at hand).  Section 3: seekable streams = readable streams that
also support SEEK_STREAM and TELL_STREAM. -/
def zip_source_supports_multi_open_seekable {τ σ υ : Type} (src : zip_source_t τ σ υ) : Bool :=
  zip_source_supports_multi_open_readable src && src.supports ZIP_SOURCE_SEEK_STREAM
    && src.supports ZIP_SOURCE_TELL_STREAM

/-- The function zip_source_tell_stream (zip_source_tell.c); the system detail
EOVERFLOW of the TELL error is written 0. -/
def zip_source_tell_stream {τ σ υ : Type} (K : zip_source_class τ σ υ) (src : zip_source_t τ σ υ)
    (stream_id : Int) : Int × zip_source_t τ σ υ :=
  if src.source_closed then (-1, src)
  else if !ZIP_SOURCE_IS_VALID_STREAM_ID src stream_id then
    (-1, { src with error := zip_error_set ZIP_ER_INVAL 0 })
  else
    match stream_at src stream_id.toNat with
    | none => (-1, { src with error := zip_error_set ZIP_ER_INVAL 0 })
    | some stream =>
      if !zip_source_supports_multi_open_seekable src then
        if stream.bytes_read > ZIP_INT64_MAX then
          (-1, { src with error := zip_error_set ZIP_ER_TELL 0 })
        else (to_int64 stream.bytes_read, src)
      else
        let args : zip_source_args_stream_t υ := ⟨stream.user_stream, [], 0⟩
        let c := _zip_source_call K src stream.parent_stream_id (.stream args) ZIP_SOURCE_TELL_STREAM
        let stream := { stream with user_stream := c.2.1.user_stream }
        (c.1, { c.2.2 with streams := c.2.2.streams.set stream_id.toNat (some stream) })

/-- The function zip_source_tell (zip_source_tell.c). -/
def zip_source_tell {τ σ υ : Type} (K : zip_source_class τ σ υ) (src : zip_source_t τ σ υ) :
    Int × zip_source_t τ σ υ :=
  if src.source_closed then (-1, src)
  else if !ZIP_SOURCE_IS_OPEN_READING src then
    (-1, { src with error := zip_error_set ZIP_ER_INVAL 0 })
  else if !src.supports ZIP_SOURCE_TELL && !src.supports ZIP_SOURCE_SEEK then
    if src.bytes_read > ZIP_INT64_MAX then (-1, { src with error := zip_error_set ZIP_ER_TELL 0 })
    else (to_int64 src.bytes_read, src)
  else
    let c := _zip_source_call K src (-1) .null ZIP_SOURCE_TELL
    (c.1, c.2.2)

/-- The dispatch _zip_source_tell (zip_source_tell.c). -/
def _zip_source_tell {τ σ υ : Type} (K : zip_source_class τ σ υ) (src : zip_source_t τ σ υ)
    (stream_id : Int) : Int × zip_source_t τ σ υ :=
  if stream_id < 0 then zip_source_tell K src else zip_source_tell_stream K src stream_id

/-! ## Stat and attributes -/

/-- Modelled from the spec: zip_source_stat of zip_source_stat.c (not part of
the sources at hand).  Section 4.1: the STAT command is routed to the callback
of the source with a zip_stat_t for it to fill in; an invalidated source
fails. -/
def zip_source_stat {τ σ υ : Type} (K : zip_source_class τ σ υ) (src : zip_source_t τ σ υ) :
    Int × zip_stat_t × zip_source_t τ σ υ :=
  if src.source_closed then (-1, zip_stat_init, src)
  else
    let c := _zip_source_call K src (-1) (.stat zip_stat_init) ZIP_SOURCE_STAT
    match c.2.1 with
    | .stat st => (if c.1 < 0 then -1 else 0, st, c.2.2)
    | _ => (if c.1 < 0 then -1 else 0, zip_stat_init, c.2.2)

/-- Modelled from the spec: zip_source_get_file_attributes (not part of the
sources at hand).  Section 4.1: the GET_FILE_ATTRIBUTES command is routed to the
callback; the attributes themselves are not modelled. -/
def zip_source_get_file_attributes {τ σ υ : Type} (K : zip_source_class τ σ υ)
    (src : zip_source_t τ σ υ) : Int × zip_source_t τ σ υ :=
  if src.source_closed then (-1, src)
  else
    let c := _zip_source_call K src (-1) .null ZIP_SOURCE_GET_FILE_ATTRIBUTES
    (if c.1 < 0 then -1 else 0, c.2.2)

/-- The API of a source of class K, as seen by a layer built on top of it. -/
def zip_source_ops_of {τ σ υ : Type} (K : zip_source_class τ σ υ) :
    zip_source_ops (zip_source_t τ σ υ) where
  zip_source_open := zip_source_open K
  zip_source_close := zip_source_close K
  zip_source_read := zip_source_read K
  zip_source_read_stream := zip_source_read_stream K
  _zip_source_seek := _zip_source_seek K
  _zip_source_tell := _zip_source_tell K
  zip_source_stat := zip_source_stat K
  zip_source_get_file_attributes := zip_source_get_file_attributes K
  zip_source_open_stream := zip_source_open_stream K
  zip_source_close_stream := zip_source_close_stream K
  zip_source_error := fun src => src.error

/-- Modelled from the spec: the state of a freshly created source (the
constructors zip_source_function_create and zip_source_layered_create are not
part of the sources at hand).  Section 3: a source is created with
open_count = 0, empty streams and empty free_stream_ids. -/
def zip_source_new {τ σ υ : Type} (lower : τ) (ud : σ) (supports : zip_source_cmd → Bool)
    (heap : List Bool) : zip_source_t τ σ υ where
  src := lower
  ud := ud
  error := zip_error_clear
  supports := supports
  open_count := 0
  write_state := ZIP_SOURCE_WRITE_CLOSED
  source_closed := false
  eof := false
  had_read_error := false
  bytes_read := 0
  streams := []
  nstreams := 0
  nstreams_alloced := 0
  free_stream_ids := []
  nfree_stream_ids := 0
  nfree_stream_ids_alloced := 0
  heap := heap

/-! ## Window layer (zip_source_window.c) -/

/-- Unsigned 64-bit subtraction. -/
def sub64 (a b : Nat) : Nat := (a + (2 ^ 64 - b % 2 ^ 64)) % 2 ^ 64

/-- Unsigned 64-bit addition. -/
def add64 (a b : Nat) : Nat := (a + b) % 2 ^ 64

/-- The struct window_stream. -/
structure window_stream_t where
  offset : Nat
  deriving DecidableEq, Repr

/-- The struct window; end_ is the field end.  The stat and attributes fields
are not modelled.  The field heap scripts the outcome of byte_array_init. -/
structure window where
  start : Nat
  end_ : Nat
  end_valid : Bool
  stream : window_stream_t
  error : zip_error_t
  supports : zip_source_cmd → Bool
  needs_seek : Bool
  needs_stream_seek : Bool
  heap : List Bool

/-- The function _needs_seek. -/
def _needs_seek (ctx : window) (stream_id : Int) : Bool :=
  if stream_id < 0 then ctx.needs_seek else ctx.needs_stream_seek

/-- The for loop of window_read_open that discards the bytes before start.  The
result is some e when the function returns -1 with ctx->error = e, none when
the loop ends.  The recursion is on a bound for the number of iterations:
every iteration that continues adds at least one byte to n (the bound is exact
as long as n does not wrap). -/
def window_read_open_loop {τ : Type} (A : zip_source_ops τ) (BUFSIZE : Nat) (stream_id : Int)
    (start : Nat) : Nat → τ → Nat → Option zip_error_t × τ
  | 0, src, _ => (none, src)
  | fuel + 1, src, n =>
    if n < start then
      let i := if start - n > BUFSIZE then BUFSIZE else start - n
      let r := _zip_source_read A src stream_id i
      if r.1 < 0 then (some (A.zip_source_error r.2.2), r.2.2)
      else if r.1 = 0 then (some (zip_error_set ZIP_ER_EOF 0), r.2.2)
      else window_read_open_loop A BUFSIZE stream_id start fuel r.2.2 (add64 n r.1.toNat)
    else (none, src)

/-- The function window_read_open. -/
def window_read_open {τ : Type} (A : zip_source_ops τ) (BUFSIZE : Nat) (src : τ) (stream_id : Int)
    (ctx : window) (stream : window_stream_t) : Int × τ × window × window_stream_t :=
  if !_needs_seek ctx stream_id then
    match alloc_next ctx.heap with
    | (false, heap) =>
      (-1, src, { ctx with heap := heap, error := zip_error_set ZIP_ER_MEMORY 0 }, stream)
    | (true, heap) =>
      let ctx := { ctx with heap := heap }
      match window_read_open_loop A BUFSIZE stream_id ctx.start ctx.start src 0 with
      | (some e, src) => (-1, src, { ctx with error := e }, stream)
      | (none, src) => (0, src, ctx, { stream with offset := ctx.start })
  else (0, src, ctx, { stream with offset := ctx.start })

/-- The seek of window_read_read: _zip_source_seek(src, stream_id, offset, SEEK_SET)
on the lower source when the window needs to seek, nothing otherwise. -/
def window_seek_lower {τ : Type} (A : zip_source_ops τ) (src : τ) (stream_id : Int) (ctx : window)
    (stream : window_stream_t) : Int × τ :=
  if _needs_seek ctx stream_id then A._zip_source_seek src stream_id (to_int64 stream.offset) SEEK_SET
  else (0, src)

/-- The function window_read_read; returns the value, the bytes the lower
source stored into data, the lower source, the context and the stream. -/
def window_read_read {τ : Type} (A : zip_source_ops τ) (src : τ) (stream_id : Int) (ctx : window)
    (stream : window_stream_t) (len : Nat) : Int × List Nat × τ × window × window_stream_t :=
  let len := if ctx.end_valid && decide (len > sub64 ctx.end_ stream.offset)
             then sub64 ctx.end_ stream.offset else len
  if len = 0 then (0, [], src, ctx, stream)
  else
    let sk := window_seek_lower A src stream_id ctx stream
    if _needs_seek ctx stream_id && decide (sk.1 < 0) then
      (-1, [], sk.2, { ctx with error := A.zip_source_error sk.2 }, stream)
    else
      let r := _zip_source_read A sk.2 stream_id len
      if r.1 < 0 then (-1, r.2.1, r.2.2, { ctx with error := zip_error_set ZIP_ER_EOF 0 }, stream)
      else
        let stream := { stream with offset := add64 stream.offset r.1.toNat }
        if r.1 = 0 ∧ ctx.end_valid = true ∧ stream.offset < ctx.end_ then
          (-1, r.2.1, r.2.2, { ctx with error := zip_error_set ZIP_ER_EOF 0 }, stream)
        else (r.1, r.2.1, r.2.2, ctx, stream)

/-- Modelled from the spec: zip_source_seek_compute_offset (not part of the
sources at hand).  Section 4.5: the helper computes a new offset from whence
and offset relative to the window size and bounds-checks it; a failure sets
INVAL.  Returns the new offset or -1 with the error. -/
def zip_source_seek_compute_offset (offset length : Nat) (args : Option zip_source_args_seek_t) :
    Int × Option zip_error_t :=
  match args with
  | none => (-1, some (zip_error_set ZIP_ER_INVAL 0))
  | some a =>
    let new_offset : Option Int :=
      if a.whence = SEEK_CUR then some (to_int64 offset + a.offset)
      else if a.whence = SEEK_END then some (to_int64 length + a.offset)
      else if a.whence = SEEK_SET then some a.offset
      else none
    match new_offset with
    | none => (-1, some (zip_error_set ZIP_ER_INVAL 0))
    | some v =>
      if v < 0 ∨ to_uint64 v > length then (-1, some (zip_error_set ZIP_ER_INVAL 0))
      else (v, none)

/-- The function window_read_seek; args is the result of ZIP_SOURCE_GET_ARGS
(none when the data is not a zip_source_args_seek_t). -/
def window_read_seek {τ : Type} (A : zip_source_ops τ) (src : τ) (stream_id : Int) (ctx : window)
    (stream : window_stream_t) (args : Option zip_source_args_seek_t) :
    Int × τ × window × window_stream_t :=
  let bounded : Int × τ × window × window_stream_t :=
    let c := zip_source_seek_compute_offset (sub64 stream.offset ctx.start)
      (sub64 ctx.end_ ctx.start) args
    match c.2 with
    | some e => (-1, src, { ctx with error := e }, stream)
    | none =>
      if c.1 < 0 then (-1, src, ctx, stream)
      else (0, src, ctx, { stream with offset := add64 (to_uint64 c.1) ctx.start })
  if !ctx.end_valid then
    match args with
    | none => (-1, src, { ctx with error := zip_error_set ZIP_ER_INVAL 0 }, stream)
    | some a =>
      if a.whence = SEEK_END then
        let sk := A._zip_source_seek src stream_id a.offset a.whence
        if sk.1 < 0 then (-1, sk.2, { ctx with error := A.zip_source_error sk.2 }, stream)
        else
          let t := A._zip_source_tell sk.2 stream_id
          let new_offset := t.1
          if new_offset < 0 then (-1, t.2, { ctx with error := A.zip_source_error t.2 }, stream)
          else if to_uint64 new_offset < ctx.start then
            let back := A._zip_source_seek t.2 stream_id (to_int64 stream.offset) SEEK_SET
            (-1, back.2, { ctx with error := zip_error_set ZIP_ER_INVAL 0 }, stream)
          else (0, t.2, ctx, { stream with offset := to_uint64 new_offset })
      else bounded
  else bounded

/-- The function window_read_tell. -/
def window_read_tell (ctx : window) (stream : window_stream_t) : Int :=
  to_int64 (sub64 stream.offset ctx.start)

/-- The macro ZIP_SOURCE_GET_ARGS for zip_source_args_stream_t: the carrier the
data points to, or NULL (with INVAL) when the length is too small for one. -/
def get_args_stream {υ : Type} (data : zip_source_data υ) : Option (zip_source_args_stream_t υ) :=
  match data with
  | .stream args => some args
  | _ => none

/-- The macro ZIP_SOURCE_GET_ARGS for zip_source_args_seek_t. -/
def get_args_seek {υ : Type} (data : zip_source_data υ) : Option zip_source_args_seek_t :=
  match data with
  | .seek _ args => some args
  | _ => none

/-- The callback window_read.  For READ_STREAM the C code hands data and len of
the command (the carrier and its size) on to window_read_read, so the bytes
read are stored over the carrier.  The commands ERROR, FREE, STAT,
GET_FILE_ATTRIBUTES and SUPPORTS act on data this development does not model
(error buffers, zip_stat_t, attributes, the bitmap encoding); they are answered
with 0 and change nothing. -/
def window_read {τ : Type} (A : zip_source_ops τ) (BUFSIZE : Nat) (src : τ) (stream_id : Int)
    (ctx : window) (data : zip_source_data window_stream_t) (cmd : zip_source_cmd) :
    zip_source_call_result τ window window_stream_t :=
  match cmd with
  | ZIP_SOURCE_CLOSE => ⟨0, data, src, ctx⟩
  | ZIP_SOURCE_OPEN =>
    let r := window_read_open A BUFSIZE src (-1) ctx ctx.stream
    ⟨r.1, data, r.2.1, { r.2.2.1 with stream := r.2.2.2 }⟩
  | ZIP_SOURCE_READ =>
    let r := window_read_read A src (-1) ctx ctx.stream data.size
    ⟨r.1, .raw r.2.1 data.size, r.2.2.1, { r.2.2.2.1 with stream := r.2.2.2.2 }⟩
  | ZIP_SOURCE_SEEK =>
    let r := window_read_seek A src (-1) ctx ctx.stream (get_args_seek data)
    ⟨r.1, data, r.2.1, { r.2.2.1 with stream := r.2.2.2 }⟩
  | ZIP_SOURCE_TELL => ⟨window_read_tell ctx ctx.stream, data, src, ctx⟩
  | ZIP_SOURCE_OPEN_STREAM =>
    match get_args_stream data with
    | none => ⟨-1, data, src, { ctx with error := zip_error_set ZIP_ER_INVAL 0 }⟩
    | some args =>
      match alloc_next ctx.heap with
      | (false, heap) =>
        ⟨-1, data, src, { ctx with heap := heap, error := zip_error_set ZIP_ER_MEMORY 0 }⟩
      | (true, heap) =>
        let r := window_read_open A BUFSIZE src stream_id { ctx with heap := heap } ⟨0⟩
        if r.1 < 0 then ⟨-1, data, r.2.1, r.2.2.1⟩
        else ⟨0, .stream { args with user_stream := some r.2.2.2 }, r.2.1, r.2.2.1⟩
  | ZIP_SOURCE_CLOSE_STREAM =>
    match get_args_stream data with
    | none => ⟨-1, data, src, { ctx with error := zip_error_set ZIP_ER_INVAL 0 }⟩
    | some _ => ⟨0, data, src, ctx⟩
  | ZIP_SOURCE_READ_STREAM =>
    match get_args_stream data with
    | none => ⟨-1, data, src, { ctx with error := zip_error_set ZIP_ER_INVAL 0 }⟩
    | some args =>
      match args.user_stream with
      | none => ⟨-1, data, src, ctx⟩
      | some stream =>
        let r := window_read_read A src stream_id ctx stream data.size
        let data : zip_source_data window_stream_t :=
          if 0 < r.1 then .raw r.2.1 data.size
          else .stream { args with user_stream := some r.2.2.2.2 }
        ⟨r.1, data, r.2.2.1, r.2.2.2.1⟩
  | ZIP_SOURCE_SEEK_STREAM =>
    match data with
    | .seek (some stream) a =>
      let r := window_read_seek A src stream_id ctx stream (some a)
      ⟨r.1, .seek (some r.2.2.2) a, r.2.1, r.2.2.1⟩
    | _ => ⟨-1, data, src, { ctx with error := zip_error_set ZIP_ER_INVAL 0 }⟩
  | ZIP_SOURCE_TELL_STREAM =>
    match get_args_stream data with
    | none => ⟨-1, data, src, { ctx with error := zip_error_set ZIP_ER_INVAL 0 }⟩
    | some args =>
      match args.user_stream with
      | none => ⟨-1, data, src, ctx⟩
      | some stream => ⟨window_read_tell ctx stream, data, src, ctx⟩
  | _ => ⟨0, data, src, ctx⟩

/-- The class of a window source on top of a lower source with API A. -/
def window_class {τ : Type} (A : zip_source_ops τ) (BUFSIZE : Nat) :
    zip_source_class τ window window_stream_t where
  lower := some A
  cb := window_read A BUFSIZE
  junk_negative := false
  freed_parent_stream_id := fun v => v

/-! ## An in-memory lower source -/

/-- The private data of an in-memory source: the bytes it delivers, the
position of the next byte, and the largest number of bytes one READ delivers. -/
structure buffer_src where
  data : List Nat
  pos : Nat
  chunk : Nat
  deriving DecidableEq, Repr

/-- The callback of the in-memory source: OPEN rewinds, READ delivers the next
min(len, chunk) bytes that are left, SEEK with SEEK_SET moves to an offset
inside the data, TELL reports the position, STAT and GET_FILE_ATTRIBUTES succeed
without filling anything in. -/
def buffer_cb (low : Unit) (_stream_id : Int) (ud : buffer_src) (data : zip_source_data Unit)
    (cmd : zip_source_cmd) : zip_source_call_result Unit buffer_src Unit :=
  match cmd with
  | ZIP_SOURCE_OPEN => ⟨0, data, low, { ud with pos := 0 }⟩
  | ZIP_SOURCE_READ =>
    let n := min data.size (min ud.chunk (ud.data.length - ud.pos))
    ⟨(n : Int), .raw ((ud.data.drop ud.pos).take n) data.size, low, { ud with pos := ud.pos + n }⟩
  | ZIP_SOURCE_SEEK =>
    match get_args_seek data with
    | some a =>
      if a.whence = SEEK_SET ∧ 0 ≤ a.offset ∧ a.offset.toNat ≤ ud.data.length then
        ⟨0, data, low, { ud with pos := a.offset.toNat }⟩
      else ⟨-1, data, low, ud⟩
    | none => ⟨-1, data, low, ud⟩
  | ZIP_SOURCE_TELL => ⟨(ud.pos : Int), data, low, ud⟩
  | ZIP_SOURCE_CLOSE => ⟨0, data, low, ud⟩
  | ZIP_SOURCE_STAT => ⟨0, data, low, ud⟩
  | ZIP_SOURCE_GET_FILE_ATTRIBUTES => ⟨0, data, low, ud⟩
  | _ => ⟨-1, data, low, ud⟩

/-- The class of the in-memory source (not layered). -/
def buffer_class : zip_source_class Unit buffer_src Unit where
  lower := none
  cb := buffer_cb
  junk_negative := false
  freed_parent_stream_id := fun v => v

/-- A fresh in-memory source delivering data, at most chunk bytes per READ. -/
def buffer_new (data : List Nat) (chunk : Nat) : zip_source_t Unit buffer_src Unit :=
  zip_source_new () ⟨data, 0, chunk⟩ (fun _ => true) []

/-- The context of a window [start, start + length) as _zip_source_window_new
leaves it for a window without archive offset; needs_seek says whether the
window seeks the lower source before each read. -/
def window_ctx (start length : Nat) (needs_seek : Bool) : window where
  start := start
  end_ := start + length
  end_valid := true
  stream := ⟨0⟩
  error := zip_error_clear
  supports := fun _ => true
  needs_seek := needs_seek
  needs_stream_seek := false
  heap := []

/-- The context of an unbounded window [start, infinity) (length -1). -/
def window_ctx_unbounded (start : Nat) (needs_seek : Bool) : window where
  start := start
  end_ := 0
  end_valid := false
  stream := ⟨0⟩
  error := zip_error_clear
  supports := fun _ => true
  needs_seek := needs_seek
  needs_stream_seek := false
  heap := []

/-- The class of a window on the in-memory source. -/
def buffer_window_class (BUFSIZE : Nat) :
    zip_source_class (zip_source_t Unit buffer_src Unit) window window_stream_t :=
  window_class (zip_source_ops_of buffer_class) BUFSIZE

/-- A fresh window source with context ctx on a fresh in-memory source.  The
window is not Seekable itself for the engine (supports answers false for SEEK),
it only reads. -/
def buffer_window_new (data : List Nat) (chunk : Nat) (ctx : window) :
    zip_source_t (zip_source_t Unit buffer_src Unit) window window_stream_t :=
  zip_source_new (buffer_new data chunk) ctx (fun cmd => decide (cmd ≠ ZIP_SOURCE_SEEK)) []

/-- Reading until end of stream: zip_source_read with a buffer of len bytes is
repeated until a call returns 0 or less.  Returns that last value and the bytes
collected; none when more than the given number of calls would be needed. -/
def read_until_end {τ σ υ : Type} (K : zip_source_class τ σ υ) (len : Nat) :
    Nat → zip_source_t τ σ υ → List Nat → Option (Int × List Nat × zip_source_t τ σ υ)
  | 0, _, _ => none
  | fuel + 1, src, acc =>
    let r := zip_source_read K src len
    if r.1 ≤ 0 then some (r.1, acc, r.2.2)
    else read_until_end K len fuel r.2.2 (acc ++ r.2.1)

/-! ## Compression layer (zip_source_compress.c) -/

/-- The compression methods of zip.h the layer names. -/
def ZIP_CM_DEFAULT : Int := -1

def ZIP_CM_STORE : Int := 0

def ZIP_CM_DEFLATE : Int := 8

/-- Modelled from the spec: the macro ZIP_CM_IS_DEFAULT of zipint.h (not part of
the sources at hand).  The default method is DEFLATE, asked for by its own
number or as ZIP_CM_DEFAULT (section 4.6 and scenario 4). -/
def ZIP_CM_IS_DEFAULT (method : Int) : Bool :=
  decide (method = ZIP_CM_DEFLATE) || decide (method = ZIP_CM_DEFAULT)

/-- Modelled from the spec: the macro ZIP_CM_ACTUAL of zipint.h (not part of the
sources at hand): the actual method, DEFLATE for the default one, as a
zip_uint16_t. -/
def ZIP_CM_ACTUAL (method : Int) : Int :=
  if ZIP_CM_IS_DEFAULT method then ZIP_CM_DEFLATE else method % 2 ^ 16

/-- The values of zip_compression_status_t. -/
inductive zip_compression_status
  | ZIP_COMPRESSION_OK | ZIP_COMPRESSION_END | ZIP_COMPRESSION_ERROR | ZIP_COMPRESSION_NEED_DATA
  deriving DecidableEq, Repr

open zip_compression_status

/-- What a call process(ud, data, &out_len) leaves behind: the status, the bytes
written to data (out_len is their number), the state of the algorithm, and the
error the algorithm stored in the context, if it did. -/
structure process_result (α : Type) where
  status : zip_compression_status
  out : List Nat
  ud : α
  error : Option zip_error_t

/-- The plug-in interface zip_compression_algorithm_t over the algorithm state α
(the bodies of the algorithms are not part of the sources at hand).  allocate
answers none for NULL; start and end_ (the field end) report success; the
result of input is not looked at by the layer and is left out; deallocate has
no effect on the model. -/
structure zip_compression_algorithm_t (α : Type) where
  allocate : Int → Int → Option α
  general_purpose_bit_flags : α → Nat
  version_needed : Nat
  start : α → Bool × α
  end_ : α → Bool × α
  input : α → List Nat → α
  end_of_input : α → α
  process : α → Nat → process_result α

/-- The struct stream of the compression layer; buffer holds BUFSIZE bytes. -/
structure stream (α : Type) where
  end_of_input : Bool
  end_of_stream : Bool
  can_store : Bool
  is_stored : Bool
  size : Nat
  first_read : Int
  buffer : List Nat
  ud : α

/-- The struct context of the compression layer; the algorithm pointer is a
parameter of the functions.  The field fuel_exhausted is not in the C struct:
it records that the model stopped a read loop at its iteration bound. -/
structure context (α : Type) where
  error : zip_error_t
  compress : Bool
  method : Int
  compression_flags : Int
  stream : stream α
  fuel_exhausted : Bool

/-- The function stream_init: sets can_store and allocates the algorithm state;
the other fields keep what the memory held.  Returns false (with the stream
as it was) when allocate fails. -/
def stream_init {α : Type} (alg : zip_compression_algorithm_t α) (ctx : context α)
    (strm : stream α) : Bool × stream α :=
  let strm := { strm with can_store := if ctx.compress then ZIP_CM_IS_DEFAULT ctx.method else false }
  match alg.allocate (ZIP_CM_ACTUAL ctx.method) ctx.compression_flags with
  | none => (false, strm)
  | some ud => (true, { strm with ud := ud })

/-- The function context_new; junk is the content of the fresh memory of the
primary stream.  None stands for NULL. -/
def context_new {α : Type} (alg : zip_compression_algorithm_t α) (method : Int) (compress : Bool)
    (compression_flags : Int) (junk : stream α) : Option (context α) :=
  let ctx : context α := ⟨zip_error_clear, compress, method, compression_flags, junk, false⟩
  match stream_init alg ctx ctx.stream with
  | (false, _) => none
  | (true, strm) => some { ctx with stream := strm }

/-- The function compress_open; returns the value, the lower source, ctx->error
and the stream. -/
def compress_open {τ α : Type} (A : zip_source_ops τ) (alg : zip_compression_algorithm_t α)
    (src : τ) (error : zip_error_t) (strm : stream α) : Int × τ × zip_error_t × stream α :=
  let strm := { strm with end_of_input := false, end_of_stream := false, is_stored := false,
                          size := 0, first_read := -1 }
  let st := A.zip_source_stat src
  if st.1 < 0 then (-1, st.2.2, A.zip_source_error st.2.2, strm)
  else
    let at_ := A.zip_source_get_file_attributes st.2.2
    if at_.1 < 0 then (-1, at_.2, A.zip_source_error at_.2, strm)
    else
      let r := alg.start strm.ud
      if !r.1 then (-1, at_.2, error, { strm with ud := r.2 })
      else (0, at_.2, error, { strm with ud := r.2 })

/-- The variables of the loop of compress_read: the lower source, ctx->error,
the stream, the bytes data[0 .. out_offset) and out_offset. -/
structure compress_read_state (τ α : Type) where
  src : τ
  error : zip_error_t
  strm : stream α
  data : List Nat
  out_offset : Nat

/-- How one iteration of the loop of compress_read ends: the loop goes on, the
loop is left (end = true), or the function returns a value. -/
inductive compress_read_step_result (τ α : Type)
  | continue_ (st : compress_read_state τ α)
  | break_ (st : compress_read_state τ α)
  | return_ (v : Int) (st : compress_read_state τ α)

/-- The body of the while loop of compress_read after the call of process,
whose outcome is p. -/
def compress_read_handle {τ α : Type} (A : zip_source_ops τ) (alg : zip_compression_algorithm_t α)
    (BUFSIZE : Nat) (parent_stream_id : Int) (st : compress_read_state τ α)
    (p : process_result α) : compress_read_step_result τ α :=
  let st := { st with strm := { st.strm with ud := p.ud },
                      error := match p.error with
                        | some e => e
                        | none => st.error }
  let st := if p.status ≠ ZIP_COMPRESSION_ERROR then
      { st with out_offset := st.out_offset + p.out.length, data := st.data ++ p.out }
    else st
  match p.status with
  | ZIP_COMPRESSION_END =>
    let st := { st with strm := { st.strm with end_of_stream := true } }
    if st.strm.first_read < 0 then
      /- we got end of processed stream before reading any input data -/
      .break_ { st with error := zip_error_set ZIP_ER_INTERNAL 0 }
    else if st.strm.can_store && decide (to_uint64 st.strm.first_read ≤ st.out_offset) then
      let size := to_uint64 st.strm.first_read
      .return_ (to_int64 size)
        { st with strm := { st.strm with is_stored := true, size := size },
                  data := st.strm.buffer.take size ++ st.data.drop size }
    else .break_ st
  | ZIP_COMPRESSION_OK => .continue_ st
  | ZIP_COMPRESSION_NEED_DATA =>
    if st.strm.end_of_input then .break_ st
    else
      let r := _zip_source_read A st.src parent_stream_id BUFSIZE
      let n := r.1
      if n < 0 then .break_ { st with src := r.2.2, error := A.zip_source_error r.2.2 }
      else if n = 0 then
        let first_read : Int := if st.strm.first_read < 0 then 0 else st.strm.first_read
        let strm := { st.strm with end_of_input := true, ud := alg.end_of_input st.strm.ud,
                                   first_read := first_read }
        .continue_ { st with src := r.2.2, strm := strm }
      else
        let buffer := r.2.1 ++ st.strm.buffer.drop r.2.1.length
        let strm := { st.strm with buffer := buffer }
        let strm := if (0 : Int) ≤ strm.first_read then
            /- we overwrote a previously filled stream->buffer -/
            { strm with can_store := false }
          else { strm with first_read := n }
        let strm := { strm with ud := alg.input strm.ud (buffer.take n.toNat) }
        .continue_ { st with src := r.2.2, strm := strm }
  | ZIP_COMPRESSION_ERROR =>
    .break_ (if st.error.zip_err = ZIP_ER_OK then
      { st with error := zip_error_set ZIP_ER_INTERNAL 0 } else st)

/-- One iteration of the while loop of compress_read: process is called with
the room left in data, then its outcome is handled. -/
def compress_read_step {τ α : Type} (A : zip_source_ops τ) (alg : zip_compression_algorithm_t α)
    (BUFSIZE : Nat) (parent_stream_id : Int) (len : Nat) (st : compress_read_state τ α) :
    compress_read_step_result τ α :=
  compress_read_handle A alg BUFSIZE parent_stream_id st
    (alg.process st.strm.ud (len - st.out_offset))

/-- The while loop of compress_read.  The C loop has no bound of its own (an
algorithm may answer OK without output for ever); the recursion is on a bound
for the number of iterations.  The first component of the result is true when
the bound was used up while the loop condition still held (the state is then
the one reached); otherwise the second component is some v when the function
returned v inside the loop. -/
def compress_read_loop {τ α : Type} (A : zip_source_ops τ) (alg : zip_compression_algorithm_t α)
    (BUFSIZE : Nat) (parent_stream_id : Int) (len : Nat) :
    Nat → compress_read_state τ α → Bool × Option Int × compress_read_state τ α
  | 0, st => (decide (st.out_offset < len), none, st)
  | fuel + 1, st =>
    if st.out_offset < len then
      match compress_read_step A alg BUFSIZE parent_stream_id len st with
      | .continue_ st => compress_read_loop A alg BUFSIZE parent_stream_id len fuel st
      | .break_ st => (false, none, st)
      | .return_ v st => (false, some v, st)
    else (false, none, st)

/-- What compress_read leaves behind: whether the iteration bound of the model
was used up (the call is then answered with -1 and the state reached), the
value returned, the content of data[0 .. value), the lower source, ctx->error
and the stream. -/
structure compress_read_result (τ α : Type) where
  exhausted : Bool
  ret : Int
  data : List Nat
  src : τ
  error : zip_error_t
  strm : stream α

/-- The function compress_read, with a bound fuel on the iterations of its loop. -/
def compress_read {τ α : Type} (A : zip_source_ops τ) (alg : zip_compression_algorithm_t α)
    (BUFSIZE fuel : Nat) (src : τ) (parent_stream_id : Int) (error : zip_error_t)
    (strm : stream α) (len : Nat) : compress_read_result τ α :=
  if error.zip_err ≠ ZIP_ER_OK then ⟨false, -1, [], src, error, strm⟩
  else if len = 0 || strm.end_of_stream then ⟨false, 0, [], src, error, strm⟩
  else
    match compress_read_loop A alg BUFSIZE parent_stream_id len fuel ⟨src, error, strm, [], 0⟩ with
    | (true, _, st) => ⟨true, -1, [], st.src, st.error, st.strm⟩
    | (false, some v, st) => ⟨false, v, st.data.take v.toNat, st.src, st.error, st.strm⟩
    | (false, none, st) =>
      if st.out_offset > 0 then
        ⟨false, to_int64 st.out_offset, st.data, st.src, st.error,
          { st.strm with can_store := false, size := add64 st.strm.size st.out_offset }⟩
      else
        ⟨false, if st.error.zip_err = ZIP_ER_OK then 0 else -1, [], st.src, st.error, st.strm⟩

/-- The function compress_close. -/
def compress_close {α : Type} (alg : zip_compression_algorithm_t α) (strm : stream α) :
    Int × stream α :=
  let r := alg.end_ strm.ud
  (if !r.1 then -1 else 0, { strm with ud := r.2 })

/-- The STAT case of compress_callback on the caller's zip_stat_t. -/
def compress_stat {α : Type} (ctx : context α) (st : zip_stat_t) : zip_stat_t :=
  if ctx.compress then
    if ctx.stream.end_of_stream then
      { st with comp_method := if ctx.stream.is_stored then ZIP_CM_STORE else ZIP_CM_ACTUAL ctx.method,
                comp_size := ctx.stream.size, valid_comp_size := true, valid_comp_method := true }
    else { st with valid_comp_size := false, valid_comp_method := false }
  else
    let st := { st with comp_method := ZIP_CM_STORE, valid_comp_method := true }
    if ctx.stream.end_of_stream then { st with size := ctx.stream.size, valid_size := true }
    else st

/-- The callback compress_callback, with the bound fuel for the read loops.  A
read that uses up the bound sets fuel_exhausted.  For
READ_STREAM the C code hands -1 as the stream of the lower source and data and
len of the command (the carrier and its size) on to compress_read.  The malloc
of OPEN_STREAM is not checked by the C code and taken to succeed; junk stands
for the content of the fresh memory.  ERROR, FREE, GET_FILE_ATTRIBUTES and
SUPPORTS act on data this development does not model; they are answered with 0
and change nothing. -/
def compress_callback {τ α : Type} (A : zip_source_ops τ) (alg : zip_compression_algorithm_t α)
    (BUFSIZE fuel : Nat) (junk : stream α) (src : τ) (_stream_id : Int) (ctx : context α)
    (data : zip_source_data (stream α)) (cmd : zip_source_cmd) :
    zip_source_call_result τ (context α) (stream α) :=
  match cmd with
  | ZIP_SOURCE_OPEN =>
    let r := compress_open A alg src ctx.error ctx.stream
    ⟨r.1, data, r.2.1, { ctx with error := r.2.2.1, stream := r.2.2.2 }⟩
  | ZIP_SOURCE_READ =>
    let r := compress_read A alg BUFSIZE fuel src (-1) ctx.error ctx.stream data.size
    ⟨r.ret, .raw r.data data.size, r.src,
      { ctx with error := r.error, stream := r.strm,
                 fuel_exhausted := ctx.fuel_exhausted || r.exhausted }⟩
  | ZIP_SOURCE_CLOSE =>
    let r := compress_close alg ctx.stream
    ⟨r.1, data, src, { ctx with stream := r.2 }⟩
  | ZIP_SOURCE_STAT =>
    match data with
    | .stat st => ⟨0, .stat (compress_stat ctx st), src, ctx⟩
    | _ => ⟨0, data, src, ctx⟩
  | ZIP_SOURCE_ERROR => ⟨0, data, src, ctx⟩
  | ZIP_SOURCE_FREE => ⟨0, data, src, ctx⟩
  | ZIP_SOURCE_GET_FILE_ATTRIBUTES => ⟨0, data, src, ctx⟩
  | ZIP_SOURCE_SUPPORTS => ⟨0, data, src, ctx⟩
  | ZIP_SOURCE_OPEN_STREAM =>
    match get_args_stream data with
    | none => ⟨-1, data, src, { ctx with error := zip_error_set ZIP_ER_INVAL 0 }⟩
    | some args =>
      match stream_init alg ctx junk with
      | (false, _) => ⟨-1, data, src, ctx⟩
      | (true, strm) =>
        let r := compress_open A alg src ctx.error strm
        if r.1 < 0 then ⟨-1, data, r.2.1, { ctx with error := r.2.2.1 }⟩
        else ⟨0, .stream { args with user_stream := some r.2.2.2 }, r.2.1,
          { ctx with error := r.2.2.1 }⟩
  | ZIP_SOURCE_READ_STREAM =>
    match get_args_stream data with
    | none => ⟨-1, data, src, { ctx with error := zip_error_set ZIP_ER_INVAL 0 }⟩
    | some args =>
      match args.user_stream with
      | none => ⟨-1, data, src, ctx⟩
      | some strm =>
        let r := compress_read A alg BUFSIZE fuel src (-1) ctx.error strm data.size
        let data : zip_source_data (stream α) :=
          if 0 < r.ret then .raw r.data data.size
          else .stream { args with user_stream := some r.strm }
        ⟨r.ret, data, r.src,
          { ctx with error := r.error, fuel_exhausted := ctx.fuel_exhausted || r.exhausted }⟩
  | ZIP_SOURCE_CLOSE_STREAM =>
    match get_args_stream data with
    | none => ⟨-1, data, src, { ctx with error := zip_error_set ZIP_ER_INVAL 0 }⟩
    | some args =>
      match args.user_stream with
      | none => ⟨-1, data, src, ctx⟩
      | some strm => ⟨(compress_close alg strm).1, data, src, ctx⟩
  | _ => ⟨-1, data, src, { ctx with error := zip_error_set ZIP_ER_INTERNAL 0 }⟩

/-- The class of a compression or decompression source on top of a lower source
with API A, driving the algorithm alg. -/
def compress_class {τ α : Type} (A : zip_source_ops τ) (alg : zip_compression_algorithm_t α)
    (BUFSIZE fuel : Nat) (junk : stream α) : zip_source_class τ (context α) (stream α) where
  lower := some A
  cb := compress_callback A alg BUFSIZE fuel junk
  junk_negative := false
  freed_parent_stream_id := fun v => v

/-! ## Algorithms for experiments

The bodies of the compression algorithms are plug-ins outside the sources at
hand.  A stream transducer, an automaton that turns each block of input into
some output and flushes at end of input, gives a plug-in that follows the
calling protocol of the layer: input queues the output for the block handed
over, end_of_input queues the flush, and process hands out queued bytes,
answering NEED_DATA when the queue is empty and END once it is empty after
end of input. -/

/-- A stream transducer over the state σ. -/
structure transducer (σ : Type) where
  init : σ
  feed : σ → List Nat → σ × List Nat
  finish : σ → List Nat

/-- The state of the plug-in of a transducer: the automaton state, the queued
output, and whether end of input was signalled. -/
structure transducer_state (σ : Type) where
  s : σ
  pending : List Nat
  eoi : Bool

/-- The plug-in of a transducer. -/
def transducer_algorithm {σ : Type} (T : transducer σ) :
    zip_compression_algorithm_t (transducer_state σ) where
  allocate := fun _ _ => some ⟨T.init, [], false⟩
  general_purpose_bit_flags := fun _ => 0
  version_needed := 20
  start := fun _ => (true, ⟨T.init, [], false⟩)
  end_ := fun a => (true, a)
  input := fun a bs => ⟨(T.feed a.s bs).1, a.pending ++ (T.feed a.s bs).2, a.eoi⟩
  end_of_input := fun a => ⟨a.s, a.pending ++ T.finish a.s, true⟩
  process := fun a cap =>
    if a.pending = [] then
      if a.eoi then ⟨ZIP_COMPRESSION_END, [], a, none⟩
      else ⟨ZIP_COMPRESSION_NEED_DATA, [], a, none⟩
    else ⟨ZIP_COMPRESSION_OK, a.pending.take cap, { a with pending := a.pending.drop cap }, none⟩

/-- A toy compressor: every block of input is framed as its length followed by
its bytes; the flush is the terminator 0. -/
def frame_encoder : transducer Unit where
  init := ()
  feed := fun _ bs => ((), bs.length :: bs)
  finish := fun _ => [0]

/-- One byte of the toy decompressor.  The state is none after the terminator,
some 0 when a length byte is expected, some (k + 1) inside a frame with k + 1
bytes to go. -/
def frame_decoder_byte (st : Option Nat × List Nat) (byte : Nat) : Option Nat × List Nat :=
  match st.1 with
  | none => st
  | some 0 => if byte = 0 then (none, st.2) else (some byte, st.2)
  | some (k + 1) => (some k, st.2 ++ [byte])

/-- The toy decompressor that undoes frame_encoder. -/
def frame_decoder : transducer (Option Nat) where
  init := some 0
  feed := fun s bs => bs.foldl frame_decoder_byte (s, [])
  finish := fun _ => []

/-- The content of the memory of a stream before stream_init, for experiments. -/
def stream_junk {α : Type} (ud : α) : stream α := ⟨false, false, false, false, 0, 0, [], ud⟩

/-- A session of READ commands on one stream of the compression layer:
compress_read is called with the given buffer lengths in turn.  Returns the
bytes returned so far, the lower source, ctx->error and the stream (none when a
read used up its iteration bound). -/
def compress_reads {τ α : Type} (A : zip_source_ops τ) (alg : zip_compression_algorithm_t α)
    (BUFSIZE fuel : Nat) (parent_stream_id : Int) :
    List Nat → List Nat × τ × zip_error_t × stream α →
      Option (List Nat × τ × zip_error_t × stream α)
  | [], s => some s
  | len :: rest, s =>
    let r := compress_read A alg BUFSIZE fuel s.2.1 parent_stream_id s.2.2.1 s.2.2.2 len
    if r.exhausted then none
    else compress_reads A alg BUFSIZE fuel parent_stream_id rest (s.1 ++ r.data, r.src, r.error, r.strm)

/-- The state of the lower in-memory source of a compression stream that
delivers X: open, no error, position inside X, and at the end of X once it has
reported end of file. -/
def compress_lower_ok (X : List Nat) (chunk : Nat) (low : zip_source_t Unit buffer_src Unit) :
    Prop :=
  low.ud.data = X ∧ low.ud.chunk = chunk ∧ 0 < low.open_count ∧ low.source_closed = false ∧
    low.had_read_error = false ∧ low.ud.pos ≤ X.length ∧ (low.eof = true → low.ud.pos = X.length)

/-- The bookkeeping of the store shortcut, for a stream over a lower in-memory
source delivering X, with emitted the bytes the stream has returned since OPEN:
before any lower read (first_read < 0) the lower source stands at 0; while
can_store holds nothing was emitted and the buffer holds all the bytes
delivered so far; once is_stored is set the emitted bytes are the bytes
delivered; once end_of_input is set all of X was delivered. -/
def store_inv (X : List Nat) (chunk : Nat) (low : zip_source_t Unit buffer_src Unit)
    {α : Type} (strm : stream α) (emitted : List Nat) : Prop :=
  compress_lower_ok X chunk low ∧ strm.first_read < 2 ^ 63 ∧
    (strm.first_read < 0 → low.ud.pos = 0 ∧ low.eof = false) ∧
    (strm.can_store = true → strm.is_stored = false → emitted = []) ∧
    (strm.can_store = true → 0 ≤ strm.first_read →
      low.ud.pos = strm.first_read.toNat ∧
      strm.buffer.take strm.first_read.toNat = X.take strm.first_read.toNat) ∧
    (strm.is_stored = true →
      emitted = X.take low.ud.pos ∧ strm.size = low.ud.pos ∧ strm.end_of_stream = true) ∧
    (strm.end_of_input = true → low.ud.pos = X.length)

/-! ## Scripted sources

Concrete sources whose callback and allocator outcomes are read from a script;
they serve to run the engine on explicit call sequences. -/

/-- A callback that returns the next scripted value (0 when the script is
exhausted) and, for OPEN_STREAM, fills in a user stream when the scripted flag
says so (always when the script is exhausted).  It does not touch the lower
source. -/
def scripted_cb {τ : Type} (low : τ) (_stream_id : Int) (ud : List (Int × Bool))
    (data : zip_source_data Unit) (cmd : zip_source_cmd) :
    zip_source_call_result τ (List (Int × Bool)) Unit :=
  let step : Int × Bool := ud.headD (0, true)
  let data : zip_source_data Unit :=
    if cmd = ZIP_SOURCE_OPEN_STREAM ∧ 0 ≤ step.1 ∧ step.2 = true then .stream ⟨some (), [], 0⟩
    else data
  ⟨step.1, data, low, ud.tail⟩

/-- A source that is not layered, with the scripted callback. -/
def scripted_leaf : zip_source_class Unit (List (Int × Bool)) Unit where
  lower := none
  cb := scripted_cb
  junk_negative := false
  freed_parent_stream_id := fun v => v

/-- A layered source with the scripted callback on top of a lower source with API A. -/
def scripted_layer {τ : Type} (A : zip_source_ops τ) : zip_source_class τ (List (Int × Bool)) Unit where
  lower := some A
  cb := scripted_cb
  junk_negative := false
  freed_parent_stream_id := fun v => v

/-- A fresh scripted leaf source: every callback and every allocation succeeds. -/
def leaf0 : zip_source_t Unit (List (Int × Bool)) Unit :=
  zip_source_new () [] (fun _ => true) []

/-- One step of a session on a source: open a stream, or close the stream with the given ID. -/
inductive stream_op
  | open_stream
  | close_stream (id : Int)
  deriving DecidableEq, Repr

/-- Runs one step; the value is the return value of the call (none: the call
ended without a return statement). -/
def run_op {τ σ υ : Type} (K : zip_source_class τ σ υ) (src : zip_source_t τ σ υ) :
    stream_op → Option Int × zip_source_t τ σ υ
  | .open_stream => let r := zip_source_open_stream K src; (some r.1, r.2)
  | .close_stream id => zip_source_close_stream K src id

/-- Runs a session; returns the return values in order and the final source. -/
def run_ops {τ σ υ : Type} (K : zip_source_class τ σ υ) :
    List stream_op → zip_source_t τ σ υ → List (Option Int) × zip_source_t τ σ υ
  | [], src => ([], src)
  | op :: rest, src =>
    let r := run_op K src op
    let rs := run_ops K rest r.2
    (r.1 :: rs.1, rs.2)

/-- Bookkeeping of the live IDs along a session, starting from the list live:
a zip_source_open_stream that returns a non-negative value adds it, a
zip_source_close_stream that went past the validation of the ID (any result
other than -1) removes its argument. -/
def live_ids_from : List Int → List stream_op → List (Option Int) → List Int
  | live, .open_stream :: ops, some id :: rs =>
    live_ids_from (if 0 ≤ id then live ++ [id] else live) ops rs
  | live, .close_stream id :: ops, r :: rs =>
    live_ids_from (if r = some (-1) then live else live.erase id) ops rs
  | live, _ :: ops, _ :: rs => live_ids_from live ops rs
  | live, _, _ => live

/-- The IDs that are live after a session that started with no streams. -/
def live_ids (ops : List stream_op) (rs : List (Option Int)) : List Int :=
  live_ids_from [] ops rs

/-- The IDs whose slot in streams[] is present. -/
def present_ids {τ σ υ : Type} (src : zip_source_t τ σ υ) : List Nat :=
  (List.range src.streams.length).filter (fun i => (stream_at src i).isSome)

/-- A lower source with a record of the stream calls made on it: every
zip_source_open_stream and zip_source_close_stream that reaches the lower
source is appended to the record, then carried out by A. -/
def recording {τ : Type} (A : zip_source_ops τ) : zip_source_ops (τ × List stream_op) where
  zip_source_open := fun s => let r := A.zip_source_open s.1; (r.1, (r.2, s.2))
  zip_source_close := fun s => let r := A.zip_source_close s.1; (r.1, (r.2, s.2))
  zip_source_read := fun s len => let r := A.zip_source_read s.1 len; (r.1, r.2.1, (r.2.2, s.2))
  zip_source_read_stream := fun s id len =>
    let r := A.zip_source_read_stream s.1 id len; (r.1, r.2.1, (r.2.2, s.2))
  _zip_source_seek := fun s id offset whence =>
    let r := A._zip_source_seek s.1 id offset whence; (r.1, (r.2, s.2))
  _zip_source_tell := fun s id => let r := A._zip_source_tell s.1 id; (r.1, (r.2, s.2))
  zip_source_stat := fun s => let r := A.zip_source_stat s.1; (r.1, r.2.1, (r.2.2, s.2))
  zip_source_get_file_attributes := fun s =>
    let r := A.zip_source_get_file_attributes s.1; (r.1, (r.2, s.2))
  zip_source_open_stream := fun s =>
    let r := A.zip_source_open_stream s.1; (r.1, (r.2, s.2 ++ [stream_op.open_stream]))
  zip_source_close_stream := fun s id =>
    let r := A.zip_source_close_stream s.1 id; (r.1, (r.2, s.2 ++ [stream_op.close_stream id]))
  zip_source_error := fun s => A.zip_source_error s.1

/-- A fresh two-layer stack: a scripted layer (callback script ud) on a fresh
scripted leaf; allocations succeed on both. -/
def stack0 (ud : List (Int × Bool)) :
    zip_source_t (zip_source_t Unit (List (Int × Bool)) Unit) (List (Int × Bool)) Unit :=
  zip_source_new leaf0 ud (fun _ => true) []

/-- The class of the upper layer of stack0. -/
def stack_class :
    zip_source_class (zip_source_t Unit (List (Int × Bool)) Unit) (List (Int × Bool)) Unit :=
  scripted_layer (zip_source_ops_of scripted_leaf)


/-- The session of scenario 5 up to the reuse of ID 1: open, open, open, close 1, open. -/
def session_reuse : List stream_op :=
  [.open_stream, .open_stream, .open_stream, .close_stream 1, .open_stream]

/-- The whole session of scenario 5: session_reuse, then close 0, close 1, close 2. -/
def session_scenario5 : List stream_op :=
  session_reuse ++ [.close_stream 0, .close_stream 1, .close_stream 2]

/-- A callback script for the upper layer of stack0: five successful callbacks,
then one that fails. -/
def script_fail_sixth : List (Int × Bool) :=
  [(0, true), (0, true), (0, true), (0, true), (0, true), (-1, false)]

/-- The class of a scripted layer on a scripted leaf whose stream calls are recorded. -/
def recorded_stack_class :
    zip_source_class (zip_source_t Unit (List (Int × Bool)) Unit × List stream_op)
      (List (Int × Bool)) Unit :=
  scripted_layer (recording (zip_source_ops_of scripted_leaf))

/-- The class recorded_stack_class on an allocator that has written into the
freed stream record: the read of stream->parent_stream_id after free(stream)
yields v, whatever the record held. -/
def recorded_stack_freed (v : Int) :
    zip_source_class (zip_source_t Unit (List (Int × Bool)) Unit × List stream_op)
      (List (Int × Bool)) Unit :=
  { recorded_stack_class with freed_parent_stream_id := fun _ => v }

/-- A fresh source of class recorded_stack_class with an empty record. -/
def recorded_stack0 :
    zip_source_t (zip_source_t Unit (List (Int × Bool)) Unit × List stream_op)
      (List (Int × Bool)) Unit :=
  zip_source_new (leaf0, []) [] (fun _ => true) []

/-! ## State predicates used by the window theorems -/

/-- An in-memory source that is open for reading at position p, with no latched flag. -/
def buffer_ready (L : List Nat) (chunk p : Nat) (src : zip_source_t Unit buffer_src Unit) : Prop :=
  src.ud = ⟨L, p, chunk⟩ ∧ 0 < src.open_count ∧ src.source_closed = false ∧
    src.had_read_error = false ∧ src.eof = false

/-- The lower in-memory source as a window with seek mode b needs it before a
read at offset o: open and without error; when the window does not seek, the
lower source stands at o and has not reached end of file. -/
def window_lower_ready (L : List Nat) (chunk : Nat) (b : Bool) (o : Nat)
    (low : zip_source_t Unit buffer_src Unit) : Prop :=
  low.ud.data = L ∧ low.ud.chunk = chunk ∧ 0 < low.open_count ∧ low.source_closed = false ∧
    low.had_read_error = false ∧ (b = false → low.ud.pos = o ∧ low.eof = false)

/-- The lower in-memory source has delivered all its bytes (for a window that
does not seek, it stands at the end). -/
def window_lower_drained (L : List Nat) (chunk : Nat) (b : Bool)
    (low : zip_source_t Unit buffer_src Unit) : Prop :=
  low.ud.data = L ∧ low.ud.chunk = chunk ∧ 0 < low.open_count ∧ low.source_closed = false ∧
    low.had_read_error = false ∧ (b = false → low.ud.pos = L.length)

/-- A bounded window [s, e) on the in-memory source, open for reading at offset o. -/
def window_ready (L : List Nat) (chunk s e : Nat) (b : Bool) (o : Nat)
    (W : zip_source_t (zip_source_t Unit buffer_src Unit) window window_stream_t) : Prop :=
  0 < W.open_count ∧ W.source_closed = false ∧ W.had_read_error = false ∧ W.eof = false ∧
    W.ud.start = s ∧ W.ud.end_ = e ∧ W.ud.end_valid = true ∧ W.ud.needs_seek = b ∧
    W.ud.stream.offset = o ∧ window_lower_ready L chunk b o W.src

/-- A source that is open and has reached end of file without error. -/
def at_eof {τ σ υ : Type} (W : zip_source_t τ σ υ) : Prop :=
  0 < W.open_count ∧ W.source_closed = false ∧ W.had_read_error = false ∧ W.eof = true

/-- The invariant of the loop of compress_read for the store shortcut: the
bookkeeping store_inv, with is_stored not yet set. -/
def store_loop_inv (X : List Nat) (chunk : Nat) (em : List Nat) {α : Type}
    (st : compress_read_state (zip_source_t Unit buffer_src Unit) α) : Prop :=
  store_inv X chunk st.src st.strm em ∧ st.strm.is_stored = false

/-- The context of a compressing layer on DEFLATE with the toy compressor, as
context_new leaves it. -/
def frame_compress_ctx : context (transducer_state Unit) :=
  (context_new (transducer_algorithm frame_encoder) ZIP_CM_DEFLATE true 0
    (stream_junk ⟨(), [], false⟩)).getD
    ⟨zip_error_clear, true, ZIP_CM_DEFLATE, 0, stream_junk ⟨(), [], false⟩, false⟩

/-- The session of scenario 4: the lower source delivers "AB", the layer is
opened and read once with a buffer of 16 bytes. -/
def store_session :
    Option (List Nat × zip_source_t Unit buffer_src Unit × zip_error_t ×
      stream (transducer_state Unit)) :=
  compress_reads (zip_source_ops_of buffer_class) (transducer_algorithm frame_encoder) 8192 10 (-1)
    [16]
    ([],
      (compress_open (zip_source_ops_of buffer_class) (transducer_algorithm frame_encoder)
        (zip_source_open buffer_class (buffer_new [65, 66] 2)).2
        frame_compress_ctx.error frame_compress_ctx.stream).2.1,
      (compress_open (zip_source_ops_of buffer_class) (transducer_algorithm frame_encoder)
        (zip_source_open buffer_class (buffer_new [65, 66] 2)).2
        frame_compress_ctx.error frame_compress_ctx.stream).2.2.1,
      (compress_open (zip_source_ops_of buffer_class) (transducer_algorithm frame_encoder)
        (zip_source_open buffer_class (buffer_new [65, 66] 2)).2
        frame_compress_ctx.error frame_compress_ctx.stream).2.2.2)

/-- The context of scenario 4 once the session has left the error and the stream of t. -/
def store_session_ctx
    (t : List Nat × zip_source_t Unit buffer_src Unit × zip_error_t × stream (transducer_state Unit)) :
    context (transducer_state Unit) :=
  { frame_compress_ctx with error := t.2.2.1, stream := t.2.2.2 }

/-! ## Round trip through compression and decompression -/

/-- The output of the transducer T from the state s on the input rest, handed
over in blocks of B bytes, followed by the flush; the recursion is on a bound
for the number of blocks. -/
def transduce_from {σ : Type} (T : transducer σ) (B : Nat) : Nat → σ → List Nat → List Nat
  | 0, s, _ => T.finish s
  | n + 1, s, rest =>
    if rest = [] then T.finish s
    else
      (T.feed s (rest.take B)).2 ++ transduce_from T B n (T.feed s (rest.take B)).1 (rest.drop B)

/-- The output of the transducer T on the input X handed over in blocks of B bytes. -/
def transduce {σ : Type} (T : transducer σ) (B : Nat) (X : List Nat) : List Nat :=
  transduce_from T B X.length T.init X

/-- What a reader that asks for len bytes at a time until a read returns no
byte or fails, at most n times, leaves behind: whether it saw such a read, the
value of the last read, the bytes collected and the source. -/
structure read_all_result (τ σ υ : Type) where
  done : Bool
  ret : Int
  bytes : List Nat
  src : zip_source_t τ σ υ

/-- The reader of read_all_result. -/
def read_all {τ σ υ : Type} (K : zip_source_class τ σ υ) (len : Nat) :
    Nat → zip_source_t τ σ υ → List Nat → read_all_result τ σ υ
  | 0, src, acc => ⟨false, 0, acc, src⟩
  | n + 1, src, acc =>
    let r := zip_source_read K src len
    if r.1 ≤ 0 then ⟨true, r.1, acc, r.2.2⟩
    else read_all K len n r.2.2 (acc ++ r.2.1)

/-- The class of a compressing source with the plug-in of the transducer T on
top of the in-memory source. -/
def codec_compress_class {σ : Type} (T : transducer σ) (B fuel : Nat) :
    zip_source_class (zip_source_t Unit buffer_src Unit) (context (transducer_state σ))
      (stream (transducer_state σ)) :=
  compress_class (zip_source_ops_of buffer_class) (transducer_algorithm T) B fuel
    (stream_junk ⟨T.init, [], false⟩)

/-- The class of a decompressing source with the plug-in of the transducer D on
top of the compressing source of T. -/
def codec_decompress_class {σ ρ : Type} (T : transducer σ) (D : transducer ρ) (B fuel : Nat) :
    zip_source_class
      (zip_source_t (zip_source_t Unit buffer_src Unit) (context (transducer_state σ))
        (stream (transducer_state σ)))
      (context (transducer_state ρ)) (stream (transducer_state ρ)) :=
  compress_class (zip_source_ops_of (codec_compress_class T B fuel)) (transducer_algorithm D) B fuel
    (stream_junk ⟨D.init, [], false⟩)

/-- The fresh stack decompress over compress over an in-memory source that
delivers X, with the contexts c1 of the compressing and c2 of the decompressing
layer. -/
def codec_stack {σ ρ : Type} (X : List Nat) (chunk : Nat) (c1 : context (transducer_state σ))
    (c2 : context (transducer_state ρ)) :
    zip_source_t (zip_source_t (zip_source_t Unit buffer_src Unit) (context (transducer_state σ))
        (stream (transducer_state σ)))
      (context (transducer_state ρ)) (stream (transducer_state ρ)) :=
  zip_source_new (zip_source_new (buffer_new X chunk) c1 (fun _ => true) []) c2 (fun _ => true) []

/-- The context context_new makes for the plug-in of the transducer T. -/
def codec_ctx {σ : Type} (T : transducer σ) (method : Int) (compress : Bool) :
    context (transducer_state σ) :=
  (context_new (transducer_algorithm T) method compress 0 (stream_junk ⟨T.init, [], false⟩)).getD
    ⟨zip_error_clear, compress, method, 0, stream_junk ⟨T.init, [], false⟩, false⟩

/-- The round trip: the stack decompress (plug-in of D) over compress (plug-in
of T) over an in-memory source delivering X is opened and then read to its end,
len bytes at a time, in at most n reads. -/
def codec_round_trip {σ ρ : Type} (T : transducer σ) (D : transducer ρ) (B fuel len n : Nat)
    (X : List Nat) (chunk : Nat) (c1 : context (transducer_state σ))
    (c2 : context (transducer_state ρ)) :
    read_all_result
      (zip_source_t (zip_source_t Unit buffer_src Unit) (context (transducer_state σ))
        (stream (transducer_state σ)))
      (context (transducer_state ρ)) (stream (transducer_state ρ)) :=
  read_all (codec_decompress_class T D B fuel) len n
    (zip_source_open (codec_decompress_class T D B fuel) (codec_stack X chunk c1 c2)).2 []

/-- The experiment of the round trip with the toy compressor and decompressor:
the stack for the method M over the input X is opened and read to its end, 16
bytes at a time, with BUFSIZE 8192. -/
def frame_round_trip (M : Int) (X : List Nat) :
    read_all_result
      (zip_source_t (zip_source_t Unit buffer_src Unit) (context (transducer_state Unit))
        (stream (transducer_state Unit)))
      (context (transducer_state (Option Nat))) (stream (transducer_state (Option Nat))) :=
  codec_round_trip frame_encoder frame_decoder 8192 100 16 100 X 8192
    (codec_ctx frame_encoder M true) (codec_ctx frame_decoder M false)

/-- What a layer that reads a lower source with the API A relies on, for reads
of at most Lmax bytes: in a state P low rest the lower source delivers the
bytes of rest in order, a read of len bytes returning the next
min(len, |rest|) of them; Q marks the states in which the lower source has left
this regime, and is never left again. -/
structure delivers {τ : Type} (A : zip_source_ops τ) (Lmax : Nat) (P : τ → List Nat → Prop)
    (Q : τ → Prop) : Prop where
  read : ∀ (low : τ) (rest : List Nat) (len : Nat), P low rest → 0 < len → len ≤ Lmax →
    Q (A.zip_source_read low len).2.2 ∨
      ((A.zip_source_read low len).1 = ((min len rest.length : Nat) : Int) ∧
        (A.zip_source_read low len).2.1 = rest.take len ∧
        P (A.zip_source_read low len).2.2 (rest.drop len))
  taint : ∀ (low : τ) (len : Nat), Q low → Q (A.zip_source_read low len).2.2

/-- The bytes a stream of a layer with the plug-in of T still owes its reader,
when its lower source still owes it lowrest: the queued output, then the
output for lowrest. -/
def layer_rest {σ : Type} (T : transducer σ) (B : Nat) (strm : stream (transducer_state σ))
    (lowrest : List Nat) : List Nat :=
  if strm.end_of_stream then []
  else strm.ud.pending ++
    (if strm.ud.eoi then [] else transduce_from T B lowrest.length strm.ud.s lowrest)

/-- The regular states of a stream of a layer with a transducer plug-in over a
lower source in the state P low lowrest: not stored, end of input signalled to
the plug-in exactly when the layer saw it (and then the lower source owes
nothing and first_read is set); c holds if the stream may take the store
shortcut. -/
def layer_normal {τ σ : Type} (P : τ → List Nat → Prop) (c : Prop) (low : τ)
    (strm : stream (transducer_state σ)) (lowrest : List Nat) : Prop :=
  P low lowrest ∧ strm.is_stored = false ∧ strm.end_of_input = strm.ud.eoi ∧
    (strm.ud.eoi = true → lowrest = [] ∧ 0 ≤ strm.first_read) ∧ (strm.can_store = true → c)

/-- The states of a layer that left the regular regime: the lower source did,
or the stream took the store shortcut. -/
def layer_taint {τ σ : Type} (Q : τ → Prop) (c : Prop) (low : τ)
    (strm : stream (transducer_state σ)) : Prop :=
  Q low ∨ (c ∧ strm.is_stored = true)

/-- The invariant of the loop of compress_read in the regular regime, for a
call that owes its reader the bytes R0. -/
def layer_loop_inv {τ σ : Type} (T : transducer σ) (B : Nat) (P : τ → List Nat → Prop) (c : Prop)
    (len : Nat) (R0 : List Nat) (st : compress_read_state τ (transducer_state σ))
    (lowrest : List Nat) : Prop :=
  layer_normal P c st.src st.strm lowrest ∧ st.error.zip_err = ZIP_ER_OK ∧
    st.out_offset = st.data.length ∧ st.out_offset ≤ len ∧
    R0 = st.data ++ layer_rest T B st.strm lowrest

/-- The regular states of a compression source that is open for reading. -/
def source_normal {τ σ : Type} (T : transducer σ) (B : Nat) (P : τ → List Nat → Prop) (c : Prop)
    (S : zip_source_t τ (context (transducer_state σ)) (stream (transducer_state σ)))
    (lowrest : List Nat) : Prop :=
  0 < S.open_count ∧ S.source_closed = false ∧ S.had_read_error = false ∧
    S.ud.error.zip_err = ZIP_ER_OK ∧ S.ud.fuel_exhausted = false ∧
    layer_normal P c S.src S.ud.stream lowrest ∧
    (S.eof = true → layer_rest T B S.ud.stream lowrest = [])

/-- The states of a compression source that left the regular regime. -/
def source_taint {τ σ : Type} (Q : τ → Prop) (c : Prop)
    (S : zip_source_t τ (context (transducer_state σ)) (stream (transducer_state σ))) : Prop :=
  layer_taint Q c S.src S.ud.stream

/-- A compression source in a regular state that owes its reader rest, with
iterations enough for reads of at most Lmax bytes. -/
def source_delivering {τ σ : Type} (T : transducer σ) (B fuel Lmax : Nat)
    (P : τ → List Nat → Prop) (c : Prop)
    (S : zip_source_t τ (context (transducer_state σ)) (stream (transducer_state σ)))
    (rest : List Nat) : Prop :=
  ∃ lowrest, source_normal T B P c S lowrest ∧ Lmax + lowrest.length + 2 ≤ fuel ∧
    rest = layer_rest T B S.ud.stream lowrest

/-- An in-memory source over X that is open and owes its reader rest. -/
def buffer_delivering (X : List Nat) (chunk : Nat) (low : zip_source_t Unit buffer_src Unit)
    (rest : List Nat) : Prop :=
  compress_lower_ok X chunk low ∧ rest = X.drop low.ud.pos

/-- A bound for the iterations the loop of compress_read still makes in the
regular regime: the room left in the buffer of the caller, the bytes the lower
source still owes, and the signal of end of input. -/
def layer_measure {τ σ : Type} (len : Nat) (st : compress_read_state τ (transducer_state σ))
    (lowrest : List Nat) : Nat :=
  (len - st.out_offset) + lowrest.length + (if st.strm.ud.eoi then 0 else 1)

/-! ## Invalidation, callback logs and read sessions -/

/-- The function _zip_source_invalidate (zip_source_window.c). -/
def _zip_source_invalidate {τ σ υ : Type} (src : zip_source_t τ σ υ) : zip_source_t τ σ υ :=
  let src := { src with source_closed := true }
  if src.error.zip_err = ZIP_ER_OK then { src with error := zip_error_set ZIP_ER_ZIPCLOSED 0 }
  else src

/-- A source class whose callback keeps a log of the commands it receives, next
to the private data of the class K it wraps. -/
def logging {τ σ υ : Type} (K : zip_source_class τ σ υ) :
    zip_source_class τ (σ × List zip_source_cmd) υ where
  lower := K.lower
  cb := fun low stream_id ud data cmd =>
    ⟨(K.cb low stream_id ud.1 data cmd).ret, (K.cb low stream_id ud.1 data cmd).data,
      (K.cb low stream_id ud.1 data cmd).src, ((K.cb low stream_id ud.1 data cmd).ud, ud.2 ++ [cmd])⟩
  junk_negative := K.junk_negative
  freed_parent_stream_id := K.freed_parent_stream_id

/-- A fresh scripted leaf source with the callback script ud and an empty log. -/
def logged_leaf (ud : List (Int × Bool)) :
    zip_source_t Unit (List (Int × Bool) × List zip_source_cmd) Unit :=
  zip_source_new () (ud, []) (fun _ => true) []

/-- A fresh scripted leaf source with the callback script ud. -/
def scripted_leaf_new (ud : List (Int × Bool)) : zip_source_t Unit (List (Int × Bool)) Unit :=
  zip_source_new () ud (fun _ => true) []

/-- The sum of the byte counts of a script of callback results. -/
def script_total (entries : List (Int × Bool)) : Nat :=
  (entries.map (fun e => e.1.toNat)).sum

/-- The bytes_read counter of the stream with the ID id (0 when there is none). -/
def stream_bytes_read {τ σ υ : Type} (src : zip_source_t τ σ υ) (id : Nat) : Nat :=
  match stream_at src id with
  | some s => s.bytes_read
  | none => 0

/-- The flag had_read_error of the stream with the ID id (false when there is none). -/
def stream_had_read_error {τ σ υ : Type} (src : zip_source_t τ σ υ) (id : Nat) : Bool :=
  match stream_at src id with
  | some s => s.had_read_error
  | none => false

/-- The flag eof of the stream with the ID id (false when there is none). -/
def stream_eof {τ σ υ : Type} (src : zip_source_t τ σ υ) (id : Nat) : Bool :=
  match stream_at src id with
  | some s => s.eof
  | none => false

/-- A scripted leaf source on which the primary reader and the stream 0 are
open: the first two results of the script answer OPEN and OPEN_STREAM, the
results after them answer the reads. -/
def scripted_reader (reads : List (Int × Bool)) : zip_source_t Unit (List (Int × Bool)) Unit :=
  (zip_source_open_stream scripted_leaf
    (zip_source_open scripted_leaf (scripted_leaf_new ((0, true) :: (0, true) :: reads))).2).2

/-! ## Open and close sessions on a stack of sources -/

/-- The READ callback of K delivers the bytes of a source without error, rem
saying how many are left: with nothing left it returns 0; otherwise, asked for
len > 0 bytes, it returns a positive count of at most len and at most what is
left, and that many fewer are left after the call. -/
def delivers_total {τ σ υ : Type} (K : zip_source_class τ σ υ) (rem : τ → σ → Nat) : Prop :=
  ∀ (low : τ) (ud : σ) (len : Nat), 0 < len →
    (rem low ud = 0 → (K.cb low (-1) ud (.raw [] len) ZIP_SOURCE_READ).ret = 0) ∧
    (0 < rem low ud →
      0 < (K.cb low (-1) ud (.raw [] len) ZIP_SOURCE_READ).ret ∧
      (K.cb low (-1) ud (.raw [] len) ZIP_SOURCE_READ).ret.toNat ≤ len ∧
      rem (K.cb low (-1) ud (.raw [] len) ZIP_SOURCE_READ).src
          (K.cb low (-1) ud (.raw [] len) ZIP_SOURCE_READ).ud
        + (K.cb low (-1) ud (.raw [] len) ZIP_SOURCE_READ).ret.toNat = rem low ud)

/-- The READ_STREAM callback of K delivers the bytes of a source without error
on every stream, rem saying how many are left for the stream with the given
user stream. -/
def delivers_total_stream {τ σ υ : Type} (K : zip_source_class τ σ υ)
    (rem : τ → σ → Option υ → Nat) : Prop :=
  ∀ (low : τ) (id : Int) (ud : σ) (us : Option υ) (len : Nat), 0 < len →
    (rem low ud us = 0 →
      (K.cb low id ud (.stream ⟨us, [], len⟩) ZIP_SOURCE_READ_STREAM).ret = 0) ∧
    (0 < rem low ud us →
      0 < (K.cb low id ud (.stream ⟨us, [], len⟩) ZIP_SOURCE_READ_STREAM).ret ∧
      (K.cb low id ud (.stream ⟨us, [], len⟩) ZIP_SOURCE_READ_STREAM).ret.toNat ≤ len ∧
      rem (K.cb low id ud (.stream ⟨us, [], len⟩) ZIP_SOURCE_READ_STREAM).src
          (K.cb low id ud (.stream ⟨us, [], len⟩) ZIP_SOURCE_READ_STREAM).ud
          (K.cb low id ud (.stream ⟨us, [], len⟩) ZIP_SOURCE_READ_STREAM).data.user_stream
        + (K.cb low id ud (.stream ⟨us, [], len⟩) ZIP_SOURCE_READ_STREAM).ret.toNat
        = rem low ud us)

/-- The callback of an in-memory source with streams and without SEEK and
TELL: OPEN rewinds, READ delivers the next min(len, chunk) bytes that are
left, OPEN_STREAM hands out a user stream that is a position, 0 at first,
READ_STREAM delivers from the position of the user stream and advances it;
STAT and GET_FILE_ATTRIBUTES succeed without filling anything in. -/
def memory_cb (low : Unit) (_stream_id : Int) (ud : buffer_src) (data : zip_source_data Nat)
    (cmd : zip_source_cmd) : zip_source_call_result Unit buffer_src Nat :=
  match cmd with
  | ZIP_SOURCE_OPEN => ⟨0, data, low, { ud with pos := 0 }⟩
  | ZIP_SOURCE_READ =>
    let n := min data.size (min ud.chunk (ud.data.length - ud.pos))
    ⟨(n : Int), .raw ((ud.data.drop ud.pos).take n) data.size, low, { ud with pos := ud.pos + n }⟩
  | ZIP_SOURCE_CLOSE => ⟨0, data, low, ud⟩
  | ZIP_SOURCE_OPEN_STREAM => ⟨0, .stream ⟨some 0, [], 0⟩, low, ud⟩
  | ZIP_SOURCE_READ_STREAM =>
    match data with
    | .stream args =>
      let pos := args.user_stream.getD 0
      let n := min args.len (min ud.chunk (ud.data.length - pos))
      ⟨(n : Int), .stream ⟨some (pos + n), (ud.data.drop pos).take n, args.len⟩, low, ud⟩
    | _ => ⟨-1, data, low, ud⟩
  | ZIP_SOURCE_CLOSE_STREAM => ⟨0, data, low, ud⟩
  | ZIP_SOURCE_STAT => ⟨0, data, low, ud⟩
  | ZIP_SOURCE_GET_FILE_ATTRIBUTES => ⟨0, data, low, ud⟩
  | _ => ⟨-1, data, low, ud⟩

/-- The class of the in-memory source with streams (not layered). -/
def memory_class : zip_source_class Unit buffer_src Nat where
  lower := none
  cb := memory_cb
  junk_negative := false
  freed_parent_stream_id := fun v => v

/-- The commands the in-memory source with streams supports: all but SEEK,
TELL, SEEK_STREAM and TELL_STREAM. -/
def memory_supports (cmd : zip_source_cmd) : Bool :=
  !(decide (cmd = ZIP_SOURCE_SEEK) || decide (cmd = ZIP_SOURCE_TELL)
    || decide (cmd = ZIP_SOURCE_SEEK_STREAM) || decide (cmd = ZIP_SOURCE_TELL_STREAM))

/-- A fresh in-memory source with streams delivering data, at most chunk bytes
per call; every allocation succeeds. -/
def memory_new (data : List Nat) (chunk : Nat) : zip_source_t Unit buffer_src Nat :=
  zip_source_new () ⟨data, 0, chunk⟩ memory_supports []

/-- The bytes that are left for the primary reader of an in-memory source. -/
def memory_rem (_low : Unit) (ud : buffer_src) : Nat :=
  if ud.chunk = 0 then 0 else ud.data.length - ud.pos

/-- The bytes that are left for a stream of an in-memory source. -/
def memory_rem_stream (_low : Unit) (ud : buffer_src) (us : Option Nat) : Nat :=
  if ud.chunk = 0 then 0 else ud.data.length - us.getD 0

/-! ## Compression layer: the table of algorithms and the constructor -/

/-- The struct implementation: an entry of the table implementations, the
method (a zip_uint16_t) and the algorithms for the two directions (none for a
NULL pointer). -/
structure implementation (α : Type) where
  method : Int
  compress : Option (zip_compression_algorithm_t α)
  decompress : Option (zip_compression_algorithm_t α)

/-- The function _zip_get_compression_algorithm.  The table implementations is
a parameter: its entries point to algorithm objects defined outside the
sources at hand, and which entries it has depends on the build. -/
def _zip_get_compression_algorithm {α : Type} (implementations : List (implementation α))
    (method : Int) (compress : Bool) : Option (zip_compression_algorithm_t α) :=
  match implementations with
  | [] => none
  | e :: rest =>
    if e.method = ZIP_CM_ACTUAL method then
      if compress then e.compress else e.decompress
    else _zip_get_compression_algorithm rest method compress

/-- The function zip_compression_method_supported; the int compress is turned
into a bool at the call of the lookup. -/
def zip_compression_method_supported {α : Type} (implementations : List (implementation α))
    (method : Int) (compress : Int) : Int :=
  if method = ZIP_CM_STORE then 1
  else if (_zip_get_compression_algorithm implementations method (decide (compress ≠ 0))).isSome
    then 1 else 0

/-- The commands a compression source advertises (the SUPPORTS case of
compress_callback).  Modelled from the spec: the bitmap macros of zip.h are not
part of the sources at hand; section 4.6: readable, GET_FILE_ATTRIBUTES,
reopen, and readable streams (section 3: READ_STREAM, OPEN_STREAM and
CLOSE_STREAM). -/
def compress_supports (cmd : zip_source_cmd) : Bool :=
  decide (cmd = ZIP_SOURCE_OPEN) || decide (cmd = ZIP_SOURCE_READ) || decide (cmd = ZIP_SOURCE_CLOSE)
    || decide (cmd = ZIP_SOURCE_STAT) || decide (cmd = ZIP_SOURCE_ERROR)
    || decide (cmd = ZIP_SOURCE_FREE) || decide (cmd = ZIP_SOURCE_GET_FILE_ATTRIBUTES)
    || decide (cmd = ZIP_SOURCE_SUPPORTS) || decide (cmd = ZIP_SOURCE_OPEN_STREAM)
    || decide (cmd = ZIP_SOURCE_READ_STREAM) || decide (cmd = ZIP_SOURCE_CLOSE_STREAM)

/-- Modelled from the spec: zip_source_layered (not part of the sources at
hand).  Section 3: a layered source is created on its lower source with the
private data of the layer, open_count = 0 and no streams; the allocation may
fail, which sets MEMORY. -/
def zip_source_layered {τ σ υ : Type} (heap : List Bool) (src : τ) (ud : σ)
    (supports : zip_source_cmd → Bool) : Option (zip_source_t τ σ υ) × zip_error_t × List Bool :=
  match alloc_next heap with
  | (false, heap) => (none, zip_error_set ZIP_ER_MEMORY 0, heap)
  | (true, heap) => (some (zip_source_new src ud supports heap), zip_error_clear, heap)

/-- The function compression_source_new.  The result is the algorithm found
and the new source (none for NULL) and za->error; src is none for a NULL
lower source; heap scripts the malloc of context_new and the allocation of
zip_source_layered. -/
def compression_source_new {τ α : Type} (implementations : List (implementation α))
    (za_error : zip_error_t) (heap : List Bool) (src : Option τ) (method : Int) (compress : Bool)
    (compression_flags : Int) (junk : stream α) :
    Option (zip_compression_algorithm_t α × zip_source_t τ (context α) (stream α)) × zip_error_t :=
  match src with
  | none => (none, zip_error_set ZIP_ER_INVAL 0)
  | some src =>
    match _zip_get_compression_algorithm implementations method compress with
    | none => (none, zip_error_set ZIP_ER_COMPNOTSUPP 0)
    | some algorithm =>
      match alloc_next heap with
      | (false, _) => (none, zip_error_set ZIP_ER_MEMORY 0)
      | (true, heap) =>
        match context_new algorithm method compress compression_flags junk with
        | none => (none, zip_error_set ZIP_ER_MEMORY 0)
        | some ctx =>
          match zip_source_layered heap src ctx compress_supports with
          | (none, e, _) => (none, e)
          | (some s2, _, _) => (some (algorithm, s2), za_error)

/-- What the three ways out of the loop body of compress_read say about
is_stored: it is set exactly on the return from inside the loop, which is the
store shortcut. -/
def handle_is_stored_spec {τ α : Type} (st : compress_read_state τ α) :
    compress_read_step_result τ α → Prop
  | .continue_ st1 => st1.strm.is_stored = st.strm.is_stored
  | .break_ st1 => st1.strm.is_stored = st.strm.is_stored
  | .return_ v st1 =>
    st1.strm.is_stored = true ∧ st1.strm.end_of_stream = true ∧ st1.strm.can_store = true ∧
      0 ≤ st1.strm.first_read ∧ st1.strm.size = to_uint64 st1.strm.first_read ∧
      v = to_int64 st1.strm.size

/-- Scenario 4 after OPEN: the lower source, ctx->error and the primary stream
as compress_open leaves them on an in-memory source delivering "AB". -/
def scenario4_opened :
    Int × zip_source_t Unit buffer_src Unit × zip_error_t × stream (transducer_state Unit) :=
  compress_open (zip_source_ops_of buffer_class) (transducer_algorithm frame_encoder)
    (zip_source_open buffer_class (buffer_new [65, 66] 2)).2
    frame_compress_ctx.error frame_compress_ctx.stream

/-- Scenario 4 inside the read of 16 bytes, at the iteration of the loop of
compress_read in which process answers END: the lower source has delivered
"AB" and reported end of file, the buffer holds "AB" (first_read = 2), and the
four bytes 2, 65, 66, 0 of the toy compressor are in data. -/
def scenario4_at_end :
    compress_read_state (zip_source_t Unit buffer_src Unit) (transducer_state Unit) where
  src := (zip_source_read buffer_class scenario4_opened.2.1 8192).2.2
  error := zip_error_clear
  strm := ⟨true, false, true, false, 0, 2, [65, 66], ⟨(), [], true⟩⟩
  data := [2, 65, 66, 0]
  out_offset := 4

/-- A plug-in that asks for more data whenever it is called and never produces
output: what a decompressor answers when its input ends inside the compressed
stream. -/
def starving_algorithm : zip_compression_algorithm_t Unit where
  allocate := fun _ _ => some ()
  general_purpose_bit_flags := fun _ => 0
  version_needed := 20
  start := fun a => (true, a)
  end_ := fun a => (true, a)
  input := fun a _ => a
  end_of_input := fun a => a
  process := fun a _ => ⟨ZIP_COMPRESSION_NEED_DATA, [], a, none⟩

/-- A decompressing source with the plug-in starving_algorithm on an in-memory
source delivering "AB", as compression_source_new creates it, after
zip_source_open. -/
def starving_source :
    zip_source_t (zip_source_t Unit buffer_src Unit) (context Unit) (stream Unit) :=
  match compression_source_new [⟨ZIP_CM_DEFLATE, none, some starving_algorithm⟩] zip_error_clear []
      (some (buffer_new [65, 66] 2)) ZIP_CM_DEFLATE false 0 (stream_junk ()) with
  | (some s, _) =>
    (zip_source_open (compress_class (zip_source_ops_of buffer_class) s.1 8192 10 (stream_junk ()))
      s.2).2
  | (none, _) => zip_source_new (buffer_new [65, 66] 2)
      ⟨zip_error_clear, false, ZIP_CM_DEFLATE, 0, stream_junk (), false⟩ compress_supports []

/-- The class of a compressing source with the toy compressor on an in-memory
source with streams. -/
def memory_compress_class :
    zip_source_class (zip_source_t Unit buffer_src Nat) (context (transducer_state Unit))
      (stream (transducer_state Unit)) :=
  compress_class (zip_source_ops_of memory_class) (transducer_algorithm frame_encoder) 8192 10
    (stream_junk ⟨(), [], false⟩)

/-- A compressing source on DEFLATE with the toy compressor on a fresh in-memory
source with streams that delivers data, as compression_source_new creates it. -/
def memory_compress_new (data : List Nat) (chunk : Nat) :
    zip_source_t (zip_source_t Unit buffer_src Nat) (context (transducer_state Unit))
      (stream (transducer_state Unit)) :=
  match compression_source_new [⟨ZIP_CM_DEFLATE, some (transducer_algorithm frame_encoder), none⟩]
      zip_error_clear [] (some (memory_new data chunk)) ZIP_CM_DEFLATE true 0
      (stream_junk ⟨(), [], false⟩) with
  | (some s, _) => s.2
  | (none, _) => zip_source_new (memory_new data chunk) frame_compress_ctx compress_supports []

/-! ## Window layer: the constructor -/

/-- Modelled from the spec: the command set ZIP_SOURCE_SUPPORTS_SEEKABLE together
with the reopen capability (the bitmap macros of zip.h are not part of the
sources at hand).  Section 3: Readable is the read lifecycle (OPEN, READ, CLOSE,
STAT, ERROR, FREE), Seekable adds SEEK, TELL and SUPPORTS. -/
def supports_seekable_set (cmd : zip_source_cmd) : Bool :=
  decide (cmd = ZIP_SOURCE_OPEN) || decide (cmd = ZIP_SOURCE_READ) || decide (cmd = ZIP_SOURCE_CLOSE)
    || decide (cmd = ZIP_SOURCE_STAT) || decide (cmd = ZIP_SOURCE_ERROR)
    || decide (cmd = ZIP_SOURCE_FREE) || decide (cmd = ZIP_SOURCE_SEEK)
    || decide (cmd = ZIP_SOURCE_TELL) || decide (cmd = ZIP_SOURCE_SUPPORTS)

/-- Modelled from the spec: the command set of Readable streams (section 3). -/
def supports_readable_streams_set (cmd : zip_source_cmd) : Bool :=
  decide (cmd = ZIP_SOURCE_OPEN_STREAM) || decide (cmd = ZIP_SOURCE_READ_STREAM)
    || decide (cmd = ZIP_SOURCE_CLOSE_STREAM)

/-- Modelled from the spec: the command set of Seekable streams (section 3). -/
def supports_seekable_streams_set (cmd : zip_source_cmd) : Bool :=
  supports_readable_streams_set cmd || decide (cmd = ZIP_SOURCE_SEEK_STREAM)
    || decide (cmd = ZIP_SOURCE_TELL_STREAM)

/-- The capabilities a window computes from those of its lower source
(_zip_source_window_new, lines 124 to 133). -/
def window_supports (lower : zip_source_cmd → Bool) (cmd : zip_source_cmd) : Bool :=
  let base := (lower cmd && supports_seekable_set cmd)
    || decide (cmd = ZIP_SOURCE_GET_FILE_ATTRIBUTES) || decide (cmd = ZIP_SOURCE_SUPPORTS)
    || decide (cmd = ZIP_SOURCE_TELL)
  if lower ZIP_SOURCE_READ_STREAM && lower ZIP_SOURCE_OPEN_STREAM && lower ZIP_SOURCE_CLOSE_STREAM
      && lower ZIP_SOURCE_SEEK_STREAM && lower ZIP_SOURCE_TELL_STREAM then
    base || supports_seekable_streams_set cmd
  else if lower ZIP_SOURCE_READ_STREAM && lower ZIP_SOURCE_OPEN_STREAM
      && lower ZIP_SOURCE_CLOSE_STREAM then
    base || supports_readable_streams_set cmd
  else base

/-- The function _zip_source_window_new.  The lower source src is none for
NULL and lower_supports is zip_source_supports(src); start is a zip_uint64_t
and length a zip_int64_t; archive is none when source_archive is NULL and
otherwise what _zip_file_get_offset (not part of the sources at hand) returns,
the offset (0 for a failure) and the error it sets; detail is the system part
MAKE_DETAIL_WITH_INDEX(ZIP_ER_DETAIL_CDIR_ENTRY_INVALID, source_index); merge
is the error of a failing _zip_stat_merge (none when st is NULL or the merge
succeeds); junk_end is what the fresh memory holds in the field end; heap
scripts malloc and the allocation of the layered source, and ctx_heap the
later calls of byte_array_init.  The result is the new source (none for NULL)
and the error reported. -/
def _zip_source_window_new {τ : Type} (heap ctx_heap : List Bool) (src : Option τ)
    (lower_supports : zip_source_cmd → Bool) (start : Nat) (length : Int)
    (archive : Option (Nat × zip_error_t)) (source_index : Nat) (detail : Int)
    (merge : Option zip_error_t) (junk_end : Nat) (error : zip_error_t) :
    Option (zip_source_t τ window window_stream_t) × zip_error_t :=
  match src with
  | none => (none, zip_error_set ZIP_ER_INVAL 0)
  | some src =>
    if length < -1 ∨ (archive.isNone ∧ source_index ≠ 0) then (none, zip_error_set ZIP_ER_INVAL 0)
    else if 0 ≤ length ∧ add64 start (to_uint64 length) < start then
      (none, zip_error_set ZIP_ER_INVAL 0)
    else
      let finish (offset : Nat) : Option (zip_source_t τ window window_stream_t) × zip_error_t :=
        match alloc_next heap with
        | (false, _) => (none, zip_error_set ZIP_ER_MEMORY 0)
        | (true, heap) =>
          let supports := window_supports lower_supports
          let ctx : window :=
            { start := add64 start offset,
              end_ := if length = -1 then junk_end
                      else add64 (add64 start offset) (to_uint64 length),
              end_valid := !decide (length = -1),
              stream := ⟨0⟩,
              error := zip_error_clear,
              supports := supports,
              needs_seek := supports ZIP_SOURCE_SEEK,
              needs_stream_seek :=
                lower_supports ZIP_SOURCE_READ_STREAM && lower_supports ZIP_SOURCE_OPEN_STREAM
                  && lower_supports ZIP_SOURCE_CLOSE_STREAM
                  && lower_supports ZIP_SOURCE_SEEK_STREAM
                  && lower_supports ZIP_SOURCE_TELL_STREAM,
              heap := ctx_heap }
          match merge with
          | some e => (none, e)
          | none =>
            match zip_source_layered heap src ctx supports with
            | (none, e, _) => (none, e)
            | (some s, _, _) => (some s, error)
      match archive with
      | none => finish 0
      | some (offset, e) =>
        if offset = 0 then (none, e)
        else if 0 ≤ length ∧
            add64 (add64 start (to_uint64 length)) offset < add64 start (to_uint64 length) then
          (none, zip_error_set ZIP_ER_INCONS detail)
        else finish offset

/-- The class of a window on the in-memory source with streams. -/
def memory_window_class :
    zip_source_class (zip_source_t Unit buffer_src Nat) window window_stream_t :=
  window_class (zip_source_ops_of memory_class) 4096

/-- A window [start, start + length) on a fresh in-memory source with streams,
as _zip_source_window_new creates it without an archive. -/
def memory_window_new (data : List Nat) (chunk start : Nat) (length : Int) :
    zip_source_t (zip_source_t Unit buffer_src Nat) window window_stream_t :=
  match _zip_source_window_new [] [] (some (memory_new data chunk)) memory_supports start length
      none 0 0 none 0 zip_error_clear with
  | (some s, _) => s
  | (none, _) => zip_source_new (memory_new data chunk) (window_ctx start length.toNat false)
      (window_supports memory_supports) []

/-- The invariant I2 of the specification at the ID id: streams[id] is present
if and only if id is in [0, nstreams) and not among the nfree_stream_ids
entries of free_stream_ids. -/
def invariant_I2 {τ σ υ : Type} (src : zip_source_t τ σ υ) (id : Nat) : Bool :=
  (stream_at src id).isSome
    == (decide (id < src.nstreams) && !(src.free_stream_ids.take src.nfree_stream_ids).contains id)

/-! ## Files opened from an archive (zip_fopen_index_encrypted.c) -/

/-- The record zip_file_t as _zip_file_new and zip_fopen_index_encrypted fill
it; the back pointer za is left out, src is none for NULL. -/
structure zip_file_t (S : Type) where
  error : zip_error_t
  eof : Int
  src : Option S
  stream_id : Int

/-- What zip_fopen_index_encrypted leaves behind: the file (none for NULL),
za->error, and, when the function called zip_source_free (not part of the
sources at hand), the source in the state in which it was handed over. -/
structure zip_fopen_result (S : Type) where
  zf : Option (zip_file_t S)
  za_error : zip_error_t
  freed : Option S

/-- The function _zip_file_new: the new file (none for NULL) and za->error;
heap scripts the malloc. -/
def _zip_file_new {S : Type} (za_error : zip_error_t) (heap : List Bool) :
    Option (zip_file_t S) × zip_error_t :=
  match alloc_next heap with
  | (false, _) => (none, zip_error_set ZIP_ER_MEMORY 0)
  | (true, _) => (some ⟨zip_error_clear, 0, none, -1⟩, za_error)

/-- The function zip_fopen_index_encrypted from the return of
_zip_source_zip_new on (not part of the sources at hand): new_src is the source
that call built (none for NULL) and za_error is za->error after it;
independent is (flags & ZIP_FL_INDEPENDENT) != 0; heap scripts the malloc of
_zip_file_new. -/
def zip_fopen_index_encrypted {τ σ υ : Type} (K : zip_source_class τ σ υ)
    (new_src : Option (zip_source_t τ σ υ)) (za_error : zip_error_t) (independent : Bool)
    (heap : List Bool) : zip_fopen_result (zip_source_t τ σ υ) :=
  let finish (src : zip_source_t τ σ υ) (stream_id : Int) :
      zip_fopen_result (zip_source_t τ σ υ) :=
    match (_zip_file_new za_error heap : Option (zip_file_t (zip_source_t τ σ υ)) × zip_error_t) with
    | (none, e) => ⟨none, e, some src⟩
    | (some zf, e) => ⟨some { zf with src := some src, stream_id := stream_id }, e, none⟩
  match new_src with
  | none => ⟨none, za_error, none⟩
  | some src =>
    if independent then
      if !zip_source_supports_multi_open_readable src then
        ⟨none, zip_error_set ZIP_ER_OPNOTSUPP 0, some src⟩
      else
        let r := zip_source_open_stream K src
        if r.1 < 0 then ⟨none, r.2.error, some r.2⟩
        else finish r.2 r.1
    else
      let r := zip_source_open K src
      if r.1 < 0 then ⟨none, r.2.error, some r.2⟩
      else finish r.2 (-1)

/-- A class whose callback refuses, with -1, every command outside the set f
and otherwise is that of K. -/
def restrict_class {τ σ υ : Type} (f : zip_source_cmd → Bool) (K : zip_source_class τ σ υ) :
    zip_source_class τ σ υ where
  lower := K.lower
  cb := fun low stream_id ud data cmd =>
    if f cmd then K.cb low stream_id ud data cmd else ⟨-1, data, low, ud⟩
  junk_negative := K.junk_negative
  freed_parent_stream_id := K.freed_parent_stream_id

/-- The commands of an in-memory source that opens and closes streams but
cannot read from them: those of memory_supports without READ_STREAM. -/
def no_read_stream_supports (cmd : zip_source_cmd) : Bool :=
  memory_supports cmd && !decide (cmd = ZIP_SOURCE_READ_STREAM)

/-- The class of the in-memory source without READ_STREAM. -/
def no_read_stream_class : zip_source_class Unit buffer_src Nat :=
  restrict_class no_read_stream_supports memory_class

/-- A fresh in-memory source without READ_STREAM. -/
def no_read_stream_new (data : List Nat) (chunk : Nat) : zip_source_t Unit buffer_src Nat :=
  zip_source_new () ⟨data, 0, chunk⟩ no_read_stream_supports []

/-- The class of a compressing source with the toy compressor on the in-memory
source without READ_STREAM. -/
def no_read_stream_compress_class :
    zip_source_class (zip_source_t Unit buffer_src Nat) (context (transducer_state Unit))
      (stream (transducer_state Unit)) :=
  compress_class (zip_source_ops_of no_read_stream_class) (transducer_algorithm frame_encoder)
    8192 10 (stream_junk ⟨(), [], false⟩)

/-- What compression_source_new returns for DEFLATE with the toy compressor on
a fresh in-memory source without READ_STREAM. -/
def no_read_stream_compress_new (data : List Nat) (chunk : Nat) :
    Option (zip_source_t (zip_source_t Unit buffer_src Nat) (context (transducer_state Unit))
      (stream (transducer_state Unit))) :=
  (compression_source_new [⟨ZIP_CM_DEFLATE, some (transducer_algorithm frame_encoder), none⟩]
    zip_error_clear [] (some (no_read_stream_new data chunk)) ZIP_CM_DEFLATE true 0
    (stream_junk ⟨(), [], false⟩)).1.map (fun s => s.2)

/-- What _zip_source_window_new returns for the window [start, start + length)
on a fresh in-memory source without READ_STREAM, without an archive. -/
def no_read_stream_window_new (data : List Nat) (chunk start : Nat) (length : Int) :
    Option (zip_source_t (zip_source_t Unit buffer_src Nat) window window_stream_t) :=
  (_zip_source_window_new [] [] (some (no_read_stream_new data chunk)) no_read_stream_supports
    start length none 0 0 none 0 zip_error_clear).1

/-- A fresh scripted leaf source whose callbacks all succeed and whose
allocations follow the script heap. -/
def leaf_on_heap (heap : List Bool) : zip_source_t Unit (List (Int × Bool)) Unit :=
  zip_source_new () [] (fun _ => true) heap

/-- The calls that lead to a free list with one entry: open, open, close 0. -/
def session_one_free : List stream_op :=
  [.open_stream, .open_stream, .close_stream 0]

/-- The calls that lead to a free list longer than nstreams: open, open, open,
close 1, close 0. -/
def session_two_free : List stream_op :=
  [.open_stream, .open_stream, .open_stream, .close_stream 1, .close_stream 0]

/-- The class of a compressing source with the toy compressor on the in-memory
source. -/
def buffer_compress_class :
    zip_source_class (zip_source_t Unit buffer_src Unit) (context (transducer_state Unit))
      (stream (transducer_state Unit)) :=
  compress_class (zip_source_ops_of buffer_class) (transducer_algorithm frame_encoder) 8192 10
    (stream_junk ⟨(), [], false⟩)

/-- A compressing source on DEFLATE with the toy compressor on a fresh in-memory
source that delivers data, as compression_source_new creates it. -/
def buffer_compress_new (data : List Nat) (chunk : Nat) :
    zip_source_t (zip_source_t Unit buffer_src Unit) (context (transducer_state Unit))
      (stream (transducer_state Unit)) :=
  match compression_source_new [⟨ZIP_CM_DEFLATE, some (transducer_algorithm frame_encoder), none⟩]
      zip_error_clear [] (some (buffer_new data chunk)) ZIP_CM_DEFLATE true 0
      (stream_junk ⟨(), [], false⟩) with
  | (some s, _) => s.2
  | (none, _) => zip_source_new (buffer_new data chunk) frame_compress_ctx compress_supports []

/-- The first read pass over buffer_compress_new [65, 66] 2 and the reopening:
open, two reads with a buffer of 3 bytes (they return the 4 compressed bytes),
close, open. -/
def reopened_compress :
    zip_source_t (zip_source_t Unit buffer_src Unit) (context (transducer_state Unit))
      (stream (transducer_state Unit)) :=
  (zip_source_open buffer_compress_class
    (zip_source_close buffer_compress_class
      (zip_source_read buffer_compress_class
        (zip_source_read buffer_compress_class
          (zip_source_open buffer_compress_class (buffer_compress_new [65, 66] 2)).2 3).2.2
        3).2.2).2).2

/-- The function _zip_realloc (zip_realloc.c) with the block of memory made
explicit: memory is *inout_memory and realloc old_memory new_size is what the
allocator answers (none for NULL).  The result is the error code,
*inout_memory and *inout_alloced after the call.  The function _zip_realloc
above is this one with the block left out and the allocator scripted. -/
def _zip_realloc_inout {μ : Type} (realloc : μ → Nat → Option μ) (inout_memory : μ)
    (inout_alloced element_size additional_elements : Nat) : zip_error_code × μ × Nat :=
  let old_memory := inout_memory
  let old_alloced := inout_alloced
  let additional_elements := if additional_elements = 0 then 1 else additional_elements
  if old_alloced > ZIP_UINT64_MAX - additional_elements then
    (ZIP_ER_MEMORY, inout_memory, inout_alloced)
  else
    let new_alloced := old_alloced + additional_elements
    if new_alloced > ZIP_UINT64_MAX / element_size then
      (ZIP_ER_MEMORY, inout_memory, inout_alloced)
    else
      let new_size := new_alloced * element_size
      match realloc old_memory new_size with
      | none => (ZIP_ER_MEMORY, inout_memory, inout_alloced)
      | some new_memory => (ZIP_ER_OK, new_memory, new_alloced)

/-- The callback of the class K never reports more bytes than it was asked
for, in READ and in READ_STREAM. -/
def reads_within_request {τ σ υ : Type} (K : zip_source_class τ σ υ) : Prop :=
  (∀ low id ud len, (K.cb low id ud (.raw [] len) ZIP_SOURCE_READ).ret ≤ (len : Int)) ∧
  (∀ low id ud us len,
    (K.cb low id ud (.stream ⟨us, [], len⟩) ZIP_SOURCE_READ_STREAM).ret ≤ (len : Int))

/-- A session of reads on one stream of a window: window_read_read is called
with the given buffer lengths in turn, for the stream stream_id of the lower
source.  The state is the number of bytes delivered so far (the sum of the
counts returned, a failed read adding nothing), the lower source, the context
and the stream. -/
def window_reads {τ : Type} (A : zip_source_ops τ) (stream_id : Int) :
    List Nat → Nat × τ × window × window_stream_t → Nat × τ × window × window_stream_t
  | [], s => s
  | len :: rest, s =>
    let r := window_read_read A s.2.1 stream_id s.2.2.1 s.2.2.2 len
    window_reads A stream_id rest (s.1 + r.1.toNat, r.2.2.1, r.2.2.2.1, r.2.2.2.2)

/-- What a loop invariant P of compress_read, with R for the return from inside
the loop, asks of the outcome of one iteration. -/
def step_post {τ α : Type} (P : compress_read_state τ α → Prop)
    (R : Int → compress_read_state τ α → Prop) : compress_read_step_result τ α → Prop
  | .continue_ st => P st
  | .break_ st => P st
  | .return_ v st => R v st

/-- The flags of the stream inside the loop of compress_read, against their
values when the call began: size and is_stored are as they were, and can_store
holds only if it held. -/
def flags_inv {τ α : Type} (strm : stream α) (st : compress_read_state τ α) : Prop :=
  st.strm.size = strm.size ∧ st.strm.is_stored = strm.is_stored ∧
    (st.strm.can_store = true → strm.can_store = true)

/-- The flags of the stream at the return from inside the loop of compress_read
(the store shortcut), against their values when the call began. -/
def flags_ret {τ α : Type} (strm : stream α) (v : Int) (st : compress_read_state τ α) : Prop :=
  strm.can_store = true ∧ st.strm.is_stored = true ∧ st.strm.end_of_stream = true ∧
    0 ≤ st.strm.first_read ∧ to_uint64 st.strm.first_read ≤ st.out_offset ∧
    st.strm.size = to_uint64 st.strm.first_read ∧ v = to_int64 st.strm.size

/-- The bounds inside the loop of compress_read: out_offset bytes were produced,
they fit into the len bytes of data, and first_read is at most M. -/
def bounds_inv {τ α : Type} (len : Nat) (M : Int) (st : compress_read_state τ α) : Prop :=
  st.out_offset ≤ len ∧ st.data.length = st.out_offset ∧ st.strm.first_read ≤ M

/-- A plug-in whose process answers OK without output whenever it is called: it
writes no more than the room it is given and never makes progress. -/
def stalling_algorithm : zip_compression_algorithm_t Unit where
  allocate := fun _ _ => some ()
  general_purpose_bit_flags := fun _ => 0
  version_needed := 20
  start := fun a => (true, a)
  end_ := fun a => (true, a)
  input := fun a _ => a
  end_of_input := fun a => a
  process := fun a _ => ⟨ZIP_COMPRESSION_OK, [], a, none⟩

/-- The callback of an in-memory source that ignores the length of the buffer:
READ hands out all the bytes that are left and reports their number. -/
def greedy_cb (low : Unit) (_stream_id : Int) (ud : buffer_src) (data : zip_source_data Unit)
    (cmd : zip_source_cmd) : zip_source_call_result Unit buffer_src Unit :=
  match cmd with
  | ZIP_SOURCE_OPEN => ⟨0, data, low, { ud with pos := 0 }⟩
  | ZIP_SOURCE_READ =>
    let n := ud.data.length - ud.pos
    ⟨(n : Int), .raw (ud.data.drop ud.pos) data.size, low, { ud with pos := ud.pos + n }⟩
  | ZIP_SOURCE_CLOSE => ⟨0, data, low, ud⟩
  | ZIP_SOURCE_STAT => ⟨0, data, low, ud⟩
  | ZIP_SOURCE_GET_FILE_ATTRIBUTES => ⟨0, data, low, ud⟩
  | _ => ⟨-1, data, low, ud⟩

/-- The class of the in-memory source that ignores the length of the buffer. -/
def greedy_class : zip_source_class Unit buffer_src Unit where
  lower := none
  cb := greedy_cb
  junk_negative := false
  freed_parent_stream_id := fun v => v

/-- The stream of a compressing layer on DEFLATE with the toy compressor after
compress_open on the opened lower source low with API A. -/
def opened_stream {τ : Type} (A : zip_source_ops τ) (low : τ) :
    Int × τ × zip_error_t × stream (transducer_state Unit) :=
  compress_open A (transducer_algorithm frame_encoder) low frame_compress_ctx.error
    frame_compress_ctx.stream

/-- The size accounting of a stream of the compression layer, total being the
number of bytes compress_read has returned for it since OPEN: size is that
number; as long as can_store holds and the end of the stream was not reached
nothing was returned; once is_stored is set the end of the stream was reached
and size is first_read; first_read is a zip_int64_t. -/
def size_inv {α : Type} (total : Nat) (strm : stream α) : Prop :=
  strm.size = total ∧
    (strm.can_store = true → strm.end_of_stream = false → total = 0) ∧
    (strm.is_stored = true →
      strm.end_of_stream = true ∧ strm.size = to_uint64 strm.first_read) ∧
    strm.first_read < 2 ^ 63

/-- A session of reads on one stream of the compression layer that counts the
bytes returned: compress_read is called with the given buffer lengths in turn;
the state is the number of bytes returned so far (a read that returns -1 adds
nothing), the lower source, ctx->error and the stream. -/
def compress_reads_total {τ α : Type} (A : zip_source_ops τ) (alg : zip_compression_algorithm_t α)
    (BUFSIZE fuel : Nat) (parent_stream_id : Int) :
    List Nat → Nat × τ × zip_error_t × stream α → Nat × τ × zip_error_t × stream α
  | [], s => s
  | len :: rest, s =>
    let r := compress_read A alg BUFSIZE fuel s.2.1 parent_stream_id s.2.2.1 s.2.2.2 len
    compress_reads_total A alg BUFSIZE fuel parent_stream_id rest
      (s.1 + r.ret.toNat, r.src, r.error, r.strm)

/-- The stream table of the source a is that of the source b: nstreams, the
free list with its length, and every slot of streams[]. -/
def same_table {τ σ υ : Type} (a b : zip_source_t τ σ υ) : Prop :=
  a.nstreams = b.nstreams ∧ a.nfree_stream_ids = b.nfree_stream_ids ∧
    a.free_stream_ids = b.free_stream_ids ∧ ∀ i, stream_at a i = stream_at b i

/-- What the failed allocation of a stream record leaves when the ID came from
the free list: nstreams and nfree_stream_ids are both one less than in b, the
entries of the free list and the slots are those of b. -/
def lost_free_id {τ σ υ : Type} (a b : zip_source_t τ σ υ) : Prop :=
  0 < b.nfree_stream_ids ∧ a.nstreams = decr64 b.nstreams ∧
    a.nfree_stream_ids = decr64 b.nfree_stream_ids ∧
    a.free_stream_ids = b.free_stream_ids ∧ ∀ i, stream_at a i = stream_at b i

/-! # Theorems -/

/-! ## Stream IDs -/

/-- C1 (fails on the code): after the session open, open, open, close 1, open
the IDs 0, 2 and 1 are live, and the next zip_source_open_stream returns 2, an
ID that is live.  Closing the hole 1 decremented nstreams to 2, the reuse of
ID 1 did not increment it, so the table-extent branch hands out nstreams = 2. -/
theorem open_stream_reissues_live_id :
    (run_ops scripted_leaf
        [.open_stream, .open_stream, .open_stream, .close_stream 1, .open_stream] leaf0).1
      = [some 0, some 1, some 2, none, some 1] ∧
    live_ids [.open_stream, .open_stream, .open_stream, .close_stream 1, .open_stream]
        (run_ops scripted_leaf
          [.open_stream, .open_stream, .open_stream, .close_stream 1, .open_stream] leaf0).1
      = [0, 2, 1] ∧
    (zip_source_open_stream scripted_leaf
        (run_ops scripted_leaf
          [.open_stream, .open_stream, .open_stream, .close_stream 1, .open_stream] leaf0).2).1
      = 2 := by
  decide

theorem open_stream_store_spec {τ σ υ : Type} (K : zip_source_class τ σ υ) (src : zip_source_t τ σ υ)
    (pid : Int) (args : zip_source_args_stream_t υ) (id : Nat)
    (h : 0 ≤ (open_stream_store K src pid args id).1) :
    (open_stream_store K src pid args id).1 = to_int64 id ∧
    (open_stream_store K src pid args id).2.nstreams = src.nstreams ∧
    (open_stream_store K src pid args id).2.nfree_stream_ids = src.nfree_stream_ids := by
  unfold open_stream_store at h ⊢
  rcases hh : alloc_next src.heap with ⟨b, heap⟩
  cases b
  · simp [hh] at h
  · simp [hh]

theorem open_stream_slot_spec {τ σ υ : Type} (K : zip_source_class τ σ υ) (src : zip_source_t τ σ υ)
    (pid : Int) (args : zip_source_args_stream_t υ)
    (hn : src.nstreams + 1 < 2 ^ 64) (hf : src.nfree_stream_ids < 2 ^ 64)
    (hok : 0 ≤ (open_stream_slot K src pid args).1) :
    (0 < src.nfree_stream_ids →
      (open_stream_slot K src pid args).1
          = to_int64 (src.free_stream_ids.getD (src.nfree_stream_ids - 1) 0) ∧
      (open_stream_slot K src pid args).2.nfree_stream_ids = src.nfree_stream_ids - 1 ∧
      (open_stream_slot K src pid args).2.nstreams = src.nstreams) ∧
    (src.nfree_stream_ids = 0 →
      (open_stream_slot K src pid args).1 = to_int64 src.nstreams ∧
      (open_stream_slot K src pid args).2.nstreams = src.nstreams + 1 ∧
      (open_stream_slot K src pid args).2.nfree_stream_ids = 0) := by
  have hinc : incr64 src.nstreams = src.nstreams + 1 := by
    unfold incr64; omega
  constructor
  · intro hpos
    have hdec : decr64 src.nfree_stream_ids = src.nfree_stream_ids - 1 := by
      unfold decr64; omega
    unfold open_stream_slot at hok ⊢
    simp only [hpos, if_true] at hok ⊢
    obtain ⟨h1, h2, h3⟩ := open_stream_store_spec K _ _ _ _ hok
    simp only [hdec] at h1 h2 h3 ⊢
    exact ⟨h1, h3, h2⟩
  · intro h0
    by_cases hgrow : incr64 src.nstreams > src.nstreams_alloced
    · rcases hre : _zip_realloc src.heap src.nstreams_alloced 8 (src.nstreams_alloced / 2)
        with ⟨e, na, hp⟩
      unfold open_stream_slot at hok ⊢
      simp only [h0, lt_irrefl, if_false, hgrow, if_true, hre] at hok ⊢
      by_cases he : e = ZIP_ER_OK
      · subst he
        obtain ⟨h1, h2, h3⟩ := open_stream_store_spec K _ _ _ _ hok
        simp only [hinc] at h1 h2 h3 ⊢
        exact ⟨h1, h2, by simpa [h0] using h3⟩
      · cases e <;> first | exact absurd rfl he | simp at hok
    · unfold open_stream_slot at hok ⊢
      simp only [h0, lt_irrefl, if_false, hgrow] at hok ⊢
      obtain ⟨h1, h2, h3⟩ := open_stream_store_spec K _ _ _ _ hok
      simp only [hinc] at h1 h2 h3 ⊢
      exact ⟨h1, h2, by simpa [h0] using h3⟩

theorem lower_close_stream_fields {τ σ υ : Type} (K : zip_source_class τ σ υ) (src : zip_source_t τ σ υ)
    (id : Int) :
    (lower_close_stream K src id).2.nstreams = src.nstreams ∧
    (lower_close_stream K src id).2.nfree_stream_ids = src.nfree_stream_ids ∧
    (lower_close_stream K src id).2.free_stream_ids = src.free_stream_ids := by
  unfold lower_close_stream
  cases K.lower <;> simp

/-- A successful open goes through the slot phase on a source with the same stream table. -/
theorem open_stream_reaches_slot {τ σ υ : Type} (K : zip_source_class τ σ υ) (src : zip_source_t τ σ υ)
    (hok : 0 ≤ (zip_source_open_stream K src).1) :
    ∃ (src1 : zip_source_t τ σ υ) (pid : Int) (args : zip_source_args_stream_t υ),
      zip_source_open_stream K src = open_stream_slot K src1 pid args ∧
      src1.nstreams = src.nstreams ∧ src1.nfree_stream_ids = src.nfree_stream_ids ∧
      src1.free_stream_ids = src.free_stream_ids := by
  unfold zip_source_open_stream at hok ⊢
  by_cases h1 : src.source_closed = true
  · simp [h1] at hok
  by_cases h2 : src.write_state = ZIP_SOURCE_WRITE_REMOVED
  · simp [h1, h2] at hok
  simp only [h1, h2, if_false] at hok ⊢
  simp only [Bool.false_eq_true, if_false] at hok ⊢
  cases hl : K.lower with
  | none =>
    simp only [hl, ZIP_SOURCE_IS_LAYERED, Option.isSome_none, Bool.false_and, Bool.false_eq_true,
      if_false] at hok ⊢
    split at hok
    · simp at hok
    rename_i h4
    split at hok
    · simp at hok
    rename_i h5
    simp only [h4, h5, if_false]
    exact ⟨_, _, _, rfl, by simp [_zip_source_call], by simp [_zip_source_call],
      by simp [_zip_source_call]⟩
  | some A =>
    simp only [hl, ZIP_SOURCE_IS_LAYERED, Option.isSome_some, Bool.true_and] at hok ⊢
    split at hok
    · simp at hok
    rename_i h3
    split at hok
    · simp at hok
    rename_i h4
    split at hok
    · simp at hok
    rename_i h5
    simp only [h3, h4, h5, if_false]
    exact ⟨_, _, _, rfl, by simp [_zip_source_call], by simp [_zip_source_call],
      by simp [_zip_source_call]⟩

/-- C2: a successful zip_source_open_stream (non-negative return value) returns
the most recently recorded free ID, free_stream_ids[nfree_stream_ids - 1], and
removes it from the list when the free list is not empty; otherwise it returns
the current nstreams and increments nstreams.  In particular, after opening
0, 1, 2 and closing 1 the next open returns 1. -/
theorem open_stream_id_allocation :
    (∀ (τ σ υ : Type) (K : zip_source_class τ σ υ) (src : zip_source_t τ σ υ),
      src.nstreams + 1 < 2 ^ 64 → src.nfree_stream_ids < 2 ^ 64 →
      0 ≤ (zip_source_open_stream K src).1 →
      (0 < src.nfree_stream_ids →
        (zip_source_open_stream K src).1
            = to_int64 (src.free_stream_ids.getD (src.nfree_stream_ids - 1) 0) ∧
        (zip_source_open_stream K src).2.nfree_stream_ids = src.nfree_stream_ids - 1 ∧
        (zip_source_open_stream K src).2.nstreams = src.nstreams) ∧
      (src.nfree_stream_ids = 0 →
        (zip_source_open_stream K src).1 = to_int64 src.nstreams ∧
        (zip_source_open_stream K src).2.nstreams = src.nstreams + 1 ∧
        (zip_source_open_stream K src).2.nfree_stream_ids = 0)) ∧
    (run_ops scripted_leaf
        [.open_stream, .open_stream, .open_stream, .close_stream 1, .open_stream] leaf0).1
      = [some 0, some 1, some 2, none, some 1] := by
  refine ⟨?_, by decide⟩
  intro τ σ υ K src hn hf hok
  obtain ⟨src1, pid, args, heq, e1, e2, e3⟩ := open_stream_reaches_slot K src hok
  rw [heq] at hok ⊢
  have := open_stream_slot_spec K src1 pid args (by omega) (by omega) hok
  simpa [e1, e2, e3] using this

/-- C2, instance: on the source left by open, open, open, close 1 (free list
holding 1) the open is successful and returns the recorded free ID 1, leaving
the free list empty and nstreams at 2. -/
theorem open_stream_id_allocation_witness :
    0 ≤ (zip_source_open_stream scripted_leaf
          (run_ops scripted_leaf
            [.open_stream, .open_stream, .open_stream, .close_stream 1] leaf0).2).1 ∧
    ((zip_source_open_stream scripted_leaf
          (run_ops scripted_leaf
            [.open_stream, .open_stream, .open_stream, .close_stream 1] leaf0).2).1 = to_int64 1 ∧
      (zip_source_open_stream scripted_leaf
          (run_ops scripted_leaf
            [.open_stream, .open_stream, .open_stream, .close_stream 1] leaf0).2).2.nfree_stream_ids
        = 0 ∧
      (zip_source_open_stream scripted_leaf
          (run_ops scripted_leaf
            [.open_stream, .open_stream, .open_stream, .close_stream 1] leaf0).2).2.nstreams = 2) :=
  ⟨by decide,
    (open_stream_id_allocation.1 _ _ _ scripted_leaf
      (run_ops scripted_leaf
        [.open_stream, .open_stream, .open_stream, .close_stream 1] leaf0).2
      (by decide) (by decide) (by decide)).1 (by decide)⟩

/-- C3 (fails on the code): scenario 5 on a layered source, with every callback
and allocation succeeding.  The closes of 1 and 2 at the end are rejected
(return -1): after close 0 only nstreams = 1 IDs count as valid.  The source
ends with nstreams = 1, one entry on the free list and the streams 1 and 2 still
present, on both layers. -/
theorem scenario5_does_not_drain :
    (run_ops stack_class session_scenario5 (stack0 [])).1
      = [some 0, some 1, some 2, none, some 1, none, some (-1), some (-1)] ∧
    (run_ops stack_class session_scenario5 (stack0 [])).2.nstreams = 1 ∧
    (run_ops stack_class session_scenario5 (stack0 [])).2.nfree_stream_ids = 1 ∧
    present_ids (run_ops stack_class session_scenario5 (stack0 [])).2 = [1, 2] ∧
    present_ids (run_ops stack_class session_scenario5 (stack0 [])).2.src = [1, 2] := by
  decide

/-- C4 (fails on the code): with two streams open and every callback and
allocation succeeding, closing the tail ID 1 returns 0, but closing ID 0, which
is not the tail, records the free ID and ends without a return statement: the
function yields no value. -/
theorem close_stream_non_tail_returns_nothing :
    (zip_source_close_stream scripted_leaf
        (run_ops scripted_leaf [.open_stream, .open_stream] leaf0).2 1).1 = some 0 ∧
    (zip_source_close_stream scripted_leaf
        (run_ops scripted_leaf [.open_stream, .open_stream] leaf0).2 0).1 = none ∧
    (zip_source_close_stream scripted_leaf
        (run_ops scripted_leaf [.open_stream, .open_stream] leaf0).2 0).2.nfree_stream_ids = 1 ∧
    (zip_source_close_stream scripted_leaf
        (run_ops scripted_leaf [.open_stream, .open_stream] leaf0).2 0).2.error.zip_err
      = ZIP_ER_OK := by
  decide

/-- The lower source after zip_source_close_stream on a valid ID. -/
theorem close_stream_lower_state {τ σ υ : Type} (K : zip_source_class τ σ υ)
    (src : zip_source_t τ σ υ) (stream_id : Int) (stream : zip_stream_t υ)
    (hv : ZIP_SOURCE_IS_VALID_STREAM_ID src stream_id = true)
    (hs : stream_at src stream_id.toNat = some stream) :
    (zip_source_close_stream K src stream_id).2.src =
      (lower_close_stream K
        (_zip_source_call K src stream.parent_stream_id
          (.stream ⟨stream.user_stream, [], 0⟩) ZIP_SOURCE_CLOSE_STREAM).2.2
        (K.freed_parent_stream_id stream.parent_stream_id)).2.src := by
  unfold zip_source_close_stream
  simp only [hv, Bool.not_true, Bool.false_eq_true, if_false, hs]
  cases hl : K.lower with
  | none =>
    simp only [ZIP_SOURCE_IS_LAYERED, hl, Option.isSome_none, Bool.false_eq_true, if_false,
      Bool.false_and, Bool.or_false, lower_close_stream, _zip_source_call]
    repeat' split
    all_goals simp_all
  | some A =>
    simp only [ZIP_SOURCE_IS_LAYERED, hl, Option.isSome_some, if_true,
      Bool.true_and, lower_close_stream, _zip_source_call]
    repeat' split
    all_goals simp_all

/-- The calls that reach a recording lower source in zip_source_close_stream on
a valid stream ID: the record left by the CLOSE_STREAM callback of the layer,
then exactly one zip_source_close_stream, whose ID is what the read of
stream->parent_stream_id from the freed record yields.  Nothing is assumed
about the result of the callback. -/
theorem close_stream_lower_record {τ σ υ : Type} (A : zip_source_ops τ)
    (K : zip_source_class (τ × List stream_op) σ υ) (hK : K.lower = some (recording A))
    (src : zip_source_t (τ × List stream_op) σ υ) (stream_id : Int) (stream : zip_stream_t υ)
    (hv : ZIP_SOURCE_IS_VALID_STREAM_ID src stream_id = true)
    (hs : stream_at src stream_id.toNat = some stream) :
    (zip_source_close_stream K src stream_id).2.src.2 =
      (K.cb src.src stream.parent_stream_id src.ud (.stream ⟨stream.user_stream, [], 0⟩)
          ZIP_SOURCE_CLOSE_STREAM).src.2
        ++ [stream_op.close_stream (K.freed_parent_stream_id stream.parent_stream_id)] := by
  rw [close_stream_lower_state K src stream_id stream hv hs]
  simp [lower_close_stream, hK, recording, _zip_source_call]

/-- C5 (fails on the code): the ID passed to the lower source is read from the
stream record after free(stream).  On a recorded two-layer stack a stream is
opened: upper ID 0, with parent_stream_id 0 stored in its record.  When the
freed record reads as 7, zip_source_close_stream on the upper ID 0 sends
close_stream 7 to the lower source, not close_stream 0: the lower call fails,
the upper call returns -1 with the error INTERNAL, and the lower stream 0 stays
open.  With two streams open (upper ID 1 has the parent 1) and the freed record
reading as 0, closing the upper ID 1 sends close_stream 0 down: the lower
stream 0, still the parent of the upper stream 0, is closed and the lower
stream 1 stays open, while the upper call returns 0 (the lower call ended
without a return statement, its value compared as not negative). -/
theorem close_stream_reads_freed_record :
    (run_ops (recorded_stack_freed 7) [.open_stream] recorded_stack0).1 = [some 0] ∧
    stream_at (run_ops (recorded_stack_freed 7) [.open_stream] recorded_stack0).2 0
      = some ⟨0, false, false, 0, some ()⟩ ∧
    (run_ops (recorded_stack_freed 7) [.open_stream, .close_stream 0] recorded_stack0).1
      = [some 0, some (-1)] ∧
    (run_ops (recorded_stack_freed 7) [.open_stream, .close_stream 0] recorded_stack0).2.src.2
      = [.open_stream, .close_stream 7] ∧
    (run_ops (recorded_stack_freed 7)
        [.open_stream, .close_stream 0] recorded_stack0).2.error.zip_err = ZIP_ER_INTERNAL ∧
    present_ids (run_ops (recorded_stack_freed 7)
        [.open_stream, .close_stream 0] recorded_stack0).2.src.1 = [0] ∧
    (run_ops (recorded_stack_freed 0) [.open_stream, .open_stream] recorded_stack0).1
      = [some 0, some 1] ∧
    stream_at (run_ops (recorded_stack_freed 0) [.open_stream, .open_stream] recorded_stack0).2 0
      = some ⟨0, false, false, 0, some ()⟩ ∧
    stream_at (run_ops (recorded_stack_freed 0) [.open_stream, .open_stream] recorded_stack0).2 1
      = some ⟨1, false, false, 0, some ()⟩ ∧
    (run_ops (recorded_stack_freed 0)
        [.open_stream, .open_stream, .close_stream 1] recorded_stack0).1
      = [some 0, some 1, some 0] ∧
    (run_ops (recorded_stack_freed 0)
        [.open_stream, .open_stream, .close_stream 1] recorded_stack0).2.src.2
      = [.open_stream, .open_stream, .close_stream 0] ∧
    present_ids (run_ops (recorded_stack_freed 0)
        [.open_stream, .open_stream, .close_stream 1] recorded_stack0).2 = [0] ∧
    present_ids (run_ops (recorded_stack_freed 0)
        [.open_stream, .open_stream, .close_stream 1] recorded_stack0).2.src.1 = [1] := by
  decide

/-- C6 (fails on the code): on the two-layer stack left by open, open, open,
close 1, open (lower streams 0, 1, 2 present, each the parent of an upper
stream) the next zip_source_open_stream fails in the OPEN_STREAM callback of the
upper layer.  The lower open had handed out ID 2 again, and the one
zip_source_close_stream issued to undo it removes lower stream 2: the lower
source is left with streams 0 and 1 only, while upper stream 2 still names
lower stream 2 as its parent. -/
theorem failed_open_stream_loses_lower_stream :
    (run_ops stack_class session_reuse (stack0 script_fail_sixth)).1
      = [some 0, some 1, some 2, none, some 1] ∧
    present_ids (run_ops stack_class session_reuse (stack0 script_fail_sixth)).2.src = [0, 1, 2] ∧
    (zip_source_open_stream stack_class
        (run_ops stack_class session_reuse (stack0 script_fail_sixth)).2).1 = -1 ∧
    present_ids (zip_source_open_stream stack_class
        (run_ops stack_class session_reuse (stack0 script_fail_sixth)).2).2.src = [0, 1] ∧
    (stream_at (zip_source_open_stream stack_class
        (run_ops stack_class session_reuse (stack0 script_fail_sixth)).2).2 2).map
          (fun stream => stream.parent_stream_id) = some 2 := by
  decide


/-! ## Window layer -/

theorem buffer_call_read (src : zip_source_t Unit buffer_src Unit) (size : Nat) :
    _zip_source_call buffer_class src (-1) (.raw [] size) ZIP_SOURCE_READ =
      (((min size (min src.ud.chunk (src.ud.data.length - src.ud.pos)) : Nat) : Int),
        .raw ((src.ud.data.drop src.ud.pos).take
          (min size (min src.ud.chunk (src.ud.data.length - src.ud.pos)))) size,
        { src with ud := { src.ud with
            pos := src.ud.pos + min size (min src.ud.chunk (src.ud.data.length - src.ud.pos)) } }) :=
  rfl

theorem buffer_read_loop_full (L : List Nat) (chunk len : Nat) (hc : 0 < chunk) :
    ∀ (fuel : Nat) (src : zip_source_t Unit buffer_src Unit) (p b : Nat) (acc : List Nat),
      src.ud = ⟨L, p, chunk⟩ → b ≤ len → len - b ≤ fuel → p + (len - b) ≤ L.length →
      zip_source_read_loop buffer_class len fuel src b acc =
        (none, { src with ud := ⟨L, p + (len - b), chunk⟩ }, len,
          acc ++ (L.drop p).take (len - b)) := by
  intro fuel
  induction fuel with
  | zero =>
    intro src p b acc hud hb hf _
    have hbl : len - b = 0 := by omega
    have : b = len := by omega
    subst this
    simp [zip_source_read_loop, hbl, ← hud]
  | succ fuel ih =>
    intro src p b acc hud hb hf hp
    unfold zip_source_read_loop
    by_cases hlt : b < len
    · simp only [hlt, if_true]
      have hn : min (len - b) (min chunk (L.length - p)) = min (len - b) chunk := by omega
      have hnpos : 0 < min (len - b) chunk := by omega
      rw [buffer_call_read]
      simp only [hud, hn]
      have h1 : ¬ ((min (len - b) chunk : Nat) : Int) < 0 := by omega
      have h2 : ¬ ((min (len - b) chunk : Nat) : Int) = 0 := by omega
      simp only [h1, h2, if_false, Int.toNat_ofNat, zip_source_data.written]
      rw [ih { src with ud := ⟨L, p + min (len - b) chunk, chunk⟩ }
        (p + min (len - b) chunk) (b + min (len - b) chunk) _ rfl (by omega) (by omega)
        (by omega)]
      have e1 : p + min (len - b) chunk + (len - (b + min (len - b) chunk)) = p + (len - b) := by
        omega
      have e2 : len - b = min (len - b) chunk + (len - (b + min (len - b) chunk)) := by omega
      simp only [e1, List.append_assoc, List.take_take, min_self]
      congr 3
      conv_rhs => rw [e2, List.take_add, List.drop_drop]
    · have hbl : len - b = 0 := by omega
      have : b = len := by omega
      subst this
      simp [hbl, ← hud]

theorem buffer_read_loop_short (L : List Nat) (chunk len : Nat) (hc : 0 < chunk) :
    ∀ (fuel : Nat) (src : zip_source_t Unit buffer_src Unit) (p b : Nat) (acc : List Nat),
      src.ud = ⟨L, p, chunk⟩ → p ≤ L.length → L.length - p < len - b → L.length - p < fuel →
      zip_source_read_loop buffer_class len fuel src b acc =
        (none, { src with ud := ⟨L, L.length, chunk⟩, eof := true }, b + (L.length - p),
          acc ++ L.drop p) := by
  intro fuel
  induction fuel with
  | zero => intro src p b acc _ _ _ hf; omega
  | succ fuel ih =>
    intro src p b acc hud hp hlen hf
    unfold zip_source_read_loop
    have hlt : b < len := by omega
    simp only [hlt, if_true]
    rw [buffer_call_read]
    simp only [hud]
    by_cases hend : p = L.length
    · subst hend
      simp
    · have hn : min (len - b) (min chunk (L.length - p)) = min chunk (L.length - p) := by omega
      have hnpos : 0 < min chunk (L.length - p) := by omega
      simp only [hn]
      have h1 : ¬ ((min chunk (L.length - p) : Nat) : Int) < 0 := by omega
      have h2 : ¬ ((min chunk (L.length - p) : Nat) : Int) = 0 := by omega
      simp only [h1, h2, if_false, Int.toNat_ofNat, zip_source_data.written]
      rw [ih { src with ud := ⟨L, p + min chunk (L.length - p), chunk⟩ }
        (p + min chunk (L.length - p)) (b + min chunk (L.length - p)) _ rfl (by omega) (by omega)
        (by omega)]
      have e1 : b + min chunk (L.length - p) + (L.length - (p + min chunk (L.length - p)))
          = b + (L.length - p) := by omega
      simp only [e1, List.append_assoc, List.take_take, min_self]
      congr 3
      rw [show List.drop (p + min chunk (L.length - p)) L
          = List.drop (min chunk (L.length - p)) (List.drop p L) by
        simp [List.drop_drop, Nat.add_comm], List.take_append_drop]

theorem to_int64_small (n : Nat) (h : n < 2 ^ 63) : to_int64 n = (n : Int) := by
  unfold to_int64
  have h64 : n % 2 ^ 64 = n := Nat.mod_eq_of_lt (by omega)
  rw [h64, if_pos h]

theorem buffer_read_full (L : List Nat) (chunk p len : Nat) (hc : 0 < chunk)
    (src : zip_source_t Unit buffer_src Unit) (hr : buffer_ready L chunk p src)
    (hlen : 0 < len) (h63 : len < 2 ^ 63) (hp : p + len ≤ L.length) :
    (zip_source_read buffer_class src len).1 = (len : Int) ∧
    (zip_source_read buffer_class src len).2.1 = (L.drop p).take len ∧
    buffer_ready L chunk (p + len) (zip_source_read buffer_class src len).2.2 := by
  obtain ⟨hud, hopen, hcl, herr, heof⟩ := hr
  have hmax : ¬ len > ZIP_INT64_MAX := by unfold ZIP_INT64_MAX; omega
  have hl0 : len ≠ 0 := by omega
  unfold zip_source_read
  simp only [hcl, ZIP_SOURCE_IS_OPEN_READING, hopen, herr, heof, hmax, hl0, decide_True,
    decide_False, Bool.not_true, Bool.false_or, Bool.false_eq_true, if_false]
  rw [buffer_read_loop_full L chunk len hc len src p 0 [] hud (by omega) (by omega) (by omega)]
  simp [to_int64_small len h63, buffer_ready, hopen, hcl, herr, heof]

theorem buffer_read_short (L : List Nat) (chunk p len : Nat) (hc : 0 < chunk)
    (src : zip_source_t Unit buffer_src Unit) (hr : buffer_ready L chunk p src)
    (h63 : len < 2 ^ 63) (hp : p ≤ L.length) (hshort : L.length - p < len) :
    (zip_source_read buffer_class src len).1 = ((L.length - p : Nat) : Int) ∧
    (zip_source_read buffer_class src len).2.1 = L.drop p ∧
    (zip_source_read buffer_class src len).2.2.eof = true ∧
    (zip_source_read buffer_class src len).2.2.ud = ⟨L, L.length, chunk⟩ ∧
    0 < (zip_source_read buffer_class src len).2.2.open_count ∧
    (zip_source_read buffer_class src len).2.2.source_closed = false ∧
    (zip_source_read buffer_class src len).2.2.had_read_error = false := by
  obtain ⟨hud, hopen, hcl, herr, heof⟩ := hr
  have hmax : ¬ len > ZIP_INT64_MAX := by unfold ZIP_INT64_MAX; omega
  have hl0 : len ≠ 0 := by omega
  unfold zip_source_read
  simp only [hcl, ZIP_SOURCE_IS_OPEN_READING, hopen, herr, heof, hmax, hl0, decide_True,
    decide_False, Bool.not_true, Bool.false_or, Bool.false_eq_true, if_false]
  rw [buffer_read_loop_short L chunk len hc len src p 0 [] hud hp (by omega) (by omega)]
  simp [to_int64_small (L.length - p) (by omega), hopen, hcl, herr]

theorem sub64_of_le (a b : Nat) (hba : b ≤ a) (ha : a < 2 ^ 64) : sub64 a b = a - b := by
  unfold sub64
  have hb : b % 2 ^ 64 = b := Nat.mod_eq_of_lt (by omega)
  rw [hb]
  have : a + (2 ^ 64 - b) = (a - b) + 2 ^ 64 := by omega
  rw [this, Nat.add_mod_right]
  exact Nat.mod_eq_of_lt (by omega)

theorem add64_of_lt (a b : Nat) (h : a + b < 2 ^ 64) : add64 a b = a + b := by
  unfold add64
  exact Nat.mod_eq_of_lt h

theorem buffer_seek_set (L : List Nat) (chunk p o : Nat) (src : zip_source_t Unit buffer_src Unit)
    (hud : src.ud = ⟨L, p, chunk⟩) (hopen : 0 < src.open_count) (hcl : src.source_closed = false)
    (ho : o ≤ L.length) (h63 : o < 2 ^ 63) :
    _zip_source_seek buffer_class src (-1) (to_int64 o) SEEK_SET =
      (0, { src with ud := ⟨L, o, chunk⟩, eof := false }) := by
  unfold _zip_source_seek
  simp only [hcl, Bool.false_eq_true, if_false, ZIP_SOURCE_IS_OPEN_READING, hopen, decide_True,
    Bool.not_true, to_int64_small o h63]
  simp [_zip_source_call, buffer_class, buffer_cb, get_args_seek, hud, ho, SEEK_SET, hcl]

theorem window_lower_ready_of_buffer_ready (L : List Nat) (chunk : Nat) (b : Bool) (o : Nat)
    (low : zip_source_t Unit buffer_src Unit) (h : buffer_ready L chunk o low) :
    window_lower_ready L chunk b o low := by
  obtain ⟨hud, hopen, hcl, herr, heof⟩ := h
  simp [window_lower_ready, hud, hopen, hcl, herr, heof]

/-- The lower source is ready to deliver from offset o once the window has positioned it. -/
theorem window_position_lower (L : List Nat) (chunk : Nat) (b : Bool) (o : Nat)
    (low : zip_source_t Unit buffer_src Unit) (ctx : window) (hb : ctx.needs_seek = b)
    (hl : window_lower_ready L chunk b o low) (ho : o ≤ L.length) (h63 : o < 2 ^ 63) :
    ∃ low1, window_seek_lower (zip_source_ops_of buffer_class) low (-1) ctx ⟨o⟩ = (0, low1) ∧
      buffer_ready L chunk o low1 := by
  obtain ⟨hd, hch, hopen, hcl, herr, hpos⟩ := hl
  have hns : _needs_seek ctx (-1) = b := by simp [_needs_seek, hb]
  unfold window_seek_lower
  rw [hns]
  cases b with
  | false =>
    obtain ⟨hp, heof⟩ := hpos rfl
    refine ⟨low, by simp, ?_⟩
    refine ⟨?_, hopen, hcl, herr, heof⟩
    cases hu : low.ud with
    | mk d p c => simp_all
  | true =>
    have hud : low.ud = ⟨L, low.ud.pos, chunk⟩ := by
      cases hu : low.ud with
      | mk d p c => simp_all
    refine ⟨{ low with ud := ⟨L, o, chunk⟩, eof := false }, ?_, ?_⟩
    · simp only [if_true, zip_source_ops_of]
      exact buffer_seek_set L chunk low.ud.pos o low hud hopen hcl ho h63
    · exact ⟨rfl, hopen, hcl, herr, rfl⟩

theorem window_read_read_inside (L : List Nat) (chunk : Nat) (hc : 0 < chunk) (b : Bool)
    (o e len : Nat) (low : zip_source_t Unit buffer_src Unit) (ctx : window)
    (stream : window_stream_t)
    (hb : ctx.needs_seek = b) (he : ctx.end_ = e) (hv : ctx.end_valid = true)
    (hso : stream.offset = o)
    (hl : window_lower_ready L chunk b o low) (hoe : o < e) (heL : e ≤ L.length)
    (h63 : e < 2 ^ 63) (hlen : 0 < len) :
    (window_read_read (zip_source_ops_of buffer_class) low (-1) ctx stream len).1
      = ((min len (e - o) : Nat) : Int) ∧
    (window_read_read (zip_source_ops_of buffer_class) low (-1) ctx stream len).2.1
      = (L.drop o).take (min len (e - o)) ∧
    buffer_ready L chunk (o + min len (e - o))
      (window_read_read (zip_source_ops_of buffer_class) low (-1) ctx stream len).2.2.1 ∧
    (window_read_read (zip_source_ops_of buffer_class) low (-1) ctx stream len).2.2.2.1 = ctx ∧
    (window_read_read (zip_source_ops_of buffer_class) low (-1) ctx stream len).2.2.2.2
      = ⟨o + min len (e - o)⟩ := by
  obtain ⟨low1, hsk, hr1⟩ := window_position_lower L chunk b o low ctx hb hl (by omega) (by omega)
  have hst : stream = ⟨o⟩ := by cases stream; simp_all
  subst hst
  have hsub : sub64 e o = e - o := sub64_of_le e o (by omega) (by omega)
  have hm : (if ctx.end_valid && decide (len > sub64 ctx.end_ o)
      then sub64 ctx.end_ o else len) = min len (e - o) := by
    simp only [hv, he, hsub, Bool.true_and]
    by_cases h : len > e - o
    · simp [h]; omega
    · simp [h]; omega
  have hmpos : 0 < min len (e - o) := by omega
  have hrd := buffer_read_full L chunk o (min len (e - o)) hc low1 hr1 hmpos (by omega) (by omega)
  obtain ⟨h1, h2, h3⟩ := hrd
  unfold window_read_read
  simp only [hm]
  rw [hsk]
  have hm0 : min len (e - o) ≠ 0 := by omega
  simp only [hm0, if_false]
  have hneg : ¬ ((0 : Int) < 0) := by omega
  simp only [hneg, decide_False, Bool.and_false, Bool.false_eq_true, if_false]
  have hcall : _zip_source_read (zip_source_ops_of buffer_class) low1 (-1) (min len (e - o))
      = zip_source_read buffer_class low1 (min len (e - o)) := by
    simp [_zip_source_read, zip_source_ops_of]
  rw [hcall]
  have hn1 : ¬ (zip_source_read buffer_class low1 (min len (e - o))).1 < 0 := by rw [h1]; omega
  have hn2 : ¬ (zip_source_read buffer_class low1 (min len (e - o))).1 = 0 := by rw [h1]; omega
  simp only [hn1, hn2, if_false, false_and]
  rw [h1, Int.toNat_ofNat, add64_of_lt o _ (by omega)]
  exact ⟨rfl, h2, h3, trivial, rfl⟩

theorem zip_source_read_loop_done {τ σ υ : Type} (K : zip_source_class τ σ υ) (len fuel : Nat)
    (src : zip_source_t τ σ υ) (acc : List Nat) :
    zip_source_read_loop K len fuel src len acc = (none, src, len, acc) := by
  cases fuel <;> simp [zip_source_read_loop]

theorem window_call_read (B : Nat)
    (W : zip_source_t (zip_source_t Unit buffer_src Unit) window window_stream_t) (size : Nat) :
    _zip_source_call (buffer_window_class B) W (-1) (.raw [] size) ZIP_SOURCE_READ =
      ((window_read_read (zip_source_ops_of buffer_class) W.src (-1) W.ud W.ud.stream size).1,
        .raw (window_read_read (zip_source_ops_of buffer_class) W.src (-1) W.ud W.ud.stream size).2.1
          size,
        { W with
          src := (window_read_read (zip_source_ops_of buffer_class) W.src (-1) W.ud W.ud.stream
            size).2.2.1,
          ud := { (window_read_read (zip_source_ops_of buffer_class) W.src (-1) W.ud W.ud.stream
              size).2.2.2.1 with
            stream := (window_read_read (zip_source_ops_of buffer_class) W.src (-1) W.ud
              W.ud.stream size).2.2.2.2 } }) :=
  rfl

theorem read_at_eof {τ σ υ : Type} (K : zip_source_class τ σ υ) (W : zip_source_t τ σ υ)
    (h : at_eof W) (len : Nat) (hlen : len ≤ ZIP_INT64_MAX) :
    zip_source_read K W len = (0, [], W) := by
  obtain ⟨hopen, hcl, herr, heof⟩ := h
  have hmax : ¬ len > ZIP_INT64_MAX := by omega
  unfold zip_source_read
  simp [hcl, ZIP_SOURCE_IS_OPEN_READING, hopen, herr, heof, hmax]

theorem window_read_at_end (len : Nat) (low : zip_source_t Unit buffer_src Unit) (ctx : window)
    (stream : window_stream_t) (hv : ctx.end_valid = true) (hso : stream.offset = ctx.end_)
    (he : ctx.end_ < 2 ^ 64) :
    window_read_read (zip_source_ops_of buffer_class) low (-1) ctx stream len
      = (0, [], low, ctx, stream) := by
  have hsub : sub64 ctx.end_ ctx.end_ = 0 := by
    rw [sub64_of_le _ _ (le_refl _) he]; omega
  unfold window_read_read
  simp [hv, hso, hsub]

theorem window_read_spec (L : List Nat) (chunk s e B : Nat) (hc : 0 < chunk) (b : Bool)
    (o len : Nat) (W : zip_source_t (zip_source_t Unit buffer_src Unit) window window_stream_t)
    (hr : window_ready L chunk s e b o W) (hoe : o ≤ e) (heL : e ≤ L.length) (h63 : e < 2 ^ 63)
    (hlen : 0 < len) (hmax : len ≤ ZIP_INT64_MAX) :
    (zip_source_read (buffer_window_class B) W len).1 = ((min len (e - o) : Nat) : Int) ∧
    (zip_source_read (buffer_window_class B) W len).2.1 = (L.drop o).take (min len (e - o)) ∧
    (len ≤ e - o →
      window_ready L chunk s e b (o + len) (zip_source_read (buffer_window_class B) W len).2.2) ∧
    (e - o < len → at_eof (zip_source_read (buffer_window_class B) W len).2.2) := by
  obtain ⟨hopen, hcl, herr, heof, hs, he, hv, hb, hso, hl⟩ := hr
  have hmax1 : ¬ len > ZIP_INT64_MAX := by omega
  have hmax2 : len < 2 ^ 63 := by unfold ZIP_INT64_MAX at hmax; omega
  have hl0 : len ≠ 0 := by omega
  obtain ⟨k, rfl⟩ : ∃ k, len = k + 1 := ⟨len - 1, by omega⟩
  unfold zip_source_read
  simp only [hcl, ZIP_SOURCE_IS_OPEN_READING, hopen, herr, heof, hmax1, hl0, decide_True,
    decide_False, Bool.not_true, Bool.false_or, Bool.false_eq_true, if_false]
  unfold zip_source_read_loop
  simp only [Nat.zero_lt_succ, if_true, Nat.sub_zero]
  rw [window_call_read]
  by_cases hend : o = e
  · -- the window is exhausted: the callback returns 0
    subst hend
    rw [window_read_at_end (k + 1) W.src W.ud W.ud.stream hv (by rw [hso, he]) (by omega)]
    simp [at_eof, hopen, hcl, herr, to_int64]
  · have hlt : o < e := by omega
    obtain ⟨h1, h2, h3, h4, h5⟩ := window_read_read_inside L chunk hc b o e (k + 1) W.src W.ud
      W.ud.stream hb he hv hso hl hlt heL h63 (by omega)
    simp only [h1, h2, h4, h5]
    have hn1 : ¬ ((min (k + 1) (e - o) : Nat) : Int) < 0 := by omega
    have hn2 : ¬ ((min (k + 1) (e - o) : Nat) : Int) = 0 := by omega
    simp only [hn1, hn2, if_false, Int.toNat_ofNat, Nat.zero_add, List.nil_append,
      zip_source_data.written, List.take_take, min_self]
    by_cases hfit : k + 1 ≤ e - o
    · -- the read fits into the window: one callback call fills the buffer
      have hmin : min (k + 1) (e - o) = k + 1 := by omega
      simp only [hmin]
      rw [zip_source_read_loop_done]
      simp only [to_int64_small (k + 1) hmax2]
      refine ⟨trivial, trivial, ?_, ?_⟩
      · intro _
        exact ⟨hopen, hcl, herr, heof, hs, he, hv, hb, rfl,
          window_lower_ready_of_buffer_ready L chunk b _ _ (by simpa [hmin] using h3)⟩
      · intro h; omega
    · -- the window ends before the buffer is full: the second callback call returns 0
      have hmin : min (k + 1) (e - o) = e - o := by omega
      simp only [hmin]
      obtain ⟨j, rfl⟩ : ∃ j, k = j + 1 := ⟨k - 1, by omega⟩
      unfold zip_source_read_loop
      have hlt2 : e - o < j + 1 + 1 := by omega
      simp only [hlt2, if_true]
      rw [window_call_read]
      rw [window_read_at_end]
      · simp only [lt_irrefl, if_false, if_true]
        simp only [to_int64_small (e - o) (by omega)]
        refine ⟨trivial, trivial, ?_, ?_⟩
        · intro h; omega
        · intro _
          exact ⟨hopen, hcl, herr, rfl⟩
      · exact hv
      · show o + (e - o) = W.ud.end_
        omega
      · show W.ud.end_ < 2 ^ 64
        omega

theorem window_drain (L : List Nat) (chunk s B : Nat) (hc : 0 < chunk) (hB : 0 < B)
    (hs : s ≤ L.length) (h63 : s < 2 ^ 63) :
    ∀ (fuel : Nat) (low : zip_source_t Unit buffer_src Unit) (n : Nat),
      buffer_ready L chunk n low → n ≤ s → s - n ≤ fuel →
      ∃ low1, window_read_open_loop (zip_source_ops_of buffer_class) B (-1) s fuel low n
          = (none, low1) ∧ buffer_ready L chunk s low1 := by
  intro fuel
  induction fuel with
  | zero =>
    intro low n hr hn hf
    have : n = s := by omega
    subst this
    exact ⟨low, by simp [window_read_open_loop], hr⟩
  | succ fuel ih =>
    intro low n hr hn hf
    unfold window_read_open_loop
    by_cases hlt : n < s
    · simp only [hlt, if_true]
      have hcall : ∀ i, _zip_source_read (zip_source_ops_of buffer_class) low (-1) i
          = zip_source_read buffer_class low i := by
        intro i; simp [_zip_source_read, zip_source_ops_of]
      rw [hcall]
      have hi : 0 < (if s - n > B then B else s - n) := by split <;> omega
      have hi2 : (if s - n > B then B else s - n) ≤ s - n := by split <;> omega
      obtain ⟨h1, _, h3⟩ := buffer_read_full L chunk n _ hc low hr hi (by omega) (by omega)
      have hn1 : ¬ (zip_source_read buffer_class low (if s - n > B then B else s - n)).1 < 0 := by
        rw [h1]; omega
      have hn2 : ¬ (zip_source_read buffer_class low (if s - n > B then B else s - n)).1 = 0 := by
        rw [h1]; omega
      simp only [hn1, hn2, if_false]
      rw [h1, Int.toNat_ofNat, add64_of_lt n _ (by omega)]
      exact ih _ _ h3 (by omega) (by omega)
    · have : n = s := by omega
      subst this
      exact ⟨low, by simp, hr⟩

theorem buffer_open_fresh (L : List Nat) (chunk : Nat) :
    (zip_source_open buffer_class (buffer_new L chunk)).1 = 0 ∧
    buffer_ready L chunk 0 (zip_source_open buffer_class (buffer_new L chunk)).2 := by
  refine ⟨rfl, rfl, ?_, rfl, rfl, rfl⟩
  show 0 < 1
  omega

theorem window_open_ready (L : List Nat) (chunk s n B : Nat) (b : Bool) (hc : 0 < chunk)
    (hB : 0 < B) (hs : s ≤ L.length) (h63 : s + n < 2 ^ 63) :
    (zip_source_open (buffer_window_class B) (buffer_window_new L chunk (window_ctx s n b))).1 = 0 ∧
    window_ready L chunk s (s + n) b s
      (zip_source_open (buffer_window_class B) (buffer_window_new L chunk (window_ctx s n b))).2 := by
  obtain ⟨ho1, ho2⟩ := buffer_open_fresh L chunk
  unfold zip_source_open
  simp only [buffer_window_new, zip_source_new, Bool.false_eq_true, if_false,
    ZIP_SOURCE_IS_OPEN_READING, lt_irrefl, decide_False, buffer_window_class, window_class,
    zip_source_ops_of, ho1, _zip_source_call, window_read]
  cases b with
  | true =>
    simp [window_read_open, _needs_seek, window_ctx, window_ready, zip_error_clear,
      window_lower_ready]
    obtain ⟨h1, h2, h3, h4, h5⟩ := ho2
    simp [h1, h2, h3, h4]
  | false =>
    obtain ⟨low1, hd1, hd2⟩ := window_drain L chunk s B hc hB (by omega) (by omega) s
      (zip_source_open buffer_class (buffer_new L chunk)).2 0 ho2 (by omega) (by omega)
    simp only [window_read_open, _needs_seek, window_ctx, alloc_next]
    simp only [zip_source_ops_of] at hd1
    simp [hd1, window_ready, window_lower_ready_of_buffer_ready L chunk false s low1 hd2]

theorem window_read_until_end (L : List Nat) (chunk s e B len : Nat) (hc : 0 < chunk) (b : Bool)
    (heL : e ≤ L.length) (h63 : e < 2 ^ 63) (hlen : 0 < len) (hmax : len ≤ ZIP_INT64_MAX) :
    ∀ (fuel o : Nat) (W : zip_source_t (zip_source_t Unit buffer_src Unit) window window_stream_t)
      (acc : List Nat),
      window_ready L chunk s e b o W → o ≤ e → e - o + 2 ≤ fuel →
      (read_until_end (buffer_window_class B) len fuel W acc).map (fun r => (r.1, r.2.1))
        = some (0, acc ++ (L.drop o).take (e - o)) := by
  intro fuel
  induction fuel with
  | zero => intro o W acc _ _ hf; omega
  | succ fuel ih =>
    intro o W acc hr hoe hf
    obtain ⟨h1, h2, h3, h4⟩ := window_read_spec L chunk s e B hc b o len W hr hoe heL h63 hlen hmax
    unfold read_until_end
    by_cases hfit : len ≤ e - o
    · have hmin : min len (e - o) = len := by omega
      rw [hmin] at h1 h2
      have hpos : ¬ (zip_source_read (buffer_window_class B) W len).1 ≤ 0 := by rw [h1]; omega
      simp only [hpos, if_false]
      rw [ih (o + len) _ _ (h3 hfit) (by omega) (by omega), h2]
      have e2 : e - o = len + (e - (o + len)) := by omega
      conv_rhs => rw [e2, List.take_add, List.drop_drop]
      simp [Nat.add_comm]
    · have hmin : min len (e - o) = e - o := by omega
      rw [hmin] at h1 h2
      have heof := h4 (by omega)
      by_cases hz : e - o = 0
      · have hle : (zip_source_read (buffer_window_class B) W len).1 ≤ 0 := by rw [h1]; omega
        simp [hle, h1, hz]
      · have hpos : ¬ (zip_source_read (buffer_window_class B) W len).1 ≤ 0 := by rw [h1]; omega
        simp only [hpos, if_false]
        obtain ⟨f, rfl⟩ : ∃ f, fuel = f + 1 := ⟨fuel - 1, by omega⟩
        unfold read_until_end
        rw [read_at_eof _ _ heof len hmax]
        simp [h2]

theorem buffer_read_at_end (L : List Nat) (chunk len : Nat) (hc : 0 < chunk)
    (low : zip_source_t Unit buffer_src Unit) (hud : low.ud = ⟨L, L.length, chunk⟩)
    (hopen : 0 < low.open_count) (hcl : low.source_closed = false)
    (herr : low.had_read_error = false) (hlen : 0 < len) (h63 : len < 2 ^ 63) :
    (zip_source_read buffer_class low len).1 = 0 ∧
    (zip_source_read buffer_class low len).2.2.ud = ⟨L, L.length, chunk⟩ ∧
    0 < (zip_source_read buffer_class low len).2.2.open_count ∧
    (zip_source_read buffer_class low len).2.2.source_closed = false ∧
    (zip_source_read buffer_class low len).2.2.had_read_error = false := by
  by_cases heof : low.eof = true
  · have hmax : len ≤ ZIP_INT64_MAX := by unfold ZIP_INT64_MAX; omega
    rw [read_at_eof buffer_class low ⟨hopen, hcl, herr, heof⟩ len hmax]
    exact ⟨rfl, hud, hopen, hcl, herr⟩
  · have hr : buffer_ready L chunk L.length low := ⟨hud, hopen, hcl, herr, by simpa using heof⟩
    obtain ⟨h1, _, _, h4, h5, h6, h7⟩ :=
      buffer_read_short L chunk L.length len hc low hr h63 (le_refl _) (by omega)
    refine ⟨by rw [h1]; simp, h4, h5, h6, h7⟩

theorem window_read_read_short (L : List Nat) (chunk : Nat) (hc : 0 < chunk) (b : Bool)
    (o e len : Nat) (low : zip_source_t Unit buffer_src Unit) (ctx : window)
    (stream : window_stream_t)
    (hb : ctx.needs_seek = b) (he : ctx.end_ = e) (hv : ctx.end_valid = true)
    (hso : stream.offset = o)
    (hl : window_lower_ready L chunk b o low) (hoL : o < L.length) (hLe : L.length < e)
    (h63 : e < 2 ^ 63) (hlen : L.length - o < len) :
    (window_read_read (zip_source_ops_of buffer_class) low (-1) ctx stream len).1
      = ((L.length - o : Nat) : Int) ∧
    (window_read_read (zip_source_ops_of buffer_class) low (-1) ctx stream len).2.1
      = L.drop o ∧
    window_lower_drained L chunk b
      (window_read_read (zip_source_ops_of buffer_class) low (-1) ctx stream len).2.2.1 ∧
    (window_read_read (zip_source_ops_of buffer_class) low (-1) ctx stream len).2.2.2.1 = ctx ∧
    (window_read_read (zip_source_ops_of buffer_class) low (-1) ctx stream len).2.2.2.2
      = ⟨L.length⟩ := by
  obtain ⟨low1, hsk, hr1⟩ := window_position_lower L chunk b o low ctx hb hl (by omega) (by omega)
  have hst : stream = ⟨o⟩ := by cases stream; simp_all
  subst hst
  have hsub : sub64 e o = e - o := sub64_of_le e o (by omega) (by omega)
  have hm : (if ctx.end_valid && decide (len > sub64 ctx.end_ o)
      then sub64 ctx.end_ o else len) = min len (e - o) := by
    simp only [hv, he, hsub, Bool.true_and]
    by_cases h : len > e - o
    · simp [h]; omega
    · simp [h]; omega
  obtain ⟨h1, h2, _, h4, h5, h6, h7⟩ :=
    buffer_read_short L chunk o (min len (e - o)) hc low1 hr1 (by omega) (by omega) (by omega)
  unfold window_read_read
  simp only [hm]
  rw [hsk]
  have hm0 : min len (e - o) ≠ 0 := by omega
  simp only [hm0, if_false]
  have hneg : ¬ ((0 : Int) < 0) := by omega
  simp only [hneg, decide_False, Bool.and_false, Bool.false_eq_true, if_false]
  have hcall : _zip_source_read (zip_source_ops_of buffer_class) low1 (-1) (min len (e - o))
      = zip_source_read buffer_class low1 (min len (e - o)) := by
    simp [_zip_source_read, zip_source_ops_of]
  rw [hcall]
  have hn1 : ¬ (zip_source_read buffer_class low1 (min len (e - o))).1 < 0 := by rw [h1]; omega
  have hn2 : ¬ (zip_source_read buffer_class low1 (min len (e - o))).1 = 0 := by rw [h1]; omega
  simp only [hn1, hn2, if_false, false_and]
  rw [h1, Int.toNat_ofNat, add64_of_lt o _ (by omega)]
  refine ⟨rfl, h2, ?_, trivial, ?_⟩
  · refine ⟨by rw [h4], by rw [h4], h5, h6, h7, fun _ => by rw [h4]⟩
  · congr 1; omega

theorem window_read_read_truncated (L : List Nat) (chunk : Nat) (hc : 0 < chunk) (b : Bool)
    (e len : Nat) (low : zip_source_t Unit buffer_src Unit) (ctx : window)
    (stream : window_stream_t)
    (hb : ctx.needs_seek = b) (he : ctx.end_ = e) (hv : ctx.end_valid = true)
    (hso : stream.offset = L.length)
    (hl : window_lower_drained L chunk b low) (hLe : L.length < e)
    (h63 : e < 2 ^ 63) (hlen : 0 < len) :
    (window_read_read (zip_source_ops_of buffer_class) low (-1) ctx stream len).1 = -1 ∧
    (window_read_read (zip_source_ops_of buffer_class) low (-1) ctx stream len).2.2.2.1
      = { ctx with error := zip_error_set ZIP_ER_EOF 0 } := by
  obtain ⟨hd, hch, hopen, hcl, herr, hpos⟩ := hl
  have hns : _needs_seek ctx (-1) = b := by simp [_needs_seek, hb]
  have hsub : sub64 e L.length = e - L.length := sub64_of_le e _ (by omega) (by omega)
  have hm : (if ctx.end_valid && decide (len > sub64 ctx.end_ stream.offset)
      then sub64 ctx.end_ stream.offset else len) = min len (e - L.length) := by
    simp only [hv, he, hso, hsub, Bool.true_and]
    by_cases h : len > e - L.length
    · simp [h]; omega
    · simp [h]; omega
  have hm0 : min len (e - L.length) ≠ 0 := by omega
  have hcall : ∀ l i, _zip_source_read (zip_source_ops_of buffer_class) l (-1) i
      = zip_source_read buffer_class l i := by
    intro l i; simp [_zip_source_read, zip_source_ops_of]
  have hudp : low.ud = ⟨L, low.ud.pos, chunk⟩ := by
    cases hu : low.ud with
    | mk d p c => simp_all
  unfold window_read_read
  simp only [hm]
  simp only [hm0, if_false, hso, hns, hcall, window_seek_lower]
  cases b with
  | false =>
    have hud : low.ud = ⟨L, L.length, chunk⟩ := by rw [hudp, hpos rfl]
    obtain ⟨h1, _⟩ := buffer_read_at_end L chunk (min len (e - L.length)) hc low hud hopen hcl herr
      (by omega) (by omega)
    simp only [Bool.false_eq_true, if_false, Bool.false_and, h1, lt_irrefl, Int.toNat_zero,
      true_and, hv, add64_of_lt L.length 0 (by omega), Nat.add_zero, he, hLe, and_self,
      if_true]
  | true =>
    have hsk := buffer_seek_set L chunk low.ud.pos L.length low hudp hopen hcl (le_refl _)
      (by omega)
    simp only [zip_source_ops_of, if_true, Bool.true_and]
    rw [hsk]
    obtain ⟨h1, _⟩ := buffer_read_at_end L chunk (min len (e - L.length)) hc
      { low with ud := ⟨L, L.length, chunk⟩, eof := false } rfl hopen hcl herr
      (by omega) (by omega)
    simp only [lt_irrefl, decide_False, Bool.false_eq_true, if_false, h1, Int.toNat_zero,
      true_and, hv, add64_of_lt L.length 0 (by omega), Nat.add_zero, he, hLe, and_self,
      if_true]

theorem read_after_error {τ σ υ : Type} (K : zip_source_class τ σ υ) (W : zip_source_t τ σ υ)
    (h : W.had_read_error = true) (len : Nat) :
    (zip_source_read K W len).1 = -1 ∧ (zip_source_read K W len).2.2.ud = W.ud := by
  unfold zip_source_read
  by_cases h1 : W.source_closed = true
  · simp [h1]
  · by_cases h2 : (!ZIP_SOURCE_IS_OPEN_READING W || decide (len > ZIP_INT64_MAX)) = true
    · simp [h1, h2]
    · simp [h1, h2, h]

theorem window_read_truncated_spec (L : List Nat) (chunk s e B : Nat) (hc : 0 < chunk) (b : Bool)
    (o len : Nat) (W : zip_source_t (zip_source_t Unit buffer_src Unit) window window_stream_t)
    (hr : window_ready L chunk s e b o W) (hoL : o < L.length) (hLe : L.length < e)
    (h63 : e < 2 ^ 63) (hlen : L.length - o < len) (hmax : len ≤ ZIP_INT64_MAX) :
    (zip_source_read (buffer_window_class B) W len).1 = ((L.length - o : Nat) : Int) ∧
    (zip_source_read (buffer_window_class B) W len).2.1 = L.drop o ∧
    (zip_source_read (buffer_window_class B) W len).2.2.had_read_error = true ∧
    (zip_source_read (buffer_window_class B) W len).2.2.ud.error = zip_error_set ZIP_ER_EOF 0 := by
  obtain ⟨hopen, hcl, herr, heof, hs, he, hv, hb, hso, hl⟩ := hr
  have hmax1 : ¬ len > ZIP_INT64_MAX := by omega
  have hmax2 : len < 2 ^ 63 := by unfold ZIP_INT64_MAX at hmax; omega
  have hl0 : len ≠ 0 := by omega
  obtain ⟨k, rfl⟩ : ∃ k, len = k + 1 := ⟨len - 1, by omega⟩
  obtain ⟨j, rfl⟩ : ∃ j, k = j + 1 := ⟨k - 1, by omega⟩
  unfold zip_source_read
  simp only [hcl, ZIP_SOURCE_IS_OPEN_READING, hopen, herr, heof, hmax1, hl0, decide_True,
    decide_False, Bool.not_true, Bool.false_or, Bool.false_eq_true, if_false]
  unfold zip_source_read_loop
  simp only [Nat.zero_lt_succ, if_true, Nat.sub_zero]
  rw [window_call_read]
  obtain ⟨h1, h2, h3, h4, h5⟩ := window_read_read_short L chunk hc b o e (j + 1 + 1) W.src W.ud
    W.ud.stream hb he hv hso hl hoL hLe h63 hlen
  simp only [h1, h2, h4, h5]
  have hn1 : ¬ ((L.length - o : Nat) : Int) < 0 := by omega
  have hn2 : ¬ ((L.length - o : Nat) : Int) = 0 := by omega
  simp only [hn1, hn2, if_false, Int.toNat_ofNat, Nat.zero_add, List.nil_append,
    zip_source_data.written]
  unfold zip_source_read_loop
  simp only [hlen, if_true]
  rw [window_call_read]
  obtain ⟨t1, t2⟩ := window_read_read_truncated L chunk hc b e (j + 1 + 1 - (L.length - o))
    (window_read_read (zip_source_ops_of buffer_class) W.src (-1) W.ud W.ud.stream
      (j + 1 + 1)).2.2.1
    { W.ud with stream := ⟨L.length⟩ } ⟨L.length⟩ hb he hv rfl h3 hLe h63 (by omega)
  simp only [t1, t2]
  have hav : ¬ (L.length - o = 0) := by omega
  simp [hav, to_int64_small (L.length - o) (by omega), List.take_of_length_le]



/-- C7: a window [s, s + n) on a lower source that delivers the bytes L (at
most chunk bytes per READ of its callback), with s + n within L.  The open
succeeds, and reading with buffers of any length len until a read returns 0
yields exactly the n bytes L[s .. s + n) and ends with the value 0.  The
statement holds for both modes b of the window: b = true, where the window seeks
the lower source to its offset before each read, and b = false, where the open
discards the first s bytes of the lower source; so both modes deliver the same
bytes. -/
theorem window_reads_lower_range (L : List Nat) (s n chunk B len fuel : Nat) (b : Bool)
    (hc : 0 < chunk) (hB : 0 < B) (hL : s + n ≤ L.length) (h63 : s + n < 2 ^ 63)
    (hlen : 0 < len) (hmax : len ≤ ZIP_INT64_MAX) (hfuel : n + 2 ≤ fuel) :
    (zip_source_open (buffer_window_class B) (buffer_window_new L chunk (window_ctx s n b))).1 = 0 ∧
    (read_until_end (buffer_window_class B) len fuel
        (zip_source_open (buffer_window_class B)
          (buffer_window_new L chunk (window_ctx s n b))).2 []).map (fun r => (r.1, r.2.1))
      = some (0, (L.drop s).take n) := by
  obtain ⟨h1, h2⟩ := window_open_ready L chunk s n B b hc hB (by omega) h63
  refine ⟨h1, ?_⟩
  have := window_read_until_end L chunk s (s + n) B len hc b hL h63 hlen hmax fuel s _ [] h2
    (by omega) (by omega)
  rw [List.nil_append, Nat.add_sub_cancel_left] at this
  exact this

/-- C7, instance (scenario 1): a 32-byte lower source without seek, window
start 10, length 8.  The theorem applies; read(16) returns the 8 bytes
L[10 .. 18) and the next read returns 0. -/
theorem window_reads_lower_range_witness :
    ((zip_source_open (buffer_window_class 8192)
        (buffer_window_new (List.range 32) 32 (window_ctx 10 8 false))).1 = 0 ∧
      (read_until_end (buffer_window_class 8192) 16 10
          (zip_source_open (buffer_window_class 8192)
            (buffer_window_new (List.range 32) 32 (window_ctx 10 8 false))).2 []).map
          (fun r => (r.1, r.2.1))
        = some (0, ((List.range 32).drop 10).take 8)) ∧
    (zip_source_read (buffer_window_class 8192)
        (zip_source_open (buffer_window_class 8192)
          (buffer_window_new (List.range 32) 32 (window_ctx 10 8 false))).2 16).1 = 8 ∧
    (zip_source_read (buffer_window_class 8192)
        (zip_source_open (buffer_window_class 8192)
          (buffer_window_new (List.range 32) 32 (window_ctx 10 8 false))).2 16).2.1
      = [10, 11, 12, 13, 14, 15, 16, 17] ∧
    (zip_source_read (buffer_window_class 8192)
        (zip_source_read (buffer_window_class 8192)
          (zip_source_open (buffer_window_class 8192)
            (buffer_window_new (List.range 32) 32 (window_ctx 10 8 false))).2 16).2.2 16).1 = 0 :=
  ⟨window_reads_lower_range (List.range 32) 10 8 32 8192 16 10 false (by decide) (by decide)
      (by decide) (by decide) (by decide) (by decide) (by decide),
    by decide, by decide, by decide⟩

/-- C8: truncation is an error only for bounded windows.  (1) A bounded window
[s, s + n) on a lower source that delivers the bytes L and ends inside the
window (s < |L| < s + n): a zip_source_read that asks for more than the |L| - s
bytes available returns these bytes, and every following read returns -1, with
the error of the window set to EOF.  (2) In window_read_read on an unbounded
window, over any lower source, a lower read that returns 0 (after a seek that
did not fail, when the window seeks) is returned as 0 and leaves the context,
in particular its error, unchanged. -/
theorem window_truncation :
    (∀ (L : List Nat) (s n chunk B len len2 : Nat) (b : Bool),
      0 < chunk → 0 < B → s < L.length → L.length < s + n → s + n < 2 ^ 63 →
      L.length - s < len → len ≤ ZIP_INT64_MAX →
      (zip_source_read (buffer_window_class B)
          (zip_source_open (buffer_window_class B)
            (buffer_window_new L chunk (window_ctx s n b))).2 len).1 = ((L.length - s : Nat) : Int) ∧
      (zip_source_read (buffer_window_class B)
          (zip_source_open (buffer_window_class B)
            (buffer_window_new L chunk (window_ctx s n b))).2 len).2.1 = L.drop s ∧
      (zip_source_read (buffer_window_class B)
          (zip_source_read (buffer_window_class B)
            (zip_source_open (buffer_window_class B)
              (buffer_window_new L chunk (window_ctx s n b))).2 len).2.2 len2).1 = -1 ∧
      (zip_source_read (buffer_window_class B)
          (zip_source_read (buffer_window_class B)
            (zip_source_open (buffer_window_class B)
              (buffer_window_new L chunk (window_ctx s n b))).2 len).2.2 len2).2.2.ud.error
        = zip_error_set ZIP_ER_EOF 0) ∧
    (∀ (τ : Type) (A : zip_source_ops τ) (src : τ) (stream_id : Int) (ctx : window)
        (stream : window_stream_t) (len : Nat),
      ctx.end_valid = false → len ≠ 0 →
      (_needs_seek ctx stream_id = true → 0 ≤ (window_seek_lower A src stream_id ctx stream).1) →
      (_zip_source_read A (window_seek_lower A src stream_id ctx stream).2 stream_id len).1 = 0 →
      (window_read_read A src stream_id ctx stream len).1 = 0 ∧
      (window_read_read A src stream_id ctx stream len).2.2.2.1 = ctx) := by
  constructor
  · intro L s n chunk B len len2 b hc hB hs htr h63 hlen hmax
    obtain ⟨_, h2⟩ := window_open_ready L chunk s n B b hc hB (by omega) h63
    obtain ⟨r1, r2, r3, r4⟩ := window_read_truncated_spec L chunk s (s + n) B hc b s len _ h2 hs
      htr h63 hlen hmax
    obtain ⟨e1, e2⟩ := read_after_error (buffer_window_class B) _ r3 len2
    exact ⟨r1, r2, e1, by rw [e2, r4]⟩
  · intro τ A src stream_id ctx stream len hv hl hsk hrd
    unfold window_read_read
    have hnofail : (_needs_seek ctx stream_id &&
        decide ((window_seek_lower A src stream_id ctx stream).1 < 0)) = false := by
      cases hns : _needs_seek ctx stream_id with
      | false => simp
      | true =>
        have := hsk hns
        simp only [Bool.true_and, decide_eq_false_iff_not]
        omega
    simp [hv, hl, hnofail, hrd]

/-- C8, instance (scenario 2): a lower source of 12 bytes, window [0, 20).
read(20) returns the 12 bytes, the next read returns -1 with EOF.  For the
unbounded window from 3 on the same lower source, read(20) returns the 9 bytes
left, sets no error, and the next read returns 0. -/
theorem window_truncation_witness :
    ((zip_source_read (buffer_window_class 8192)
          (zip_source_open (buffer_window_class 8192)
            (buffer_window_new (List.range 12) 12 (window_ctx 0 20 false))).2 20).1
        = ((12 - 0 : Nat) : Int) ∧
      (zip_source_read (buffer_window_class 8192)
          (zip_source_open (buffer_window_class 8192)
            (buffer_window_new (List.range 12) 12 (window_ctx 0 20 false))).2 20).2.1
        = (List.range 12).drop 0 ∧
      (zip_source_read (buffer_window_class 8192)
          (zip_source_read (buffer_window_class 8192)
            (zip_source_open (buffer_window_class 8192)
              (buffer_window_new (List.range 12) 12 (window_ctx 0 20 false))).2 20).2.2 20).1 = -1 ∧
      (zip_source_read (buffer_window_class 8192)
          (zip_source_read (buffer_window_class 8192)
            (zip_source_open (buffer_window_class 8192)
              (buffer_window_new (List.range 12) 12 (window_ctx 0 20 false))).2 20).2.2 20).2.2.ud.error
        = zip_error_set ZIP_ER_EOF 0) ∧
    (zip_source_read (buffer_window_class 8192)
        (zip_source_open (buffer_window_class 8192)
          (buffer_window_new (List.range 12) 12 (window_ctx_unbounded 3 false))).2 20).1 = 9 ∧
    (zip_source_read (buffer_window_class 8192)
        (zip_source_open (buffer_window_class 8192)
          (buffer_window_new (List.range 12) 12 (window_ctx_unbounded 3 false))).2 20).2.2.ud.error
      = zip_error_clear ∧
    (zip_source_read (buffer_window_class 8192)
        (zip_source_read (buffer_window_class 8192)
          (zip_source_open (buffer_window_class 8192)
            (buffer_window_new (List.range 12) 12 (window_ctx_unbounded 3 false))).2 20).2.2 20).1
      = 0 :=
  ⟨window_truncation.1 (List.range 12) 0 20 12 8192 20 20 false (by decide) (by decide)
      (by decide) (by decide) (by decide) (by decide) (by decide),
    by decide, by decide, by decide⟩


/-! ## Compression layer: the store shortcut -/

theorem buffer_read_any (X : List Nat) (chunk B : Nat) (hc : 0 < chunk) (hB : 0 < B)
    (hB63 : B < 2 ^ 63) (low : zip_source_t Unit buffer_src Unit)
    (hok : compress_lower_ok X chunk low) :
    (zip_source_read buffer_class low B).1 = ((min B (X.length - low.ud.pos) : Nat) : Int) ∧
    (zip_source_read buffer_class low B).2.1
      = (X.drop low.ud.pos).take (min B (X.length - low.ud.pos)) ∧
    compress_lower_ok X chunk (zip_source_read buffer_class low B).2.2 ∧
    (zip_source_read buffer_class low B).2.2.ud.pos = low.ud.pos + min B (X.length - low.ud.pos) := by
  obtain ⟨hd, hch, hopen, hcl, herr, hpos, heofpos⟩ := hok
  have hud : low.ud = ⟨X, low.ud.pos, chunk⟩ := by
    cases hu : low.ud with
    | mk d p c => simp_all
  by_cases heof : low.eof = true
  · have hp := heofpos heof
    have hmax : B ≤ ZIP_INT64_MAX := by unfold ZIP_INT64_MAX; omega
    rw [read_at_eof buffer_class low ⟨hopen, hcl, herr, heof⟩ B hmax]
    have hm : min B (X.length - low.ud.pos) = 0 := by omega
    simp only [hm]
    exact ⟨rfl, by simp, ⟨hd, hch, hopen, hcl, herr, hpos, heofpos⟩, by omega⟩
  · have hr : buffer_ready X chunk low.ud.pos low := ⟨hud, hopen, hcl, herr, by simpa using heof⟩
    by_cases hfull : low.ud.pos + B ≤ X.length
    · obtain ⟨h1, h2, h3⟩ := buffer_read_full X chunk low.ud.pos B hc low hr hB hB63 hfull
      have hm : min B (X.length - low.ud.pos) = B := by omega
      obtain ⟨g1, g2, g3, g4, g5⟩ := h3
      rw [hm]
      refine ⟨h1, h2, ⟨by rw [g1], by rw [g1], g2, g3, g4, by rw [g1]; exact hfull, ?_⟩, by rw [g1]⟩
      intro h; rw [g5] at h; cases h
    · obtain ⟨h1, h2, h3, h4, h5, h6, h7⟩ :=
        buffer_read_short X chunk low.ud.pos B hc low hr hB63 hpos (by omega)
      have hm : min B (X.length - low.ud.pos) = X.length - low.ud.pos := by omega
      rw [hm]
      refine ⟨h1, ?_, ⟨by rw [h4], by rw [h4], h5, h6, h7, by rw [h4], fun _ => by rw [h4]⟩, ?_⟩
      · rw [h2, List.take_of_length_le]; simp
      · rw [h4]; simp; omega


theorem to_uint64_nonneg (i : Int) (h0 : 0 ≤ i) (h : i < 2 ^ 63) : to_uint64 i = i.toNat := by
  unfold to_uint64
  rw [Int.emod_eq_of_lt h0 (by omega)]

theorem compress_step_store_inv (X : List Nat) (chunk B : Nat) (hc : 0 < chunk) (hB : 0 < B)
    (hB63 : B < 2 ^ 63) {α : Type} (alg : zip_compression_algorithm_t α) (em : List Nat)
    (st : compress_read_state (zip_source_t Unit buffer_src Unit) α)
    (h : store_loop_inv X chunk em st) (p : process_result α) :
    match compress_read_handle (zip_source_ops_of buffer_class) alg B (-1) st p with
    | .continue_ st1 => store_loop_inv X chunk em st1
    | .break_ st1 => store_loop_inv X chunk em st1
    | .return_ v st1 => store_inv X chunk st1.src st1.strm (em ++ st1.data.take v.toNat) := by
  obtain ⟨⟨hlow, hfr63, hI2, hI1, hI3, hI4, hI5⟩, hns⟩ := h
  unfold compress_read_handle
  rcases p with ⟨status, out, ud, perr⟩
  cases status with
  | ZIP_COMPRESSION_OK =>
    simp only [ne_eq, reduceCtorEq, not_false_eq_true, if_true]
    exact ⟨⟨hlow, hfr63, hI2, hI1, hI3, hI4, hI5⟩, hns⟩
  | ZIP_COMPRESSION_ERROR =>
    simp only [ne_eq, not_true_eq_false, if_false]
    split <;> exact ⟨⟨hlow, hfr63, hI2, hI1, hI3, hI4, hI5⟩, hns⟩
  | ZIP_COMPRESSION_END =>
    simp only [ne_eq, reduceCtorEq, not_false_eq_true, if_true]
    by_cases hfr : st.strm.first_read < 0
    · simp only [hfr, if_true]
      refine ⟨⟨hlow, hfr63, hI2, hI1, hI3, ?_, hI5⟩, hns⟩
      intro hs; rw [hns] at hs; cases hs
    · simp only [hfr, if_false]
      have hfr0 : 0 ≤ st.strm.first_read := by omega
      have hu : to_uint64 st.strm.first_read = st.strm.first_read.toNat :=
        to_uint64_nonneg _ hfr0 hfr63
      by_cases hst : (st.strm.can_store &&
          decide (to_uint64 st.strm.first_read ≤ st.out_offset + out.length)) = true
      · simp only [hst, if_true]
        simp only [Bool.and_eq_true, decide_eq_true_eq] at hst
        obtain ⟨hcan, hle⟩ := hst
        obtain ⟨hpos, hbuf⟩ := hI3 hcan hfr0
        have hem := hI1 hcan hns
        obtain ⟨hd, hch, hopen, hcl, herr, hposle, heofpos⟩ := hlow
        have hlen : (List.take st.strm.first_read.toNat st.strm.buffer).length
            = st.strm.first_read.toNat := by
          rw [hbuf, List.length_take]; omega
        have hv : (to_int64 st.strm.first_read.toNat).toNat = st.strm.first_read.toNat := by
          rw [to_int64_small _ (by omega)]; exact Int.toNat_ofNat _
        refine ⟨⟨hd, hch, hopen, hcl, herr, hposle, heofpos⟩, hfr63, hI2, ?_, ?_, ?_, hI5⟩
        · intro _ hc2; simp at hc2
        · intro _ _; exact ⟨hpos, hbuf⟩
        · intro _
          refine ⟨?_, ?_, rfl⟩
          · simp only [hu, hv, hem, List.nil_append]
            rw [List.take_append_of_le_length (le_of_eq hlen.symm),
              List.take_of_length_le (le_of_eq hlen), hbuf, hpos]
          · simp only [hu, hpos]
      · simp only [hst, Bool.false_eq_true, if_false]
        refine ⟨⟨hlow, hfr63, hI2, hI1, hI3, ?_, hI5⟩, hns⟩
        intro hs; rw [hns] at hs; cases hs
  | ZIP_COMPRESSION_NEED_DATA =>
    simp only [ne_eq, reduceCtorEq, not_false_eq_true, if_true]
    by_cases heoi : st.strm.end_of_input = true
    · simp only [heoi, if_true]
      exact ⟨⟨hlow, hfr63, hI2, hI1, hI3, hI4, fun _ => hI5 heoi⟩, hns⟩
    · simp only [heoi, Bool.false_eq_true, if_false]
      have hcall : _zip_source_read (zip_source_ops_of buffer_class) st.src (-1) B
          = zip_source_read buffer_class st.src B := by
        simp [_zip_source_read, zip_source_ops_of]
      rw [hcall]
      obtain ⟨r1, r2, r3, r4⟩ := buffer_read_any X chunk B hc hB hB63 st.src hlow
      have hn0 : ¬ (zip_source_read buffer_class st.src B).1 < 0 := by rw [r1]; omega
      simp only [hn0, if_false]
      by_cases hz : min B (X.length - st.src.ud.pos) = 0
      · have hn1 : (zip_source_read buffer_class st.src B).1 = 0 := by rw [r1, hz]; rfl
        simp only [hn1, if_true]
        have hposX : (zip_source_read buffer_class st.src B).2.2.ud.pos = X.length := by
          rw [r4]; obtain ⟨_, _, _, _, _, hp, _⟩ := hlow; omega
        have hpos_same : (zip_source_read buffer_class st.src B).2.2.ud.pos = st.src.ud.pos := by
          rw [r4, hz]; rfl
        refine ⟨⟨r3, ?_, ?_, hI1, ?_, ?_, fun _ => hposX⟩, hns⟩
        · show (if st.strm.first_read < 0 then 0 else st.strm.first_read) < 2 ^ 63
          split <;> omega
        · intro hlt
          exfalso
          have : (if st.strm.first_read < 0 then (0 : Int) else st.strm.first_read) < 0 := hlt
          split at this <;> omega
        · intro hcan hge
          show (zip_source_read buffer_class st.src B).2.2.ud.pos
              = (if st.strm.first_read < 0 then (0 : Int) else st.strm.first_read).toNat ∧
            List.take (if st.strm.first_read < 0 then (0 : Int) else st.strm.first_read).toNat
                st.strm.buffer
              = List.take (if st.strm.first_read < 0 then (0 : Int) else st.strm.first_read).toNat X
          by_cases hfr : st.strm.first_read < 0
          · simp only [hfr, if_true]
            obtain ⟨hp0, _⟩ := hI2 hfr
            rw [hpos_same, hp0]; simp
          · simp only [hfr, if_false]
            obtain ⟨hp, hb⟩ := hI3 hcan (by omega)
            rw [hpos_same]; exact ⟨hp, hb⟩
        · intro hs; rw [hns] at hs; cases hs
      · have hnpos : 0 < min B (X.length - st.src.ud.pos) := by omega
        have hn1 : ¬ (zip_source_read buffer_class st.src B).1 = 0 := by rw [r1]; omega
        simp only [hn1, if_false]
        have hlen2 : (zip_source_read buffer_class st.src B).2.1.length
            = min B (X.length - st.src.ud.pos) := by
          rw [r2, List.length_take, List.length_drop]; omega
        by_cases hfr : 0 ≤ st.strm.first_read
        · simp only [hfr, if_true]
          refine ⟨⟨r3, hfr63, ?_, ?_, ?_, ?_, ?_⟩, hns⟩
          · intro hlt; exfalso; exact absurd hlt (by show ¬ st.strm.first_read < 0; omega)
          · intro hcan; cases hcan
          · intro hcan; cases hcan
          · intro hs; rw [hns] at hs; cases hs
          · intro he; simp at he
        · simp only [hfr, if_false]
          have hlt : st.strm.first_read < 0 := by omega
          obtain ⟨hp0, _⟩ := hI2 hlt
          refine ⟨⟨r3, ?_, ?_, hI1, ?_, ?_, ?_⟩, hns⟩
          · show (zip_source_read buffer_class st.src B).1 < 2 ^ 63
            rw [r1]; omega
          · intro hneg; exfalso
            have : (zip_source_read buffer_class st.src B).1 < 0 := hneg
            exact hn0 this
          · intro _ _
            show (zip_source_read buffer_class st.src B).2.2.ud.pos
                = (zip_source_read buffer_class st.src B).1.toNat ∧
              List.take (zip_source_read buffer_class st.src B).1.toNat
                  ((zip_source_read buffer_class st.src B).2.1 ++
                    List.drop (zip_source_read buffer_class st.src B).2.1.length st.strm.buffer)
                = List.take (zip_source_read buffer_class st.src B).1.toNat X
            rw [r1, Int.toNat_ofNat, r4, hp0, Nat.zero_add]
            refine ⟨rfl, ?_⟩
            rw [List.take_append_of_le_length (by omega), List.take_of_length_le (by omega), r2, hp0]
            simp
          · intro hs; rw [hns] at hs; cases hs
          · intro he; simp at he

theorem compress_read_loop_exhausted {τ α : Type} (A : zip_source_ops τ)
    (alg : zip_compression_algorithm_t α) (B : Nat) (psid : Int) (len : Nat) :
    ∀ (fuel : Nat) (st : compress_read_state τ α),
      (compress_read_loop A alg B psid len fuel st).1 = true →
      (compress_read_loop A alg B psid len fuel st).2.1 = none := by
  intro fuel
  induction fuel with
  | zero => intro st _; rfl
  | succ fuel ih =>
    intro st h
    unfold compress_read_loop at h ⊢
    by_cases hlt : st.out_offset < len
    · simp only [hlt, if_true] at h ⊢
      cases heq : compress_read_step A alg B psid len st with
      | continue_ st2 =>
        rw [heq] at h
        exact ih st2 h
      | break_ st2 => rfl
      | return_ v st2 =>
        rw [heq] at h
        cases h
    · simp only [hlt, if_false]

theorem compress_loop_store_inv (X : List Nat) (chunk B len : Nat) (hc : 0 < chunk) (hB : 0 < B)
    (hB63 : B < 2 ^ 63) {α : Type} (alg : zip_compression_algorithm_t α) (em : List Nat) :
    ∀ (fuel : Nat) (st : compress_read_state (zip_source_t Unit buffer_src Unit) α),
      store_loop_inv X chunk em st →
      (∀ v, (compress_read_loop (zip_source_ops_of buffer_class) alg B (-1) len fuel st).2.1 = some v →
        store_inv X chunk
          (compress_read_loop (zip_source_ops_of buffer_class) alg B (-1) len fuel st).2.2.src
          (compress_read_loop (zip_source_ops_of buffer_class) alg B (-1) len fuel st).2.2.strm
          (em ++ (compress_read_loop (zip_source_ops_of buffer_class) alg B (-1) len fuel
            st).2.2.data.take v.toNat)) ∧
      ((compress_read_loop (zip_source_ops_of buffer_class) alg B (-1) len fuel st).2.1 = none →
        store_loop_inv X chunk em
          (compress_read_loop (zip_source_ops_of buffer_class) alg B (-1) len fuel st).2.2) := by
  intro fuel
  induction fuel with
  | zero =>
    intro st h
    exact ⟨fun v hv => (by simp [compress_read_loop] at hv), fun _ => h⟩
  | succ fuel ih =>
    intro st h
    unfold compress_read_loop
    by_cases hlt : st.out_offset < len
    · simp only [hlt, if_true]
      have hstep := compress_step_store_inv X chunk B hc hB hB63 alg em st h
        (alg.process st.strm.ud (len - st.out_offset))
      unfold compress_read_step
      cases heq : compress_read_handle (zip_source_ops_of buffer_class) alg B (-1) st
          (alg.process st.strm.ud (len - st.out_offset)) with
      | continue_ st2 =>
        rw [heq] at hstep
        exact ih st2 hstep
      | break_ st2 =>
        rw [heq] at hstep
        exact ⟨fun v hv => (by cases hv), fun _ => hstep⟩
      | return_ v st2 =>
        rw [heq] at hstep
        refine ⟨fun w hw => ?_, fun hn => (by cases hn)⟩
        cases hw
        exact hstep
    · simp only [hlt, if_false]
      exact ⟨fun v hv => (by cases hv), fun _ => h⟩

theorem compress_read_store_inv (X : List Nat) (chunk B fuel len : Nat) (hc : 0 < chunk)
    (hB : 0 < B) (hB63 : B < 2 ^ 63) {α : Type} (alg : zip_compression_algorithm_t α)
    (em : List Nat) (low : zip_source_t Unit buffer_src Unit) (error : zip_error_t)
    (strm : stream α) (h : store_inv X chunk low strm em) :
    store_inv X chunk
      (compress_read (zip_source_ops_of buffer_class) alg B fuel low (-1) error strm len).src
      (compress_read (zip_source_ops_of buffer_class) alg B fuel low (-1) error strm len).strm
      (em ++ (compress_read (zip_source_ops_of buffer_class) alg B fuel low (-1) error strm
        len).data) := by
  unfold compress_read
  split
  · simpa using h
  split
  · simpa using h
  rename_i hnerr hnend
  have hns : strm.is_stored = false := by
    obtain ⟨_, _, _, _, _, hI4, _⟩ := h
    by_cases hs : strm.is_stored = true
    · have := (hI4 hs).2.2
      simp [this] at hnend
    · simpa using hs
  have hloop := compress_loop_store_inv X chunk B len hc hB hB63 alg em fuel
    ⟨low, error, strm, [], 0⟩ ⟨h, hns⟩
  split
  · rename_i o st1 heq
    rw [heq] at hloop
    cases o with
    | none =>
      obtain ⟨hi, _⟩ := hloop.2 rfl
      simpa using hi
    | some v =>
      have := compress_read_loop_exhausted (zip_source_ops_of buffer_class) alg B (-1) len fuel
        ⟨low, error, strm, [], 0⟩
      rw [heq] at this
      cases this rfl
  · rename_i v st1 heq
    rw [heq] at hloop
    exact hloop.1 v rfl
  · rename_i st1 heq
    rw [heq] at hloop
    obtain ⟨⟨hlow, hfr63, hI2, hI1, hI3, hI4, hI5⟩, hns1⟩ := hloop.2 rfl
    split
    · refine ⟨hlow, hfr63, hI2, ?_, ?_, ?_, hI5⟩
      · intro hcs; cases hcs
      · intro hcs; cases hcs
      · intro hs
        have : st1.strm.is_stored = true := hs
        rw [hns1] at this; cases this
    · simpa using (⟨hlow, hfr63, hI2, hI1, hI3, hI4, hI5⟩ : store_inv X chunk st1.src st1.strm em)

theorem compress_reads_store_inv (X : List Nat) (chunk B fuel : Nat) (hc : 0 < chunk)
    (hB : 0 < B) (hB63 : B < 2 ^ 63) {α : Type} (alg : zip_compression_algorithm_t α) :
    ∀ (lens : List Nat)
      (s t : List Nat × zip_source_t Unit buffer_src Unit × zip_error_t × stream α),
      store_inv X chunk s.2.1 s.2.2.2 s.1 →
      compress_reads (zip_source_ops_of buffer_class) alg B fuel (-1) lens s = some t →
      store_inv X chunk t.2.1 t.2.2.2 t.1 := by
  intro lens
  induction lens with
  | nil =>
    intro s t h hrun
    simp only [compress_reads, Option.some.injEq] at hrun
    subst hrun
    exact h
  | cons len rest ih =>
    intro s t h hrun
    unfold compress_reads at hrun
    simp only at hrun
    split at hrun
    · cases hrun
    · have := compress_read_store_inv X chunk B fuel len hc hB hB63 alg s.1 s.2.1 s.2.2.1 s.2.2.2 h
      exact ih _ t this hrun

theorem buffer_stat (low : zip_source_t Unit buffer_src Unit) (h : low.source_closed = false) :
    (zip_source_ops_of buffer_class).zip_source_stat low = (0, zip_stat_init, low) := by
  simp only [zip_source_ops_of, zip_source_stat, h, Bool.false_eq_true, if_false]
  rfl

theorem buffer_get_file_attributes (low : zip_source_t Unit buffer_src Unit)
    (h : low.source_closed = false) :
    (zip_source_ops_of buffer_class).zip_source_get_file_attributes low = (0, low) := by
  simp only [zip_source_ops_of, zip_source_get_file_attributes, h, Bool.false_eq_true, if_false]
  rfl

theorem compress_open_store_inv (X : List Nat) (chunk : Nat) {α : Type}
    (alg : zip_compression_algorithm_t α) (low : zip_source_t Unit buffer_src Unit)
    (error : zip_error_t) (strm : stream α) (h : buffer_ready X chunk 0 low) :
    store_inv X chunk (compress_open (zip_source_ops_of buffer_class) alg low error strm).2.1
      (compress_open (zip_source_ops_of buffer_class) alg low error strm).2.2.2 [] := by
  obtain ⟨hud, hopen, hcl, herr, heof⟩ := h
  unfold compress_open
  rw [buffer_stat low hcl]
  simp only [lt_irrefl, if_false]
  rw [buffer_get_file_attributes low hcl]
  simp only [lt_irrefl, if_false]
  have hlow : compress_lower_ok X chunk low := by
    refine ⟨by rw [hud], by rw [hud], hopen, hcl, herr, by rw [hud]; simp, ?_⟩
    intro he; rw [heof] at he; cases he
  have hp0 : low.ud.pos = 0 := by rw [hud]
  split
  all_goals
    refine ⟨hlow, by show (-1 : Int) < 2 ^ 63; omega, fun _ => ⟨hp0, heof⟩, fun _ _ => rfl, ?_, ?_, ?_⟩
    · intro _ hge
      exfalso
      have : (0 : Int) ≤ -1 := hge
      omega
    · intro hs; cases hs
    · intro hs; cases hs

/-- C9: a compressing layer over a lower source that delivers X (an in-memory
source with any chunking), driving any algorithm.  After OPEN, for every
sequence of READ commands on the stream (buffer lengths lens): if the stream
ends up with is_stored set, and end of input had been signalled when the
algorithm reported END (end_of_input is set), then the bytes returned by the
reads since OPEN are exactly X, and STAT reports comp_method = STORE and
comp_size = |X|, both marked valid. -/
theorem store_shortcut_emits_input {α : Type} (alg : zip_compression_algorithm_t α)
    (X : List Nat) (chunk B fuel : Nat) (lens : List Nat)
    (low : zip_source_t Unit buffer_src Unit) (ctx : context α) (st : zip_stat_t)
    (t : List Nat × zip_source_t Unit buffer_src Unit × zip_error_t × stream α)
    (hc : 0 < chunk) (hB : 0 < B) (hB63 : B < 2 ^ 63)
    (hlow : buffer_ready X chunk 0 low) (hcomp : ctx.compress = true)
    (hrun : compress_reads (zip_source_ops_of buffer_class) alg B fuel (-1) lens
        ([], (compress_open (zip_source_ops_of buffer_class) alg low ctx.error ctx.stream).2.1,
          (compress_open (zip_source_ops_of buffer_class) alg low ctx.error ctx.stream).2.2.1,
          (compress_open (zip_source_ops_of buffer_class) alg low ctx.error ctx.stream).2.2.2)
      = some t)
    (hstored : t.2.2.2.is_stored = true) (heoi : t.2.2.2.end_of_input = true) :
    t.1 = X ∧
    (compress_stat { ctx with error := t.2.2.1, stream := t.2.2.2 } st).comp_method = ZIP_CM_STORE ∧
    (compress_stat { ctx with error := t.2.2.1, stream := t.2.2.2 } st).comp_size = X.length ∧
    (compress_stat { ctx with error := t.2.2.1, stream := t.2.2.2 } st).valid_comp_method = true ∧
    (compress_stat { ctx with error := t.2.2.1, stream := t.2.2.2 } st).valid_comp_size = true := by
  have h0 := compress_open_store_inv X chunk alg low ctx.error ctx.stream hlow
  have h1 := compress_reads_store_inv X chunk B fuel hc hB hB63 alg lens _ t h0 hrun
  obtain ⟨_, _, _, _, _, hI4, hI5⟩ := h1
  obtain ⟨hem, hsize, heos⟩ := hI4 hstored
  have hpos := hI5 heoi
  rw [hpos] at hem hsize
  refine ⟨by rw [hem, List.take_length], ?_, ?_, ?_, ?_⟩ <;>
    simp [compress_stat, hcomp, heos, hstored, hsize]

/-- The session of scenario 4 does not use up its iteration bound. -/
theorem store_session_isSome : store_session.isSome = true := by decide

/-- C9, instance (scenario 4): X = "AB" on a compressing layer with method
DEFLATE (can_store starts true) and the toy compressor, whose output for "AB" is
4 bytes long.  One read with a 16-byte buffer ends with is_stored and
end_of_input set; the theorem applies: the bytes returned are "AB", STAT
reports STORE with comp_size 2. -/
theorem store_shortcut_emits_input_witness :
    frame_compress_ctx.stream.can_store = true ∧
    store_session.map (fun t => (t.1, t.2.2.2.is_stored, t.2.2.2.end_of_input, t.2.2.2.end_of_stream))
      = some ([65, 66], true, true, true) ∧
    (store_session.get store_session_isSome).1 = [65, 66] ∧
    (compress_stat (store_session_ctx (store_session.get store_session_isSome))
      zip_stat_init).comp_method = ZIP_CM_STORE ∧
    (compress_stat (store_session_ctx (store_session.get store_session_isSome))
      zip_stat_init).comp_size = [65, 66].length ∧
    (compress_stat (store_session_ctx (store_session.get store_session_isSome))
      zip_stat_init).valid_comp_method = true ∧
    (compress_stat (store_session_ctx (store_session.get store_session_isSome))
      zip_stat_init).valid_comp_size = true :=
  ⟨by decide, by decide,
    store_shortcut_emits_input (transducer_algorithm frame_encoder) [65, 66] 2 8192 10 [16]
      (zip_source_open buffer_class (buffer_new [65, 66] 2)).2 frame_compress_ctx zip_stat_init
      (store_session.get store_session_isSome) (by decide) (by decide) (by decide)
      (buffer_open_fresh [65, 66] 2).2 (by decide) (Option.some_get store_session_isSome).symm
      (by decide) (by decide)⟩

/-! ## Compression layer: the round trip -/

theorem transduce_from_fuel {σ : Type} (T : transducer σ) (B : Nat) (hB : 0 < B) :
    ∀ (n : Nat) (s : σ) (rest : List Nat), rest.length ≤ n →
      transduce_from T B n s rest = transduce_from T B rest.length s rest := by
  intro n
  induction n using Nat.strong_induction_on with
  | _ n ih =>
    intro s rest hle
    cases n with
    | zero =>
      have : rest = [] := List.length_eq_zero.mp (by omega)
      subst this
      rfl
    | succ n =>
      cases rest with
      | nil => rfl
      | cons x xs =>
        have hd : ((x :: xs).drop B).length ≤ xs.length := by
          rw [List.length_drop]; simp only [List.length_cons]; omega
        simp only [List.length_cons, transduce_from, reduceCtorEq, if_false]
        rw [ih n (by omega) _ _ (by simp only [List.length_cons] at hle; omega)]
        rw [ih xs.length (by simp only [List.length_cons] at hle; omega) _ _ hd]

theorem transduce_from_nil {σ : Type} (T : transducer σ) (B : Nat) (s : σ) :
    transduce_from T B ([] : List Nat).length s [] = T.finish s := rfl

theorem transduce_from_step {σ : Type} (T : transducer σ) (B : Nat) (hB : 0 < B) (s : σ)
    (rest : List Nat) (h : rest ≠ []) :
    transduce_from T B rest.length s rest
      = (T.feed s (rest.take B)).2
        ++ transduce_from T B (rest.drop B).length (T.feed s (rest.take B)).1 (rest.drop B) := by
  cases rest with
  | nil => exact absurd rfl h
  | cons x xs =>
    have hd : ((x :: xs).drop B).length ≤ xs.length := by
      rw [List.length_drop]; simp only [List.length_cons]; omega
    simp only [List.length_cons, transduce_from, reduceCtorEq, if_false]
    rw [transduce_from_fuel T B hB xs.length _ _ hd]

/-- The in-memory source delivers its bytes in order and never leaves this regime. -/
theorem buffer_delivers (X : List Nat) (chunk Lmax : Nat) (hc : 0 < chunk) (hL : Lmax < 2 ^ 63) :
    delivers (zip_source_ops_of buffer_class) Lmax (buffer_delivering X chunk) (fun _ => False) := by
  constructor
  · intro low rest len hP hlen hmax
    obtain ⟨hok, hrest⟩ := hP
    obtain ⟨h1, h2, h3, h4⟩ := buffer_read_any X chunk len hc hlen (by omega) low hok
    right
    have hl : rest.length = X.length - low.ud.pos := by rw [hrest, List.length_drop]
    refine ⟨?_, ?_, h3, ?_⟩
    · show (zip_source_read buffer_class low len).1 = _
      rw [h1, hl]
    · show (zip_source_read buffer_class low len).2.1 = _
      rw [h2, hrest]
      by_cases hle : len ≤ X.length - low.ud.pos
      · rw [Nat.min_eq_left hle]
      · rw [Nat.min_eq_right (by omega), List.take_of_length_le (by rw [List.length_drop]),
          List.take_of_length_le (by rw [List.length_drop]; omega)]
    · show rest.drop len = X.drop (zip_source_read buffer_class low len).2.2.ud.pos
      rw [h4, hrest, List.drop_drop]
      by_cases hle : len ≤ X.length - low.ud.pos
      · rw [Nat.min_eq_left hle, Nat.add_comm]
      · rw [List.drop_of_length_le (by omega), List.drop_of_length_le (by omega)]
  · intro low len h
    exact h


theorem layer_taint_handle {τ σ : Type} (A : zip_source_ops τ)
    (alg : zip_compression_algorithm_t (transducer_state σ)) (B Lmax : Nat)
    (P : τ → List Nat → Prop) (Q : τ → Prop) (c : Prop) (hA : delivers A Lmax P Q)
    (st : compress_read_state τ (transducer_state σ))
    (p : process_result (transducer_state σ)) (h : layer_taint Q c st.src st.strm) :
    match compress_read_handle A alg B (-1) st p with
    | .continue_ st1 => layer_taint Q c st1.src st1.strm
    | .break_ st1 => layer_taint Q c st1.src st1.strm
    | .return_ _ st1 => layer_taint Q c st1.src st1.strm := by
  have hr : ∀ len, layer_taint Q c (A.zip_source_read st.src len).2.2 st.strm := by
    intro len
    rcases h with h | h
    · exact Or.inl (hA.taint _ _ h)
    · exact Or.inr h
  have hi : ∀ (low : τ) (s1 s2 : stream (transducer_state σ)),
      (s1.is_stored = true → s2.is_stored = true) → layer_taint Q c low s1 →
      layer_taint Q c low s2 := by
    intro low s1 s2 hs ht
    rcases ht with ht | ht
    · exact Or.inl ht
    · exact Or.inr ⟨ht.1, hs ht.2⟩
  unfold compress_read_handle
  rcases p with ⟨status, out, ud, perr⟩
  cases status with
  | ZIP_COMPRESSION_OK =>
    simp only [ne_eq, reduceCtorEq, not_false_eq_true, if_true]
    exact hi _ _ _ (fun x => x) h
  | ZIP_COMPRESSION_ERROR =>
    simp only [ne_eq, not_true_eq_false, if_false]
    split <;> exact hi _ _ _ (fun x => x) h
  | ZIP_COMPRESSION_END =>
    simp only [ne_eq, reduceCtorEq, not_false_eq_true, if_true]
    by_cases hfr : st.strm.first_read < 0
    · simp only [hfr, if_true]
      exact hi _ _ _ (fun x => x) h
    · simp only [hfr, if_false]
      by_cases hst : (st.strm.can_store &&
          decide (to_uint64 st.strm.first_read ≤ st.out_offset + out.length)) = true
      · simp only [hst, if_true]
        exact hi _ _ _ (fun _ => rfl) h
      · simp only [hst, Bool.false_eq_true, if_false]
        exact hi _ _ _ (fun x => x) h
  | ZIP_COMPRESSION_NEED_DATA =>
    simp only [ne_eq, reduceCtorEq, not_false_eq_true, if_true]
    by_cases heoi : st.strm.end_of_input = true
    · simp only [heoi, if_true]
      exact hi _ _ _ (fun x => x) h
    · simp only [heoi, Bool.false_eq_true, if_false]
      have hcall : _zip_source_read A st.src (-1) B = A.zip_source_read st.src B := by
        simp [_zip_source_read]
      rw [hcall]
      by_cases hn0 : (A.zip_source_read st.src B).1 < 0
      · simp only [hn0, if_true]
        exact hi _ _ _ (fun x => x) (hr B)
      · simp only [hn0, if_false]
        by_cases hn1 : (A.zip_source_read st.src B).1 = 0
        · simp only [hn1, if_true]
          exact hi _ _ _ (fun x => x) (hr B)
        · simp only [hn1, if_false]
          split <;> exact hi _ _ _ (fun x => x) (hr B)

theorem layer_taint_loop {τ σ : Type} (A : zip_source_ops τ)
    (alg : zip_compression_algorithm_t (transducer_state σ)) (B Lmax len : Nat)
    (P : τ → List Nat → Prop) (Q : τ → Prop) (c : Prop) (hA : delivers A Lmax P Q) :
    ∀ (fuel : Nat) (st : compress_read_state τ (transducer_state σ)),
      layer_taint Q c st.src st.strm →
      layer_taint Q c (compress_read_loop A alg B (-1) len fuel st).2.2.src
        (compress_read_loop A alg B (-1) len fuel st).2.2.strm := by
  intro fuel
  induction fuel with
  | zero => intro st h; exact h
  | succ fuel ih =>
    intro st h
    unfold compress_read_loop
    by_cases hlt : st.out_offset < len
    · simp only [hlt, if_true]
      have hstep := layer_taint_handle A alg B Lmax P Q c hA st
        (alg.process st.strm.ud (len - st.out_offset)) h
      unfold compress_read_step
      cases heq : compress_read_handle A alg B (-1) st
          (alg.process st.strm.ud (len - st.out_offset)) with
      | continue_ st2 =>
        rw [heq] at hstep
        exact ih st2 hstep
      | break_ st2 =>
        rw [heq] at hstep
        exact hstep
      | return_ v st2 =>
        rw [heq] at hstep
        exact hstep
    · simp only [hlt, if_false]
      exact h

/-- A call of compress_read never leads back from a state outside the regular
regime: the lower source stays outside, and is_stored is not cleared. -/
theorem layer_taint_read {τ σ : Type} (A : zip_source_ops τ)
    (alg : zip_compression_algorithm_t (transducer_state σ)) (B Lmax fuel len : Nat)
    (P : τ → List Nat → Prop) (Q : τ → Prop) (c : Prop) (hA : delivers A Lmax P Q)
    (low : τ) (error : zip_error_t) (strm : stream (transducer_state σ))
    (h : layer_taint Q c low strm) :
    layer_taint Q c (compress_read A alg B fuel low (-1) error strm len).src
      (compress_read A alg B fuel low (-1) error strm len).strm := by
  unfold compress_read
  split
  · exact h
  split
  · exact h
  have hloop := layer_taint_loop A alg B Lmax len P Q c hA fuel ⟨low, error, strm, [], 0⟩ h
  split
  · rename_i o st1 heq
    rw [heq] at hloop
    exact hloop
  · rename_i v st1 heq
    rw [heq] at hloop
    exact hloop
  · rename_i st1 heq
    rw [heq] at hloop
    split
    · rcases hloop with h | h
      · exact Or.inl h
      · exact Or.inr h
    · exact hloop

/-- One iteration of the loop of compress_read with a transducer plug-in, in
the regular regime: it keeps the invariant and lowers the measure, or ends the
loop at end of stream, or leaves the regime (store shortcut, lower source). -/
theorem layer_step {τ σ : Type} (A : zip_source_ops τ) (T : transducer σ) (B Lmax len : Nat)
    (P : τ → List Nat → Prop) (Q : τ → Prop) (c : Prop) (hA : delivers A Lmax P Q)
    (hB : 0 < B) (hBL : B ≤ Lmax) (R0 : List Nat)
    (st : compress_read_state τ (transducer_state σ)) (lowrest : List Nat)
    (h : layer_loop_inv T B P c len R0 st lowrest) (hes : st.strm.end_of_stream = false)
    (hlt : st.out_offset < len) :
    match compress_read_step A (transducer_algorithm T) B (-1) len st with
    | .continue_ st1 => layer_taint Q c st1.src st1.strm ∨
        ∃ lowrest1, layer_loop_inv T B P c len R0 st1 lowrest1 ∧
          st1.strm.end_of_stream = false ∧ lowrest1.length ≤ lowrest.length ∧
          layer_measure len st1 lowrest1 < layer_measure len st lowrest
    | .break_ st1 => layer_taint Q c st1.src st1.strm ∨
        ∃ lowrest1, layer_loop_inv T B P c len R0 st1 lowrest1 ∧
          st1.strm.end_of_stream = true ∧ lowrest1.length ≤ lowrest.length
    | .return_ _ st1 => layer_taint Q c st1.src st1.strm := by
  obtain ⟨⟨hP, hns, hei, heoi_imp, hcs⟩, herr, hoff, hle, hR⟩ := h
  unfold compress_read_step
  by_cases hpend : st.strm.ud.pending = []
  · by_cases heoi : st.strm.ud.eoi = true
    · -- END
      have hp : (transducer_algorithm T).process st.strm.ud (len - st.out_offset)
          = ⟨ZIP_COMPRESSION_END, [], st.strm.ud, none⟩ := by
        simp [transducer_algorithm, hpend, heoi]
      rw [hp]
      unfold compress_read_handle
      simp only [ne_eq, reduceCtorEq, not_false_eq_true, if_true]
      obtain ⟨hlr, hfr0⟩ := heoi_imp heoi
      have hfr : ¬ st.strm.first_read < 0 := by omega
      simp only [hfr, if_false]
      by_cases hst : (st.strm.can_store &&
          decide (to_uint64 st.strm.first_read ≤ st.out_offset + ([] : List Nat).length)) = true
      · simp only [hst, if_true]
        simp only [Bool.and_eq_true, decide_eq_true_eq] at hst
        exact Or.inr ⟨hcs hst.1, rfl⟩
      · simp only [hst, Bool.false_eq_true, if_false]
        right
        refine ⟨lowrest, ⟨⟨hP, hns, hei, heoi_imp, hcs⟩, herr, ?_, ?_, ?_⟩, trivial, le_refl _⟩
        · simp [hoff]
        · simp; omega
        · simp only [layer_rest, if_true, List.append_nil]
          rw [hR]
          simp [layer_rest, hes, hpend, heoi]
    · -- NEED_DATA
      have heoif : st.strm.ud.eoi = false := by simpa using heoi
      have hp : (transducer_algorithm T).process st.strm.ud (len - st.out_offset)
          = ⟨ZIP_COMPRESSION_NEED_DATA, [], st.strm.ud, none⟩ := by
        simp [transducer_algorithm, hpend, heoif]
      rw [hp]
      unfold compress_read_handle
      simp only [ne_eq, reduceCtorEq, not_false_eq_true, if_true, List.append_nil,
        List.length_nil, Nat.add_zero]
      have hei2 : st.strm.end_of_input = false := by rw [hei]; exact heoif
      simp only [hei2, Bool.false_eq_true, if_false]
      have hcall : _zip_source_read A st.src (-1) B = A.zip_source_read st.src B := by
        simp [_zip_source_read]
      rw [hcall]
      rcases hA.read st.src lowrest B hP hB hBL with hQ | ⟨r1, r2, r3⟩
      · by_cases hn0 : (A.zip_source_read st.src B).1 < 0
        · simp only [hn0, if_true]
          exact Or.inl (Or.inl hQ)
        · simp only [hn0, if_false]
          by_cases hn1 : (A.zip_source_read st.src B).1 = 0
          · simp only [hn1, if_true]
            exact Or.inl (Or.inl hQ)
          · simp only [hn1, if_false]
            exact Or.inl (Or.inl hQ)
      · have hn0 : ¬ (A.zip_source_read st.src B).1 < 0 := by rw [r1]; omega
        simp only [hn0, if_false]
        by_cases hz : lowrest = []
        · have hn1 : (A.zip_source_read st.src B).1 = 0 := by rw [r1, hz]; simp
          simp only [hn1, if_true]
          right
          refine ⟨lowrest.drop B, ⟨⟨r3, hns, ?_, ?_, hcs⟩, herr, hoff, hle, ?_⟩, hes, ?_, ?_⟩
          · simp [transducer_algorithm]
          · intro _
            refine ⟨by rw [hz]; simp, ?_⟩
            show (0 : Int) ≤ (if st.strm.first_read < 0 then 0 else st.strm.first_read)
            split <;> omega
          · rw [hR, hz]
            simp [layer_rest, hes, hpend, heoif, transducer_algorithm, transduce_from]
          · simp [List.length_drop]
          · simp [layer_measure, transducer_algorithm, heoif, hz]
        · have hpos : 0 < lowrest.length := List.length_pos.mpr hz
          have hn1 : ¬ (A.zip_source_read st.src B).1 = 0 := by rw [r1]; omega
          simp only [hn1, if_false]
          have hblk : ((A.zip_source_read st.src B).2.1 ++
              st.strm.buffer.drop (A.zip_source_read st.src B).2.1.length).take
                (A.zip_source_read st.src B).1.toNat = lowrest.take B := by
            rw [r1, r2, Int.toNat_ofNat, List.take_append_of_le_length (by rw [List.length_take]),
              List.take_of_length_le (by rw [List.length_take])]
          rw [hblk]
          have key : ∀ (cs : Bool) (fr : Int) (buf : List Nat), (cs = true → c) →
              ∃ lowrest1, layer_loop_inv T B P c len R0
                  ⟨(A.zip_source_read st.src B).2.2, st.error,
                    ⟨false, st.strm.end_of_stream, cs, st.strm.is_stored, st.strm.size, fr, buf,
                      (transducer_algorithm T).input st.strm.ud (lowrest.take B)⟩,
                    st.data, st.out_offset⟩ lowrest1 ∧
                st.strm.end_of_stream = false ∧ lowrest1.length ≤ lowrest.length ∧
                layer_measure len
                  ⟨(A.zip_source_read st.src B).2.2, st.error,
                    ⟨false, st.strm.end_of_stream, cs, st.strm.is_stored, st.strm.size, fr, buf,
                      (transducer_algorithm T).input st.strm.ud (lowrest.take B)⟩,
                    st.data, st.out_offset⟩ lowrest1
                  < layer_measure len st lowrest := by
            intro cs fr buf hc2
            refine ⟨lowrest.drop B, ⟨⟨r3, hns, ?_, ?_, hc2⟩, herr, hoff, hle, ?_⟩, hes, ?_, ?_⟩
            · simp [transducer_algorithm, hei2, heoif]
            · intro he
              simp [transducer_algorithm, heoif] at he
            · rw [hR]
              simp [layer_rest, hes, hpend, heoif, transducer_algorithm,
                transduce_from_step T B hB st.strm.ud.s lowrest hz]
            · simp [List.length_drop]
            · simp only [layer_measure, List.length_drop, transducer_algorithm, heoif]
              simp
              omega
          by_cases hfr : (0 : Int) ≤ st.strm.first_read
          · simp only [hfr, if_true]
            exact Or.inr (key false _ _ (fun hx => by cases hx))
          · simp only [hfr, if_false]
            exact Or.inr (key st.strm.can_store _ _ hcs)
  · -- OK
    have hp : (transducer_algorithm T).process st.strm.ud (len - st.out_offset)
        = ⟨ZIP_COMPRESSION_OK, st.strm.ud.pending.take (len - st.out_offset),
            { st.strm.ud with pending := st.strm.ud.pending.drop (len - st.out_offset) }, none⟩ := by
      simp [transducer_algorithm, hpend]
    rw [hp]
    unfold compress_read_handle
    simp only [ne_eq, reduceCtorEq, not_false_eq_true, if_true]
    right
    have hlen1 : 1 ≤ (st.strm.ud.pending.take (len - st.out_offset)).length := by
      rw [List.length_take]
      have : 0 < st.strm.ud.pending.length := List.length_pos.mpr hpend
      omega
    have hlen2 : (st.strm.ud.pending.take (len - st.out_offset)).length ≤ len - st.out_offset :=
      List.length_take_le _ _
    refine ⟨lowrest, ⟨⟨hP, hns, hei, heoi_imp, hcs⟩, herr, ?_, ?_, ?_⟩, hes, le_refl _, ?_⟩
    · simp only [List.length_append, hoff]
    · show st.out_offset + _ ≤ len
      omega
    · rw [hR]
      simp only [layer_rest, hes, Bool.false_eq_true, if_false, List.append_assoc]
      rw [← List.append_assoc (List.take _ _), List.take_append_drop]
    · simp only [layer_measure]
      omega

/-- The loop of compress_read in the regular regime ends within the measure
plus one iterations, with the invariant, and at end of stream if it stops
before the buffer of the caller is full. -/
theorem layer_loop {τ σ : Type} (A : zip_source_ops τ) (T : transducer σ) (B Lmax len : Nat)
    (P : τ → List Nat → Prop) (Q : τ → Prop) (c : Prop) (hA : delivers A Lmax P Q)
    (hB : 0 < B) (hBL : B ≤ Lmax) (R0 : List Nat) :
    ∀ (fuel : Nat) (st : compress_read_state τ (transducer_state σ)) (lowrest : List Nat),
      layer_loop_inv T B P c len R0 st lowrest → st.strm.end_of_stream = false →
      layer_measure len st lowrest + 1 ≤ fuel →
      layer_taint Q c (compress_read_loop A (transducer_algorithm T) B (-1) len fuel st).2.2.src
          (compress_read_loop A (transducer_algorithm T) B (-1) len fuel st).2.2.strm ∨
        ((compress_read_loop A (transducer_algorithm T) B (-1) len fuel st).1 = false ∧
          (compress_read_loop A (transducer_algorithm T) B (-1) len fuel st).2.1 = none ∧
          ∃ lowrest1,
            layer_loop_inv T B P c len R0
              (compress_read_loop A (transducer_algorithm T) B (-1) len fuel st).2.2 lowrest1 ∧
            lowrest1.length ≤ lowrest.length ∧
            ((compress_read_loop A (transducer_algorithm T) B (-1) len fuel st).2.2.out_offset < len →
              (compress_read_loop A (transducer_algorithm T) B (-1) len fuel
                st).2.2.strm.end_of_stream = true)) := by
  intro fuel
  induction fuel with
  | zero =>
    intro st lowrest _ _ hm
    omega
  | succ fuel ih =>
    intro st lowrest h hes hm
    unfold compress_read_loop
    by_cases hlt : st.out_offset < len
    · simp only [hlt, if_true]
      have hstep := layer_step A T B Lmax len P Q c hA hB hBL R0 st lowrest h hes hlt
      cases heq : compress_read_step A (transducer_algorithm T) B (-1) len st with
      | continue_ st2 =>
        rw [heq] at hstep
        simp only
        rcases hstep with ht | ⟨lowrest1, hinv, hes1, hl1, hm1⟩
        · exact Or.inl (layer_taint_loop A _ B Lmax len P Q c hA fuel st2 ht)
        · rcases ih st2 lowrest1 hinv hes1 (by omega) with ht | ⟨g1, g2, lowrest2, g3, g4, g5⟩
          · exact Or.inl ht
          · exact Or.inr ⟨g1, g2, lowrest2, g3, by omega, g5⟩
      | break_ st2 =>
        rw [heq] at hstep
        simp only
        rcases hstep with ht | ⟨lowrest1, hinv, hes1, hl1⟩
        · exact Or.inl ht
        · exact Or.inr ⟨trivial, trivial, lowrest1, hinv, hl1, fun _ => hes1⟩
      | return_ v st2 =>
        rw [heq] at hstep
        exact Or.inl hstep
    · simp only [hlt, if_false]
      exact Or.inr ⟨trivial, trivial, lowrest, h, le_refl _, fun hx => False.elim hx⟩

theorem list_split_spec (L d r : List Nat) (len : Nat) (h : L = d ++ r) (hle : d.length ≤ len)
    (hend : d.length < len → r = []) :
    d.length = min len L.length ∧ d = L.take len ∧ r = L.drop len := by
  by_cases hlt : d.length < len
  · have hr := hend hlt
    subst hr
    rw [List.append_nil] at h
    subst h
    refine ⟨by omega, ?_, ?_⟩
    · rw [List.take_of_length_le (by omega)]
    · rw [List.drop_of_length_le (by omega)]
  · have hd : d.length = len := by omega
    subst h
    refine ⟨?_, ?_, ?_⟩
    · rw [List.length_append]; omega
    · rw [← hd, List.take_left]
    · rw [← hd, List.drop_left]

/-- A call of compress_read with a transducer plug-in in the regular regime
returns the next min(len, |rest|) bytes the stream owes its reader, unless the
call leaves the regime. -/
theorem layer_read {τ σ : Type} (A : zip_source_ops τ) (T : transducer σ) (B Lmax fuel len : Nat)
    (P : τ → List Nat → Prop) (Q : τ → Prop) (c : Prop) (hA : delivers A Lmax P Q)
    (hB : 0 < B) (hBL : B ≤ Lmax) (low : τ) (error : zip_error_t)
    (strm : stream (transducer_state σ)) (lowrest : List Nat)
    (hN : layer_normal P c low strm lowrest) (herr : error.zip_err = ZIP_ER_OK) (hlen : 0 < len)
    (hlen63 : len < 2 ^ 63) (hfuel : len + lowrest.length + 2 ≤ fuel) :
    ∀ r, compress_read A (transducer_algorithm T) B fuel low (-1) error strm len = r →
      layer_taint Q c r.src r.strm ∨
        (r.exhausted = false ∧
          r.ret = ((min len (layer_rest T B strm lowrest).length : Nat) : Int) ∧
          r.data = (layer_rest T B strm lowrest).take len ∧ r.error.zip_err = ZIP_ER_OK ∧
          ∃ lowrest1, layer_normal P c r.src r.strm lowrest1 ∧
            lowrest1.length ≤ lowrest.length ∧
            layer_rest T B r.strm lowrest1 = (layer_rest T B strm lowrest).drop len) := by
  intro r hr
  subst hr
  unfold compress_read
  simp only [herr, ne_eq, not_true_eq_false, if_false]
  by_cases hes : strm.end_of_stream = true
  · have hc1 : (decide (len = 0) || strm.end_of_stream) = true := by simp [hes]
    simp only [hc1, if_true]
    right
    have hR : layer_rest T B strm lowrest = [] := by simp [layer_rest, hes]
    refine ⟨trivial, ?_, ?_, herr, lowrest, hN, le_refl _, ?_⟩
    · rw [hR]; simp
    · rw [hR]; simp
    · rw [hR]; simp
  · have hesf : strm.end_of_stream = false := by simpa using hes
    have hc1 : (decide (len = 0) || strm.end_of_stream) = false := by
      simp [hesf]; omega
    simp only [hc1, Bool.false_eq_true, if_false]
    have hloop := layer_loop A T B Lmax len P Q c hA hB hBL (layer_rest T B strm lowrest) fuel
      ⟨low, error, strm, [], 0⟩ lowrest ⟨hN, herr, rfl, Nat.zero_le _, by simp⟩ hesf
      (by simp only [layer_measure]; split <;> omega)
    split
    · rename_i o st1 heq
      rw [heq] at hloop
      rcases hloop with ht | ⟨g1, _⟩
      · exact Or.inl ht
      · cases g1
    · rename_i v st1 heq
      rw [heq] at hloop
      rcases hloop with ht | ⟨_, g2, _⟩
      · exact Or.inl ht
      · cases g2
    · rename_i st1 heq
      rw [heq] at hloop
      simp only at hloop
      rcases hloop with ht | ⟨_, _, lowrest1, hinv, hl1, hend⟩
      · left
        split
        · rcases ht with ht | ht
          · exact Or.inl ht
          · exact Or.inr ht
        · exact ht
      · right
        obtain ⟨⟨hP, hns, hei, heoi_imp, hcs⟩, herr1, hoff, hle, hR⟩ := hinv
        have hrest : st1.data.length < len → layer_rest T B st1.strm lowrest1 = [] := by
          intro hx
          have := hend (by show st1.out_offset < len; omega)
          simp [layer_rest, this]
        obtain ⟨s1, s2, s3⟩ := list_split_spec _ st1.data _ len hR (by omega) hrest
        by_cases hpos : st1.out_offset > 0
        · simp only [hpos, if_true]
          refine ⟨trivial, ?_, s2, herr1, lowrest1, ⟨hP, hns, hei, heoi_imp, ?_⟩, hl1, ?_⟩
          · rw [to_int64_small _ (by omega), hoff, s1]
          · intro hx; cases hx
          · exact s3
        · simp only [hpos, if_false]
          have h0 : st1.data.length = 0 := by omega
          have hd : st1.data = [] := List.length_eq_zero.mp h0
          refine ⟨trivial, ?_, ?_, herr1, lowrest1, ⟨hP, hns, hei, heoi_imp, hcs⟩, hl1, s3⟩
          · simp only [herr1, if_true]
            rw [← s1, h0]; rfl
          · rw [← s2, hd]

theorem compress_call_read {τ α : Type} (A : zip_source_ops τ) (alg : zip_compression_algorithm_t α)
    (B fuel : Nat) (junk : stream α) (S : zip_source_t τ (context α) (stream α)) (size : Nat) :
    _zip_source_call (compress_class A alg B fuel junk) S (-1) (.raw [] size) ZIP_SOURCE_READ
      = ((compress_read A alg B fuel S.src (-1) S.ud.error S.ud.stream size).ret,
         .raw (compress_read A alg B fuel S.src (-1) S.ud.error S.ud.stream size).data size,
         { S with
           src := (compress_read A alg B fuel S.src (-1) S.ud.error S.ud.stream size).src,
           ud := { S.ud with
             error := (compress_read A alg B fuel S.src (-1) S.ud.error S.ud.stream size).error,
             stream := (compress_read A alg B fuel S.src (-1) S.ud.error S.ud.stream size).strm,
             fuel_exhausted := S.ud.fuel_exhausted ||
               (compress_read A alg B fuel S.src (-1) S.ud.error S.ud.stream size).exhausted } }) :=
  rfl

theorem source_taint_read_loop {τ σ : Type} (A : zip_source_ops τ)
    (alg : zip_compression_algorithm_t (transducer_state σ)) (B Lmax fuel len : Nat)
    (junk : stream (transducer_state σ))
    (P : τ → List Nat → Prop) (Q : τ → Prop) (c : Prop) (hA : delivers A Lmax P Q) :
    ∀ (n : Nat) (S : zip_source_t τ (context (transducer_state σ)) (stream (transducer_state σ)))
      (b : Nat) (data : List Nat), source_taint Q c S →
      source_taint Q c
        (zip_source_read_loop (compress_class A alg B fuel junk) len n S b data).2.1 := by
  intro n
  induction n with
  | zero => intro S b data h; exact h
  | succ n ih =>
    intro S b data h
    unfold zip_source_read_loop
    by_cases hlt : b < len
    · simp only [hlt, if_true]
      rw [compress_call_read]
      simp only
      have ht := layer_taint_read A alg B Lmax fuel (len - b) P Q c hA S.src S.ud.error
        S.ud.stream h
      by_cases hn0 : (compress_read A alg B fuel S.src (-1) S.ud.error S.ud.stream (len - b)).ret < 0
      · simp only [hn0, if_true]
        split <;> exact ht
      · simp only [hn0, if_false]
        by_cases hn1 : (compress_read A alg B fuel S.src (-1) S.ud.error S.ud.stream (len - b)).ret = 0
        · simp only [hn1, if_true]
          exact ht
        · simp only [hn1, if_false]
          exact ih _ _ _ ht
    · simp only [hlt, if_false]
      exact h

theorem source_taint_read {τ σ : Type} (A : zip_source_ops τ)
    (alg : zip_compression_algorithm_t (transducer_state σ)) (B Lmax fuel len : Nat)
    (junk : stream (transducer_state σ))
    (P : τ → List Nat → Prop) (Q : τ → Prop) (c : Prop) (hA : delivers A Lmax P Q)
    (S : zip_source_t τ (context (transducer_state σ)) (stream (transducer_state σ)))
    (h : source_taint Q c S) :
    source_taint Q c (zip_source_read (compress_class A alg B fuel junk) S len).2.2 := by
  unfold zip_source_read
  split
  · exact h
  split
  · exact h
  split
  · exact h
  split
  · exact h
  split
  · exact h
  have hl := source_taint_read_loop A alg B Lmax fuel len junk P Q c hA len S 0 [] h
  split
  · rename_i v S1 x data heq
    rw [heq] at hl
    exact hl
  · rename_i S1 b data heq
    rw [heq] at hl
    exact hl

theorem source_read_loop {τ σ : Type} (A : zip_source_ops τ) (T : transducer σ)
    (B Lmax fuel len : Nat) (junk : stream (transducer_state σ))
    (P : τ → List Nat → Prop) (Q : τ → Prop) (c : Prop) (hA : delivers A Lmax P Q)
    (hB : 0 < B) (hBL : B ≤ Lmax) (hlen63 : len < 2 ^ 63) (R0 : List Nat) :
    ∀ (n : Nat) (S : zip_source_t τ (context (transducer_state σ)) (stream (transducer_state σ)))
      (b : Nat) (data : List Nat) (lowrest : List Nat),
      source_normal T B P c S lowrest → S.eof = false → b = data.length → b ≤ len →
      len ≤ n + b → len + lowrest.length + 2 ≤ fuel →
      R0 = data ++ layer_rest T B S.ud.stream lowrest →
      ∀ r, zip_source_read_loop (compress_class A (transducer_algorithm T) B fuel junk) len n S b
          data = r →
        source_taint Q c r.2.1 ∨
          (r.1 = none ∧ r.2.2.1 = r.2.2.2.length ∧ r.2.2.1 ≤ len ∧
            ∃ lowrest1, source_normal T B P c r.2.1 lowrest1 ∧
              lowrest1.length ≤ lowrest.length ∧
              R0 = r.2.2.2 ++ layer_rest T B r.2.1.ud.stream lowrest1 ∧
              (r.2.2.1 < len → r.2.1.eof = true)) := by
  intro n
  induction n with
  | zero =>
    intro S b data lowrest hN heof hb hble hn hfuel hR r hr
    subst hr
    right
    exact ⟨rfl, hb, hble, lowrest, hN, le_refl _, hR, fun hx => by
      have : b < len := hx
      omega⟩
  | succ n ih =>
    intro S b data lowrest hN heof hb hble hn hfuel hR r hr
    subst hr
    unfold zip_source_read_loop
    by_cases hlt : b < len
    · simp only [hlt, if_true]
      rw [compress_call_read]
      simp only
      obtain ⟨hopen, hcl, hre, herr, hfe, hLN, heofr⟩ := hN
      have hL := layer_read A T B Lmax fuel (len - b) P Q c hA hB hBL S.src S.ud.error S.ud.stream
        lowrest hLN herr (by omega) (by omega) (by omega) _ rfl
      generalize compress_read A (transducer_algorithm T) B fuel S.src (-1) S.ud.error
        S.ud.stream (len - b) = cr at hL ⊢
      rcases hL with ht | ⟨e1, e2, e3, e4, lowrest1, e5, e6, e7⟩
      · by_cases hn0 : cr.ret < 0
        · simp only [hn0, if_true]
          split <;> exact Or.inl ht
        · simp only [hn0, if_false]
          by_cases hn1 : cr.ret = 0
          · simp only [hn1, if_true]
            exact Or.inl ht
          · simp only [hn1, if_false]
            exact Or.inl (source_taint_read_loop A _ B Lmax fuel len junk P Q c hA n _ _ _ ht)
      · have hn0 : ¬ cr.ret < 0 := by rw [e2]; omega
        simp only [hn0, if_false]
        have hfe1 : (S.ud.fuel_exhausted || cr.exhausted) = false := by rw [hfe, e1]; rfl
        by_cases hz : layer_rest T B S.ud.stream lowrest = []
        · have hn1 : cr.ret = 0 := by rw [e2, hz]; simp
          simp only [hn1, if_true]
          right
          have hr1 : layer_rest T B cr.strm lowrest1 = [] := by
            rw [e7, hz]; simp
          refine ⟨trivial, hb, hble, lowrest1,
            ⟨hopen, hcl, hre, e4, hfe1, e5, fun _ => hr1⟩, e6, ?_, fun _ => trivial⟩
          show R0 = data ++ layer_rest T B cr.strm lowrest1
          rw [hr1, hR, hz]
        · have hpos : 0 < (layer_rest T B S.ud.stream lowrest).length := List.length_pos.mpr hz
          have hn1 : ¬ cr.ret = 0 := by rw [e2]; omega
          simp only [hn1, if_false]
          have hw : (zip_source_data.raw (υ := stream (transducer_state σ)) cr.data
              (len - b)).written cr.ret.toNat
              = (layer_rest T B S.ud.stream lowrest).take (len - b) := by
            simp only [zip_source_data.written]
            rw [e2, e3, Int.toNat_ofNat, List.take_of_length_le (by rw [List.length_take])]
          rw [hw]
          have hlt2 : ((layer_rest T B S.ud.stream lowrest).take (len - b)).length
              = min (len - b) (layer_rest T B S.ud.stream lowrest).length := List.length_take _ _
          rcases ih
            { S with src := cr.src,
                     ud := { S.ud with error := cr.error, stream := cr.strm,
                                       fuel_exhausted := S.ud.fuel_exhausted || cr.exhausted } }
            (b + cr.ret.toNat)
            (data ++ (layer_rest T B S.ud.stream lowrest).take (len - b)) lowrest1
            ⟨hopen, hcl, hre, e4, hfe1, e5, fun hx => by
                have : S.eof = true := hx
                rw [heof] at this; cases this⟩
            heof
            (by rw [e2, Int.toNat_ofNat, List.length_append, hlt2, hb])
            (by rw [e2, Int.toNat_ofNat]; omega)
            (by rw [e2, Int.toNat_ofNat]; omega)
            (by omega)
            (by
              show R0 = _ ++ layer_rest T B cr.strm lowrest1
              rw [e7, hR, List.append_assoc, List.take_append_drop])
            _ rfl with ht | ⟨g1, g2, g3, lowrest2, g4, g5, g6, g7⟩
          · exact Or.inl ht
          · exact Or.inr ⟨g1, g2, g3, lowrest2, g4, by omega, g6, g7⟩
    · simp only [hlt, if_false]
      right
      exact ⟨trivial, hb, hble, lowrest, hN, le_refl _, hR, fun hx => False.elim hx⟩

/-- The function zip_source_read on a compression source in the regular regime returns
the next min(len, |rest|) bytes the source owes, unless the read leaves the
regime. -/
theorem source_read {τ σ : Type} (A : zip_source_ops τ) (T : transducer σ)
    (B Lmax fuel len : Nat) (junk : stream (transducer_state σ))
    (P : τ → List Nat → Prop) (Q : τ → Prop) (c : Prop) (hA : delivers A Lmax P Q)
    (hB : 0 < B) (hBL : B ≤ Lmax) (hlen : 0 < len) (hlen63 : len < 2 ^ 63)
    (S : zip_source_t τ (context (transducer_state σ)) (stream (transducer_state σ)))
    (lowrest : List Nat) (hN : source_normal T B P c S lowrest)
    (hfuel : len + lowrest.length + 2 ≤ fuel) :
    ∀ r, zip_source_read (compress_class A (transducer_algorithm T) B fuel junk) S len = r →
      source_taint Q c r.2.2 ∨
        (r.1 = ((min len (layer_rest T B S.ud.stream lowrest).length : Nat) : Int) ∧
          r.2.1 = (layer_rest T B S.ud.stream lowrest).take len ∧
          ∃ lowrest1, source_normal T B P c r.2.2 lowrest1 ∧
            lowrest1.length ≤ lowrest.length ∧
            layer_rest T B r.2.2.ud.stream lowrest1
              = (layer_rest T B S.ud.stream lowrest).drop len) := by
  intro r hr
  subst hr
  have hN0 := hN
  obtain ⟨hopen, hcl, hre, herr, hfe, hLN, heofr⟩ := hN
  unfold zip_source_read
  have h1 : (!ZIP_SOURCE_IS_OPEN_READING S || decide (len > ZIP_INT64_MAX)) = false := by
    simp [ZIP_SOURCE_IS_OPEN_READING, hopen, ZIP_INT64_MAX]
    omega
  simp only [hcl, h1, hre, Bool.false_eq_true, if_false]
  by_cases heof : S.eof = true
  · simp only [heof, if_true]
    right
    have hz := heofr heof
    rw [hz]
    exact ⟨by simp, by simp, lowrest, hN0, le_refl _, by simp [hz]⟩
  · have heoff : S.eof = false := by simpa using heof
    have hl0 : ¬ len = 0 := by omega
    simp only [heoff, Bool.false_eq_true, if_false, hl0]
    have hloop := source_read_loop A T B Lmax fuel len junk P Q c hA hB hBL hlen63
      (layer_rest T B S.ud.stream lowrest) len S 0 [] lowrest hN0 heoff rfl (Nat.zero_le _)
      (by omega) hfuel (by simp) _ rfl
    split
    · rename_i v S1 x data heq
      rw [heq] at hloop
      simp only at hloop
      rcases hloop with ht | ⟨g1, _⟩
      · exact Or.inl ht
      · cases g1
    · rename_i S1 b data heq
      rw [heq] at hloop
      simp only at hloop
      rcases hloop with ht | ⟨_, g2, g3, lowrest1, g4, g5, g6, g7⟩
      · exact Or.inl ht
      · right
        obtain ⟨hopen1, hcl1, hre1, herr1, hfe1, hLN1, heofr1⟩ := g4
        have hrest : data.length < len → layer_rest T B S1.ud.stream lowrest1 = [] := by
          intro hx
          exact heofr1 (g7 (by omega))
        obtain ⟨s1, s2, s3⟩ := list_split_spec _ data _ len g6 (by omega) hrest
        refine ⟨?_, s2, lowrest1, ⟨hopen1, hcl1, hre1, herr1, hfe1, hLN1, heofr1⟩, g5, s3⟩
        show to_int64 b = _
        rw [to_int64_small _ (by omega), g2, s1]

/-- A compression source with a transducer plug-in on top of a lower source
that delivers its bytes in order delivers the output of the transducer in
order. -/
theorem source_delivers {τ σ : Type} (A : zip_source_ops τ) (T : transducer σ)
    (B Lmax fuel Lmax1 : Nat) (junk : stream (transducer_state σ))
    (P : τ → List Nat → Prop) (Q : τ → Prop) (c : Prop) (hA : delivers A Lmax P Q)
    (hB : 0 < B) (hBL : B ≤ Lmax) (hL1 : Lmax1 < 2 ^ 63) :
    delivers (zip_source_ops_of (compress_class A (transducer_algorithm T) B fuel junk)) Lmax1
      (source_delivering T B fuel Lmax1 P c) (source_taint Q c) := by
  constructor
  · intro S rest len hP hlen hmax
    obtain ⟨lowrest, hN, hf, hrest⟩ := hP
    rcases source_read A T B Lmax fuel len junk P Q c hA hB hBL hlen (by omega) S lowrest hN
      (by omega) _ rfl with ht | ⟨g1, g2, lowrest1, g3, g4, g5⟩
    · exact Or.inl ht
    · right
      subst hrest
      exact ⟨g1, g2, lowrest1, g3, by omega, g5.symm⟩
  · intro S len h
    exact source_taint_read A _ B Lmax fuel len junk P Q c hA S h

theorem read_all_taint {τ σ : Type} (A : zip_source_ops τ)
    (alg : zip_compression_algorithm_t (transducer_state σ)) (B Lmax fuel len : Nat)
    (junk : stream (transducer_state σ))
    (P : τ → List Nat → Prop) (Q : τ → Prop) (c : Prop) (hA : delivers A Lmax P Q) :
    ∀ (n : Nat) (S : zip_source_t τ (context (transducer_state σ)) (stream (transducer_state σ)))
      (acc : List Nat), source_taint Q c S →
      source_taint Q c (read_all (compress_class A alg B fuel junk) len n S acc).src := by
  intro n
  induction n with
  | zero => intro S acc h; exact h
  | succ n ih =>
    intro S acc h
    unfold read_all
    have ht := source_taint_read A alg B Lmax fuel len junk P Q c hA S h
    simp only
    split
    · exact ht
    · exact ih _ _ ht

/-- Reading a compression source in the regular regime to its end collects the
bytes it owes, unless a read leaves the regime. -/
theorem read_all_spec {τ σ : Type} (A : zip_source_ops τ) (T : transducer σ)
    (B Lmax fuel len : Nat) (junk : stream (transducer_state σ))
    (P : τ → List Nat → Prop) (Q : τ → Prop) (c : Prop) (hA : delivers A Lmax P Q)
    (hB : 0 < B) (hBL : B ≤ Lmax) (hlen : 0 < len) (hlen63 : len < 2 ^ 63) :
    ∀ (n : Nat) (S : zip_source_t τ (context (transducer_state σ)) (stream (transducer_state σ)))
      (acc : List Nat) (lowrest : List Nat),
      source_normal T B P c S lowrest →
      (layer_rest T B S.ud.stream lowrest).length + 1 ≤ n →
      len + lowrest.length + 2 ≤ fuel →
      ∀ r, read_all (compress_class A (transducer_algorithm T) B fuel junk) len n S acc = r →
        source_taint Q c r.src ∨
          (r.done = true ∧ r.ret = 0 ∧ r.bytes = acc ++ layer_rest T B S.ud.stream lowrest ∧
            ∃ lowrest1, source_normal T B P c r.src lowrest1) := by
  intro n
  induction n with
  | zero =>
    intro S acc lowrest _ hn
    omega
  | succ n ih =>
    intro S acc lowrest hN hn hfuel r hr
    subst hr
    unfold read_all
    simp only
    have hS := source_read A T B Lmax fuel len junk P Q c hA hB hBL hlen hlen63 S lowrest hN
      hfuel _ rfl
    generalize zip_source_read (compress_class A (transducer_algorithm T) B fuel junk) S len
      = rd at hS ⊢
    rcases hS with ht | ⟨g1, g2, lowrest1, g3, g4, g5⟩
    · by_cases hle : rd.1 ≤ 0
      · simp only [hle, if_true]
        exact Or.inl ht
      · simp only [hle, if_false]
        exact Or.inl (read_all_taint A _ B Lmax fuel len junk P Q c hA n _ _ ht)
    · by_cases hz : layer_rest T B S.ud.stream lowrest = []
      · have hle : rd.1 ≤ 0 := by rw [g1, hz]; simp
        simp only [hle, if_true]
        right
        refine ⟨trivial, ?_, ?_, lowrest1, g3⟩
        · show rd.1 = 0
          rw [g1, hz]; simp
        · rw [hz]; simp
      · have hpos : 0 < (layer_rest T B S.ud.stream lowrest).length := List.length_pos.mpr hz
        have hle : ¬ rd.1 ≤ 0 := by rw [g1]; omega
        simp only [hle, if_false]
        rcases ih rd.2.2 (acc ++ rd.2.1) lowrest1 g3
          (by rw [g5, List.length_drop]; omega) (by omega) _ rfl with
          ht | ⟨k1, k2, k3, k4⟩
        · exact Or.inl ht
        · right
          refine ⟨k1, k2, ?_, k4⟩
          rw [k3, g5, g2, List.append_assoc, List.take_append_drop]

theorem codec_ctx_of_new {σ : Type} (T : transducer σ) (M : Int) (compress : Bool) (flags : Int)
    (junk : stream (transducer_state σ)) (ctx : context (transducer_state σ))
    (h : context_new (transducer_algorithm T) M compress flags junk = some ctx) :
    ctx = ⟨zip_error_clear, compress, M, flags,
      { junk with can_store := if compress then ZIP_CM_IS_DEFAULT M else false,
                  ud := ⟨T.init, [], false⟩ }, false⟩ := by
  simp only [context_new, stream_init, transducer_algorithm, Option.some.injEq] at h
  exact h.symm

/-- Opening the fresh stack succeeds and leaves both layers in the regular
regime, the compressing layer owing the output of T on X and the
decompressing layer the output of D on that. -/
theorem codec_stack_open {σ ρ : Type} (T : transducer σ) (D : transducer ρ) (M1 M2 : Int)
    (X : List Nat) (chunk B fuel : Nat) (f1 f2 : Int) (j1 : stream (transducer_state σ))
    (j2 : stream (transducer_state ρ)) (c1 : context (transducer_state σ))
    (c2 : context (transducer_state ρ))
    (h1 : context_new (transducer_algorithm T) M1 true f1 j1 = some c1)
    (h2 : context_new (transducer_algorithm D) M2 false f2 j2 = some c2)
    (hfuel : B + X.length + 2 ≤ fuel) :
    (zip_source_open (codec_decompress_class T D B fuel) (codec_stack X chunk c1 c2)).1 = 0 ∧
    source_normal D B (source_delivering T B fuel B (buffer_delivering X chunk) (ZIP_CM_IS_DEFAULT M1 = true)) False
      (zip_source_open (codec_decompress_class T D B fuel) (codec_stack X chunk c1 c2)).2
      (transduce T B X) ∧
    layer_rest D B
      (zip_source_open (codec_decompress_class T D B fuel) (codec_stack X chunk c1 c2)).2.ud.stream
      (transduce T B X) = transduce D B (transduce T B X) := by
  have e1 := codec_ctx_of_new T M1 true f1 j1 c1 h1
  have e2 := codec_ctx_of_new D M2 false f2 j2 c2 h2
  subst e1
  subst e2
  refine ⟨rfl, ⟨?_, rfl, rfl, rfl, rfl, ⟨?_, rfl, rfl, ?_, ?_⟩, ?_⟩, rfl⟩
  · show 0 < 1
    omega
  · refine ⟨X, ⟨?_, rfl, rfl, rfl, rfl, ⟨?_, rfl, rfl, ?_, fun h => h⟩, ?_⟩, hfuel, rfl⟩
    · show 0 < 1
      omega
    · refine ⟨⟨rfl, rfl, ?_, rfl, rfl, Nat.zero_le _, ?_⟩, rfl⟩
      · show 0 < 1
        omega
      · intro h; cases h
    · intro h; cases h
    · intro h; cases h
  · intro h; cases h
  · intro h; cases h
  · intro h; cases h

set_option maxRecDepth 100000 in
/-- C10, counterexample: the round trip fails for the default method on a short
input.  The toy compressor and decompressor undo each other on X = "AB"
(blocks of BUFSIZE = 8192 bytes), and their contexts are the ones context_new
makes for DEFLATE.  The stack decompress over compress over a source
delivering "AB" opens, and reading it to the end, 16 bytes at a time, ends with
a read returning 0 after the bytes "B" alone: the compressing layer took the
store shortcut (is_stored) and handed the raw input to the decompressing
layer.  No read loop of the model was cut off. -/
theorem round_trip_fails_when_stored :
    transduce frame_decoder 8192 (transduce frame_encoder 8192 [65, 66]) = [65, 66] ∧
    context_new (transducer_algorithm frame_encoder) ZIP_CM_DEFLATE true 0
        (stream_junk ⟨frame_encoder.init, [], false⟩)
      = some (codec_ctx frame_encoder ZIP_CM_DEFLATE true) ∧
    context_new (transducer_algorithm frame_decoder) ZIP_CM_DEFLATE false 0
        (stream_junk ⟨frame_decoder.init, [], false⟩)
      = some (codec_ctx frame_decoder ZIP_CM_DEFLATE false) ∧
    (zip_source_open (codec_decompress_class frame_encoder frame_decoder 8192 100)
      (codec_stack [65, 66] 8192 (codec_ctx frame_encoder ZIP_CM_DEFLATE true)
        (codec_ctx frame_decoder ZIP_CM_DEFLATE false))).1 = 0 ∧
    (frame_round_trip ZIP_CM_DEFLATE [65, 66]).done = true ∧
    (frame_round_trip ZIP_CM_DEFLATE [65, 66]).ret = 0 ∧
    (frame_round_trip ZIP_CM_DEFLATE [65, 66]).bytes = [66] ∧
    (frame_round_trip ZIP_CM_DEFLATE [65, 66]).bytes ≠ [65, 66] ∧
    (frame_round_trip ZIP_CM_DEFLATE [65, 66]).src.src.ud.stream.is_stored = true ∧
    (frame_round_trip ZIP_CM_DEFLATE [65, 66]).src.ud.fuel_exhausted = false ∧
    (frame_round_trip ZIP_CM_DEFLATE [65, 66]).src.src.ud.fuel_exhausted = false :=
  ⟨by decide, rfl, rfl, by decide, by decide, by decide, by decide, by decide, by decide,
    by decide, by decide⟩

/-- C10, amended: the round trip holds whenever the compressing layer did not
take the store shortcut.  T and D are the transducers of a compressor and a
decompressor plug-in for the method M, with D undoing T on X (blocks of BUFSIZE
= B bytes); c1 and c2 are the contexts context_new makes for them.  The stack
decompress over compress over an in-memory source delivering X (any chunking)
is opened and read to its end, len bytes at a time, with iteration bounds fuel
and n large enough.  If M is not the default method, or if at the end the
compressing layer has is_stored = false, then OPEN succeeded, the reads ended
with a read returning 0, the bytes returned are exactly X, and no read loop of
the model was cut off. -/
theorem compress_decompress_round_trip {σ ρ : Type} (T : transducer σ) (D : transducer ρ)
    (M : Int) (X : List Nat) (chunk B fuel len n : Nat) (f1 f2 : Int)
    (j1 : stream (transducer_state σ)) (j2 : stream (transducer_state ρ))
    (c1 : context (transducer_state σ)) (c2 : context (transducer_state ρ))
    (h1 : context_new (transducer_algorithm T) M true f1 j1 = some c1)
    (h2 : context_new (transducer_algorithm D) M false f2 j2 = some c2)
    (hcodec : transduce D B (transduce T B X) = X)
    (hc : 0 < chunk) (hB : 0 < B) (hB63 : B < 2 ^ 63) (hlen : 0 < len) (hlen63 : len < 2 ^ 63)
    (hfuel : len + B + X.length + (transduce T B X).length + 2 ≤ fuel) (hn : X.length + 1 ≤ n)
    (hns : ZIP_CM_IS_DEFAULT M = true →
      (codec_round_trip T D B fuel len n X chunk c1 c2).src.src.ud.stream.is_stored = false) :
    (zip_source_open (codec_decompress_class T D B fuel) (codec_stack X chunk c1 c2)).1 = 0 ∧
    (codec_round_trip T D B fuel len n X chunk c1 c2).done = true ∧
    (codec_round_trip T D B fuel len n X chunk c1 c2).ret = 0 ∧
    (codec_round_trip T D B fuel len n X chunk c1 c2).bytes = X ∧
    (codec_round_trip T D B fuel len n X chunk c1 c2).src.ud.fuel_exhausted = false ∧
    (codec_round_trip T D B fuel len n X chunk c1 c2).src.src.ud.fuel_exhausted = false := by
  obtain ⟨o1, o2, o3⟩ := codec_stack_open T D M M X chunk B fuel f1 f2 j1 j2 c1 c2 h1 h2 (by omega)
  have hbuf := buffer_delivers X chunk B hc hB63
  have hmid := source_delivers (zip_source_ops_of buffer_class) T B B fuel B
    (stream_junk ⟨T.init, [], false⟩) (buffer_delivering X chunk) (fun _ => False)
    (ZIP_CM_IS_DEFAULT M = true) hbuf hB (le_refl _) hB63
  have hall := read_all_spec (zip_source_ops_of (codec_compress_class T B fuel)) D B B fuel len
    (stream_junk ⟨D.init, [], false⟩)
    (source_delivering T B fuel B (buffer_delivering X chunk) (ZIP_CM_IS_DEFAULT M = true))
    (source_taint (fun _ => False) (ZIP_CM_IS_DEFAULT M = true)) False hmid hB (le_refl _) hlen
    hlen63 n
    (zip_source_open (codec_decompress_class T D B fuel) (codec_stack X chunk c1 c2)).2 []
    (transduce T B X) o2 (by rw [o3, hcodec]; exact hn) (by omega) _ rfl
  rcases hall with ht | ⟨k1, k2, k3, lowrest1, k4⟩
  · exfalso
    rcases ht with ht | ht
    · rcases ht with ht | ht
      · exact ht
      · have h3 : false = true := (hns ht.1).symm.trans ht.2
        cases h3
    · exact ht.1
  · refine ⟨o1, k1, k2, ?_, k4.2.2.2.2.1, ?_⟩
    · refine k3.trans ?_
      rw [o3, hcodec]; rfl
    · obtain ⟨_, _, _, _, _, hLN, _⟩ := k4
      obtain ⟨lr, hN2, _, _⟩ := hLN.1
      exact hN2.2.2.2.2.1

/-- C10, instance: the toy compressor and decompressor under DEFLATE on the
seven bytes "ABCDEFG" with BUFSIZE 3, the lower source delivering 2 bytes per
read.  The input takes three blocks, so the compressing layer gives up the
store shortcut at the second block; the theorem applies, and the bytes read
are "ABCDEFG". -/
theorem compress_decompress_round_trip_witness :
    (ZIP_CM_IS_DEFAULT ZIP_CM_DEFLATE = true ∧
      (codec_round_trip frame_encoder frame_decoder 3 64 16 8 [65, 66, 67, 68, 69, 70, 71] 2
        (codec_ctx frame_encoder ZIP_CM_DEFLATE true)
        (codec_ctx frame_decoder ZIP_CM_DEFLATE false)).src.src.ud.stream.is_stored = false ∧
      transduce frame_decoder 3 (transduce frame_encoder 3 [65, 66, 67, 68, 69, 70, 71])
        = [65, 66, 67, 68, 69, 70, 71]) ∧
    ((zip_source_open (codec_decompress_class frame_encoder frame_decoder 3 64)
        (codec_stack [65, 66, 67, 68, 69, 70, 71] 2 (codec_ctx frame_encoder ZIP_CM_DEFLATE true)
          (codec_ctx frame_decoder ZIP_CM_DEFLATE false))).1 = 0 ∧
      (codec_round_trip frame_encoder frame_decoder 3 64 16 8 [65, 66, 67, 68, 69, 70, 71] 2
        (codec_ctx frame_encoder ZIP_CM_DEFLATE true)
        (codec_ctx frame_decoder ZIP_CM_DEFLATE false)).done = true ∧
      (codec_round_trip frame_encoder frame_decoder 3 64 16 8 [65, 66, 67, 68, 69, 70, 71] 2
        (codec_ctx frame_encoder ZIP_CM_DEFLATE true)
        (codec_ctx frame_decoder ZIP_CM_DEFLATE false)).ret = 0 ∧
      (codec_round_trip frame_encoder frame_decoder 3 64 16 8 [65, 66, 67, 68, 69, 70, 71] 2
        (codec_ctx frame_encoder ZIP_CM_DEFLATE true)
        (codec_ctx frame_decoder ZIP_CM_DEFLATE false)).bytes = [65, 66, 67, 68, 69, 70, 71] ∧
      (codec_round_trip frame_encoder frame_decoder 3 64 16 8 [65, 66, 67, 68, 69, 70, 71] 2
        (codec_ctx frame_encoder ZIP_CM_DEFLATE true)
        (codec_ctx frame_decoder ZIP_CM_DEFLATE false)).src.ud.fuel_exhausted = false ∧
      (codec_round_trip frame_encoder frame_decoder 3 64 16 8 [65, 66, 67, 68, 69, 70, 71] 2
        (codec_ctx frame_encoder ZIP_CM_DEFLATE true)
        (codec_ctx frame_decoder ZIP_CM_DEFLATE false)).src.src.ud.fuel_exhausted = false) :=
  ⟨⟨by decide, by decide, by decide⟩,
    compress_decompress_round_trip frame_encoder frame_decoder ZIP_CM_DEFLATE
      [65, 66, 67, 68, 69, 70, 71] 2 3 64 16 8 0 0
      (stream_junk ⟨frame_encoder.init, [], false⟩) (stream_junk ⟨frame_decoder.init, [], false⟩)
      (codec_ctx frame_encoder ZIP_CM_DEFLATE true) (codec_ctx frame_decoder ZIP_CM_DEFLATE false)
      rfl rfl (by decide) (by decide) (by decide) (by decide) (by decide) (by decide) (by decide)
      (by decide) (fun _ => by decide)⟩

/-! ## Invalidation and the entry checks of the operations -/

/-- C20, counterexample: a source that already carries an error keeps it.  A
fresh source on which zip_source_close failed carries INVAL; after
_zip_source_invalidate it is marked source_closed, but its error code is still
INVAL, not ZIPCLOSED. -/
theorem invalidate_keeps_earlier_error :
    (zip_source_close scripted_leaf leaf0).2.error.zip_err = ZIP_ER_INVAL ∧
    (_zip_source_invalidate (zip_source_close scripted_leaf leaf0).2).source_closed = true ∧
    (_zip_source_invalidate (zip_source_close scripted_leaf leaf0).2).error.zip_err
      = ZIP_ER_INVAL ∧
    (_zip_source_invalidate (zip_source_close scripted_leaf leaf0).2).error.zip_err
      ≠ ZIP_ER_ZIPCLOSED := by
  decide

/-- C20, amended: for every source state, _zip_source_invalidate sets
source_closed and changes nothing else but the error: the error becomes
ZIPCLOSED (system detail 0) if the error code was OK, and is kept as it was
otherwise. -/
theorem invalidate_sets_closed {τ σ υ : Type} (src : zip_source_t τ σ υ) :
    (_zip_source_invalidate src).source_closed = true ∧
    (_zip_source_invalidate src).error
      = (if src.error.zip_err = ZIP_ER_OK then zip_error_set ZIP_ER_ZIPCLOSED 0 else src.error) ∧
    _zip_source_invalidate src
      = { src with source_closed := true, error := (_zip_source_invalidate src).error } := by
  unfold _zip_source_invalidate
  by_cases h : src.error.zip_err = ZIP_ER_OK
  · simp only [h, if_true]
    exact ⟨trivial, trivial, trivial⟩
  · simp only [h, if_false]
    exact ⟨trivial, trivial, trivial⟩

theorem zip_source_close_flag {τ σ υ : Type} (K : zip_source_class τ σ υ)
    (src : zip_source_t τ σ υ) (b : Bool) :
    zip_source_close K { src with source_closed := b }
      = ((zip_source_close K src).1, { (zip_source_close K src).2 with source_closed := b }) := by
  unfold zip_source_close
  simp only [ZIP_SOURCE_IS_OPEN_READING, _zip_source_call]
  by_cases h0 : 0 < src.open_count
  · simp only [h0, decide_True, Bool.not_true, Bool.false_eq_true, if_false]
    by_cases h1 : src.open_count - 1 = 0
    · simp only [h1, if_true]
      cases K.lower with
      | none => rfl
      | some A =>
        simp only
        split <;> rfl
    · simp only [h1, if_false]
  · simp only [h0, decide_False, Bool.not_false, if_true]

/-- The function zip_source_close_stream does not look at source_closed: the
mark passes through the call unchanged and has no influence on anything else. -/
theorem zip_source_close_stream_flag {τ σ υ : Type} (K : zip_source_class τ σ υ)
    (src : zip_source_t τ σ υ) (stream_id : Int) (b : Bool) :
    zip_source_close_stream K { src with source_closed := b } stream_id
      = ((zip_source_close_stream K src stream_id).1,
         { (zip_source_close_stream K src stream_id).2 with source_closed := b }) := by
  cases src
  unfold zip_source_close_stream
  simp only [ZIP_SOURCE_IS_VALID_STREAM_ID, stream_at, _zip_source_call, lower_close_stream,
    ZIP_SOURCE_IS_LAYERED]
  cases K.lower with
  | none =>
    simp only [Option.isSome_none, Bool.false_eq_true, if_false, Bool.false_and,
      Bool.or_false, Bool.and_false]
    split
    · rfl
    · split
      · rfl
      · split
        · rfl
        · split
          · rfl
          · split
            · generalize _zip_realloc _ _ _ _ = z
              obtain ⟨e, n, h⟩ := z
              cases e <;> rfl
            · rfl
  | some A =>
    simp only [Option.isSome_some, if_true, Bool.true_and]
    split
    · rfl
    · split
      · rfl
      · split
        · split
          · rfl
          · rfl
        · split
          · rename_i h1 h2
            rw [Bool.or_eq_true] at h1
            rw [Bool.and_eq_true] at h2
            exact absurd (Or.inr h2.1) h1
          · simp only []
            split
            · rfl
            · split
              · generalize _zip_realloc _ _ _ _ = z
                obtain ⟨e, n, h⟩ := z
                cases e <;> rfl
              · rfl

/-- C19, counterexample: closing still works on an invalidated source.  A leaf
source is opened (its callback logs OPEN), then invalidated; zip_source_close
returns 0, brings open_count to 0 and dispatches CLOSE to the callback.
Likewise a stream is opened on a leaf source, the source is invalidated, and
zip_source_close_stream on the stream returns 0, dispatches CLOSE_STREAM and
frees the slot. -/
theorem close_ignores_invalidation :
    (_zip_source_invalidate
        (zip_source_open (logging scripted_leaf) (logged_leaf [])).2).source_closed = true ∧
    (zip_source_close (logging scripted_leaf)
      (_zip_source_invalidate (zip_source_open (logging scripted_leaf) (logged_leaf [])).2)).1
        = 0 ∧
    (zip_source_close (logging scripted_leaf)
      (_zip_source_invalidate
        (zip_source_open (logging scripted_leaf) (logged_leaf [])).2)).2.open_count = 0 ∧
    (zip_source_close (logging scripted_leaf)
      (_zip_source_invalidate (zip_source_open (logging scripted_leaf) (logged_leaf [])).2)).2.ud.2
        = [ZIP_SOURCE_OPEN, ZIP_SOURCE_CLOSE] ∧
    (zip_source_close_stream (logging scripted_leaf)
      (_zip_source_invalidate
        (zip_source_open_stream (logging scripted_leaf) (logged_leaf [])).2) 0).1 = some 0 ∧
    (zip_source_close_stream (logging scripted_leaf)
      (_zip_source_invalidate
        (zip_source_open_stream (logging scripted_leaf) (logged_leaf [])).2) 0).2.ud.2
        = [ZIP_SOURCE_OPEN_STREAM, ZIP_SOURCE_CLOSE_STREAM] ∧
    present_ids (zip_source_close_stream (logging scripted_leaf)
      (_zip_source_invalidate
        (zip_source_open_stream (logging scripted_leaf) (logged_leaf [])).2) 0).2 = [] := by
  decide

/-- C19, amended: on an invalidated source the operations zip_source_open,
zip_source_read, zip_source_tell, zip_source_open_stream, zip_source_read_stream
and zip_source_tell_stream return -1 and hand back the source as it was, for
every class, that is whatever the callback and the lower source are (nothing
is dispatched).  The functions zip_source_close and zip_source_close_stream do
not look at source_closed: on the invalidated source each of them, for every
stream ID, returns what it returns on the same source not invalidated and
leaves the same state (callback data and lower source included), marked
source_closed. -/
theorem invalidated_source_fails {τ σ υ : Type} (K : zip_source_class τ σ υ)
    (src : zip_source_t τ σ υ) (h : src.source_closed = true) :
    zip_source_open K src = (-1, src) ∧
    (∀ len, zip_source_read K src len = (-1, [], src)) ∧
    zip_source_tell K src = (-1, src) ∧
    zip_source_open_stream K src = (-1, src) ∧
    (∀ id len, zip_source_read_stream K src id len = (-1, [], src)) ∧
    (∀ id, zip_source_tell_stream K src id = (-1, src)) ∧
    zip_source_close K src
      = ((zip_source_close K { src with source_closed := false }).1,
         { (zip_source_close K { src with source_closed := false }).2 with
           source_closed := true }) ∧
    (∀ id, zip_source_close_stream K src id
      = ((zip_source_close_stream K { src with source_closed := false } id).1,
         { (zip_source_close_stream K { src with source_closed := false } id).2 with
           source_closed := true })) := by
  have hs : src = { src with source_closed := true } := by
    cases src; simp_all
  refine ⟨?_, ?_, ?_, ?_, ?_, ?_, ?_, ?_⟩
  · simp [zip_source_open, h]
  · intro len; simp [zip_source_read, h]
  · simp [zip_source_tell, h]
  · simp [zip_source_open_stream, h]
  · intro id len; simp [zip_source_read_stream, h]
  · intro id; simp [zip_source_tell_stream, h]
  · have := zip_source_close_flag K { src with source_closed := false } true
    rw [← this]
    exact congrArg (zip_source_close K) hs
  · intro id
    have := zip_source_close_stream_flag K { src with source_closed := false } id true
    rw [← this]
    exact congrArg (fun s => zip_source_close_stream K s id) hs

/-- C19, instance: a leaf source that was opened and then invalidated.  The
theorem applies: zip_source_open, zip_source_read and zip_source_tell return -1
and leave the source, with the log of its callback, as it was.  A stream is
opened on a two-layer stack and the upper source is invalidated.  The theorem
applies: zip_source_close_stream on the stream does what it does on the upper
source not invalidated; it returns 0 and closes the parent stream on the lower
source. -/
theorem invalidated_source_fails_witness :
    (_zip_source_invalidate
        (zip_source_open (logging scripted_leaf) (logged_leaf [])).2).source_closed = true ∧
    zip_source_open (logging scripted_leaf)
        (_zip_source_invalidate (zip_source_open (logging scripted_leaf) (logged_leaf [])).2)
      = (-1, _zip_source_invalidate (zip_source_open (logging scripted_leaf) (logged_leaf [])).2) ∧
    zip_source_read (logging scripted_leaf)
        (_zip_source_invalidate (zip_source_open (logging scripted_leaf) (logged_leaf [])).2) 16
      = (-1, [],
          _zip_source_invalidate (zip_source_open (logging scripted_leaf) (logged_leaf [])).2) ∧
    zip_source_tell (logging scripted_leaf)
        (_zip_source_invalidate (zip_source_open (logging scripted_leaf) (logged_leaf [])).2)
      = (-1, _zip_source_invalidate (zip_source_open (logging scripted_leaf) (logged_leaf [])).2) ∧
    (_zip_source_invalidate (zip_source_open_stream stack_class (stack0 [])).2).source_closed
      = true ∧
    present_ids (_zip_source_invalidate (zip_source_open_stream stack_class (stack0 [])).2).src
      = [0] ∧
    zip_source_close_stream stack_class
        (_zip_source_invalidate (zip_source_open_stream stack_class (stack0 [])).2) 0
      = ((zip_source_close_stream stack_class
            { _zip_source_invalidate (zip_source_open_stream stack_class (stack0 [])).2 with
              source_closed := false } 0).1,
         { (zip_source_close_stream stack_class
              { _zip_source_invalidate (zip_source_open_stream stack_class (stack0 [])).2 with
                source_closed := false } 0).2 with source_closed := true }) ∧
    (zip_source_close_stream stack_class
        (_zip_source_invalidate (zip_source_open_stream stack_class (stack0 [])).2) 0).1
      = some 0 ∧
    present_ids (zip_source_close_stream stack_class
        (_zip_source_invalidate (zip_source_open_stream stack_class (stack0 [])).2) 0).2.src
      = [] :=
  ⟨by decide,
    (invalidated_source_fails (logging scripted_leaf)
      (_zip_source_invalidate (zip_source_open (logging scripted_leaf) (logged_leaf [])).2)
      (by decide)).1,
    (invalidated_source_fails (logging scripted_leaf)
      (_zip_source_invalidate (zip_source_open (logging scripted_leaf) (logged_leaf [])).2)
      (by decide)).2.1 16,
    (invalidated_source_fails (logging scripted_leaf)
      (_zip_source_invalidate (zip_source_open (logging scripted_leaf) (logged_leaf [])).2)
      (by decide)).2.2.1,
    by decide, by decide,
    (invalidated_source_fails stack_class
      (_zip_source_invalidate (zip_source_open_stream stack_class (stack0 [])).2)
      (by decide)).2.2.2.2.2.2.2 0,
    by decide, by decide⟩

/-- C15, counterexample: a latched read error wins over len = 0.  A leaf source
is opened and a read of 8 bytes fails at its first callback (the callback
returns -1), which sets had_read_error; the source is still open and not
invalidated, and zip_source_read with len = 0 returns -1, not 0.  The same
happens on a stream with zip_source_read_stream. -/
theorem read_zero_after_error :
    (zip_source_read scripted_leaf
      (zip_source_open scripted_leaf (scripted_leaf_new [(0, true), (-1, true)])).2 8).1 = -1 ∧
    (zip_source_read scripted_leaf
      (zip_source_open scripted_leaf (scripted_leaf_new [(0, true), (-1, true)])).2
        8).2.2.had_read_error = true ∧
    0 < (zip_source_read scripted_leaf
      (zip_source_open scripted_leaf (scripted_leaf_new [(0, true), (-1, true)])).2
        8).2.2.open_count ∧
    (zip_source_read scripted_leaf
      (zip_source_open scripted_leaf (scripted_leaf_new [(0, true), (-1, true)])).2
        8).2.2.source_closed = false ∧
    (zip_source_read scripted_leaf
      (zip_source_read scripted_leaf
        (zip_source_open scripted_leaf (scripted_leaf_new [(0, true), (-1, true)])).2 8).2.2
      0).1 = -1 ∧
    ZIP_SOURCE_IS_VALID_STREAM_ID
      (zip_source_read_stream scripted_leaf
        (zip_source_open_stream scripted_leaf (scripted_leaf_new [(0, true), (-1, true)])).2
        0 8).2.2 0 = true ∧
    (zip_source_read_stream scripted_leaf
      (zip_source_read_stream scripted_leaf
        (zip_source_open_stream scripted_leaf (scripted_leaf_new [(0, true), (-1, true)])).2
        0 8).2.2 0 0).1 = -1 := by
  decide

/-- C15, amended: for every source that is not invalidated, zip_source_read
with len = 0 on an open source whose had_read_error is not set, and
zip_source_read_stream with len = 0 on a valid stream whose had_read_error is
not set, return 0 and hand back the source as it was, for every class, that is
whatever the callback is (it is not invoked). -/
theorem read_zero_length {τ σ υ : Type} (K : zip_source_class τ σ υ)
    (src : zip_source_t τ σ υ) (hcl : src.source_closed = false) :
    (0 < src.open_count → src.had_read_error = false →
      zip_source_read K src 0 = (0, [], src)) ∧
    (∀ (id : Int) (stream : zip_stream_t υ), ZIP_SOURCE_IS_VALID_STREAM_ID src id = true →
      stream_at src id.toNat = some stream → stream.had_read_error = false →
      zip_source_read_stream K src id 0 = (0, [], src)) := by
  refine ⟨?_, ?_⟩
  · intro hopen hre
    unfold zip_source_read
    simp only [hcl, ZIP_SOURCE_IS_OPEN_READING, hopen, hre, ZIP_INT64_MAX, decide_True,
      Bool.false_eq_true, if_false]
    simp
  · intro id stream hv hs hre
    unfold zip_source_read_stream
    simp only [hcl, hv, hs, hre, ZIP_INT64_MAX, Bool.false_eq_true, if_false]
    simp

/-- C15, instance: a freshly opened leaf source and a freshly opened stream;
reads of length 0 return 0 and leave the log of the callback as it was. -/
theorem read_zero_length_witness :
    (zip_source_open (logging scripted_leaf) (logged_leaf [])).2.source_closed = false ∧
    zip_source_read (logging scripted_leaf)
        (zip_source_open (logging scripted_leaf) (logged_leaf [])).2 0
      = (0, [], (zip_source_open (logging scripted_leaf) (logged_leaf [])).2) ∧
    (zip_source_open_stream (logging scripted_leaf) (logged_leaf [])).2.source_closed = false ∧
    zip_source_read_stream (logging scripted_leaf)
        (zip_source_open_stream (logging scripted_leaf) (logged_leaf [])).2 0 0
      = (0, [], (zip_source_open_stream (logging scripted_leaf) (logged_leaf [])).2) :=
  ⟨by decide,
    (read_zero_length (logging scripted_leaf)
      (zip_source_open (logging scripted_leaf) (logged_leaf [])).2 (by decide)).1
      (by decide) (by decide),
    by decide,
    (read_zero_length (logging scripted_leaf)
      (zip_source_open_stream (logging scripted_leaf) (logged_leaf [])).2 (by decide)).2 0
      ⟨-1, false, false, 0, some ()⟩ (by decide) (by decide) (by decide)⟩

/-! ## Reads driven by a script of callback results -/

theorem script_total_cons (e : Int × Bool) (entries : List (Int × Bool)) :
    script_total (e :: entries) = e.1.toNat + script_total entries := by
  simp [script_total]

theorem scripted_call_read {τ : Type} (K : zip_source_class τ (List (Int × Bool)) Unit)
    (hK : K.cb = scripted_cb) (src : zip_source_t τ (List (Int × Bool)) Unit) (size : Nat) :
    _zip_source_call K src (-1) (.raw [] size) ZIP_SOURCE_READ
      = ((src.ud.headD (0, true)).1, .raw [] size, { src with ud := src.ud.tail }) := by
  simp [_zip_source_call, hK, scripted_cb]

/-- The loop of zip_source_read on a scripted callback whose next results are
the positive counts of entries and then t with t.1 <= 0: it leaves with the
sum of the counts; a negative t.1 sets had_read_error and makes the function
return, t.1 = 0 sets eof and ends the loop. -/
theorem scripted_read_loop {τ : Type} (K : zip_source_class τ (List (Int × Bool)) Unit)
    (hK : K.cb = scripted_cb) (t : Int × Bool) (rest : List (Int × Bool)) (len : Nat)
    (ht : t.1 ≤ 0) :
    ∀ (entries : List (Int × Bool)) (fuel : Nat) (src : zip_source_t τ (List (Int × Bool)) Unit)
      (b : Nat) (data : List Nat),
      src.ud = entries ++ t :: rest → (∀ e ∈ entries, 0 < e.1) →
      b + script_total entries < len → entries.length < fuel →
      (zip_source_read_loop K len fuel src b data).2.2.1 = b + script_total entries ∧
      (zip_source_read_loop K len fuel src b data).2.1
        = { src with ud := rest, had_read_error := src.had_read_error || decide (t.1 < 0),
                     eof := src.eof || decide (t.1 = 0) } ∧
      (zip_source_read_loop K len fuel src b data).1
        = (if t.1 < 0 then
            some (if b + script_total entries = 0 then -1 else to_int64 (b + script_total entries))
          else none) := by
  intro entries
  induction entries with
  | nil =>
    intro fuel src b data hud _ hlt hf
    cases fuel with
    | zero => simp at hf
    | succ fuel =>
      have hb : b < len := by simpa [script_total] using hlt
      unfold zip_source_read_loop
      simp only [hb, if_true]
      rw [scripted_call_read K hK]
      simp only [hud, List.nil_append, List.headD_cons, List.tail_cons]
      by_cases hneg : t.1 < 0
      · simp only [hneg, if_true, script_total, List.map_nil, List.sum_nil, Nat.add_zero,
          decide_True, Bool.or_true]
        have hne : ¬ t.1 = 0 := by omega
        by_cases hb0 : b = 0
        · simp [hb0, hne]
        · simp [hb0, hne]
      · have h0 : t.1 = 0 := by omega
        simp only [hneg, if_false, h0, if_true, script_total, List.map_nil, List.sum_nil,
          Nat.add_zero]
        simp
  | cons e entries ih =>
    intro fuel src b data hud hpos hlt hf
    cases fuel with
    | zero => simp at hf
    | succ fuel =>
      have he : 0 < e.1 := hpos e (List.mem_cons_self _ _)
      rw [script_total_cons] at hlt
      have hb : b < len := by omega
      unfold zip_source_read_loop
      simp only [hb, if_true]
      rw [scripted_call_read K hK]
      simp only [hud, List.cons_append, List.headD_cons, List.tail_cons]
      have hn0 : ¬ e.1 < 0 := by omega
      have hn1 : ¬ e.1 = 0 := by omega
      simp only [hn0, hn1, if_false]
      obtain ⟨i1, i2, i3⟩ := ih fuel { src with ud := entries ++ t :: rest } (b + e.1.toNat)
        (data ++ (zip_source_data.raw (υ := Unit) [] (len - b)).written e.1.toNat) rfl
        (fun x hx => hpos x (List.mem_cons_of_mem _ hx)) (by omega)
        (by simp only [List.length_cons] at hf; omega)
      rw [script_total_cons]
      refine ⟨by rw [i1]; omega, by rw [i2], ?_⟩
      rw [i3]
      simp only [Nat.add_assoc]

theorem script_length_le_total (entries : List (Int × Bool)) (hpos : ∀ e ∈ entries, 0 < e.1) :
    entries.length ≤ script_total entries := by
  induction entries with
  | nil => simp
  | cons e entries ih =>
    rw [script_total_cons]
    have he : 0 < e.1 := hpos e (List.mem_cons_self _ _)
    have := ih (fun x hx => hpos x (List.mem_cons_of_mem _ hx))
    simp only [List.length_cons]
    omega

/-- The function zip_source_read on a scripted callback whose next results are
the positive counts of entries (k bytes in all, fewer than len) and then t
with t.1 <= 0. -/
theorem scripted_read {τ : Type} (K : zip_source_class τ (List (Int × Bool)) Unit)
    (hK : K.cb = scripted_cb) (src : zip_source_t τ (List (Int × Bool)) Unit)
    (entries : List (Int × Bool)) (t : Int × Bool) (rest : List (Int × Bool)) (len : Nat)
    (hcl : src.source_closed = false) (hopen : 0 < src.open_count)
    (hre : src.had_read_error = false) (heof : src.eof = false)
    (hud : src.ud = entries ++ t :: rest) (hpos : ∀ e ∈ entries, 0 < e.1) (ht : t.1 ≤ 0)
    (hk : script_total entries < len) (hmax : len ≤ ZIP_INT64_MAX) :
    (zip_source_read K src len).1
      = (if t.1 < 0 ∧ script_total entries = 0 then -1 else (script_total entries : Int)) ∧
    (zip_source_read K src len).2.2
      = (if t.1 < 0 then { src with ud := rest, had_read_error := true }
        else { src with ud := rest, eof := true,
                        bytes_read := bytes_read_add src.bytes_read (script_total entries) }) := by
  have hlen := script_length_le_total entries hpos
  obtain ⟨l1, l2, l3⟩ := scripted_read_loop K hK t rest len ht entries len src 0 [] hud hpos
    (by omega) (by omega)
  have h63 : script_total entries < 2 ^ 63 := by unfold ZIP_INT64_MAX at hmax; omega
  unfold zip_source_read
  have h1 : (!ZIP_SOURCE_IS_OPEN_READING src || decide (len > ZIP_INT64_MAX)) = false := by
    simp [ZIP_SOURCE_IS_OPEN_READING, hopen]
    omega
  have hl0 : ¬ len = 0 := by omega
  simp only [hcl, h1, hre, heof, Bool.false_eq_true, if_false, hl0]
  rw [Nat.zero_add] at l1 l3
  by_cases hneg : t.1 < 0
  · have hne : ¬ t.1 = 0 := by omega
    simp only [hneg, if_true, true_and] at l3 ⊢
    generalize zip_source_read_loop K len len src 0 [] = r at l1 l2 l3 ⊢
    obtain ⟨r1, r2, r3, r4⟩ := r
    simp only at l1 l2 l3
    subst l3
    simp only
    refine ⟨?_, ?_⟩
    · by_cases hk0 : script_total entries = 0
      · simp [hk0]
      · simp only [hk0, if_false]
        exact to_int64_small _ h63
    · rw [l2]
      simp [hne, hneg, hre, heof, hcl]
  · have h0 : t.1 = 0 := by omega
    simp only [hneg, if_false, false_and] at l3 ⊢
    generalize zip_source_read_loop K len len src 0 [] = r at l1 l2 l3 ⊢
    obtain ⟨r1, r2, r3, r4⟩ := r
    simp only at l1 l2 l3
    subst l3
    subst l1
    simp only
    refine ⟨to_int64_small _ h63, ?_⟩
    rw [l2]
    simp [h0, hre, heof, hcl]

theorem scripted_call_read_stream {τ : Type} (K : zip_source_class τ (List (Int × Bool)) Unit)
    (hK : K.cb = scripted_cb) (src : zip_source_t τ (List (Int × Bool)) Unit) (sid : Int)
    (args : zip_source_args_stream_t Unit) :
    _zip_source_call K src sid (.stream args) ZIP_SOURCE_READ_STREAM
      = ((src.ud.headD (0, true)).1, .stream args, { src with ud := src.ud.tail }) := by
  simp [_zip_source_call, hK, scripted_cb]

/-- The loop of zip_source_read_stream on a scripted callback whose next
results are the positive counts of entries and then t with t.1 <= 0. -/
theorem scripted_read_stream_loop {τ : Type} (K : zip_source_class τ (List (Int × Bool)) Unit)
    (hK : K.cb = scripted_cb) (t : Int × Bool) (rest : List (Int × Bool)) (len : Nat)
    (ht : t.1 ≤ 0) :
    ∀ (entries : List (Int × Bool)) (fuel : Nat) (src : zip_source_t τ (List (Int × Bool)) Unit)
      (stream : zip_stream_t Unit) (b : Nat) (data : List Nat),
      src.ud = entries ++ t :: rest → (∀ e ∈ entries, 0 < e.1) →
      b + script_total entries < len → entries.length < fuel →
      (zip_source_read_stream_loop K len fuel src stream b data).2.2.2.1
        = b + script_total entries ∧
      (zip_source_read_stream_loop K len fuel src stream b data).2.1 = { src with ud := rest } ∧
      (zip_source_read_stream_loop K len fuel src stream b data).2.2.1
        = { stream with had_read_error := stream.had_read_error || decide (t.1 < 0),
                        eof := stream.eof || decide (t.1 = 0) } ∧
      (zip_source_read_stream_loop K len fuel src stream b data).1
        = (if t.1 < 0 ∧ b + script_total entries = 0 then some (-1) else none) := by
  intro entries
  induction entries with
  | nil =>
    intro fuel src stream b data hud _ hlt hf
    cases fuel with
    | zero => simp at hf
    | succ fuel =>
      have hb : b < len := by simpa [script_total] using hlt
      unfold zip_source_read_stream_loop
      simp only [hb, if_true]
      rw [scripted_call_read_stream K hK]
      simp only [hud, List.nil_append, List.headD_cons, List.tail_cons,
        zip_source_data.user_stream]
      by_cases hneg : t.1 < 0
      · have hne : ¬ t.1 = 0 := by omega
        simp only [hneg, if_true, script_total, List.map_nil, List.sum_nil, Nat.add_zero,
          decide_True, Bool.or_true]
        by_cases hb0 : b = 0
        · simp [hb0, hne]
        · simp [hb0, hne]
      · have h0 : t.1 = 0 := by omega
        simp only [hneg, if_false, h0, if_true, script_total, List.map_nil, List.sum_nil,
          Nat.add_zero]
        simp
  | cons e entries ih =>
    intro fuel src stream b data hud hpos hlt hf
    cases fuel with
    | zero => simp at hf
    | succ fuel =>
      have he : 0 < e.1 := hpos e (List.mem_cons_self _ _)
      rw [script_total_cons] at hlt
      have hb : b < len := by omega
      unfold zip_source_read_stream_loop
      simp only [hb, if_true]
      rw [scripted_call_read_stream K hK]
      simp only [hud, List.cons_append, List.headD_cons, List.tail_cons,
        zip_source_data.user_stream]
      have hn0 : ¬ e.1 < 0 := by omega
      have hn1 : ¬ e.1 = 0 := by omega
      simp only [hn0, hn1, if_false]
      obtain ⟨i1, i2, i3, i4⟩ := ih fuel { src with ud := entries ++ t :: rest } stream
        (b + e.1.toNat)
        (data ++ (zip_source_data.stream (υ := Unit)
          ⟨stream.user_stream, [], len - b⟩).written e.1.toNat) rfl
        (fun x hx => hpos x (List.mem_cons_of_mem _ hx)) (by omega)
        (by simp only [List.length_cons] at hf; omega)
      rw [script_total_cons]
      refine ⟨by rw [i1]; omega, by rw [i2], i3, ?_⟩
      rw [i4]
      simp only [Nat.add_assoc]

/-- The function zip_source_read_stream on a scripted callback whose next
results are the positive counts of entries (k bytes in all, fewer than len) and
then t with t.1 <= 0. -/
theorem scripted_read_stream {τ : Type} (K : zip_source_class τ (List (Int × Bool)) Unit)
    (hK : K.cb = scripted_cb) (src : zip_source_t τ (List (Int × Bool)) Unit) (id : Int)
    (stream : zip_stream_t Unit)
    (entries : List (Int × Bool)) (t : Int × Bool) (rest : List (Int × Bool)) (len : Nat)
    (hcl : src.source_closed = false) (hv : ZIP_SOURCE_IS_VALID_STREAM_ID src id = true)
    (hs : stream_at src id.toNat = some stream)
    (hre : stream.had_read_error = false) (heof : stream.eof = false)
    (hud : src.ud = entries ++ t :: rest) (hpos : ∀ e ∈ entries, 0 < e.1) (ht : t.1 ≤ 0)
    (hk : script_total entries < len) (hmax : len ≤ ZIP_INT64_MAX) :
    (zip_source_read_stream K src id len).1
      = (if t.1 < 0 ∧ script_total entries = 0 then -1 else (script_total entries : Int)) ∧
    (zip_source_read_stream K src id len).2.2
      = { src with
          ud := rest,
          streams := src.streams.set id.toNat (some
            { stream with
              had_read_error := decide (t.1 < 0), eof := decide (t.1 = 0),
              bytes_read := if t.1 < 0 ∧ script_total entries = 0 then stream.bytes_read
                else bytes_read_add stream.bytes_read (script_total entries) }) } := by
  have hlen := script_length_le_total entries hpos
  obtain ⟨l1, l2, l3, l4⟩ := scripted_read_stream_loop K hK t rest len ht entries len src stream
    0 [] hud hpos (by omega) (by omega)
  have h63 : script_total entries < 2 ^ 63 := by unfold ZIP_INT64_MAX at hmax; omega
  unfold zip_source_read_stream
  have h1 : (!ZIP_SOURCE_IS_VALID_STREAM_ID src id || decide (len > ZIP_INT64_MAX)) = false := by
    simp [hv]
    omega
  have hl0 : ¬ len = 0 := by omega
  simp only [hcl, h1, hs, hre, heof, Bool.false_eq_true, if_false, hl0]
  rw [Nat.zero_add] at l1 l4
  generalize zip_source_read_stream_loop K len len src stream 0 [] = r at l1 l2 l3 l4 ⊢
  obtain ⟨r1, r2, r3, r4, r5⟩ := r
  simp only at l1 l2 l3 l4
  subst l1 l2 l3 l4
  by_cases hc : t.1 < 0 ∧ script_total entries = 0
  · simp only [hc, and_self, if_true, true_and]
    have hne : ¬ t.1 = 0 := by omega
    simp [hc.1, hne, hre, heof, hcl]
  · simp only [hc, if_false]
    refine ⟨to_int64_small _ h63, ?_⟩
    simp [hre, heof, hcl]

theorem stream_at_set {υ : Type} (streams : List (Option (zip_stream_t υ))) (i : Nat)
    (s0 s : zip_stream_t υ) (h : (streams.get? i).join = some s0) :
    ((streams.set i (some s)).get? i).join = some s := by
  have hlt : i < streams.length := by
    by_contra hge
    rw [List.get?_eq_none.mpr (by omega)] at h
    simp at h
  simp [List.getElem?_set, hlt]

/-- After a read that set had_read_error, zip_source_read returns -1 for every length. -/
theorem read_after_error_any {τ σ υ : Type} (K : zip_source_class τ σ υ)
    (src : zip_source_t τ σ υ) (hre : src.had_read_error = true) (len : Nat) :
    (zip_source_read K src len).1 = -1 := by
  unfold zip_source_read
  split
  · rfl
  split
  · rfl
  simp [hre]

/-- On a stream whose had_read_error is set, zip_source_read_stream returns -1
for every length. -/
theorem read_stream_after_error_any {τ σ υ : Type} (K : zip_source_class τ σ υ)
    (src : zip_source_t τ σ υ) (id : Int) (stream : zip_stream_t υ)
    (hs : stream_at src id.toNat = some stream) (hre : stream.had_read_error = true)
    (len : Nat) :
    (zip_source_read_stream K src id len).1 = -1 := by
  unfold zip_source_read_stream
  split
  · rfl
  split
  · rfl
  simp [hs, hre]

/-- C13: partial progress is not discarded.  The callback is scripted: its next
results are the positive counts of entries, k bytes in all with k < len, and
then a negative value.  On an open source without latched flags
zip_source_read returns k if k > 0 and -1 if k = 0 (the first result is the
negative one), sets had_read_error, and every following zip_source_read returns
-1.  On a valid stream without latched flags zip_source_read_stream does the
same with the had_read_error flag of the stream. -/
theorem read_error_keeps_progress {τ : Type} (K : zip_source_class τ (List (Int × Bool)) Unit)
    (hK : K.cb = scripted_cb) (src : zip_source_t τ (List (Int × Bool)) Unit)
    (entries : List (Int × Bool)) (t : Int × Bool) (rest : List (Int × Bool)) (len : Nat)
    (hcl : src.source_closed = false) (hud : src.ud = entries ++ t :: rest)
    (hpos : ∀ e ∈ entries, 0 < e.1) (hneg : t.1 < 0) (hk : script_total entries < len)
    (hmax : len ≤ ZIP_INT64_MAX) :
    (0 < src.open_count → src.had_read_error = false → src.eof = false →
      (zip_source_read K src len).1
          = (if script_total entries = 0 then -1 else (script_total entries : Int)) ∧
        (zip_source_read K src len).2.2.had_read_error = true ∧
        ∀ len2, (zip_source_read K (zip_source_read K src len).2.2 len2).1 = -1) ∧
    (∀ (id : Int) (stream : zip_stream_t Unit), ZIP_SOURCE_IS_VALID_STREAM_ID src id = true →
      stream_at src id.toNat = some stream → stream.had_read_error = false →
      stream.eof = false →
      (zip_source_read_stream K src id len).1
          = (if script_total entries = 0 then -1 else (script_total entries : Int)) ∧
        stream_had_read_error (zip_source_read_stream K src id len).2.2 id.toNat = true ∧
        ∀ len2,
          (zip_source_read_stream K (zip_source_read_stream K src id len).2.2 id len2).1 = -1) := by
  refine ⟨?_, ?_⟩
  · intro hopen hre heof
    obtain ⟨p1, p2⟩ := scripted_read K hK src entries t rest len hcl hopen hre heof hud hpos
      (by omega) hk hmax
    simp only [hneg, true_and, if_true] at p1 p2
    have hre2 : (zip_source_read K src len).2.2.had_read_error = true := by rw [p2]
    exact ⟨p1, hre2, fun len2 => read_after_error_any K _ hre2 len2⟩
  · intro id stream hv hs hre heof
    obtain ⟨p1, p2⟩ := scripted_read_stream K hK src id stream entries t rest len hcl hv hs hre
      heof hud hpos (by omega) hk hmax
    simp only [hneg, true_and, decide_True] at p1 p2
    have hs2 : stream_at (zip_source_read_stream K src id len).2.2 id.toNat
        = some { stream with
            had_read_error := true, eof := decide (t.1 = 0),
            bytes_read := if script_total entries = 0 then stream.bytes_read
              else bytes_read_add stream.bytes_read (script_total entries) } := by
      rw [p2]
      exact stream_at_set src.streams id.toNat stream _ hs
    refine ⟨p1, ?_, fun len2 => read_stream_after_error_any K _ id _ hs2 rfl len2⟩
    simp only [stream_had_read_error, hs2]

/-- C13, instance: the callback returns 3, then 2, then -1, and the reads ask
for 8 bytes.  The theorem applies to the primary reader and to stream 0: each
read returns 5 and latches the error, and the next read returns -1. -/
theorem read_error_keeps_progress_witness :
    ((scripted_reader [(3, true), (2, true), (-1, true)]).source_closed = false ∧
      (scripted_reader [(3, true), (2, true), (-1, true)]).ud
        = [(3, true), (2, true)] ++ (-1, true) :: [] ∧
      script_total [(3, true), (2, true)] < 8 ∧
      0 < (scripted_reader [(3, true), (2, true), (-1, true)]).open_count ∧
      ZIP_SOURCE_IS_VALID_STREAM_ID (scripted_reader [(3, true), (2, true), (-1, true)]) 0
        = true) ∧
    ((zip_source_read scripted_leaf (scripted_reader [(3, true), (2, true), (-1, true)]) 8).1 = 5 ∧
      (zip_source_read scripted_leaf (scripted_reader [(3, true), (2, true), (-1, true)])
        8).2.2.had_read_error = true ∧
      (zip_source_read scripted_leaf
        (zip_source_read scripted_leaf (scripted_reader [(3, true), (2, true), (-1, true)])
          8).2.2 8).1 = -1) ∧
    ((zip_source_read_stream scripted_leaf (scripted_reader [(3, true), (2, true), (-1, true)])
        0 8).1 = 5 ∧
      stream_had_read_error
        (zip_source_read_stream scripted_leaf (scripted_reader [(3, true), (2, true), (-1, true)])
          0 8).2.2 0 = true ∧
      (zip_source_read_stream scripted_leaf
        (zip_source_read_stream scripted_leaf
          (scripted_reader [(3, true), (2, true), (-1, true)]) 0 8).2.2 0 8).1 = -1) :=
  ⟨⟨by decide, by decide, by decide, by decide, by decide⟩,
    ⟨((read_error_keeps_progress scripted_leaf rfl
        (scripted_reader [(3, true), (2, true), (-1, true)]) [(3, true), (2, true)] (-1, true) []
        8 (by decide) (by decide) (by decide) (by decide) (by decide) (by decide)).1
        (by decide) (by decide) (by decide)).1.trans (by decide),
      ((read_error_keeps_progress scripted_leaf rfl
        (scripted_reader [(3, true), (2, true), (-1, true)]) [(3, true), (2, true)] (-1, true) []
        8 (by decide) (by decide) (by decide) (by decide) (by decide) (by decide)).1
        (by decide) (by decide) (by decide)).2.1,
      ((read_error_keeps_progress scripted_leaf rfl
        (scripted_reader [(3, true), (2, true), (-1, true)]) [(3, true), (2, true)] (-1, true) []
        8 (by decide) (by decide) (by decide) (by decide) (by decide) (by decide)).1
        (by decide) (by decide) (by decide)).2.2 8⟩,
    ⟨((read_error_keeps_progress scripted_leaf rfl
        (scripted_reader [(3, true), (2, true), (-1, true)]) [(3, true), (2, true)] (-1, true) []
        8 (by decide) (by decide) (by decide) (by decide) (by decide) (by decide)).2 0
        ⟨-1, false, false, 0, some ()⟩ (by decide) (by decide) (by decide) (by decide)).1.trans
        (by decide),
      ((read_error_keeps_progress scripted_leaf rfl
        (scripted_reader [(3, true), (2, true), (-1, true)]) [(3, true), (2, true)] (-1, true) []
        8 (by decide) (by decide) (by decide) (by decide) (by decide) (by decide)).2 0
        ⟨-1, false, false, 0, some ()⟩ (by decide) (by decide) (by decide) (by decide)).2.1,
      ((read_error_keeps_progress scripted_leaf rfl
        (scripted_reader [(3, true), (2, true), (-1, true)]) [(3, true), (2, true)] (-1, true) []
        8 (by decide) (by decide) (by decide) (by decide) (by decide) (by decide)).2 0
        ⟨-1, false, false, 0, some ()⟩ (by decide) (by decide) (by decide) (by decide)).2.2 8⟩⟩

/-- C17, failing input: the callback returns 3 and then -1, and the reads ask
for 8 bytes on a freshly opened reader (bytes_read = 0).  Both functions return
3 and latch the error with eof unset; zip_source_read_stream adds the 3 bytes
to the counter of the stream, zip_source_read returns from inside its loop and
leaves src->bytes_read at 0. -/
theorem primary_read_skips_counter :
    (scripted_reader [(3, true), (-1, true)]).bytes_read = 0 ∧
    stream_bytes_read (scripted_reader [(3, true), (-1, true)]) 0 = 0 ∧
    (zip_source_read scripted_leaf (scripted_reader [(3, true), (-1, true)]) 8).1 = 3 ∧
    (zip_source_read scripted_leaf (scripted_reader [(3, true), (-1, true)]) 8).2.2.eof = false ∧
    (zip_source_read scripted_leaf (scripted_reader [(3, true), (-1, true)])
      8).2.2.had_read_error = true ∧
    (zip_source_read scripted_leaf (scripted_reader [(3, true), (-1, true)]) 8).2.2.bytes_read
      = 0 ∧
    (zip_source_read_stream scripted_leaf (scripted_reader [(3, true), (-1, true)]) 0 8).1 = 3 ∧
    stream_eof
      (zip_source_read_stream scripted_leaf (scripted_reader [(3, true), (-1, true)]) 0 8).2.2 0
      = false ∧
    stream_had_read_error
      (zip_source_read_stream scripted_leaf (scripted_reader [(3, true), (-1, true)]) 0 8).2.2 0
      = true ∧
    stream_bytes_read
      (zip_source_read_stream scripted_leaf (scripted_reader [(3, true), (-1, true)]) 0 8).2.2 0
      = 3 := by
  decide

/-- C18, failing input: the primary reader has counted 2^64 - 2 bytes since its
open; the callback returns 3 and then -1, and the read asks for 8 bytes.
zip_source_read returns 3, so the old counter plus the value returned exceeds
2^64 - 1, but the function returns from inside its loop and src->bytes_read
stays 2^64 - 2.  On the stream, where the loop is left by break, the same
reads saturate the counter at 2^64 - 1. -/
theorem primary_read_skips_saturation :
    (zip_source_read scripted_leaf
      { scripted_reader [(3, true), (-1, true)] with bytes_read := 2 ^ 64 - 2 } 8).1 = 3 ∧
    (zip_source_read scripted_leaf
      { scripted_reader [(3, true), (-1, true)] with bytes_read := 2 ^ 64 - 2 } 8).2.2.bytes_read
      = 2 ^ 64 - 2 ∧
    (zip_source_read_stream scripted_leaf
      { scripted_reader [(3, true), (-1, true)] with
        streams := [some ⟨-1, false, false, 2 ^ 64 - 2, some ()⟩] } 0 8).1 = 3 ∧
    stream_bytes_read
      (zip_source_read_stream scripted_leaf
        { scripted_reader [(3, true), (-1, true)] with
          streams := [some ⟨-1, false, false, 2 ^ 64 - 2, some ()⟩] } 0 8).2.2 0
      = 2 ^ 64 - 1 := by
  decide

/-! ## Latched flags and counters, for every callback -/

theorem bytes_read_add_spec (old b : Nat) (hold : old < 2 ^ 64) (hb : b < 2 ^ 64) :
    bytes_read_add old b = min (old + b) ZIP_UINT64_MAX ∧ old ≤ bytes_read_add old b ∧
      bytes_read_add old b ≤ ZIP_UINT64_MAX := by
  unfold bytes_read_add ZIP_UINT64_MAX
  by_cases h : old + b < 2 ^ 64
  · rw [Nat.mod_eq_of_lt h]
    have : ¬ old + b < old := by omega
    simp only [this, if_false]
    omega
  · have hm : (old + b) % 2 ^ 64 = old + b - 2 ^ 64 := by
      rw [Nat.mod_eq_sub_mod (by omega), Nat.mod_eq_of_lt (by omega)]
    rw [hm]
    have : old + b - 2 ^ 64 < old := by omega
    simp only [this, if_true]
    omega

/-- The loop of zip_source_read, for every callback: the fields other than the
lower source, the private data and the two read flags are not touched; the
loop is left by a return exactly when it sets had_read_error, and it then
leaves eof as it was; otherwise it leaves had_read_error as it was and does
not clear eof; it sets eof when it ends before len bytes are there. -/
theorem read_loop_flags {τ σ υ : Type} (K : zip_source_class τ σ υ) (len : Nat) :
    ∀ (fuel : Nat) (src : zip_source_t τ σ υ) (b : Nat) (data : List Nat),
      len ≤ fuel + b →
      ∀ r, zip_source_read_loop K len fuel src b data = r →
      r.2.1 = { src with src := r.2.1.src, ud := r.2.1.ud, eof := r.2.1.eof,
                         had_read_error := r.2.1.had_read_error } ∧
      b ≤ r.2.2.1 ∧
      (r.1 = none →
        r.2.1.had_read_error = src.had_read_error ∧ (src.eof = true → r.2.1.eof = true) ∧
        (r.2.2.1 < len → r.2.1.eof = true)) ∧
      (r.1 ≠ none →
        r.2.1.had_read_error = true ∧ r.2.1.eof = src.eof ∧
        r.1 = some (if r.2.2.1 = 0 then -1 else to_int64 r.2.2.1)) := by
  intro fuel
  induction fuel with
  | zero =>
    intro src b data hf r hr
    simp only [zip_source_read_loop] at hr
    subst hr
    refine ⟨rfl, le_refl _, fun _ => ⟨rfl, fun h => h, fun h => ?_⟩, fun h => absurd rfl h⟩
    have : b < len := h
    omega
  | succ fuel ih =>
    intro src b data hf r hr
    unfold zip_source_read_loop at hr
    by_cases hlt : b < len
    · simp only [hlt, if_true] at hr
      generalize hc : _zip_source_call K src (-1) (.raw [] (len - b)) ZIP_SOURCE_READ = c at hr
      have hc2 : c.2.2 = { src with src := c.2.2.src, ud := c.2.2.ud } := by
        rw [← hc]; rfl
      have hce : c.2.2.eof = src.eof := by rw [hc2]
      have hch : c.2.2.had_read_error = src.had_read_error := by rw [hc2]
      by_cases hn0 : c.1 < 0
      · simp only [hn0, if_true] at hr
        by_cases hb0 : b = 0
        · simp only [hb0, if_true] at hr
          subst hr
          refine ⟨?_, (by show b ≤ 0; omega), fun h => (by cases h), fun _ => ⟨rfl, hce, rfl⟩⟩
          show { c.2.2 with had_read_error := true } = _
          rw [hc2]
        · simp only [hb0, if_false] at hr
          subst hr
          refine ⟨?_, le_refl _, fun h => (by cases h), fun _ => ⟨rfl, hce, ?_⟩⟩
          · show { c.2.2 with had_read_error := true } = _
            rw [hc2]
          · show some (to_int64 b) = some (if b = 0 then -1 else to_int64 b)
            rw [if_neg hb0]
      · simp only [hn0, if_false] at hr
        by_cases hn1 : c.1 = 0
        · simp only [hn1, if_true] at hr
          subst hr
          refine ⟨?_, le_refl _, fun _ => ⟨hch, fun _ => rfl, fun _ => rfl⟩,
            fun h => absurd rfl h⟩
          show { c.2.2 with eof := true } = _
          rw [hc2]
        · simp only [hn1, if_false] at hr
          have hpos : 1 ≤ c.1.toNat := by omega
          obtain ⟨i1, i2, i3, i4⟩ := ih c.2.2 (b + c.1.toNat)
            (data ++ c.2.1.written c.1.toNat) (by omega) r hr
          refine ⟨?_, by omega, ?_, ?_⟩
          · rw [i1, hc2]
          · intro h
            obtain ⟨j1, j2, j3⟩ := i3 h
            exact ⟨by rw [j1, hch], fun he => j2 (by rw [hce]; exact he), j3⟩
          · intro h
            obtain ⟨j1, j2, j3⟩ := i4 h
            exact ⟨j1, by rw [j2, hce], j3⟩
    · simp only [hlt, if_false] at hr
      subst hr
      exact ⟨rfl, le_refl _, fun _ => ⟨rfl, fun h => h, fun h => absurd h hlt⟩,
        fun h => absurd rfl h⟩

/-- The function zip_source_read on an open source that is not invalidated, for
every callback and a length within the range of zip_int64_t.  With a latched
flag the call hands back the source as it was, with -1 for had_read_error and
0 for eof.  Otherwise b bytes are collected and the call either ends in its
error return (had_read_error set, eof and the counter untouched, the value -1
for b = 0 and b otherwise) or goes through the accounting (had_read_error
unset, the value b, the counter advanced by b with saturation, eof set if
b < len); with len = 0 it hands back the source as it was, with 0. -/
theorem read_outcome {τ σ υ : Type} (K : zip_source_class τ σ υ) (src : zip_source_t τ σ υ)
    (len : Nat) (hcl : src.source_closed = false) (hopen : 0 < src.open_count)
    (hmax : len ≤ ZIP_INT64_MAX) :
    ∀ r, zip_source_read K src len = r →
      (src.had_read_error = true → r = (-1, [], src)) ∧
      (src.had_read_error = false → src.eof = true → r = (0, [], src)) ∧
      (src.had_read_error = false → len = 0 → r = (0, [], src)) ∧
      (src.had_read_error = false → src.eof = false → 0 < len →
        r.2.2.supports = src.supports ∧ r.2.2.open_count = src.open_count ∧
        r.2.2.source_closed = false ∧ r.2.2.streams = src.streams ∧
        r.2.2.nstreams = src.nstreams ∧ r.2.2.error = src.error ∧
        ∃ b, ((r.2.2.had_read_error = true ∧ r.2.2.eof = false ∧
              r.2.2.bytes_read = src.bytes_read ∧
              r.1 = (if b = 0 then -1 else to_int64 b)) ∨
            (r.2.2.had_read_error = false ∧ r.1 = to_int64 b ∧
              r.2.2.bytes_read = bytes_read_add src.bytes_read b ∧
              (b < len → r.2.2.eof = true)))) := by
  intro r hr
  unfold zip_source_read at hr
  have h1 : (!ZIP_SOURCE_IS_OPEN_READING src || decide (len > ZIP_INT64_MAX)) = false := by
    simp [ZIP_SOURCE_IS_OPEN_READING, hopen]
    omega
  simp only [hcl, h1, Bool.false_eq_true, if_false] at hr
  refine ⟨?_, ?_, ?_, ?_⟩
  · intro hre
    simp only [hre, if_true] at hr
    exact hr.symm
  · intro hre heof
    simp only [hre, heof, Bool.false_eq_true, if_false, if_true] at hr
    exact hr.symm
  · intro hre hl0
    simp only [hre, hl0, Bool.false_eq_true, if_false, if_true, ite_self] at hr
    exact hr.symm
  · intro hre heof hlen
    simp only [hre, heof, Bool.false_eq_true, if_false] at hr
    have hl0 : ¬ len = 0 := by omega
    · simp only [hl0, if_false] at hr
      obtain ⟨l1, l2, l3, l4⟩ := read_loop_flags K len len src 0 [] (by omega) _ rfl
      generalize zip_source_read_loop K len len src 0 [] = q at hr l1 l2 l3 l4
      obtain ⟨q1, q2, q3, q4⟩ := q
      simp only at l1 l3 l4
      cases q1 with
      | some v =>
        simp only at hr
        subst hr
        obtain ⟨j1, j2, j3⟩ := l4 (by simp)
        simp only [Option.some.injEq] at j3
        refine ⟨by rw [l1], by rw [l1], by rw [l1]; exact hcl, by rw [l1], by rw [l1],
          by rw [l1], q3, Or.inl ⟨j1, by rw [j2, heof], by rw [l1], j3⟩⟩
      | none =>
        simp only at hr
        subst hr
        obtain ⟨j1, j2, j3⟩ := l3 rfl
        refine ⟨by rw [l1], by rw [l1], by rw [l1]; exact hcl, by rw [l1], by rw [l1],
          by rw [l1], q3, Or.inr ⟨by rw [← hre, ← j1], rfl, ?_, j3⟩⟩
        show bytes_read_add q2.bytes_read q3 = bytes_read_add src.bytes_read q3
        rw [l1]

/-- The loop of zip_source_read_stream, for every callback: of the source only
the lower source and the private data change, of the stream record only the
user stream and the two read flags; either a callback failed (had_read_error
set, eof as it was, the function returns -1 if no byte was collected and
leaves the loop otherwise), or the loop ended regularly (had_read_error as it
was, eof not cleared, and set when fewer than len bytes are there). -/
theorem read_stream_loop_flags {τ σ υ : Type} (K : zip_source_class τ σ υ) (len : Nat) :
    ∀ (fuel : Nat) (src : zip_source_t τ σ υ) (stream : zip_stream_t υ) (b : Nat)
      (data : List Nat), len ≤ fuel + b →
      ∀ r, zip_source_read_stream_loop K len fuel src stream b data = r →
      r.2.1 = { src with src := r.2.1.src, ud := r.2.1.ud } ∧
      r.2.2.1 = { stream with user_stream := r.2.2.1.user_stream, eof := r.2.2.1.eof,
                              had_read_error := r.2.2.1.had_read_error } ∧
      b ≤ r.2.2.2.1 ∧
      ((r.2.2.1.had_read_error = true ∧ r.2.2.1.eof = stream.eof ∧
          r.1 = (if r.2.2.2.1 = 0 then some (-1) else none)) ∨
        (r.2.2.1.had_read_error = stream.had_read_error ∧
          (stream.eof = true → r.2.2.1.eof = true) ∧
          (r.2.2.2.1 < len → r.2.2.1.eof = true) ∧ r.1 = none)) := by
  intro fuel
  induction fuel with
  | zero =>
    intro src stream b data hf r hr
    simp only [zip_source_read_stream_loop] at hr
    subst hr
    refine ⟨rfl, rfl, le_refl _, Or.inr ⟨rfl, fun h => h, fun h => ?_, rfl⟩⟩
    have : b < len := h
    omega
  | succ fuel ih =>
    intro src stream b data hf r hr
    unfold zip_source_read_stream_loop at hr
    by_cases hlt : b < len
    · simp only [hlt, if_true] at hr
      generalize hc : _zip_source_call K src stream.parent_stream_id
        (.stream ⟨stream.user_stream, [], len - b⟩) ZIP_SOURCE_READ_STREAM = c at hr
      have hc2 : c.2.2 = { src with src := c.2.2.src, ud := c.2.2.ud } := by
        rw [← hc]; rfl
      by_cases hn0 : c.1 < 0
      · simp only [hn0, if_true] at hr
        by_cases hb0 : b = 0
        · simp only [hb0, if_true] at hr
          subst hr
          exact ⟨hc2, rfl, (by show b ≤ 0; omega), Or.inl ⟨rfl, rfl, rfl⟩⟩
        · simp only [hb0, if_false] at hr
          subst hr
          refine ⟨hc2, rfl, le_refl _, Or.inl ⟨rfl, rfl, ?_⟩⟩
          show none = (if b = 0 then some (-1) else none)
          rw [if_neg hb0]
      · simp only [hn0, if_false] at hr
        by_cases hn1 : c.1 = 0
        · simp only [hn1, if_true] at hr
          subst hr
          exact ⟨hc2, rfl, le_refl _, Or.inr ⟨rfl, fun _ => rfl, fun _ => rfl, rfl⟩⟩
        · simp only [hn1, if_false] at hr
          have hpos : 1 ≤ c.1.toNat := by omega
          obtain ⟨i1, i2, i3, i4⟩ := ih c.2.2 { stream with user_stream := c.2.1.user_stream }
            (b + c.1.toNat) (data ++ c.2.1.written c.1.toNat) (by omega) r hr
          refine ⟨by rw [i1, hc2], by rw [i2], by omega, ?_⟩
          rcases i4 with ⟨j1, j2, j3⟩ | ⟨j1, j2, j3, j4⟩
          · exact Or.inl ⟨j1, j2, j3⟩
          · exact Or.inr ⟨j1, j2, j3, j4⟩
    · simp only [hlt, if_false] at hr
      subst hr
      exact ⟨rfl, rfl, le_refl _, Or.inr ⟨rfl, fun h => h, fun h => absurd h hlt, rfl⟩⟩

/-- The function zip_source_read_stream on a valid stream of a source that is
not invalidated, for every callback and a length within the range of
zip_int64_t.  With a latched flag, or with len = 0, the call hands back the
source as it was.  Otherwise b bytes are collected, only the record of the
stream, the lower source and the private data change, and the call ends in one
of three ways: the first callback failed (value -1, had_read_error set,
counter untouched); a later callback failed (value b, had_read_error set,
counter advanced by b with saturation); no callback failed (value b, counter
advanced, eof set if b < len). -/
theorem read_stream_outcome {τ σ υ : Type} (K : zip_source_class τ σ υ)
    (src : zip_source_t τ σ υ) (id : Int) (stream : zip_stream_t υ) (len : Nat)
    (hcl : src.source_closed = false) (hv : ZIP_SOURCE_IS_VALID_STREAM_ID src id = true)
    (hs : stream_at src id.toNat = some stream) (hmax : len ≤ ZIP_INT64_MAX) :
    ∀ r, zip_source_read_stream K src id len = r →
      (stream.had_read_error = true → r = (-1, [], src)) ∧
      (stream.had_read_error = false → stream.eof = true → r = (0, [], src)) ∧
      (stream.had_read_error = false → len = 0 → r = (0, [], src)) ∧
      (stream.had_read_error = false → stream.eof = false → 0 < len →
        r.2.2.supports = src.supports ∧ r.2.2.nstreams = src.nstreams ∧
        r.2.2.source_closed = false ∧ r.2.2.open_count = src.open_count ∧
        r.2.2.eof = src.eof ∧ r.2.2.had_read_error = src.had_read_error ∧
        r.2.2.bytes_read = src.bytes_read ∧
        ∃ (s1 : zip_stream_t υ) (b : Nat),
          stream_at r.2.2 id.toNat = some s1 ∧
          r.2.2.streams = src.streams.set id.toNat (some s1) ∧
          s1.parent_stream_id = stream.parent_stream_id ∧
          ((s1.had_read_error = true ∧ s1.eof = false ∧ b = 0 ∧ r.1 = -1 ∧
              s1.bytes_read = stream.bytes_read) ∨
            (s1.had_read_error = true ∧ s1.eof = false ∧ 0 < b ∧ r.1 = to_int64 b ∧
              s1.bytes_read = bytes_read_add stream.bytes_read b) ∨
            (s1.had_read_error = false ∧ r.1 = to_int64 b ∧
              s1.bytes_read = bytes_read_add stream.bytes_read b ∧
              (b < len → s1.eof = true)))) := by
  intro r hr
  unfold zip_source_read_stream at hr
  have h1 : (!ZIP_SOURCE_IS_VALID_STREAM_ID src id || decide (len > ZIP_INT64_MAX)) = false := by
    simp [hv]
    omega
  simp only [hcl, h1, hs, Bool.false_eq_true, if_false] at hr
  refine ⟨?_, ?_, ?_, ?_⟩
  · intro hre
    simp only [hre, if_true] at hr
    exact hr.symm
  · intro hre heof
    simp only [hre, heof, Bool.false_eq_true, if_false, if_true] at hr
    exact hr.symm
  · intro hre hl0
    simp only [hre, hl0, Bool.false_eq_true, if_false, if_true, ite_self] at hr
    exact hr.symm
  · intro hre heof hlen
    have hl0 : ¬ len = 0 := by omega
    simp only [hre, heof, Bool.false_eq_true, if_false, hl0] at hr
    obtain ⟨l1, l2, l3, l4⟩ := read_stream_loop_flags K len len src stream 0 [] (by omega) _ rfl
    generalize zip_source_read_stream_loop K len len src stream 0 [] = q at hr l1 l2 l3 l4
    obtain ⟨q1, q2, q3, q4, q5⟩ := q
    simp only at l1 l2 l3 l4
    have hq2s : q2.streams = src.streams := by rw [l1]
    have hjoin : (src.streams.get? id.toNat).join = some stream := hs
    cases q1 with
    | some v =>
      simp only at hr
      subst hr
      rcases l4 with ⟨j1, j2, j3⟩ | ⟨_, _, _, j4⟩
      · by_cases hq4 : q4 = 0
        · rw [if_pos hq4] at j3
          simp only [Option.some.injEq] at j3
          refine ⟨by rw [l1], by rw [l1], by rw [l1]; exact hcl, by rw [l1], by rw [l1],
            by rw [l1], by rw [l1], q3, q4, ?_, ?_, by rw [l2],
            Or.inl ⟨j1, by rw [j2, heof], hq4, j3, by rw [l2]⟩⟩
          · show ((q2.streams.set id.toNat (some q3)).get? id.toNat).join = some q3
            rw [hq2s]
            exact stream_at_set _ _ _ _ hjoin
          · show q2.streams.set id.toNat (some q3) = _
            rw [hq2s]
        · rw [if_neg hq4] at j3
          cases j3
      · cases j4
    | none =>
      simp only at hr
      subst hr
      have hb : ({ q3 with bytes_read := bytes_read_add q3.bytes_read q4 } : zip_stream_t υ).bytes_read
          = bytes_read_add stream.bytes_read q4 := by
        show bytes_read_add q3.bytes_read q4 = _
        rw [l2]
      refine ⟨by rw [l1], by rw [l1], by rw [l1]; exact hcl, by rw [l1], by rw [l1],
        by rw [l1], by rw [l1], { q3 with bytes_read := bytes_read_add q3.bytes_read q4 }, q4,
        ?_, ?_, by rw [l2], ?_⟩
      · show ((q2.streams.set id.toNat (some _)).get? id.toNat).join = some _
        rw [hq2s]
        exact stream_at_set _ _ _ _ hjoin
      · show q2.streams.set id.toNat (some _) = _
        rw [hq2s]
      · rcases l4 with ⟨j1, j2, j3⟩ | ⟨j1, j2, j3, _⟩
        · by_cases hq4 : q4 = 0
          · rw [if_pos hq4] at j3
            cases j3
          · exact Or.inr (Or.inl ⟨j1, by rw [j2, heof], by omega, rfl, hb⟩)
        · exact Or.inr (Or.inr ⟨by rw [← hre, ← j1], rfl, hb, j3⟩)

theorem tell_keeps_flags {τ σ υ : Type} (K : zip_source_class τ σ υ) (src : zip_source_t τ σ υ) :
    (zip_source_tell K src).2.eof = src.eof ∧
    (zip_source_tell K src).2.had_read_error = src.had_read_error := by
  unfold zip_source_tell
  split
  · exact ⟨rfl, rfl⟩
  split
  · exact ⟨rfl, rfl⟩
  split
  · split <;> exact ⟨rfl, rfl⟩
  · exact ⟨rfl, rfl⟩

theorem close_keeps_flags {τ σ υ : Type} (K : zip_source_class τ σ υ) (src : zip_source_t τ σ υ) :
    (zip_source_close K src).2.eof = src.eof ∧
    (zip_source_close K src).2.had_read_error = src.had_read_error := by
  unfold zip_source_close
  simp only [ZIP_SOURCE_IS_OPEN_READING, _zip_source_call]
  by_cases h0 : 0 < src.open_count
  · simp only [h0, decide_True, Bool.not_true, Bool.false_eq_true, if_false]
    by_cases h1 : src.open_count - 1 = 0
    · simp only [h1, if_true]
      cases K.lower with
      | none => exact ⟨rfl, rfl⟩
      | some A =>
        simp only
        split <;> exact ⟨rfl, rfl⟩
    · simp only [h1, if_false]
      exact ⟨trivial, trivial⟩
  · simp only [h0, decide_False, Bool.not_false, if_true]
    exact ⟨trivial, trivial⟩

/-- A read never leaves both flags of the primary reader set, if they were not
both set before. -/
theorem read_never_sets_both {τ σ υ : Type} (K : zip_source_class τ σ υ)
    (src : zip_source_t τ σ υ) (len : Nat)
    (h : ¬ (src.eof = true ∧ src.had_read_error = true)) :
    ¬ ((zip_source_read K src len).2.2.eof = true ∧
      (zip_source_read K src len).2.2.had_read_error = true) := by
  by_cases hvalid : src.source_closed = false ∧ 0 < src.open_count ∧ len ≤ ZIP_INT64_MAX
  · obtain ⟨hcl, hopen, hmax⟩ := hvalid
    obtain ⟨o1, o2, o3, o4⟩ := read_outcome K src len hcl hopen hmax _ rfl
    by_cases hre : src.had_read_error = true
    · rw [o1 hre]; exact h
    · have hre : src.had_read_error = false := by simpa using hre
      by_cases heof : src.eof = true
      · rw [o2 hre heof]; exact h
      · have heof : src.eof = false := by simpa using heof
        by_cases hl : len = 0
        · rw [o3 hre hl]; exact h
        · obtain ⟨_, _, _, _, _, _, b, hb⟩ := o4 hre heof (by omega)
          rcases hb with ⟨_, e2, _⟩ | ⟨e1, _⟩
          · rw [e2]; simp
          · rw [e1]; simp
  · unfold zip_source_read
    by_cases hcl : src.source_closed = true
    · simp only [hcl, if_true]; exact h
    · have hcl : src.source_closed = false := by simpa using hcl
      have h1 : (!ZIP_SOURCE_IS_OPEN_READING src || decide (len > ZIP_INT64_MAX)) = true := by
        simp only [ZIP_SOURCE_IS_OPEN_READING, Bool.or_eq_true, Bool.not_eq_true',
          decide_eq_false_iff_not, decide_eq_true_eq]
        by_cases ho : 0 < src.open_count
        · right
          exact Nat.lt_of_not_le (fun hm => hvalid ⟨hcl, ho, hm⟩)
        · left; exact ho
      simp only [hcl, h1, Bool.false_eq_true, if_false, if_true]
      exact h

/-- A read on a valid stream never leaves both flags of the stream set, if they
were not both set before. -/
theorem read_stream_never_sets_both {τ σ υ : Type} (K : zip_source_class τ σ υ)
    (src : zip_source_t τ σ υ) (id : Int) (stream : zip_stream_t υ) (len : Nat)
    (hcl : src.source_closed = false) (hv : ZIP_SOURCE_IS_VALID_STREAM_ID src id = true)
    (hs : stream_at src id.toNat = some stream) (hmax : len ≤ ZIP_INT64_MAX)
    (h : ¬ (stream.eof = true ∧ stream.had_read_error = true)) :
    ¬ (stream_eof (zip_source_read_stream K src id len).2.2 id.toNat = true ∧
      stream_had_read_error (zip_source_read_stream K src id len).2.2 id.toNat = true) := by
  obtain ⟨o1, o2, o3, o4⟩ := read_stream_outcome K src id stream len hcl hv hs hmax _ rfl
  have hsame : stream_eof src id.toNat = stream.eof ∧
      stream_had_read_error src id.toNat = stream.had_read_error := by
    simp [stream_eof, stream_had_read_error, hs]
  by_cases hre : stream.had_read_error = true
  · rw [o1 hre, hsame.1, hsame.2]; exact h
  · have hre : stream.had_read_error = false := by simpa using hre
    by_cases heof : stream.eof = true
    · rw [o2 hre heof, hsame.1, hsame.2]; exact h
    · have heof : stream.eof = false := by simpa using heof
      by_cases hl : len = 0
      · rw [o3 hre hl, hsame.1, hsame.2]; exact h
      · obtain ⟨_, _, _, _, _, _, _, s1, b, hs1, _, _, hb⟩ := o4 hre heof (by omega)
        simp only [stream_eof, stream_had_read_error, hs1]
        rcases hb with ⟨_, e2, _⟩ | ⟨_, e2, _⟩ | ⟨e1, _⟩
        · rw [e2]; simp
        · rw [e2]; simp
        · rw [e1]; simp

/-- A successful zip_source_open leaves eof and had_read_error unset. -/
theorem open_clears_flags {τ σ υ : Type} (K : zip_source_class τ σ υ) (src : zip_source_t τ σ υ) :
    ∀ r, zip_source_open K src = r → r.1 = 0 → r.2.eof = false ∧ r.2.had_read_error = false := by
  intro r hr
  subst hr
  unfold zip_source_open
  cases K.lower with
  | none =>
    simp only
    repeat' split
    all_goals first
      | (intro h; exact ⟨rfl, rfl⟩)
      | (intro h; exact absurd h (by simp))
  | some A =>
    simp only
    repeat' split
    all_goals first
      | (intro h; exact ⟨rfl, rfl⟩)
      | (intro h; exact absurd h (by simp))

/-- C14: latched read flags, for every callback.  (1) On an open source that is
not invalidated, a read with a length within the range of zip_int64_t hands
back the source as it was, for every class (the callback is not invoked), with
-1 when had_read_error is set and with 0 when eof is set and had_read_error is
not.  (2) The same on every valid stream with the flags of the stream.  (3)
and (4): no read sets the second flag next to the first, so from the open
that cleared both on a reader with eof set has had_read_error unset.  (5) and
(6): when the callback, after positive counts of k < len bytes in all, returns
0, the read returns k and sets eof, on the primary reader and on a stream.
(7) zip_source_tell and zip_source_close leave both flags as they are, and a
successful zip_source_open clears them. -/
theorem latched_read_flags {τ σ υ : Type} :
    (∀ (K : zip_source_class τ σ υ) (src : zip_source_t τ σ υ) (len : Nat),
      src.source_closed = false → 0 < src.open_count → len ≤ ZIP_INT64_MAX →
      (src.had_read_error = true → zip_source_read K src len = (-1, [], src)) ∧
      (src.had_read_error = false → src.eof = true →
        zip_source_read K src len = (0, [], src))) ∧
    (∀ (K : zip_source_class τ σ υ) (src : zip_source_t τ σ υ) (id : Int)
      (stream : zip_stream_t υ) (len : Nat),
      src.source_closed = false → ZIP_SOURCE_IS_VALID_STREAM_ID src id = true →
      stream_at src id.toNat = some stream → len ≤ ZIP_INT64_MAX →
      (stream.had_read_error = true → zip_source_read_stream K src id len = (-1, [], src)) ∧
      (stream.had_read_error = false → stream.eof = true →
        zip_source_read_stream K src id len = (0, [], src))) ∧
    (∀ (K : zip_source_class τ σ υ) (src : zip_source_t τ σ υ) (len : Nat),
      ¬ (src.eof = true ∧ src.had_read_error = true) →
      ¬ ((zip_source_read K src len).2.2.eof = true ∧
        (zip_source_read K src len).2.2.had_read_error = true)) ∧
    (∀ (K : zip_source_class τ σ υ) (src : zip_source_t τ σ υ) (id : Int)
      (stream : zip_stream_t υ) (len : Nat),
      src.source_closed = false → ZIP_SOURCE_IS_VALID_STREAM_ID src id = true →
      stream_at src id.toNat = some stream → len ≤ ZIP_INT64_MAX →
      ¬ (stream.eof = true ∧ stream.had_read_error = true) →
      ¬ (stream_eof (zip_source_read_stream K src id len).2.2 id.toNat = true ∧
        stream_had_read_error (zip_source_read_stream K src id len).2.2 id.toNat = true)) ∧
    (∀ (K : zip_source_class τ (List (Int × Bool)) Unit)
      (src : zip_source_t τ (List (Int × Bool)) Unit) (entries : List (Int × Bool))
      (t : Int × Bool) (rest : List (Int × Bool)) (len : Nat),
      K.cb = scripted_cb → src.source_closed = false → 0 < src.open_count →
      src.had_read_error = false → src.eof = false → src.ud = entries ++ t :: rest →
      (∀ e ∈ entries, 0 < e.1) → t.1 = 0 → script_total entries < len →
      len ≤ ZIP_INT64_MAX →
      (zip_source_read K src len).1 = (script_total entries : Int) ∧
      (zip_source_read K src len).2.2.eof = true ∧
      (zip_source_read K src len).2.2.had_read_error = false) ∧
    (∀ (K : zip_source_class τ (List (Int × Bool)) Unit)
      (src : zip_source_t τ (List (Int × Bool)) Unit) (id : Int) (stream : zip_stream_t Unit)
      (entries : List (Int × Bool)) (t : Int × Bool) (rest : List (Int × Bool)) (len : Nat),
      K.cb = scripted_cb → src.source_closed = false →
      ZIP_SOURCE_IS_VALID_STREAM_ID src id = true → stream_at src id.toNat = some stream →
      stream.had_read_error = false → stream.eof = false → src.ud = entries ++ t :: rest →
      (∀ e ∈ entries, 0 < e.1) → t.1 = 0 → script_total entries < len →
      len ≤ ZIP_INT64_MAX →
      (zip_source_read_stream K src id len).1 = (script_total entries : Int) ∧
      stream_eof (zip_source_read_stream K src id len).2.2 id.toNat = true ∧
      stream_had_read_error (zip_source_read_stream K src id len).2.2 id.toNat = false) ∧
    (∀ (K : zip_source_class τ σ υ) (src : zip_source_t τ σ υ),
      (zip_source_tell K src).2.eof = src.eof ∧
      (zip_source_tell K src).2.had_read_error = src.had_read_error ∧
      (zip_source_close K src).2.eof = src.eof ∧
      (zip_source_close K src).2.had_read_error = src.had_read_error ∧
      ((zip_source_open K src).1 = 0 →
        (zip_source_open K src).2.eof = false ∧
        (zip_source_open K src).2.had_read_error = false)) := by
  refine ⟨?_, ?_, ?_, ?_, ?_, ?_, ?_⟩
  · intro K src len hcl hopen hmax
    obtain ⟨o1, o2, _, _⟩ := read_outcome K src len hcl hopen hmax _ rfl
    exact ⟨o1, o2⟩
  · intro K src id stream len hcl hv hs hmax
    obtain ⟨o1, o2, _, _⟩ := read_stream_outcome K src id stream len hcl hv hs hmax _ rfl
    exact ⟨o1, o2⟩
  · intro K src len h
    exact read_never_sets_both K src len h
  · intro K src id stream len hcl hv hs hmax h
    exact read_stream_never_sets_both K src id stream len hcl hv hs hmax h
  · intro K src entries t rest len hK hcl hopen hre heof hud hpos ht hk hmax
    obtain ⟨p1, p2⟩ := scripted_read K hK src entries t rest len hcl hopen hre heof hud hpos
      (by omega) hk hmax
    have hn : ¬ t.1 < 0 := by omega
    simp only [hn, false_and, if_false] at p1 p2
    refine ⟨p1, by rw [p2], by rw [p2]; exact hre⟩
  · intro K src id stream entries t rest len hK hcl hv hs hre heof hud hpos ht hk hmax
    obtain ⟨p1, p2⟩ := scripted_read_stream K hK src id stream entries t rest len hcl hv hs hre
      heof hud hpos (by omega) hk hmax
    have hn : ¬ t.1 < 0 := by omega
    simp only [hn, false_and, if_false] at p1 p2
    have hs1 : (src.streams.get? id.toNat).join = some stream := hs
    refine ⟨p1, ?_, ?_⟩
    · rw [p2]
      simp only [stream_eof, stream_at]
      rw [stream_at_set src.streams id.toNat stream _ hs1]
      simp [ht]
    · rw [p2]
      simp only [stream_had_read_error, stream_at]
      rw [stream_at_set src.streams id.toNat stream _ hs1]
      simp
  · intro K src
    refine ⟨(tell_keeps_flags K src).1, (tell_keeps_flags K src).2, (close_keeps_flags K src).1,
      (close_keeps_flags K src).2, ?_⟩
    exact open_clears_flags K src _ rfl

/-- Witness for C14 on a scripted source whose callback hands out 3 bytes and
then reports the end of the data: the read of 8 bytes returns 3 and sets eof,
and the next read returns 0 with the source as it was. -/
theorem latched_read_flags_witness :
    ((zip_source_read scripted_leaf (scripted_reader [(3, true), (0, true), (7, true)]) 8).1 = 3 ∧
      (zip_source_read scripted_leaf (scripted_reader [(3, true), (0, true), (7, true)]) 8).2.2.eof = true ∧
      (zip_source_read scripted_leaf (scripted_reader [(3, true), (0, true), (7, true)]) 8).2.2.had_read_error
        = false) ∧
    zip_source_read scripted_leaf
      (zip_source_read scripted_leaf (scripted_reader [(3, true), (0, true), (7, true)]) 8).2.2 8
      = (0, [], (zip_source_read scripted_leaf
          (scripted_reader [(3, true), (0, true), (7, true)]) 8).2.2) :=
  ⟨(@latched_read_flags Unit (List (Int × Bool)) Unit).2.2.2.2.1 scripted_leaf (scripted_reader [(3, true), (0, true), (7, true)])
      [(3, true)] (0, true) [(7, true)] 8 rfl (by decide) (by decide) (by decide) (by decide)
      (by decide) (by decide) (by decide) (by decide) (by decide),
    ((@latched_read_flags Unit (List (Int × Bool)) Unit).1 scripted_leaf
      (zip_source_read scripted_leaf (scripted_reader [(3, true), (0, true), (7, true)]) 8).2.2 8
      (by decide) (by decide) (by decide)).2 (by decide) (by decide)⟩

/-! ## Open and close sessions -/


/-- A successful zip_source_open leaves an open source that is not invalidated,
with both read flags unset, the counter bytes_read at 0 and the supported
commands as they were. -/
theorem open_success_state {τ σ υ : Type} (K : zip_source_class τ σ υ) (src : zip_source_t τ σ υ) :
    (zip_source_open K src).1 = 0 →
      (zip_source_open K src).2.eof = false ∧ (zip_source_open K src).2.had_read_error = false ∧
      (zip_source_open K src).2.bytes_read = 0 ∧ 0 < (zip_source_open K src).2.open_count ∧
      (zip_source_open K src).2.source_closed = false ∧
      (zip_source_open K src).2.supports = src.supports := by
  unfold zip_source_open
  cases K.lower with
  | none =>
    simp only
    repeat' split
    all_goals first
      | (intro h; simp at h; done)
      | (intro h; simp_all [_zip_source_call])
  | some A =>
    simp only
    repeat' split
    all_goals first
      | (intro h; simp at h; done)
      | (intro h; simp_all [_zip_source_call])

/-- The loop of zip_source_read with a callback that delivers without error:
it is left regularly, with min(len - b, total) more bytes, and it touches only
the lower source, the private data and eof. -/
theorem read_loop_total {τ σ υ : Type} (K : zip_source_class τ σ υ) (rem : τ → σ → Nat)
    (hD : delivers_total K rem) (len : Nat) :
    ∀ (fuel : Nat) (src : zip_source_t τ σ υ) (b : Nat) (data : List Nat),
      b ≤ len → len ≤ fuel + b →
      ∀ r, zip_source_read_loop K len fuel src b data = r →
      r.1 = none ∧ r.2.2.1 = b + min (len - b) (rem src.src src.ud) ∧
      r.2.1 = { src with src := r.2.1.src, ud := r.2.1.ud, eof := r.2.1.eof } := by
  intro fuel
  induction fuel with
  | zero =>
    intro src b data hb hf r hr
    simp only [zip_source_read_loop] at hr
    subst hr
    refine ⟨rfl, ?_, rfl⟩
    show b = b + min (len - b) (rem src.src src.ud)
    have : len - b = 0 := by omega
    rw [this]; simp
  | succ fuel ih =>
    intro src b data hb hf r hr
    unfold zip_source_read_loop at hr
    by_cases hlt : b < len
    · simp only [hlt, if_true] at hr
      have hpos : 0 < len - b := by omega
      obtain ⟨d0, d1⟩ := hD src.src src.ud (len - b) hpos
      generalize hc : _zip_source_call K src (-1) (.raw [] (len - b)) ZIP_SOURCE_READ = c at hr
      have hc1 : c.1 = (K.cb src.src (-1) src.ud (.raw [] (len - b)) ZIP_SOURCE_READ).ret := by
        rw [← hc]; rfl
      have hc2 : c.2.2 = { src with src := c.2.2.src, ud := c.2.2.ud } := by
        rw [← hc]; rfl
      have hc3 : c.2.2.src = (K.cb src.src (-1) src.ud (.raw [] (len - b)) ZIP_SOURCE_READ).src := by
        rw [← hc]; rfl
      have hc4 : c.2.2.ud = (K.cb src.src (-1) src.ud (.raw [] (len - b)) ZIP_SOURCE_READ).ud := by
        rw [← hc]; rfl
      rw [← hc1, ← hc3, ← hc4] at d1
      rw [← hc1] at d0
      by_cases hz : rem src.src src.ud = 0
      · have hn : c.1 = 0 := d0 hz
        have hn1 : ¬ c.1 < 0 := by omega
        simp only [hn1, hn, if_false, if_true] at hr
        subst hr
        refine ⟨rfl, ?_, ?_⟩
        · show b = b + min (len - b) (rem src.src src.ud)
          rw [hz]; simp
        · show ({ c.2.2 with eof := true } : zip_source_t τ σ υ) = _
          exact congrArg (fun s => ({ s with eof := true } : zip_source_t τ σ υ)) hc2
      · obtain ⟨e1, e2, e3⟩ := d1 (Nat.pos_of_ne_zero hz)
        have hn1 : ¬ c.1 < 0 := by omega
        have hn2 : ¬ c.1 = 0 := by omega
        simp only [hn1, hn2, if_false] at hr
        obtain ⟨i1, i2, i3⟩ := ih c.2.2 (b + c.1.toNat) (data ++ c.2.1.written c.1.toNat)
          (by omega) (by omega) r hr
        refine ⟨i1, ?_, ?_⟩
        · rw [i2]
          have : rem src.src src.ud = rem c.2.2.src c.2.2.ud + c.1.toNat := e3.symm
          rw [this]
          omega
        · rw [i3, hc2]
    · simp only [hlt, if_false] at hr
      subst hr
      refine ⟨rfl, ?_, rfl⟩
      show b = b + min (len - b) (rem src.src src.ud)
      have : len - b = 0 := by omega
      rw [this]; simp

/-- The saturating update from 0 by a count within the range of zip_int64_t is
the count. -/
theorem bytes_read_add_zero (b : Nat) (h : b ≤ ZIP_INT64_MAX) : bytes_read_add 0 b = b := by
  obtain ⟨h1, _, _⟩ := bytes_read_add_spec 0 b (by norm_num) (by unfold ZIP_INT64_MAX at h; omega)
  rw [h1]
  unfold ZIP_INT64_MAX at h
  unfold ZIP_UINT64_MAX
  omega

/-- The function zip_source_read with a callback that delivers without error,
on an open source with both flags unset and the counter at 0: it returns
min(N, total) and leaves that count in bytes_read. -/
theorem read_total {τ σ υ : Type} (K : zip_source_class τ σ υ) (rem : τ → σ → Nat)
    (hD : delivers_total K rem) (src : zip_source_t τ σ υ) (N : Nat)
    (hcl : src.source_closed = false) (hopen : 0 < src.open_count)
    (hre : src.had_read_error = false) (heof : src.eof = false) (hbr : src.bytes_read = 0)
    (hmax : N ≤ ZIP_INT64_MAX) :
    (zip_source_read K src N).1 = ((min N (rem src.src src.ud) : Nat) : Int) ∧
    (zip_source_read K src N).2.2.bytes_read = min N (rem src.src src.ud) ∧
    (zip_source_read K src N).2.2.source_closed = false ∧
    0 < (zip_source_read K src N).2.2.open_count ∧
    (zip_source_read K src N).2.2.supports = src.supports := by
  unfold zip_source_read
  have h1 : (!ZIP_SOURCE_IS_OPEN_READING src || decide (N > ZIP_INT64_MAX)) = false := by
    simp [ZIP_SOURCE_IS_OPEN_READING, hopen]
    omega
  simp only [hcl, h1, hre, heof, Bool.false_eq_true, if_false]
  by_cases h0 : N = 0
  · simp only [h0, if_true]
    simp [hbr, hcl, hopen]
  · simp only [h0, if_false]
    obtain ⟨l1, l2, l3⟩ := read_loop_total K rem hD N N src 0 [] (by omega) (by omega) _ rfl
    generalize zip_source_read_loop K N N src 0 [] = r at l1 l2 l3
    rcases r with ⟨v, s1, b, data⟩
    simp only at l1 l2 l3
    subst l1
    simp only
    have hb : b = min N (rem src.src src.ud) := by rw [l2]; simp
    have hbm : b ≤ ZIP_INT64_MAX := by rw [hb]; exact le_trans (Nat.min_le_left _ _) hmax
    have hs1 : s1.bytes_read = 0 := by rw [l3]; exact hbr
    have hs2 : s1.source_closed = false := by rw [l3]; exact hcl
    have hs3 : s1.open_count = src.open_count := by rw [l3]
    have hs4 : s1.supports = src.supports := by rw [l3]
    refine ⟨?_, ?_, hs2, ?_, hs4⟩
    · rw [← hb]
      exact to_int64_small b (by unfold ZIP_INT64_MAX at hbm; omega)
    · show bytes_read_add s1.bytes_read b = _
      rw [hs1, bytes_read_add_zero b hbm, hb]
    · show 0 < s1.open_count
      rw [hs3]; exact hopen

/-- The function zip_source_tell on an open source that supports neither TELL
nor SEEK, with a counter within the range of zip_int64_t: the counter. -/
theorem tell_counter {τ σ υ : Type} (K : zip_source_class τ σ υ) (src : zip_source_t τ σ υ)
    (hcl : src.source_closed = false) (hopen : 0 < src.open_count)
    (ht : src.supports ZIP_SOURCE_TELL = false) (hs : src.supports ZIP_SOURCE_SEEK = false)
    (hb : src.bytes_read ≤ ZIP_INT64_MAX) :
    zip_source_tell K src = ((src.bytes_read : Int), src) := by
  unfold zip_source_tell
  have h2 : ¬ src.bytes_read > ZIP_INT64_MAX := by omega
  simp only [hcl, ZIP_SOURCE_IS_OPEN_READING, hopen, ht, hs, h2, decide_True, Bool.not_true,
    Bool.not_false, Bool.and_self, Bool.false_eq_true, if_false, if_true]
  rw [to_int64_small _ (by unfold ZIP_INT64_MAX at hb; omega)]

/-- The loop of zip_source_read_stream with a callback that delivers without
error: it is left regularly, with min(len - b, total) more bytes; of the
source it touches only the lower source and the private data, of the stream
record only the user stream and eof. -/
theorem read_stream_loop_total {τ σ υ : Type} (K : zip_source_class τ σ υ)
    (rem : τ → σ → Option υ → Nat) (hD : delivers_total_stream K rem) (len : Nat) :
    ∀ (fuel : Nat) (src : zip_source_t τ σ υ) (stream : zip_stream_t υ) (b : Nat)
      (data : List Nat), b ≤ len → len ≤ fuel + b →
      ∀ r, zip_source_read_stream_loop K len fuel src stream b data = r →
      r.1 = none ∧ r.2.2.2.1 = b + min (len - b) (rem src.src src.ud stream.user_stream) ∧
      r.2.1 = { src with src := r.2.1.src, ud := r.2.1.ud } ∧
      r.2.2.1 = { stream with user_stream := r.2.2.1.user_stream, eof := r.2.2.1.eof } := by
  intro fuel
  induction fuel with
  | zero =>
    intro src stream b data hb hf r hr
    simp only [zip_source_read_stream_loop] at hr
    subst hr
    refine ⟨rfl, ?_, rfl, rfl⟩
    show b = b + min (len - b) (rem src.src src.ud stream.user_stream)
    have : len - b = 0 := by omega
    rw [this]; simp
  | succ fuel ih =>
    intro src stream b data hb hf r hr
    unfold zip_source_read_stream_loop at hr
    by_cases hlt : b < len
    · simp only [hlt, if_true] at hr
      have hpos : 0 < len - b := by omega
      obtain ⟨d0, d1⟩ := hD src.src stream.parent_stream_id src.ud stream.user_stream (len - b) hpos
      generalize hc : _zip_source_call K src stream.parent_stream_id
        (.stream ⟨stream.user_stream, [], len - b⟩) ZIP_SOURCE_READ_STREAM = c at hr
      have hc1 : c.1 = (K.cb src.src stream.parent_stream_id src.ud
          (.stream ⟨stream.user_stream, [], len - b⟩) ZIP_SOURCE_READ_STREAM).ret := by
        rw [← hc]; rfl
      have hc2 : c.2.2 = { src with src := c.2.2.src, ud := c.2.2.ud } := by
        rw [← hc]; rfl
      have hc3 : c.2.2.src = (K.cb src.src stream.parent_stream_id src.ud
          (.stream ⟨stream.user_stream, [], len - b⟩) ZIP_SOURCE_READ_STREAM).src := by
        rw [← hc]; rfl
      have hc4 : c.2.2.ud = (K.cb src.src stream.parent_stream_id src.ud
          (.stream ⟨stream.user_stream, [], len - b⟩) ZIP_SOURCE_READ_STREAM).ud := by
        rw [← hc]; rfl
      have hc5 : c.2.1 = (K.cb src.src stream.parent_stream_id src.ud
          (.stream ⟨stream.user_stream, [], len - b⟩) ZIP_SOURCE_READ_STREAM).data := by
        rw [← hc]; rfl
      rw [← hc1, ← hc3, ← hc4, ← hc5] at d1
      rw [← hc1] at d0
      by_cases hz : rem src.src src.ud stream.user_stream = 0
      · have hn : c.1 = 0 := d0 hz
        have hn1 : ¬ c.1 < 0 := by omega
        simp only [hn1, hn, if_false, if_true] at hr
        subst hr
        refine ⟨rfl, ?_, hc2, rfl⟩
        show b = b + min (len - b) (rem src.src src.ud stream.user_stream)
        rw [hz]; simp
      · obtain ⟨e1, e2, e3⟩ := d1 (Nat.pos_of_ne_zero hz)
        have hn1 : ¬ c.1 < 0 := by omega
        have hn2 : ¬ c.1 = 0 := by omega
        simp only [hn1, hn2, if_false] at hr
        obtain ⟨i1, i2, i3, i4⟩ := ih c.2.2 { stream with user_stream := c.2.1.user_stream }
          (b + c.1.toNat) (data ++ c.2.1.written c.1.toNat) (by omega) (by omega) r hr
        refine ⟨i1, ?_, ?_, ?_⟩
        · rw [i2]
          have : rem src.src src.ud stream.user_stream
              = rem c.2.2.src c.2.2.ud c.2.1.user_stream + c.1.toNat := e3.symm
          rw [this]
          show b + c.1.toNat + min (len - (b + c.1.toNat)) (rem c.2.2.src c.2.2.ud c.2.1.user_stream)
            = _
          omega
        · rw [i3, hc2]
        · rw [i4]
    · simp only [hlt, if_false] at hr
      subst hr
      refine ⟨rfl, ?_, rfl, rfl⟩
      show b = b + min (len - b) (rem src.src src.ud stream.user_stream)
      have : len - b = 0 := by omega
      rw [this]; simp

/-- The function zip_source_read_stream with a callback that delivers without
error, on a valid stream with both flags unset and the counter at 0: it
returns min(N, total), leaves that count in the bytes_read of the stream, and
the ID stays valid. -/
theorem read_stream_total {τ σ υ : Type} (K : zip_source_class τ σ υ)
    (rem : τ → σ → Option υ → Nat) (hD : delivers_total_stream K rem)
    (src : zip_source_t τ σ υ) (id : Int) (stream : zip_stream_t υ) (N : Nat)
    (hcl : src.source_closed = false) (hv : ZIP_SOURCE_IS_VALID_STREAM_ID src id = true)
    (hs : stream_at src id.toNat = some stream)
    (hre : stream.had_read_error = false) (heof : stream.eof = false)
    (hbr : stream.bytes_read = 0) (hmax : N ≤ ZIP_INT64_MAX) :
    (zip_source_read_stream K src id N).1
      = ((min N (rem src.src src.ud stream.user_stream) : Nat) : Int) ∧
    stream_bytes_read (zip_source_read_stream K src id N).2.2 id.toNat
      = min N (rem src.src src.ud stream.user_stream) ∧
    (zip_source_read_stream K src id N).2.2.source_closed = false ∧
    ZIP_SOURCE_IS_VALID_STREAM_ID (zip_source_read_stream K src id N).2.2 id = true ∧
    (zip_source_read_stream K src id N).2.2.supports = src.supports := by
  unfold zip_source_read_stream
  have h1 : (!ZIP_SOURCE_IS_VALID_STREAM_ID src id || decide (N > ZIP_INT64_MAX)) = false := by
    simp [hv]
    omega
  simp only [hcl, h1, hs, hre, heof, Bool.false_eq_true, if_false]
  by_cases h0 : N = 0
  · simp only [h0, if_true]
    refine ⟨by simp, ?_, hcl, hv, trivial⟩
    unfold stream_bytes_read
    rw [hs]
    simp [hbr]
  · simp only [h0, if_false]
    obtain ⟨l1, l2, l3, l4⟩ := read_stream_loop_total K rem hD N N src stream 0 []
      (by omega) (by omega) _ rfl
    generalize zip_source_read_stream_loop K N N src stream 0 [] = r at l1 l2 l3 l4
    rcases r with ⟨v, s1, st1, b, data⟩
    simp only at l1 l2 l3 l4
    subst l1
    simp only
    have hb : b = min N (rem src.src src.ud stream.user_stream) := by rw [l2]; simp
    have hbm : b ≤ ZIP_INT64_MAX := by rw [hb]; exact le_trans (Nat.min_le_left _ _) hmax
    have hst : st1.bytes_read = 0 := by rw [l4]; exact hbr
    have hs2 : s1.source_closed = false := by rw [l3]; exact hcl
    have hs3 : s1.streams = src.streams := by rw [l3]
    have hs4 : s1.supports = src.supports := by rw [l3]
    have hs5 : s1.nstreams = src.nstreams := by rw [l3]
    have hget : (src.streams.get? id.toNat).join = some stream := hs
    have hat : ∀ x : zip_stream_t υ,
        ((s1.streams.set id.toNat (some x)).get? id.toNat).join = some x := by
      intro x
      rw [hs3]
      exact stream_at_set src.streams id.toNat stream x hget
    refine ⟨?_, ?_, hs2, ?_, hs4⟩
    · rw [← hb]
      exact to_int64_small b (by unfold ZIP_INT64_MAX at hbm; omega)
    · unfold stream_bytes_read stream_at
      simp only [hat]
      rw [hst, bytes_read_add_zero b hbm, hb]
    · unfold ZIP_SOURCE_IS_VALID_STREAM_ID at hv ⊢
      simp only [Bool.and_eq_true, decide_eq_true_eq] at hv ⊢
      refine ⟨⟨hv.1.1, ?_⟩, ?_⟩
      · show id.toNat < s1.nstreams
        rw [hs5]; exact hv.1.2
      · unfold stream_at
        simp only [hat]
        rfl

/-- The function zip_source_tell_stream on a valid stream of a source that does
not advertise seekable streams, with a counter within the range of
zip_int64_t: the counter of the stream. -/
theorem tell_stream_counter {τ σ υ : Type} (K : zip_source_class τ σ υ) (src : zip_source_t τ σ υ)
    (id : Int) (hcl : src.source_closed = false)
    (hv : ZIP_SOURCE_IS_VALID_STREAM_ID src id = true)
    (hns : zip_source_supports_multi_open_seekable src = false)
    (hb : stream_bytes_read src id.toNat ≤ ZIP_INT64_MAX) :
    zip_source_tell_stream K src id = (((stream_bytes_read src id.toNat : Nat) : Int), src) := by
  unfold zip_source_tell_stream
  unfold stream_bytes_read at hb ⊢
  cases hst : stream_at src id.toNat with
  | none =>
    unfold ZIP_SOURCE_IS_VALID_STREAM_ID at hv
    rw [hst] at hv
    simp at hv
  | some stream =>
    rw [hst] at hb
    simp only at hb
    have h2 : ¬ stream.bytes_read > ZIP_INT64_MAX := by omega
    simp only [hcl, hv, hns, h2, Bool.not_true, Bool.not_false, Bool.false_eq_true, if_false,
      if_true]
    rw [to_int64_small _ (by unfold ZIP_INT64_MAX at hb; omega)]

/-- The READ callback of the in-memory source with streams delivers without error. -/
theorem memory_delivers_total : delivers_total memory_class memory_rem := by
  intro low ud len hlen
  have hr : (memory_class.cb low (-1) ud (.raw [] len) ZIP_SOURCE_READ).ret
      = ((min len (min ud.chunk (ud.data.length - ud.pos)) : Nat) : Int) := rfl
  have hu : (memory_class.cb low (-1) ud (.raw [] len) ZIP_SOURCE_READ).ud
      = { ud with pos := ud.pos + min len (min ud.chunk (ud.data.length - ud.pos)) } := rfl
  rw [hr, hu]
  unfold memory_rem
  by_cases hc : ud.chunk = 0
  · simp [hc]
  · simp only [hc, if_false]
    refine ⟨fun h => ?_, fun h => ⟨?_, ?_, ?_⟩⟩
    · rw [h]; simp
    · have : 0 < min len (min ud.chunk (ud.data.length - ud.pos)) := by omega
      exact_mod_cast this
    · simp only [Int.toNat_ofNat]; omega
    · simp only [Int.toNat_ofNat]; omega

/-- The READ_STREAM callback of the in-memory source with streams delivers
without error. -/
theorem memory_delivers_total_stream : delivers_total_stream memory_class memory_rem_stream := by
  intro low id ud us len hlen
  have hr : (memory_class.cb low id ud (.stream ⟨us, [], len⟩) ZIP_SOURCE_READ_STREAM).ret
      = ((min len (min ud.chunk (ud.data.length - us.getD 0)) : Nat) : Int) := rfl
  have hu : (memory_class.cb low id ud (.stream ⟨us, [], len⟩) ZIP_SOURCE_READ_STREAM).ud
      = ud := rfl
  have hd : (memory_class.cb low id ud (.stream ⟨us, [], len⟩)
      ZIP_SOURCE_READ_STREAM).data.user_stream
      = some (us.getD 0 + min len (min ud.chunk (ud.data.length - us.getD 0))) := rfl
  rw [hr, hu, hd]
  unfold memory_rem_stream
  by_cases hc : ud.chunk = 0
  · simp [hc]
  · simp only [hc, if_false, Option.getD_some]
    refine ⟨fun h => ?_, fun h => ⟨?_, ?_, ?_⟩⟩
    · rw [h]; simp
    · have : 0 < min len (min ud.chunk (ud.data.length - us.getD 0)) := by omega
      exact_mod_cast this
    · simp only [Int.toNat_ofNat]; omega
    · simp only [Int.toNat_ofNat]; omega

/-- C16: read then tell.  (1) For every source that supports neither TELL nor
SEEK and whose READ callback delivers without error, total being the number
of bytes left after a successful zip_source_open: a zip_source_read of N
bytes, N within the range of zip_int64_t, returns min(N, total), and the
zip_source_tell after it returns min(N, total).  (2) For every source that
does not advertise seekable streams and whose READ_STREAM callback delivers
without error, on a valid stream that has not been read from:
zip_source_read_stream of N bytes returns min(N, total), and the
zip_source_tell_stream after it on the same ID returns min(N, total). -/
theorem read_then_tell {τ σ υ : Type} :
    (∀ (K : zip_source_class τ σ υ) (rem : τ → σ → Nat) (src : zip_source_t τ σ υ) (N : Nat),
      delivers_total K rem → (zip_source_open K src).1 = 0 →
      src.supports ZIP_SOURCE_TELL = false → src.supports ZIP_SOURCE_SEEK = false →
      N ≤ ZIP_INT64_MAX →
      (zip_source_read K (zip_source_open K src).2 N).1
        = ((min N (rem (zip_source_open K src).2.src (zip_source_open K src).2.ud) : Nat) : Int) ∧
      (zip_source_tell K (zip_source_read K (zip_source_open K src).2 N).2.2).1
        = ((min N (rem (zip_source_open K src).2.src (zip_source_open K src).2.ud) : Nat) : Int)) ∧
    (∀ (K : zip_source_class τ σ υ) (rem : τ → σ → Option υ → Nat) (src : zip_source_t τ σ υ)
      (id : Int) (stream : zip_stream_t υ) (N : Nat),
      delivers_total_stream K rem → src.source_closed = false →
      ZIP_SOURCE_IS_VALID_STREAM_ID src id = true → stream_at src id.toNat = some stream →
      stream.had_read_error = false → stream.eof = false → stream.bytes_read = 0 →
      zip_source_supports_multi_open_seekable src = false → N ≤ ZIP_INT64_MAX →
      (zip_source_read_stream K src id N).1
        = ((min N (rem src.src src.ud stream.user_stream) : Nat) : Int) ∧
      (zip_source_tell_stream K (zip_source_read_stream K src id N).2.2 id).1
        = ((min N (rem src.src src.ud stream.user_stream) : Nat) : Int)) := by
  refine ⟨?_, ?_⟩
  · intro K rem src N hD hopen ht hs hmax
    obtain ⟨o1, o2, o3, o4, o5, o6⟩ := open_success_state K src hopen
    obtain ⟨r1, r2, r3, r4, r5⟩ := read_total K rem hD (zip_source_open K src).2 N o5 o4 o2 o1 o3 hmax
    refine ⟨r1, ?_⟩
    have hb : (zip_source_read K (zip_source_open K src).2 N).2.2.bytes_read ≤ ZIP_INT64_MAX := by
      rw [r2]; exact le_trans (Nat.min_le_left _ _) hmax
    rw [tell_counter K _ r3 r4 (by rw [r5, o6]; exact ht) (by rw [r5, o6]; exact hs) hb]
    show ((zip_source_read K (zip_source_open K src).2 N).2.2.bytes_read : Int) = _
    rw [r2]
  · intro K rem src id stream N hD hcl hv hst hre heof hbr hns hmax
    obtain ⟨r1, r2, r3, r4, r5⟩ := read_stream_total K rem hD src id stream N hcl hv hst hre heof
      hbr hmax
    refine ⟨r1, ?_⟩
    have hb : stream_bytes_read (zip_source_read_stream K src id N).2.2 id.toNat
        ≤ ZIP_INT64_MAX := by
      rw [r2]; exact le_trans (Nat.min_le_left _ _) hmax
    have hns2 : zip_source_supports_multi_open_seekable (zip_source_read_stream K src id N).2.2
        = false := by
      unfold zip_source_supports_multi_open_seekable zip_source_supports_multi_open_readable
        at hns ⊢
      rw [r5]; exact hns
    rw [tell_stream_counter K _ id r3 r4 hns2 hb]
    show ((stream_bytes_read (zip_source_read_stream K src id N).2.2 id.toNat : Nat) : Int) = _
    rw [r2]

/-- Witness for C16 on the in-memory source with streams, 5 bytes in chunks of
2: after a read of 3 bytes the tell returns 3, and on the stream 0 after a
read of 9 bytes the tell returns 5. -/
theorem read_then_tell_witness :
    (zip_source_tell memory_class (zip_source_read memory_class
      (zip_source_open memory_class (memory_new [10, 20, 30, 40, 50] 2)).2 3).2.2).1 = 3 ∧
    (zip_source_tell_stream memory_class (zip_source_read_stream memory_class
      (zip_source_open_stream memory_class (memory_new [10, 20, 30, 40, 50] 2)).2 0 9).2.2 0).1
      = 5 :=
  ⟨((@read_then_tell Unit buffer_src Nat).1 memory_class memory_rem
      (memory_new [10, 20, 30, 40, 50] 2) 3 memory_delivers_total (by decide) (by decide)
      (by decide) (by decide)).2,
    ((@read_then_tell Unit buffer_src Nat).2 memory_class memory_rem_stream
      (zip_source_open_stream memory_class (memory_new [10, 20, 30, 40, 50] 2)).2 0
      ⟨-1, false, false, 0, some 0⟩ 9 memory_delivers_total_stream (by decide) (by decide)
      (by decide) (by decide) (by decide) (by decide) (by decide) (by decide)).2⟩

/-! ## Compression layer: STAT, method lookup, the END step and latched errors -/

/-- C22: the STAT command of the compression layer, for every lower source,
algorithm and context.  The callback returns 0, leaves the lower source and
the context as they are, and hands back the zip_stat_t of the caller changed
as follows.  Compress mode at end_of_stream: comp_method is STORE if is_stored
and the actual method otherwise, comp_size is the size of the stream, both
valid bits are set, size and its valid bit are as they were.  Compress mode
before end_of_stream: both valid bits are cleared and nothing else changes.
Decompress mode: comp_method is STORE and its valid bit is set in every case;
at end_of_stream size is the size of the stream and its valid bit is set,
before end_of_stream size and its valid bit are as they were; comp_size and
its valid bit are as they were. -/
theorem stat_reflects_outcome {τ α : Type} (A : zip_source_ops τ)
    (alg : zip_compression_algorithm_t α) (BUFSIZE fuel : Nat) (junk : stream α) (src : τ)
    (stream_id : Int) (ctx : context α) (st : zip_stat_t) :
    (compress_callback A alg BUFSIZE fuel junk src stream_id ctx (.stat st) ZIP_SOURCE_STAT).ret
      = 0 ∧
    (compress_callback A alg BUFSIZE fuel junk src stream_id ctx (.stat st) ZIP_SOURCE_STAT).src
      = src ∧
    (compress_callback A alg BUFSIZE fuel junk src stream_id ctx (.stat st) ZIP_SOURCE_STAT).ud
      = ctx ∧
    ∃ out : zip_stat_t,
      (compress_callback A alg BUFSIZE fuel junk src stream_id ctx (.stat st)
        ZIP_SOURCE_STAT).data = .stat out ∧
      (ctx.compress = true → ctx.stream.end_of_stream = true →
        out.comp_method
          = (if ctx.stream.is_stored then ZIP_CM_STORE else ZIP_CM_ACTUAL ctx.method) ∧
        out.comp_size = ctx.stream.size ∧ out.valid_comp_size = true ∧
        out.valid_comp_method = true ∧ out.size = st.size ∧ out.valid_size = st.valid_size) ∧
      (ctx.compress = true → ctx.stream.end_of_stream = false →
        out = { st with valid_comp_size := false, valid_comp_method := false }) ∧
      (ctx.compress = false →
        out.comp_method = ZIP_CM_STORE ∧ out.valid_comp_method = true ∧
        out.comp_size = st.comp_size ∧ out.valid_comp_size = st.valid_comp_size ∧
        (ctx.stream.end_of_stream = true →
          out.size = ctx.stream.size ∧ out.valid_size = true) ∧
        (ctx.stream.end_of_stream = false →
          out.size = st.size ∧ out.valid_size = st.valid_size)) := by
  refine ⟨rfl, rfl, rfl, compress_stat ctx st, rfl, ?_, ?_, ?_⟩
  · intro hc he
    simp [compress_stat, hc, he]
  · intro hc he
    simp [compress_stat, hc, he]
  · intro hc
    refine ⟨?_, ?_, ?_, ?_, ?_, ?_⟩
    · simp only [compress_stat, hc]; cases ctx.stream.end_of_stream <;> rfl
    · simp only [compress_stat, hc]; cases ctx.stream.end_of_stream <;> rfl
    · simp only [compress_stat, hc]; cases ctx.stream.end_of_stream <;> rfl
    · simp only [compress_stat, hc]; cases ctx.stream.end_of_stream <;> rfl
    · intro he; simp [compress_stat, hc, he]
    · intro he; simp [compress_stat, hc, he]

/-- Witness for C22 on scenario 4: after the session that took the store
shortcut on "AB", STAT reports STORE with comp_size 2, both valid; on the
context as context_new leaves it, where end_of_stream does not hold, STAT
clears the two valid bits of a zip_stat_t that had them set. -/
theorem stat_reflects_outcome_witness :
    (∃ out : zip_stat_t,
      (compress_callback (zip_source_ops_of buffer_class) (transducer_algorithm frame_encoder)
        8192 10 (stream_junk ⟨(), [], false⟩) (buffer_new [65, 66] 2) (-1)
        (store_session_ctx (store_session.get store_session_isSome)) (.stat zip_stat_init)
        ZIP_SOURCE_STAT).data = .stat out ∧
      out.comp_method = ZIP_CM_STORE ∧ out.comp_size = 2 ∧ out.valid_comp_size = true ∧
      out.valid_comp_method = true) ∧
    (∃ out : zip_stat_t,
      (compress_callback (zip_source_ops_of buffer_class) (transducer_algorithm frame_encoder)
        8192 10 (stream_junk ⟨(), [], false⟩) (buffer_new [65, 66] 2) (-1)
        { frame_compress_ctx with stream := { frame_compress_ctx.stream with end_of_stream := false } }
        (.stat ⟨true, true, true, 7, 7, 8⟩) ZIP_SOURCE_STAT).data = .stat out ∧
      out = ⟨true, false, false, 7, 7, 8⟩) := by
  constructor
  · obtain ⟨out, h1, h2, _, _⟩ := (stat_reflects_outcome (zip_source_ops_of buffer_class)
      (transducer_algorithm frame_encoder) 8192 10 (stream_junk ⟨(), [], false⟩)
      (buffer_new [65, 66] 2) (-1) (store_session_ctx (store_session.get store_session_isSome))
      zip_stat_init).2.2.2
    obtain ⟨a1, a2, a3, a4, _, _⟩ := h2 (by decide) (by decide)
    exact ⟨out, h1, a1, a2, a3, a4⟩
  · obtain ⟨out, h1, _, h3, _⟩ := (stat_reflects_outcome (zip_source_ops_of buffer_class)
      (transducer_algorithm frame_encoder) 8192 10 (stream_junk ⟨(), [], false⟩)
      (buffer_new [65, 66] 2) (-1)
      { frame_compress_ctx with stream := { frame_compress_ctx.stream with end_of_stream := false } }
      ⟨true, true, true, 7, 7, 8⟩).2.2.2
    exact ⟨out, h1, h3 (by decide) rfl⟩

/-- The lookup returns what the first entry of the table with the actual
method holds for the direction asked for. -/
theorem get_compression_algorithm_find {α : Type} (implementations : List (implementation α))
    (method : Int) (compress : Bool) :
    _zip_get_compression_algorithm implementations method compress
      = (implementations.find? (fun e => decide (e.method = ZIP_CM_ACTUAL method))).bind
          (fun e => if compress then e.compress else e.decompress) := by
  induction implementations with
  | nil => rfl
  | cons e rest ih =>
    unfold _zip_get_compression_algorithm
    by_cases h : e.method = ZIP_CM_ACTUAL method
    · simp [h, List.find?]
    · simp only [h, if_false, List.find?, decide_False]
      exact ih

/-- C23: the lookup of compression methods, for every table of
implementations.  zip_compression_method_supported returns 0 or 1; it returns
1 for STORE; for every other method it returns 1 exactly when the lookup
_zip_get_compression_algorithm succeeds; the lookup returns what the first
entry of the table whose method is ZIP_CM_ACTUAL(method) holds for the
direction asked for, so, in a table in which no method has two entries, it
succeeds exactly when the table has an entry for the actual method with an
algorithm for that direction.  compression_source_new on a lower source that
is not NULL, with a method for which the lookup returns NULL, returns NULL and
sets COMPNOTSUPP. -/
theorem method_supported_spec {τ α : Type} (implementations : List (implementation α))
    (method : Int) (compress : Int) :
    (zip_compression_method_supported implementations method compress = 0 ∨
      zip_compression_method_supported implementations method compress = 1) ∧
    (method = ZIP_CM_STORE →
      zip_compression_method_supported implementations method compress = 1) ∧
    (method ≠ ZIP_CM_STORE →
      (zip_compression_method_supported implementations method compress = 1 ↔
        (_zip_get_compression_algorithm implementations method
          (decide (compress ≠ 0))).isSome = true)) ∧
    (∀ dir : Bool, _zip_get_compression_algorithm implementations method dir
      = (implementations.find? (fun e => decide (e.method = ZIP_CM_ACTUAL method))).bind
          (fun e => if dir then e.compress else e.decompress)) ∧
    (∀ dir : Bool, (implementations.map (fun e => e.method)).Nodup →
      ((_zip_get_compression_algorithm implementations method dir).isSome = true ↔
        ∃ e ∈ implementations, e.method = ZIP_CM_ACTUAL method ∧
          (if dir then e.compress else e.decompress).isSome = true)) ∧
    (∀ (za_error : zip_error_t) (heap : List Bool) (src : τ) (dir : Bool) (flags : Int)
      (junk : stream α),
      _zip_get_compression_algorithm implementations method dir = none →
      compression_source_new implementations za_error heap (some src) method dir flags junk
        = (none, zip_error_set ZIP_ER_COMPNOTSUPP 0)) := by
  refine ⟨?_, ?_, ?_, ?_, ?_, ?_⟩
  · unfold zip_compression_method_supported
    split
    · exact Or.inr rfl
    · split
      · exact Or.inr rfl
      · exact Or.inl rfl
  · intro h
    simp [zip_compression_method_supported, h]
  · intro h
    unfold zip_compression_method_supported
    simp only [h, if_false]
    split <;> simp_all
  · intro dir
    exact get_compression_algorithm_find implementations method dir
  · intro dir hnd
    induction implementations with
    | nil => simp [_zip_get_compression_algorithm]
    | cons e rest ih =>
      have hnd2 : (rest.map (fun e => e.method)).Nodup := (List.nodup_cons.mp hnd).2
      have hnot : e.method ∉ rest.map (fun e => e.method) := (List.nodup_cons.mp hnd).1
      unfold _zip_get_compression_algorithm
      by_cases h : e.method = ZIP_CM_ACTUAL method
      · simp only [h, if_true]
        constructor
        · intro hs
          exact ⟨e, List.mem_cons_self _ _, h, hs⟩
        · rintro ⟨e2, he2, hm, hs⟩
          rcases List.mem_cons.mp he2 with rfl | hin
          · exact hs
          · exfalso
            apply hnot
            rw [h, ← hm]
            exact List.mem_map_of_mem (fun e => e.method) hin
      · simp only [h, if_false]
        rw [ih hnd2]
        constructor
        · rintro ⟨e2, he2, hm, hs⟩
          exact ⟨e2, List.mem_cons_of_mem _ he2, hm, hs⟩
        · rintro ⟨e2, he2, hm, hs⟩
          rcases List.mem_cons.mp he2 with rfl | hin
          · exact absurd hm h
          · exact ⟨e2, hin, hm, hs⟩
  · intro za_error heap src dir flags junk h
    simp [compression_source_new, h]

/-- Witness for C23 on the table of a build without optional libraries (one
entry, DEFLATE, here with the toy algorithms): DEFLATE and the default method
are supported, STORE is supported, method 12 is not, and a compression source
for method 12, and one for STORE, is refused with COMPNOTSUPP. -/
theorem method_supported_spec_witness :
    zip_compression_method_supported
      [⟨ZIP_CM_DEFLATE, some (transducer_algorithm frame_encoder), none⟩] ZIP_CM_DEFLATE 1 = 1 ∧
    zip_compression_method_supported
      [⟨ZIP_CM_DEFLATE, some (transducer_algorithm frame_encoder), none⟩] ZIP_CM_DEFAULT 1 = 1 ∧
    zip_compression_method_supported
      [⟨ZIP_CM_DEFLATE, some (transducer_algorithm frame_encoder), none⟩] ZIP_CM_DEFLATE 0 = 0 ∧
    zip_compression_method_supported
      [⟨ZIP_CM_DEFLATE, some (transducer_algorithm frame_encoder), none⟩] ZIP_CM_STORE 0 = 1 ∧
    zip_compression_method_supported
      [⟨ZIP_CM_DEFLATE, some (transducer_algorithm frame_encoder), none⟩] 12 1 = 0 ∧
    compression_source_new [⟨ZIP_CM_DEFLATE, some (transducer_algorithm frame_encoder), none⟩]
        zip_error_clear [] (some (buffer_new [65, 66] 2)) 12 true 0 (stream_junk ⟨(), [], false⟩)
      = (none, zip_error_set ZIP_ER_COMPNOTSUPP 0) ∧
    compression_source_new [⟨ZIP_CM_DEFLATE, some (transducer_algorithm frame_encoder), none⟩]
        zip_error_clear [] (some (buffer_new [65, 66] 2)) ZIP_CM_STORE true 0
        (stream_junk ⟨(), [], false⟩)
      = (none, zip_error_set ZIP_ER_COMPNOTSUPP 0) :=
  ⟨by decide, by decide, by decide,
    (@method_supported_spec (zip_source_t Unit buffer_src Unit) (transducer_state Unit)
      [⟨ZIP_CM_DEFLATE, some (transducer_algorithm frame_encoder), none⟩] ZIP_CM_STORE 0).2.1 rfl,
    by decide,
    (@method_supported_spec (zip_source_t Unit buffer_src Unit) (transducer_state Unit)
      [⟨ZIP_CM_DEFLATE, some (transducer_algorithm frame_encoder), none⟩] 12 1).2.2.2.2.2
      zip_error_clear [] (buffer_new [65, 66] 2) true 0 (stream_junk ⟨(), [], false⟩) rfl,
    (@method_supported_spec (zip_source_t Unit buffer_src Unit) (transducer_state Unit)
      [⟨ZIP_CM_DEFLATE, some (transducer_algorithm frame_encoder), none⟩] ZIP_CM_STORE 1).2.2.2.2.2
      zip_error_clear [] (buffer_new [65, 66] 2) true 0 (stream_junk ⟨(), [], false⟩) rfl⟩

/-- The END case of the loop body of compress_read when the store shortcut is
taken. -/
theorem compress_read_handle_end_store {τ α : Type} (A : zip_source_ops τ)
    (alg : zip_compression_algorithm_t α) (BUFSIZE : Nat) (pid : Int)
    (st : compress_read_state τ α) (p : process_result α)
    (hend : p.status = ZIP_COMPRESSION_END) (h0 : 0 ≤ st.strm.first_read)
    (h63 : st.strm.first_read < 2 ^ 63) (hcs : st.strm.can_store = true)
    (hle : st.strm.first_read.toNat ≤ st.out_offset + p.out.length) :
    compress_read_handle A alg BUFSIZE pid st p
      = .return_ st.strm.first_read
          { src := st.src,
            error := (match p.error with
              | some e => e
              | none => st.error),
            strm := { st.strm with ud := p.ud, end_of_stream := true, is_stored := true,
                                   size := st.strm.first_read.toNat },
            data := st.strm.buffer.take st.strm.first_read.toNat
              ++ (st.data ++ p.out).drop st.strm.first_read.toNat,
            out_offset := st.out_offset + p.out.length } := by
  have hu : to_uint64 st.strm.first_read = st.strm.first_read.toNat := by
    unfold to_uint64
    rw [Int.emod_eq_of_lt h0 (by omega)]
  have hi : to_int64 st.strm.first_read.toNat = st.strm.first_read := by
    rw [to_int64_small _ (by omega)]
    exact Int.toNat_of_nonneg h0
  have hn : ¬ st.strm.first_read < 0 := by omega
  rcases p with ⟨status, out, ud, perr⟩
  simp only at hend hle
  subst hend
  simp only [compress_read_handle, ne_eq, reduceCtorEq, not_false_eq_true, if_true, hn, if_false,
    hcs, hu, Bool.true_and, decide_eq_true_eq, hle, hi]

/-- The END case of the loop body of compress_read when the store shortcut is
not taken, some input having been read. -/
theorem compress_read_handle_end_plain {τ α : Type} (A : zip_source_ops τ)
    (alg : zip_compression_algorithm_t α) (BUFSIZE : Nat) (pid : Int)
    (st : compress_read_state τ α) (p : process_result α)
    (hend : p.status = ZIP_COMPRESSION_END) (h0 : 0 ≤ st.strm.first_read)
    (h63 : st.strm.first_read < 2 ^ 63)
    (hno : st.strm.can_store = false ∨ st.out_offset + p.out.length < st.strm.first_read.toNat) :
    compress_read_handle A alg BUFSIZE pid st p
      = .break_
          { src := st.src,
            error := (match p.error with
              | some e => e
              | none => st.error),
            strm := { st.strm with ud := p.ud, end_of_stream := true },
            data := st.data ++ p.out,
            out_offset := st.out_offset + p.out.length } := by
  have hu : to_uint64 st.strm.first_read = st.strm.first_read.toNat := by
    unfold to_uint64
    rw [Int.emod_eq_of_lt h0 (by omega)]
  have hn : ¬ st.strm.first_read < 0 := by omega
  rcases p with ⟨status, out, ud, perr⟩
  simp only at hend hno
  subst hend
  have hc : (st.strm.can_store && decide (st.strm.first_read.toNat ≤ st.out_offset + out.length))
      = false := by
    rcases hno with h | h
    · simp [h]
    · have : ¬ st.strm.first_read.toNat ≤ st.out_offset + out.length := by omega
      simp [this]
  simp only [compress_read_handle, ne_eq, reduceCtorEq, not_false_eq_true, if_true, hn, if_false,
    hu, hc, Bool.false_eq_true]


/-- The loop body of compress_read meets handle_is_stored_spec. -/
theorem compress_read_handle_is_stored {τ α : Type} (A : zip_source_ops τ)
    (alg : zip_compression_algorithm_t α) (BUFSIZE : Nat) (pid : Int)
    (st : compress_read_state τ α) (p : process_result α) :
    handle_is_stored_spec st (compress_read_handle A alg BUFSIZE pid st p) := by
  rcases p with ⟨status, out, ud, perr⟩
  cases status with
  | ZIP_COMPRESSION_OK => simp [compress_read_handle, handle_is_stored_spec]
  | ZIP_COMPRESSION_END =>
    simp only [compress_read_handle, ne_eq, reduceCtorEq, not_false_eq_true, if_true]
    by_cases h1 : st.strm.first_read < 0
    · simp [h1, handle_is_stored_spec]
    · simp only [h1, if_false]
      by_cases h2 : (st.strm.can_store
          && decide (to_uint64 st.strm.first_read ≤ st.out_offset + out.length)) = true
      · simp only [h2, if_true, handle_is_stored_spec]
        simp only [Bool.and_eq_true] at h2
        exact ⟨trivial, trivial, h2.1, by omega, trivial, trivial⟩
      · simp [h2, handle_is_stored_spec]
  | ZIP_COMPRESSION_NEED_DATA =>
    simp only [compress_read_handle, ne_eq, reduceCtorEq, not_false_eq_true, if_true]
    repeat' split
    all_goals simp [handle_is_stored_spec]
  | ZIP_COMPRESSION_ERROR =>
    simp only [compress_read_handle, ne_eq, not_true_eq_false, if_false, handle_is_stored_spec]
    split <;> rfl

/-- The loop of compress_read: when it is left without a return, is_stored is
as it was; when the function returns from inside the loop, the store shortcut
was taken. -/
theorem compress_read_loop_is_stored {τ α : Type} (A : zip_source_ops τ)
    (alg : zip_compression_algorithm_t α) (BUFSIZE : Nat) (pid : Int) (len : Nat) :
    ∀ (fuel : Nat) (st : compress_read_state τ α) r,
      compress_read_loop A alg BUFSIZE pid len fuel st = r →
      (r.2.1 = none → r.2.2.strm.is_stored = st.strm.is_stored) ∧
      (∀ v, r.2.1 = some v →
        r.1 = false ∧ r.2.2.strm.is_stored = true ∧ r.2.2.strm.end_of_stream = true ∧
        r.2.2.strm.can_store = true ∧ 0 ≤ r.2.2.strm.first_read ∧
        r.2.2.strm.size = to_uint64 r.2.2.strm.first_read ∧ v = to_int64 r.2.2.strm.size) := by
  intro fuel
  induction fuel with
  | zero =>
    intro st r hr
    simp only [compress_read_loop] at hr
    subst hr
    exact ⟨fun _ => rfl, fun v hv => by cases hv⟩
  | succ fuel ih =>
    intro st r hr
    unfold compress_read_loop at hr
    by_cases hlt : st.out_offset < len
    · simp only [hlt, if_true] at hr
      have hs := compress_read_handle_is_stored A alg BUFSIZE pid st
        (alg.process st.strm.ud (len - st.out_offset))
      unfold compress_read_step at hr
      generalize compress_read_handle A alg BUFSIZE pid st
        (alg.process st.strm.ud (len - st.out_offset)) = h at hr hs
      cases h with
      | continue_ st1 =>
        simp only at hr
        obtain ⟨i1, i2⟩ := ih st1 r hr
        have hs : st1.strm.is_stored = st.strm.is_stored := hs
        exact ⟨fun hn => (i1 hn).trans hs, i2⟩
      | break_ st1 =>
        simp only at hr
        subst hr
        have hs : st1.strm.is_stored = st.strm.is_stored := hs
        exact ⟨fun _ => hs, fun v hv => by cases hv⟩
      | return_ v st1 =>
        simp only at hr
        subst hr
        refine ⟨fun hn => (by cases hn), fun v2 hv => ?_⟩
        have hv2 : v = v2 := by simpa using hv
        subst hv2
        obtain ⟨a1, a2, a3, a4, a5, a6⟩ := hs
        exact ⟨rfl, a1, a2, a3, a4, a5, a6⟩
    · simp only [hlt, if_false] at hr
      subst hr
      exact ⟨fun _ => rfl, fun v hv => by cases hv⟩

/-- C28: the END step of compress_read.  A call that passed the entry checks
(no latched error, len > 0, end_of_stream not set) has its loop at the state
st, with room left in data, and process answers END there, some input having
been read (first_read >= 0; first_read is a zip_int64_t).  With out the output
produced so far in this call, the output of this process call included: (1)
if can_store holds and first_read <= out, the call returns first_read, the
bytes it hands back are data[0 .. first_read) after data[0 .. first_read) was
overwritten with buffer[0 .. first_read), and the stream has is_stored = true,
end_of_stream = true and size = first_read, its other fields as they were
(ud as process left it); (2) if can_store does not hold or first_read exceeds
out, is_stored is as it was at st, end_of_stream is set, and the call returns
the count out with the out bytes produced (for out = 0 this is the value 0
unless the algorithm stored an error).  (3) For every call, is_stored is
changed only by the store shortcut: either it is as before the call, or it is
set, with end_of_stream set, size = first_read and the value returned equal to
size. -/
theorem store_shortcut_step {τ α : Type} (A : zip_source_ops τ)
    (alg : zip_compression_algorithm_t α) (BUFSIZE : Nat) (pid : Int) (len fuel0 fuel : Nat)
    (src : τ) (error : zip_error_t) (strm : stream α) (st : compress_read_state τ α)
    (he : error.zip_err = ZIP_ER_OK) (hlen : len ≠ 0) (heos : strm.end_of_stream = false)
    (hreach : compress_read_loop A alg BUFSIZE pid len fuel0 ⟨src, error, strm, [], 0⟩
      = compress_read_loop A alg BUFSIZE pid len (fuel + 1) st)
    (hlt : st.out_offset < len)
    (hend : (alg.process st.strm.ud (len - st.out_offset)).status = ZIP_COMPRESSION_END)
    (h0 : 0 ≤ st.strm.first_read) (h63 : st.strm.first_read < 2 ^ 63) :
    (st.strm.can_store = true →
      st.strm.first_read.toNat
        ≤ st.out_offset + (alg.process st.strm.ud (len - st.out_offset)).out.length →
      (compress_read A alg BUFSIZE fuel0 src pid error strm len).exhausted = false ∧
      (compress_read A alg BUFSIZE fuel0 src pid error strm len).ret = st.strm.first_read ∧
      (compress_read A alg BUFSIZE fuel0 src pid error strm len).data
        = (st.strm.buffer.take st.strm.first_read.toNat
            ++ (st.data ++ (alg.process st.strm.ud (len - st.out_offset)).out).drop
                st.strm.first_read.toNat).take st.strm.first_read.toNat ∧
      (compress_read A alg BUFSIZE fuel0 src pid error strm len).strm
        = { st.strm with ud := (alg.process st.strm.ud (len - st.out_offset)).ud,
                         end_of_stream := true, is_stored := true,
                         size := st.strm.first_read.toNat }) ∧
    ((st.strm.can_store = false ∨
        st.out_offset + (alg.process st.strm.ud (len - st.out_offset)).out.length
          < st.strm.first_read.toNat) →
      (compress_read A alg BUFSIZE fuel0 src pid error strm len).exhausted = false ∧
      (compress_read A alg BUFSIZE fuel0 src pid error strm len).strm.is_stored
        = st.strm.is_stored ∧
      (compress_read A alg BUFSIZE fuel0 src pid error strm len).strm.end_of_stream = true ∧
      (0 < st.out_offset + (alg.process st.strm.ud (len - st.out_offset)).out.length →
        (compress_read A alg BUFSIZE fuel0 src pid error strm len).ret
          = to_int64 (st.out_offset + (alg.process st.strm.ud (len - st.out_offset)).out.length) ∧
        (compress_read A alg BUFSIZE fuel0 src pid error strm len).data
          = st.data ++ (alg.process st.strm.ud (len - st.out_offset)).out) ∧
      (st.out_offset + (alg.process st.strm.ud (len - st.out_offset)).out.length = 0 →
        (compress_read A alg BUFSIZE fuel0 src pid error strm len).ret
          = (if (compress_read A alg BUFSIZE fuel0 src pid error strm len).error.zip_err
                = ZIP_ER_OK then 0 else -1))) ∧
    ((compress_read A alg BUFSIZE fuel0 src pid error strm len).strm.is_stored = strm.is_stored ∨
      ((compress_read A alg BUFSIZE fuel0 src pid error strm len).strm.is_stored = true ∧
        (compress_read A alg BUFSIZE fuel0 src pid error strm len).strm.end_of_stream = true ∧
        (compress_read A alg BUFSIZE fuel0 src pid error strm len).strm.size
          = to_uint64 (compress_read A alg BUFSIZE fuel0 src pid error strm len).strm.first_read ∧
        (compress_read A alg BUFSIZE fuel0 src pid error strm len).ret
          = to_int64 (compress_read A alg BUFSIZE fuel0 src pid error strm len).strm.size)) := by
  have hne : ¬ error.zip_err ≠ ZIP_ER_OK := by simp [he]
  have hcond : (decide (len = 0) || strm.end_of_stream) = false := by simp [hlen, heos]
  have hstep : compress_read_loop A alg BUFSIZE pid len (fuel + 1) st
      = (match compress_read_handle A alg BUFSIZE pid st
          (alg.process st.strm.ud (len - st.out_offset)) with
        | .continue_ st => compress_read_loop A alg BUFSIZE pid len fuel st
        | .break_ st => (false, none, st)
        | .return_ v st => (false, some v, st)) := by
    conv_lhs => unfold compress_read_loop
    simp only [hlt, if_true, compress_read_step]
  refine ⟨?_, ?_, ?_⟩
  · intro hcs hle
    have hh := compress_read_handle_end_store A alg BUFSIZE pid st _ hend h0 h63 hcs hle
    rw [hh] at hstep
    simp only at hstep
    unfold compress_read
    simp only [hne, if_false, hcond, Bool.false_eq_true, hreach, hstep]
    exact ⟨trivial, trivial, trivial, trivial⟩
  · intro hno
    have hh := compress_read_handle_end_plain A alg BUFSIZE pid st _ hend h0 h63 hno
    rw [hh] at hstep
    simp only at hstep
    unfold compress_read
    simp only [hne, if_false, hcond, Bool.false_eq_true, hreach, hstep]
    by_cases hpos : 0 < st.out_offset + (alg.process st.strm.ud (len - st.out_offset)).out.length
    · have hg : st.out_offset + (alg.process st.strm.ud (len - st.out_offset)).out.length > 0 :=
        hpos
      simp only [hg, if_true]
      exact ⟨trivial, trivial, trivial, fun _ => ⟨trivial, trivial⟩, fun h => by omega⟩
    · have hg : ¬ st.out_offset + (alg.process st.strm.ud (len - st.out_offset)).out.length > 0 :=
        hpos
      simp only [hg, if_false]
      exact ⟨trivial, trivial, trivial, fun h => False.elim h, fun _ => trivial⟩
  · obtain ⟨l1, l2⟩ := compress_read_loop_is_stored A alg BUFSIZE pid len fuel0
      ⟨src, error, strm, [], 0⟩ _ rfl
    unfold compress_read
    simp only [hne, if_false, hcond, Bool.false_eq_true]
    generalize compress_read_loop A alg BUFSIZE pid len fuel0 ⟨src, error, strm, [], 0⟩ = r
      at l1 l2
    rcases r with ⟨ex, v, st1⟩
    cases ex with
    | true =>
      cases v with
      | none => exact Or.inl (l1 rfl)
      | some v => have := (l2 v rfl).1; cases this
    | false =>
      cases v with
      | none =>
        simp only
        split
        · exact Or.inl (l1 rfl)
        · exact Or.inl (l1 rfl)
      | some v =>
        obtain ⟨_, a1, a2, _, _, a5, a6⟩ := l2 v rfl
        exact Or.inr ⟨a1, a2, a5, a6⟩


set_option maxRecDepth 100000 in
/-- Witness for C28 on scenario 4 ("AB" on the default method, toy compressor,
read of 16 bytes): the loop reaches END with 4 bytes produced and
first_read = 2 while can_store holds, and the call returns 2 with the bytes
"AB" and is_stored set; the same call on a stream whose can_store is false
returns the 4 bytes produced and leaves is_stored unset. -/
theorem store_shortcut_step_witness :
    ((compress_read (zip_source_ops_of buffer_class) (transducer_algorithm frame_encoder) 8192 10
        scenario4_opened.2.1 (-1) scenario4_opened.2.2.1 scenario4_opened.2.2.2 16).ret = 2 ∧
      (compress_read (zip_source_ops_of buffer_class) (transducer_algorithm frame_encoder) 8192 10
        scenario4_opened.2.1 (-1) scenario4_opened.2.2.1 scenario4_opened.2.2.2 16).data
          = [65, 66] ∧
      (compress_read (zip_source_ops_of buffer_class) (transducer_algorithm frame_encoder) 8192 10
        scenario4_opened.2.1 (-1) scenario4_opened.2.2.1 scenario4_opened.2.2.2 16).strm.is_stored
          = true) ∧
    ((compress_read (zip_source_ops_of buffer_class) (transducer_algorithm frame_encoder) 8192 10
        scenario4_opened.2.1 (-1) scenario4_opened.2.2.1
        { scenario4_opened.2.2.2 with can_store := false } 16).ret = 4 ∧
      (compress_read (zip_source_ops_of buffer_class) (transducer_algorithm frame_encoder) 8192 10
        scenario4_opened.2.1 (-1) scenario4_opened.2.2.1
        { scenario4_opened.2.2.2 with can_store := false } 16).data = [2, 65, 66, 0] ∧
      (compress_read (zip_source_ops_of buffer_class) (transducer_algorithm frame_encoder) 8192 10
        scenario4_opened.2.1 (-1) scenario4_opened.2.2.1
        { scenario4_opened.2.2.2 with can_store := false } 16).strm.is_stored = false) := by
  constructor
  · obtain ⟨_, h2, h3, h4⟩ := (store_shortcut_step (zip_source_ops_of buffer_class)
      (transducer_algorithm frame_encoder) 8192 (-1) 16 10 5 scenario4_opened.2.1
      scenario4_opened.2.2.1 scenario4_opened.2.2.2 scenario4_at_end rfl (by decide) rfl (by rfl)
      (by decide) rfl (by decide) (by decide)).1 rfl (by decide)
    exact ⟨h2, h3, by rw [h4]⟩
  · obtain ⟨_, h2, _, h4, _⟩ := (store_shortcut_step (zip_source_ops_of buffer_class)
      (transducer_algorithm frame_encoder) 8192 (-1) 16 10 5 scenario4_opened.2.1
      scenario4_opened.2.2.1 { scenario4_opened.2.2.2 with can_store := false }
      { scenario4_at_end with strm := { scenario4_at_end.strm with can_store := false } }
      rfl (by decide) rfl (by rfl) (by decide) rfl (by decide) (by decide)).2.1 (Or.inl rfl)
    obtain ⟨g1, g2⟩ := h4 (by decide)
    exact ⟨g1, g2, h2⟩

/-- C30, counterexample: the error latched after a failed lower read is the
error of the lower source, not INTERNAL.  A compressing layer with the toy
compressor (which never stores an error) reads from an in-memory source that
was opened and then invalidated, so that it carries ZIPCLOSED; the read of the
lower source fails, compress_read returns -1, and ctx->error is ZIPCLOSED. -/
theorem lower_error_is_latched_as_is :
    (_zip_source_invalidate scenario4_opened.2.1).error.zip_err = ZIP_ER_ZIPCLOSED ∧
    scenario4_opened.2.2.1.zip_err = ZIP_ER_OK ∧
    (compress_read (zip_source_ops_of buffer_class) (transducer_algorithm frame_encoder) 8192 10
      (_zip_source_invalidate scenario4_opened.2.1) (-1) scenario4_opened.2.2.1
      scenario4_opened.2.2.2 16).ret = -1 ∧
    (compress_read (zip_source_ops_of buffer_class) (transducer_algorithm frame_encoder) 8192 10
      (_zip_source_invalidate scenario4_opened.2.1) (-1) scenario4_opened.2.2.1
      scenario4_opened.2.2.2 16).error.zip_err = ZIP_ER_ZIPCLOSED ∧
    (compress_read (zip_source_ops_of buffer_class) (transducer_algorithm frame_encoder) 8192 10
      (_zip_source_invalidate scenario4_opened.2.1) (-1) scenario4_opened.2.2.1
      scenario4_opened.2.2.2 16).error.zip_err ≠ ZIP_ER_INTERNAL := by
  decide

/-- C30, amended: latched errors of the compression layer, for every lower
source and algorithm.  (1) When process answers ERROR the loop is left and
ctx->error is the error the algorithm stored (or the one the context held) if
its code is not OK, and INTERNAL otherwise; its code is not OK.  (2) When
process answers END before any input was read (first_read < 0) the loop is
left with ctx->error = INTERNAL.  (3) When process answers NEED_DATA, end of
input has not been seen and the read of the lower source fails, the loop is
left with ctx->error a copy of the error of the lower source.  (4) Once the
code of ctx->error is not OK, compress_read returns -1 and hands back the
lower source, the error and the stream as they were, whatever the algorithm
and the lower source are: neither process nor the lower source is called; the
READ and READ_STREAM commands of the callback return -1 and leave the lower
source and the context as they were. -/
theorem latched_error_terminal {τ α : Type} (A : zip_source_ops τ)
    (alg : zip_compression_algorithm_t α) (BUFSIZE : Nat) :
    (∀ (pid : Int) (st : compress_read_state τ α) (p : process_result α),
      p.status = ZIP_COMPRESSION_ERROR →
      ∃ st1, compress_read_handle A alg BUFSIZE pid st p = .break_ st1 ∧
        st1.error.zip_err ≠ ZIP_ER_OK ∧
        st1.error = (if (match p.error with
              | some e => e
              | none => st.error).zip_err = ZIP_ER_OK
            then zip_error_set ZIP_ER_INTERNAL 0
            else (match p.error with
              | some e => e
              | none => st.error)) ∧
        st1.src = st.src ∧ st1.data = st.data ∧ st1.out_offset = st.out_offset) ∧
    (∀ (pid : Int) (st : compress_read_state τ α) (p : process_result α),
      p.status = ZIP_COMPRESSION_END → st.strm.first_read < 0 →
      ∃ st1, compress_read_handle A alg BUFSIZE pid st p = .break_ st1 ∧
        st1.error = zip_error_set ZIP_ER_INTERNAL 0 ∧ st1.strm.end_of_stream = true ∧
        st1.strm.is_stored = st.strm.is_stored ∧ st1.src = st.src) ∧
    (∀ (pid : Int) (st : compress_read_state τ α) (p : process_result α),
      p.status = ZIP_COMPRESSION_NEED_DATA → st.strm.end_of_input = false →
      (_zip_source_read A st.src pid BUFSIZE).1 < 0 →
      ∃ st1, compress_read_handle A alg BUFSIZE pid st p = .break_ st1 ∧
        st1.src = (_zip_source_read A st.src pid BUFSIZE).2.2 ∧
        st1.error = A.zip_source_error (_zip_source_read A st.src pid BUFSIZE).2.2) ∧
    (∀ (fuel : Nat) (src : τ) (pid : Int) (error : zip_error_t) (strm : stream α) (len : Nat),
      error.zip_err ≠ ZIP_ER_OK →
      compress_read A alg BUFSIZE fuel src pid error strm len
        = ⟨false, -1, [], src, error, strm⟩) ∧
    (∀ (fuel : Nat) (junk : stream α) (src : τ) (stream_id : Int) (ctx : context α)
      (data : zip_source_data (stream α)),
      ctx.error.zip_err ≠ ZIP_ER_OK →
      (compress_callback A alg BUFSIZE fuel junk src stream_id ctx data ZIP_SOURCE_READ).ret = -1 ∧
      (compress_callback A alg BUFSIZE fuel junk src stream_id ctx data ZIP_SOURCE_READ).src
        = src ∧
      (compress_callback A alg BUFSIZE fuel junk src stream_id ctx data ZIP_SOURCE_READ).ud
        = ctx) ∧
    (∀ (fuel : Nat) (junk : stream α) (src : τ) (stream_id : Int) (ctx : context α)
      (args : zip_source_args_stream_t (stream α)) (strm : stream α),
      ctx.error.zip_err ≠ ZIP_ER_OK → args.user_stream = some strm →
      (compress_callback A alg BUFSIZE fuel junk src stream_id ctx (.stream args)
        ZIP_SOURCE_READ_STREAM).ret = -1 ∧
      (compress_callback A alg BUFSIZE fuel junk src stream_id ctx (.stream args)
        ZIP_SOURCE_READ_STREAM).src = src ∧
      (compress_callback A alg BUFSIZE fuel junk src stream_id ctx (.stream args)
        ZIP_SOURCE_READ_STREAM).ud = ctx ∧
      (compress_callback A alg BUFSIZE fuel junk src stream_id ctx (.stream args)
        ZIP_SOURCE_READ_STREAM).data.user_stream = some strm) := by
  have latch : ∀ (fuel : Nat) (src : τ) (pid : Int) (error : zip_error_t) (strm : stream α)
      (len : Nat), error.zip_err ≠ ZIP_ER_OK →
      compress_read A alg BUFSIZE fuel src pid error strm len
        = ⟨false, -1, [], src, error, strm⟩ := by
    intro fuel src pid error strm len h
    unfold compress_read
    rw [if_pos h]
  refine ⟨?_, ?_, ?_, latch, ?_, ?_⟩
  · intro pid st p hs
    rcases p with ⟨status, out, ud, perr⟩
    simp only at hs
    subst hs
    simp only [compress_read_handle, ne_eq, not_true_eq_false, if_false]
    refine ⟨_, rfl, ?_, ?_, ?_, ?_, ?_⟩
    · split
      · simp [zip_error_set]
      · assumption
    · split <;> rfl
    · split <;> rfl
    · split <;> rfl
    · split <;> rfl
  · intro pid st p hs hfr
    rcases p with ⟨status, out, ud, perr⟩
    simp only at hs
    subst hs
    simp only [compress_read_handle, ne_eq, reduceCtorEq, not_false_eq_true, if_true, hfr]
    exact ⟨_, rfl, rfl, rfl, rfl, rfl⟩
  · intro pid st p hs hei hn
    rcases p with ⟨status, out, ud, perr⟩
    simp only at hs
    subst hs
    simp only [compress_read_handle, ne_eq, reduceCtorEq, not_false_eq_true, if_true, hei,
      Bool.false_eq_true, if_false, hn]
    exact ⟨_, rfl, rfl, rfl⟩
  · intro fuel junk src stream_id ctx data h
    simp only [compress_callback, latch fuel src (-1) ctx.error ctx.stream data.size h,
      Bool.or_false]
    exact ⟨trivial, trivial, trivial⟩
  · intro fuel junk src stream_id ctx args strm h hus
    simp only [compress_callback, get_args_stream, hus,
      latch fuel src (-1) ctx.error strm (zip_source_data.size (.stream args)) h, Bool.or_false]
    refine ⟨trivial, trivial, trivial, ?_⟩
    simp [zip_source_data.user_stream]

/-- Witness for C30: after the read over the invalidated lower source has
latched ZIPCLOSED, the next compress_read returns -1 and hands back the lower
source, the error and the stream of the first read. -/
theorem latched_error_terminal_witness :
    compress_read (zip_source_ops_of buffer_class) (transducer_algorithm frame_encoder) 8192 10
        (compress_read (zip_source_ops_of buffer_class) (transducer_algorithm frame_encoder) 8192 10
          (_zip_source_invalidate scenario4_opened.2.1) (-1) scenario4_opened.2.2.1
          scenario4_opened.2.2.2 16).src
        (-1)
        (compress_read (zip_source_ops_of buffer_class) (transducer_algorithm frame_encoder) 8192 10
          (_zip_source_invalidate scenario4_opened.2.1) (-1) scenario4_opened.2.2.1
          scenario4_opened.2.2.2 16).error
        (compress_read (zip_source_ops_of buffer_class) (transducer_algorithm frame_encoder) 8192 10
          (_zip_source_invalidate scenario4_opened.2.1) (-1) scenario4_opened.2.2.1
          scenario4_opened.2.2.2 16).strm
        16
      = ⟨false, -1, [],
          (compress_read (zip_source_ops_of buffer_class) (transducer_algorithm frame_encoder)
            8192 10 (_zip_source_invalidate scenario4_opened.2.1) (-1) scenario4_opened.2.2.1
            scenario4_opened.2.2.2 16).src,
          (compress_read (zip_source_ops_of buffer_class) (transducer_algorithm frame_encoder)
            8192 10 (_zip_source_invalidate scenario4_opened.2.1) (-1) scenario4_opened.2.2.1
            scenario4_opened.2.2.2 16).error,
          (compress_read (zip_source_ops_of buffer_class) (transducer_algorithm frame_encoder)
            8192 10 (_zip_source_invalidate scenario4_opened.2.1) (-1) scenario4_opened.2.2.1
            scenario4_opened.2.2.2 16).strm⟩ :=
  (latched_error_terminal (zip_source_ops_of buffer_class) (transducer_algorithm frame_encoder)
    8192).2.2.2.1 10 _ (-1) _ _ 16 (by decide)

set_option maxRecDepth 100000 in
/-- C29, failing input: the input ends inside the compressed stream.  A
decompressing source whose algorithm still asks for data after end of input
is opened on an in-memory source delivering "AB" and read with a buffer of 16
bytes.  The READ callback, and with it compress_read with len = 16, produces
no output and returns 0 although end_of_stream is not set (no error is
latched, end_of_input is set, the bound of the loop was not used up); the
engine takes the 0 for the end of the data: zip_source_read returns 0 and
sets eof. -/
theorem starved_read_returns_zero :
    0 < starving_source.open_count ∧
    (compress_callback (zip_source_ops_of buffer_class) starving_algorithm 8192 10
      (stream_junk ()) starving_source.src (-1) starving_source.ud (.raw [] 16)
      ZIP_SOURCE_READ).ret = 0 ∧
    (compress_callback (zip_source_ops_of buffer_class) starving_algorithm 8192 10
      (stream_junk ()) starving_source.src (-1) starving_source.ud (.raw [] 16)
      ZIP_SOURCE_READ).ud.stream.end_of_stream = false ∧
    (compress_callback (zip_source_ops_of buffer_class) starving_algorithm 8192 10
      (stream_junk ()) starving_source.src (-1) starving_source.ud (.raw [] 16)
      ZIP_SOURCE_READ).ud.stream.end_of_input = true ∧
    (compress_callback (zip_source_ops_of buffer_class) starving_algorithm 8192 10
      (stream_junk ()) starving_source.src (-1) starving_source.ud (.raw [] 16)
      ZIP_SOURCE_READ).ud.error.zip_err = ZIP_ER_OK ∧
    (compress_callback (zip_source_ops_of buffer_class) starving_algorithm 8192 10
      (stream_junk ()) starving_source.src (-1) starving_source.ud (.raw [] 16)
      ZIP_SOURCE_READ).ud.fuel_exhausted = false ∧
    (compress_read (zip_source_ops_of buffer_class) starving_algorithm 8192 10
      starving_source.src (-1) starving_source.ud.error starving_source.ud.stream 16).ret = 0 ∧
    (compress_read (zip_source_ops_of buffer_class) starving_algorithm 8192 10
      starving_source.src (-1) starving_source.ud.error starving_source.ud.stream
      16).strm.end_of_stream = false ∧
    (zip_source_read (compress_class (zip_source_ops_of buffer_class) starving_algorithm 8192 10
      (stream_junk ())) starving_source 16).1 = 0 ∧
    (zip_source_read (compress_class (zip_source_ops_of buffer_class) starving_algorithm 8192 10
      (stream_junk ())) starving_source 16).2.2.eof = true ∧
    (zip_source_read (compress_class (zip_source_ops_of buffer_class) starving_algorithm 8192 10
      (stream_junk ())) starving_source 16).2.2.had_read_error = false := by
  decide

set_option maxRecDepth 100000 in
/-- C25, failing input: a compressing source on an in-memory source with
streams that delivers "ABCDEF".  (1) A stream is opened (ID 0, with the lower
stream 0 as its parent) and read: the READ_STREAM callback reads its input
from the primary reader of the lower source, which is not open, so the read
fails with -1 and INVAL is latched in the context; the parent stream is left
unread.  (2) With the primary reader open as well, the read on stream 0
consumes the six bytes of the primary reader of the lower source (its
bytes_read goes to 6) and leaves the parent stream unread at position 0; the
primary reader of the compressing source, which returns the six bytes when
read alone, then returns 0 bytes. -/
theorem stream_read_uses_primary_reader :
    ((zip_source_open_stream memory_compress_class
        (memory_compress_new [65, 66, 67, 68, 69, 70] 2)).1 = 0 ∧
      (stream_at (zip_source_open_stream memory_compress_class
        (memory_compress_new [65, 66, 67, 68, 69, 70] 2)).2 0).map (fun s => s.parent_stream_id)
        = some 0 ∧
      stream_at (zip_source_open_stream memory_compress_class
        (memory_compress_new [65, 66, 67, 68, 69, 70] 2)).2.src 0
        = some ⟨-1, false, false, 0, some 0⟩ ∧
      (zip_source_read_stream memory_compress_class
        (zip_source_open_stream memory_compress_class
          (memory_compress_new [65, 66, 67, 68, 69, 70] 2)).2 0 16).1 = -1 ∧
      (zip_source_read_stream memory_compress_class
        (zip_source_open_stream memory_compress_class
          (memory_compress_new [65, 66, 67, 68, 69, 70] 2)).2 0 16).2.2.ud.error.zip_err
        = ZIP_ER_INVAL ∧
      stream_at (zip_source_read_stream memory_compress_class
        (zip_source_open_stream memory_compress_class
          (memory_compress_new [65, 66, 67, 68, 69, 70] 2)).2 0 16).2.2.src 0
        = some ⟨-1, false, false, 0, some 0⟩) ∧
    ((zip_source_read memory_compress_class
        (zip_source_open memory_compress_class
          (memory_compress_new [65, 66, 67, 68, 69, 70] 2)).2 16).1 = 6 ∧
      (zip_source_read memory_compress_class
        (zip_source_open memory_compress_class
          (memory_compress_new [65, 66, 67, 68, 69, 70] 2)).2 16).2.1
        = [65, 66, 67, 68, 69, 70] ∧
      (zip_source_open_stream memory_compress_class
        (zip_source_open memory_compress_class
          (memory_compress_new [65, 66, 67, 68, 69, 70] 2)).2).2.src.bytes_read = 0 ∧
      (zip_source_read_stream memory_compress_class
        (zip_source_open_stream memory_compress_class
          (zip_source_open memory_compress_class
            (memory_compress_new [65, 66, 67, 68, 69, 70] 2)).2).2 0 16).1 = 6 ∧
      (zip_source_read_stream memory_compress_class
        (zip_source_open_stream memory_compress_class
          (zip_source_open memory_compress_class
            (memory_compress_new [65, 66, 67, 68, 69, 70] 2)).2).2 0 16).2.2.src.bytes_read = 6 ∧
      (zip_source_read_stream memory_compress_class
        (zip_source_open_stream memory_compress_class
          (zip_source_open memory_compress_class
            (memory_compress_new [65, 66, 67, 68, 69, 70] 2)).2).2 0 16).2.2.src.ud.pos = 6 ∧
      stream_at (zip_source_read_stream memory_compress_class
        (zip_source_open_stream memory_compress_class
          (zip_source_open memory_compress_class
            (memory_compress_new [65, 66, 67, 68, 69, 70] 2)).2).2 0 16).2.2.src 0
        = some ⟨-1, false, false, 0, some 0⟩ ∧
      (zip_source_read memory_compress_class
        (zip_source_read_stream memory_compress_class
          (zip_source_open_stream memory_compress_class
            (zip_source_open memory_compress_class
              (memory_compress_new [65, 66, 67, 68, 69, 70] 2)).2).2 0 16).2.2 16).1 = 0) := by
  decide

/-! ## Window layer: the constructor -/

/-- What _zip_source_window_new does with its range, start being a
zip_uint64_t and length a zip_int64_t: a length below -1 is refused with
INVAL; a bounded range whose end start + length exceeds 2^64 - 1 is refused
with INVAL; with an archive offset, a bounded range whose end
start + length + offset exceeds 2^64 - 1 is refused with INCONS and the detail;
every bounded window that is accepted has start = start + offset and
end = start + offset + length as exact integers. -/
theorem window_new_validates {τ : Type} (heap ctx_heap : List Bool) (src : Option τ)
    (lower_supports : zip_source_cmd → Bool) (start : Nat) (length : Int)
    (archive : Option (Nat × zip_error_t)) (source_index : Nat) (detail : Int)
    (merge : Option zip_error_t) (junk_end : Nat) (error : zip_error_t)
    (hs : start < 2 ^ 64) (hl : length < 2 ^ 63)
    (ha : ∀ p ∈ archive, p.1 < 2 ^ 64) :
    (length < -1 →
      _zip_source_window_new heap ctx_heap src lower_supports start length archive source_index
        detail merge junk_end error = (none, zip_error_set ZIP_ER_INVAL 0)) ∧
    (0 ≤ length → 2 ^ 64 ≤ start + length.toNat →
      _zip_source_window_new heap ctx_heap src lower_supports start length archive source_index
        detail merge junk_end error = (none, zip_error_set ZIP_ER_INVAL 0)) ∧
    (∀ (low : τ) (offset : Nat) (e : zip_error_t), src = some low → archive = some (offset, e) →
      offset ≠ 0 → 0 ≤ length → start + length.toNat < 2 ^ 64 →
      2 ^ 64 ≤ start + length.toNat + offset →
      _zip_source_window_new heap ctx_heap src lower_supports start length archive source_index
        detail merge junk_end error = (none, zip_error_set ZIP_ER_INCONS detail)) ∧
    (∀ s, (_zip_source_window_new heap ctx_heap src lower_supports start length archive
        source_index detail merge junk_end error).1 = some s → 0 ≤ length →
      s.ud.end_valid = true ∧
      s.ud.start = start + (match archive with
        | some p => p.1
        | none => 0) ∧
      s.ud.end_ = start + (match archive with
        | some p => p.1
        | none => 0) + length.toNat ∧
      s.ud.start ≤ s.ud.end_) := by
  have hlen : 0 ≤ length → to_uint64 length = length.toNat :=
    fun h => to_uint64_nonneg length h hl
  refine ⟨?_, ?_, ?_, ?_⟩
  · intro h
    unfold _zip_source_window_new
    cases src with
    | none => rfl
    | some low => simp [h]
  · intro h0 hov
    unfold _zip_source_window_new
    cases src with
    | none => rfl
    | some low =>
      simp only
      split
      · rfl
      · have : add64 start (to_uint64 length) < start := by
          rw [hlen h0]; unfold add64; omega
        simp [h0, this]
  · intro low offset e hsrc harch hoff h0 h1 h2
    have hof : offset < 2 ^ 64 := ha (offset, e) (by simp [harch])
    subst hsrc harch
    unfold _zip_source_window_new
    have c1 : ¬ (length < -1 ∨ ((some (offset, e) : Option (Nat × zip_error_t)).isNone = true
        ∧ source_index ≠ 0)) := by
      simp; omega
    have e1 : add64 start (to_uint64 length) = start + length.toNat := by
      rw [hlen h0]; exact add64_of_lt _ _ h1
    have c2 : ¬ (0 ≤ length ∧ add64 start (to_uint64 length) < start) := by
      rw [e1]; omega
    have c3 : 0 ≤ length ∧ add64 (add64 start (to_uint64 length)) offset
        < add64 start (to_uint64 length) := by
      rw [e1]; unfold add64; constructor
      · exact h0
      · omega
    simp only []
    rw [if_neg c1, if_neg c2]
    rw [if_neg hoff, if_pos c3]
  · intro s hres h0
    unfold _zip_source_window_new at hres
    cases src with
    | none => simp at hres
    | some low =>
      simp only at hres
      split at hres
      · simp at hres
      · split at hres
        · simp at hres
        · rename_i c2
          have h1 : start + length.toNat < 2 ^ 64 := by
            by_contra hc
            apply c2
            refine ⟨h0, ?_⟩
            rw [hlen h0]; unfold add64; omega
          have hne : ¬ length = -1 := by omega
          cases archive with
          | none =>
            simp only at hres
            cases hh : alloc_next heap with
            | mk ok heap2 =>
              rw [hh] at hres
              cases ok with
              | false => simp at hres
              | true =>
                simp only at hres
                cases merge with
                | some e => simp at hres
                | none =>
                  simp only [zip_source_layered] at hres
                  cases hh2 : alloc_next heap2 with
                  | mk ok2 heap3 =>
                    rw [hh2] at hres
                    cases ok2 with
                    | false => simp at hres
                    | true =>
                      simp only [Option.some.injEq] at hres
                      subst hres
                      simp only [zip_source_new, hne, if_false, decide_False, Bool.not_false,
                        Nat.add_zero]
                      have z : add64 start 0 = start := add64_of_lt _ _ (by omega)
                      rw [z, hlen h0, add64_of_lt _ _ h1]
                      exact ⟨trivial, rfl, rfl, by omega⟩
          | some p =>
            obtain ⟨offset, e⟩ := p
            have hof : offset < 2 ^ 64 := ha (offset, e) (by simp)
            simp only at hres
            split at hres
            · simp at hres
            · split at hres
              · simp at hres
              · rename_i c3 c4
                have e1 : add64 start (to_uint64 length) = start + length.toNat := by
                  rw [hlen h0]; exact add64_of_lt _ _ h1
                have h2 : start + length.toNat + offset < 2 ^ 64 := by
                  by_contra hc
                  apply c4
                  refine ⟨h0, ?_⟩
                  rw [e1]; unfold add64; omega
                cases hh : alloc_next heap with
                | mk ok heap2 =>
                  rw [hh] at hres
                  cases ok with
                  | false => simp at hres
                  | true =>
                    simp only at hres
                    cases merge with
                    | some e => simp at hres
                    | none =>
                      simp only [zip_source_layered] at hres
                      cases hh2 : alloc_next heap2 with
                      | mk ok2 heap3 =>
                        rw [hh2] at hres
                        cases ok2 with
                        | false => simp at hres
                        | true =>
                          simp only [Option.some.injEq] at hres
                          subst hres
                          simp only [zip_source_new, hne, if_false, decide_False, Bool.not_false]
                          have z : add64 start offset = start + offset :=
                            add64_of_lt _ _ (by omega)
                          rw [z, hlen h0, add64_of_lt _ _ (by omega)]
                          exact ⟨trivial, rfl, rfl, by omega⟩

/-- C21, failing input: an unbounded window (length = -1) with an archive
offset.  With start = 2^64 - 1 and the file data at offset 30 of the archive
the window is accepted, and ctx.start is 29: start + offset has wrapped around
2^64.  The check of start + length + offset is made for a bounded window only. -/
theorem window_start_wraps :
    (_zip_source_window_new [] [] (some (buffer_new [1, 2, 3] 2)) (fun _ => true) (2 ^ 64 - 1) (-1)
      (some (30, zip_error_clear)) 0 0 none 0 zip_error_clear).1.isSome = true ∧
    (_zip_source_window_new [] [] (some (buffer_new [1, 2, 3] 2)) (fun _ => true) (2 ^ 64 - 1) (-1)
      (some (30, zip_error_clear)) 0 0 none 0 zip_error_clear).1.map (fun s => s.ud.end_valid)
      = some false ∧
    (_zip_source_window_new [] [] (some (buffer_new [1, 2, 3] 2)) (fun _ => true) (2 ^ 64 - 1) (-1)
      (some (30, zip_error_clear)) 0 0 none 0 zip_error_clear).1.map (fun s => s.ud.start)
      = some 29 ∧
    (29 : Nat) ≠ (2 ^ 64 - 1) + 30 := by
  decide

set_option maxRecDepth 100000 in
/-- C26, failing input: a window [8, 48) on an in-memory source with streams
that delivers the bytes 0 to 63.  A stream is opened (ID 0; the window has
discarded 8 bytes of its parent stream, the stream offset is 8).  The callback
is then sent READ_STREAM with a carrier whose len is 100: it hands the carrier
and its size, 24, on to window_read_read, so 24 bytes are requested instead of
min(100, 48 - 8) = 40, and the bytes 8 to 31 are stored over the carrier
instead of into args.data.  The primary READ with len 100 on the same window
returns 40 bytes.  TELL_STREAM does what the claim says: with the stream
offset 32 it returns 24. -/
theorem window_read_stream_uses_carrier :
    (zip_source_open_stream memory_window_class (memory_window_new (List.range 64) 64 8 40)).1
      = 0 ∧
    stream_at (zip_source_open_stream memory_window_class
        (memory_window_new (List.range 64) 64 8 40)).2 0
      = some ⟨0, false, false, 0, some ⟨8⟩⟩ ∧
    (window_read (zip_source_ops_of memory_class) 4096
      (zip_source_open_stream memory_window_class
        (memory_window_new (List.range 64) 64 8 40)).2.src 0
      (zip_source_open_stream memory_window_class
        (memory_window_new (List.range 64) 64 8 40)).2.ud
      (.stream ⟨some ⟨8⟩, [], 100⟩) ZIP_SOURCE_READ_STREAM).ret = 24 ∧
    (window_read (zip_source_ops_of memory_class) 4096
      (zip_source_open_stream memory_window_class
        (memory_window_new (List.range 64) 64 8 40)).2.src 0
      (zip_source_open_stream memory_window_class
        (memory_window_new (List.range 64) 64 8 40)).2.ud
      (.stream ⟨some ⟨8⟩, [], 100⟩) ZIP_SOURCE_READ_STREAM).data.written 100
      = (List.range 32).drop 8 ∧
    (get_args_stream (window_read (zip_source_ops_of memory_class) 4096
      (zip_source_open_stream memory_window_class
        (memory_window_new (List.range 64) 64 8 40)).2.src 0
      (zip_source_open_stream memory_window_class
        (memory_window_new (List.range 64) 64 8 40)).2.ud
      (.stream ⟨some ⟨8⟩, [], 100⟩) ZIP_SOURCE_READ_STREAM).data).isNone = true ∧
    (window_read (zip_source_ops_of memory_class) 4096
      (zip_source_open memory_window_class (memory_window_new (List.range 64) 64 8 40)).2.src (-1)
      (zip_source_open memory_window_class (memory_window_new (List.range 64) 64 8 40)).2.ud
      (.raw [] 100) ZIP_SOURCE_READ).ret = 40 ∧
    (window_read (zip_source_ops_of memory_class) 4096
      (zip_source_open_stream memory_window_class
        (memory_window_new (List.range 64) 64 8 40)).2.src 0
      (zip_source_open_stream memory_window_class
        (memory_window_new (List.range 64) 64 8 40)).2.ud
      (.stream ⟨some ⟨32⟩, [], 0⟩) ZIP_SOURCE_TELL_STREAM).ret = 24 := by
  decide

/-- C27, failing input: on a freshly created source, with every callback and
allocation succeeding, two streams are opened (IDs 0 and 1) and stream 0 is
closed.  I2 holds in the fresh state and after the two opens; after the close
nstreams is 1, the ID 0 is on the free list, and streams[1] is present
although 1 is not below nstreams: I2 fails at the ID 1. -/
theorem close_breaks_I2 :
    (∀ id < 4, invariant_I2 leaf0 id = true) ∧
    (∀ id < 4, invariant_I2
      (run_ops scripted_leaf [.open_stream, .open_stream] leaf0).2 id = true) ∧
    (run_ops scripted_leaf [.open_stream, .open_stream, .close_stream 0] leaf0).1
      = [some 0, some 1, none] ∧
    (run_ops scripted_leaf [.open_stream, .open_stream, .close_stream 0] leaf0).2.nstreams = 1 ∧
    (run_ops scripted_leaf [.open_stream, .open_stream, .close_stream 0]
      leaf0).2.free_stream_ids.take
        (run_ops scripted_leaf [.open_stream, .open_stream, .close_stream 0]
          leaf0).2.nfree_stream_ids = [0] ∧
    (stream_at (run_ops scripted_leaf [.open_stream, .open_stream, .close_stream 0] leaf0).2
      1).isSome = true ∧
    invariant_I2 (run_ops scripted_leaf [.open_stream, .open_stream, .close_stream 0] leaf0).2 1
      = false := by
  decide

/-- C24 (fails on the code): a compressing source lies on an in-memory source
that supports OPEN_STREAM and CLOSE_STREAM but not READ_STREAM, so the lower
source lacks Readable streams.  zip_source_open_stream on the compressing
source returns the ID 0 with no error set, and a stream is then open on both
layers; zip_fopen_index_encrypted with ZIP_FL_INDEPENDENT on it returns a file
with stream_id 0 and leaves the archive error as it was. -/
theorem open_stream_without_lower_streams :
    zip_source_supports_multi_open_readable (no_read_stream_new (List.range 8) 8) = false ∧
    ((no_read_stream_compress_new (List.range 8) 8).map
      (fun s => (zip_source_open_stream no_read_stream_compress_class s).1)) = some 0 ∧
    ((no_read_stream_compress_new (List.range 8) 8).map
      (fun s => (zip_source_open_stream no_read_stream_compress_class s).2.error))
        = some zip_error_clear ∧
    ((no_read_stream_compress_new (List.range 8) 8).map
      (fun s => present_ids (zip_source_open_stream no_read_stream_compress_class s).2))
        = some [0] ∧
    ((no_read_stream_compress_new (List.range 8) 8).map
      (fun s => present_ids (zip_source_open_stream no_read_stream_compress_class s).2.src))
        = some [0] ∧
    ((zip_fopen_index_encrypted no_read_stream_compress_class
      (no_read_stream_compress_new (List.range 8) 8) zip_error_clear true []).zf.map
        (fun zf => zf.stream_id)) = some 0 ∧
    (zip_fopen_index_encrypted no_read_stream_compress_class
      (no_read_stream_compress_new (List.range 8) 8) zip_error_clear true []).za_error
        = zip_error_clear ∧
    (zip_fopen_index_encrypted no_read_stream_compress_class
      (no_read_stream_compress_new (List.range 8) 8) zip_error_clear true []).freed.isNone
        = true := by
  decide

/-- A window does not advertise READ_STREAM when its lower source lacks
Readable streams. -/
theorem window_supports_read_stream (f : zip_source_cmd → Bool)
    (h : (f ZIP_SOURCE_READ_STREAM && f ZIP_SOURCE_OPEN_STREAM && f ZIP_SOURCE_CLOSE_STREAM)
      = false) :
    window_supports f ZIP_SOURCE_READ_STREAM = false := by
  unfold window_supports
  simp only [h, Bool.false_and]
  simp [supports_seekable_set]

/-- The capabilities of a window that _zip_source_window_new accepts are those
computed from the capabilities of the lower source. -/
theorem window_new_supports {τ : Type} (heap ctx_heap : List Bool) (src : Option τ)
    (lower_supports : zip_source_cmd → Bool) (start : Nat) (length : Int)
    (archive : Option (Nat × zip_error_t)) (source_index : Nat) (detail : Int)
    (merge : Option zip_error_t) (junk_end : Nat) (error : zip_error_t)
    (s : zip_source_t τ window window_stream_t) (e : zip_error_t)
    (hres : _zip_source_window_new heap ctx_heap src lower_supports start length archive
        source_index detail merge junk_end error = (some s, e)) :
    s.supports = window_supports lower_supports := by
  unfold _zip_source_window_new at hres
  simp only [zip_source_layered] at hres
  repeat' split at hres
  all_goals first
    | (simp at hres; done)
    | (rename_i heq
       split at heq
       · simp at heq
       · simp only [Prod.mk.injEq, Option.some.injEq] at heq hres
         rw [← hres.1, ← heq.1]
         rfl)

/-- C24 (amended): zip_fopen_index_encrypted with ZIP_FL_INDEPENDENT on a
source that itself lacks Readable streams returns NULL with the archive error
set to OPNOTSUPP and hands the source to zip_source_free as it received it, no
stream having been opened on any layer; a window accepted by
_zip_source_window_new on a lower source that lacks Readable streams is such a
source.  zip_source_open_stream itself tests no capability: on a layered
source that is neither invalidated nor removed, when zip_source_open_stream on
the lower source fails it returns -1 with the error of the lower source and
leaves its own table of streams as it was. -/
theorem fopen_independent_needs_streams {τ σ υ ρ : Type} (K : zip_source_class τ σ υ)
    (src : zip_source_t τ σ υ) (za_error : zip_error_t) (heap : List Bool) :
    (zip_source_supports_multi_open_readable src = false →
      zip_fopen_index_encrypted K (some src) za_error true heap
        = ⟨none, zip_error_set ZIP_ER_OPNOTSUPP 0, some src⟩) ∧
    (∀ (wheap ctx_heap : List Bool) (low : ρ) (lower_supports : zip_source_cmd → Bool)
        (start : Nat) (length : Int) (archive : Option (Nat × zip_error_t)) (source_index : Nat)
        (detail : Int) (merge : Option zip_error_t) (junk_end : Nat) (error : zip_error_t)
        (w : zip_source_t ρ window window_stream_t)
        (Kw : zip_source_class ρ window window_stream_t),
      (lower_supports ZIP_SOURCE_READ_STREAM && lower_supports ZIP_SOURCE_OPEN_STREAM
        && lower_supports ZIP_SOURCE_CLOSE_STREAM) = false →
      (_zip_source_window_new wheap ctx_heap (some low) lower_supports start length archive
        source_index detail merge junk_end error).1 = some w →
      zip_fopen_index_encrypted Kw (some w) za_error true heap
        = ⟨none, zip_error_set ZIP_ER_OPNOTSUPP 0, some w⟩) ∧
    (∀ A, K.lower = some A → src.source_closed = false →
      src.write_state ≠ ZIP_SOURCE_WRITE_REMOVED →
      (A.zip_source_open_stream src.src).1 < 0 →
      zip_source_open_stream K src
        = (-1, { src with src := (A.zip_source_open_stream src.src).2,
                          error := A.zip_source_error (A.zip_source_open_stream src.src).2 })) := by
  refine ⟨?_, ?_, ?_⟩
  · intro h
    unfold zip_fopen_index_encrypted
    simp [h]
  · intro wheap ctx_heap low lower_supports start length archive source_index detail merge
      junk_end error w Kw hl hres
    have hs := window_new_supports wheap ctx_heap (some low) lower_supports start length archive
      source_index detail merge junk_end error w _ (Prod.ext hres rfl)
    have hr : zip_source_supports_multi_open_readable w = false := by
      unfold zip_source_supports_multi_open_readable
      rw [hs, window_supports_read_stream lower_supports hl]
      rfl
    unfold zip_fopen_index_encrypted
    simp [hr]
  · intro A hA hc hw hneg
    unfold zip_source_open_stream
    simp [hA, hc, hw, ZIP_SOURCE_IS_LAYERED, hneg]

/-- Witness for C24: an in-memory source without READ_STREAM, and the window
[8, 48) on it, are refused with OPNOTSUPP and handed back unchanged;
zip_source_open_stream on a compressing source whose lower source is
invalidated returns -1. -/
theorem fopen_independent_needs_streams_witness :
    (zip_source_supports_multi_open_readable (no_read_stream_new [1, 2] 2) = false ∧
      zip_fopen_index_encrypted no_read_stream_class (some (no_read_stream_new [1, 2] 2))
        zip_error_clear true []
        = ⟨none, zip_error_set ZIP_ER_OPNOTSUPP 0, some (no_read_stream_new [1, 2] 2)⟩) ∧
    (∃ w, no_read_stream_window_new (List.range 64) 64 8 40 = some w ∧
      zip_fopen_index_encrypted (window_class (zip_source_ops_of no_read_stream_class) 4096)
        (some w) zip_error_clear true []
        = ⟨none, zip_error_set ZIP_ER_OPNOTSUPP 0, some w⟩) ∧
    (zip_source_open_stream memory_compress_class
        { memory_compress_new [1, 2] 2 with
          src := { (memory_compress_new [1, 2] 2).src with source_closed := true } }).1 = -1 :=
  ⟨⟨by decide,
    (fopen_independent_needs_streams (ρ := Unit) no_read_stream_class
      (no_read_stream_new [1, 2] 2) zip_error_clear []).1 (by decide)⟩,
   ⟨(zip_source_new (no_read_stream_new (List.range 64) 64)
      ⟨8, 48, true, ⟨0⟩, zip_error_clear, window_supports no_read_stream_supports,
        false, false, []⟩ (window_supports no_read_stream_supports) []),
     by rfl,
     (fopen_independent_needs_streams (ρ := zip_source_t Unit buffer_src Nat)
        no_read_stream_class (no_read_stream_new [1, 2] 2) zip_error_clear []).2.1
       [] [] (no_read_stream_new (List.range 64) 64) no_read_stream_supports 8 40 none 0 0 none 0
       zip_error_clear _ _ (by decide) (by rfl)⟩,
   congrArg Prod.fst
    ((fopen_independent_needs_streams (ρ := Unit) memory_compress_class
      { memory_compress_new [1, 2] 2 with
        src := { (memory_compress_new [1, 2] 2).src with source_closed := true } }
      zip_error_clear []).2.2 (zip_source_ops_of memory_class) (by rfl) (by rfl) (by decide)
        (by decide))⟩

/-- C36, failing input: the allocation of the stream record fails while the ID
comes from the free list.  After open, open, close 0 on a fresh source the
table has nstreams = 1, the free list [0] and stream 1 in its slot.  The next
zip_source_open_stream, whose malloc of the stream record fails, returns -1
with MEMORY and leaves nstreams = 0 and an empty free list
(nfree_stream_ids = 0): the ID 0 is lost and nstreams no longer covers the
live stream 1.  The slots of streams[] are as before. -/
theorem failed_open_stream_changes_table :
    (run_ops scripted_leaf session_one_free
      (leaf_on_heap [true, true, true, true, true, false])).1 = [some 0, some 1, none] ∧
    (run_ops scripted_leaf session_one_free
      (leaf_on_heap [true, true, true, true, true, false])).2.nstreams = 1 ∧
    (run_ops scripted_leaf session_one_free
      (leaf_on_heap [true, true, true, true, true, false])).2.nfree_stream_ids = 1 ∧
    (run_ops scripted_leaf session_one_free
      (leaf_on_heap [true, true, true, true, true, false])).2.free_stream_ids = [0] ∧
    present_ids (run_ops scripted_leaf session_one_free
      (leaf_on_heap [true, true, true, true, true, false])).2 = [1] ∧
    (zip_source_open_stream scripted_leaf (run_ops scripted_leaf session_one_free
      (leaf_on_heap [true, true, true, true, true, false])).2).1 = -1 ∧
    (zip_source_open_stream scripted_leaf (run_ops scripted_leaf session_one_free
      (leaf_on_heap [true, true, true, true, true, false])).2).2.error
        = zip_error_set ZIP_ER_MEMORY 0 ∧
    (zip_source_open_stream scripted_leaf (run_ops scripted_leaf session_one_free
      (leaf_on_heap [true, true, true, true, true, false])).2).2.nstreams = 0 ∧
    (zip_source_open_stream scripted_leaf (run_ops scripted_leaf session_one_free
      (leaf_on_heap [true, true, true, true, true, false])).2).2.nfree_stream_ids = 0 ∧
    (zip_source_open_stream scripted_leaf (run_ops scripted_leaf session_one_free
      (leaf_on_heap [true, true, true, true, true, false])).2).2.streams
        = (run_ops scripted_leaf session_one_free
            (leaf_on_heap [true, true, true, true, true, false])).2.streams := by
  decide

/-- C35, failing input: on a fresh source three streams are opened and the
streams 1 and 0 are closed, which leaves nstreams = 1 with two IDs on the free
list and a table of 3 slots.  Two calls of zip_source_open_stream whose malloc
of the stream record fails each take an ID from the free list and decrement
nstreams: it goes to 0 and then wraps to 2^64 - 1.  The next
zip_source_open_stream, with every allocation succeeding, finds the free list
empty, sees nstreams + 1 = 0 and does not grow the table, takes
stream_id = 2^64 - 1, which is not below nstreams_alloced = 3, as the slot to
write, and returns that ID as the zip_int64_t -1; it sets no error and leaves
nstreams = 0. -/
theorem nstreams_wraps_below_zero :
    (run_ops scripted_leaf session_two_free
      (leaf_on_heap [true, true, true, true, true, true, true, true, false, false])).1
        = [some 0, some 1, some 2, none, none] ∧
    (run_ops scripted_leaf session_two_free
      (leaf_on_heap [true, true, true, true, true, true, true, true, false, false])).2.nstreams
        = 1 ∧
    (run_ops scripted_leaf session_two_free
      (leaf_on_heap [true, true, true, true, true, true, true, true, false, false])).2.nfree_stream_ids
        = 2 ∧
    (run_ops scripted_leaf (session_two_free ++ [.open_stream])
      (leaf_on_heap [true, true, true, true, true, true, true, true, false, false])).2.nstreams
        = 0 ∧
    (run_ops scripted_leaf (session_two_free ++ [.open_stream, .open_stream])
      (leaf_on_heap [true, true, true, true, true, true, true, true, false, false])).1
        = [some 0, some 1, some 2, none, none, some (-1), some (-1)] ∧
    (run_ops scripted_leaf (session_two_free ++ [.open_stream, .open_stream])
      (leaf_on_heap [true, true, true, true, true, true, true, true, false, false])).2.nstreams
        = 2 ^ 64 - 1 ∧
    (run_ops scripted_leaf (session_two_free ++ [.open_stream, .open_stream])
      (leaf_on_heap [true, true, true, true, true, true, true, true, false, false])).2.nfree_stream_ids
        = 0 ∧
    (run_ops scripted_leaf (session_two_free ++ [.open_stream, .open_stream])
      (leaf_on_heap [true, true, true, true, true, true, true, true, false, false])).2.nstreams_alloced
        = 3 ∧
    (zip_source_open_stream scripted_leaf
      (run_ops scripted_leaf (session_two_free ++ [.open_stream, .open_stream])
        (leaf_on_heap [true, true, true, true, true, true, true, true, false, false])).2).1
        = -1 ∧
    (zip_source_open_stream scripted_leaf
      (run_ops scripted_leaf (session_two_free ++ [.open_stream, .open_stream])
        (leaf_on_heap [true, true, true, true, true, true, true, true, false, false])).2).2.error
        = (run_ops scripted_leaf (session_two_free ++ [.open_stream, .open_stream])
            (leaf_on_heap [true, true, true, true, true, true, true, true, false, false])).2.error ∧
    (zip_source_open_stream scripted_leaf
      (run_ops scripted_leaf (session_two_free ++ [.open_stream, .open_stream])
        (leaf_on_heap [true, true, true, true, true, true, true, true, false, false])).2).2.nstreams
        = 0 ∧
    (open_stream_slot scripted_leaf
      (run_ops scripted_leaf (session_two_free ++ [.open_stream, .open_stream])
        (leaf_on_heap [true, true, true, true, true, true, true, true, false, false])).2
      (-1) ⟨some (), [], 0⟩)
      = open_stream_store scripted_leaf
          { (run_ops scripted_leaf (session_two_free ++ [.open_stream, .open_stream])
              (leaf_on_heap [true, true, true, true, true, true, true, true, false, false])).2
            with nstreams := 0 }
          (-1) ⟨some (), [], 0⟩ (2 ^ 64 - 1) := by
  refine ⟨by decide, by decide, by decide, by decide, by decide, by decide, by decide, by decide,
    by decide, by decide, by decide, ?_⟩
  rfl

set_option maxRecDepth 100000 in
/-- C31, failing input: a compressing source on the default method over an
in-memory source that delivers "AB" is read twice.  After the first OPEN the
flags are as the claim says, can_store included.  The first pass reads with a
buffer of 3 bytes and gets the 4 compressed bytes in two reads; the source is
closed and opened again.  After this second OPEN end_of_input, end_of_stream
and is_stored are false, size is 0 and first_read is -1, but can_store is
false although the layer is in compress mode on the default method:
compress_open does not set can_store.  The second pass, read with a buffer of
16 bytes, returns the 4 compressed bytes, where the same read on a freshly
created source takes the store shortcut and returns "AB".  Moreover
stream_init sets none of the five other fields: a context made by context_new
holds in them what the memory held. -/
theorem reopen_keeps_can_store :
    ((zip_source_open buffer_compress_class (buffer_compress_new [65, 66] 2)).1 = 0 ∧
      (zip_source_open buffer_compress_class (buffer_compress_new [65, 66] 2)).2.ud.stream.can_store
        = true) ∧
    ((zip_source_read buffer_compress_class
        (zip_source_open buffer_compress_class (buffer_compress_new [65, 66] 2)).2 3).1 = 3 ∧
      (zip_source_read buffer_compress_class
        (zip_source_read buffer_compress_class
          (zip_source_open buffer_compress_class (buffer_compress_new [65, 66] 2)).2 3).2.2
        3).1 = 1) ∧
    (reopened_compress.open_count = 1 ∧ reopened_compress.error = zip_error_clear ∧
      reopened_compress.ud.compress = true ∧
      ZIP_CM_IS_DEFAULT reopened_compress.ud.method = true ∧
      reopened_compress.ud.stream.end_of_input = false ∧
      reopened_compress.ud.stream.end_of_stream = false ∧
      reopened_compress.ud.stream.is_stored = false ∧
      reopened_compress.ud.stream.size = 0 ∧
      reopened_compress.ud.stream.first_read = -1 ∧
      reopened_compress.ud.stream.can_store = false) ∧
    ((zip_source_read buffer_compress_class reopened_compress 16).1 = 4 ∧
      (zip_source_read buffer_compress_class reopened_compress 16).2.1 = [2, 65, 66, 0] ∧
      (zip_source_read buffer_compress_class reopened_compress 16).2.2.ud.stream.is_stored
        = false ∧
      (zip_source_read buffer_compress_class
        (zip_source_open buffer_compress_class (buffer_compress_new [65, 66] 2)).2 16).1 = 2 ∧
      (zip_source_read buffer_compress_class
        (zip_source_open buffer_compress_class (buffer_compress_new [65, 66] 2)).2 16).2.1
          = [65, 66] ∧
      (zip_source_read buffer_compress_class
        (zip_source_open buffer_compress_class
          (buffer_compress_new [65, 66] 2)).2 16).2.2.ud.stream.is_stored = true) ∧
    ((context_new (transducer_algorithm frame_encoder) ZIP_CM_DEFLATE true 0
        ⟨true, true, false, true, 7, 5, [], ⟨(), [], false⟩⟩).map
      (fun ctx => (ctx.stream.end_of_input, ctx.stream.end_of_stream, ctx.stream.is_stored,
        ctx.stream.size, ctx.stream.first_read, ctx.stream.can_store)))
      = some (true, true, true, 7, 5, true) := by
  refine ⟨by decide, by decide, by decide, by decide, by decide⟩

/-- C33: _zip_realloc with element_size > 0 and a = max(additional_elements, 1)
(additional_elements being a zip_uint64_t).  The call returns OK or MEMORY.
It returns OK exactly when old + a <= 2^64 - 1, (old + a) * element_size
<= 2^64 - 1 and the allocator, asked for (old + a) * element_size bytes,
succeeds; then the block is the one the allocator returned and the count is
old + a, which is greater than old.  In every other case it returns MEMORY and
the block and the count are as before.  The count and the error code are those
of the function with a scripted allocator that the stream tables use. -/
theorem realloc_spec {μ : Type} (realloc : μ → Nat → Option μ) (memory : μ)
    (old element_size additional_elements : Nat) (heap : List Bool)
    (he : 0 < element_size) (ha : additional_elements < 2 ^ 64) :
    ((_zip_realloc_inout realloc memory old element_size additional_elements).1 = ZIP_ER_OK ∨
      (_zip_realloc_inout realloc memory old element_size additional_elements).1
        = ZIP_ER_MEMORY) ∧
    ((_zip_realloc_inout realloc memory old element_size additional_elements).1 = ZIP_ER_OK ↔
      old + max additional_elements 1 ≤ 2 ^ 64 - 1 ∧
      (old + max additional_elements 1) * element_size ≤ 2 ^ 64 - 1 ∧
      (realloc memory ((old + max additional_elements 1) * element_size)).isSome = true) ∧
    ((_zip_realloc_inout realloc memory old element_size additional_elements).1 = ZIP_ER_OK →
      some (_zip_realloc_inout realloc memory old element_size additional_elements).2.1
        = realloc memory ((old + max additional_elements 1) * element_size) ∧
      (_zip_realloc_inout realloc memory old element_size additional_elements).2.2
        = old + max additional_elements 1 ∧
      old < (_zip_realloc_inout realloc memory old element_size additional_elements).2.2) ∧
    ((_zip_realloc_inout realloc memory old element_size additional_elements).1 ≠ ZIP_ER_OK →
      _zip_realloc_inout realloc memory old element_size additional_elements
        = (ZIP_ER_MEMORY, memory, old)) ∧
    ((_zip_realloc heap old element_size additional_elements).1
        = (_zip_realloc_inout (fun (_ : Unit) _ => if (alloc_next heap).1 then some () else none) ()
            old element_size additional_elements).1 ∧
      (_zip_realloc heap old element_size additional_elements).2.1
        = (_zip_realloc_inout (fun (_ : Unit) _ => if (alloc_next heap).1 then some () else none) ()
            old element_size additional_elements).2.2) := by
  have hmax : (if additional_elements = 0 then 1 else additional_elements)
      = max additional_elements 1 := by
    split
    · omega
    · omega
  have h1 : ∀ a : Nat, a < 2 ^ 64 → (old > ZIP_UINT64_MAX - a ↔ ¬ old + a ≤ 2 ^ 64 - 1) := by
    intro a h
    unfold ZIP_UINT64_MAX
    omega
  have hm64 : max additional_elements 1 < 2 ^ 64 := by
    have : (1 : Nat) < 2 ^ 64 := by norm_num
    omega
  have h2 : ∀ n : Nat, (n > ZIP_UINT64_MAX / element_size ↔ ¬ n * element_size ≤ 2 ^ 64 - 1) := by
    intro n
    unfold ZIP_UINT64_MAX
    rw [gt_iff_lt, Nat.div_lt_iff_lt_mul he]
    omega
  refine ⟨?_, ?_, ?_, ?_, ?_⟩
  · unfold _zip_realloc_inout
    simp only []
    repeat' split
    all_goals simp
  · unfold _zip_realloc_inout
    simp only [hmax]
    by_cases c1 : old > ZIP_UINT64_MAX - max additional_elements 1
    · have := (h1 _ hm64).1 c1
      rw [if_pos c1]
      exact ⟨fun h => by simp at h, fun h => absurd h.1 this⟩
    · have n1 : old + max additional_elements 1 ≤ 2 ^ 64 - 1 := by
        by_contra hc; exact c1 ((h1 _ hm64).2 hc)
      rw [if_neg c1]
      by_cases c2 : old + max additional_elements 1 > ZIP_UINT64_MAX / element_size
      · have := (h2 _).1 c2
        rw [if_pos c2]
        exact ⟨fun h => by simp at h, fun h => absurd h.2.1 this⟩
      · have n2 : (old + max additional_elements 1) * element_size ≤ 2 ^ 64 - 1 := by
          by_contra hc; exact c2 ((h2 _).2 hc)
        rw [if_neg c2]
        cases hr : realloc memory ((old + max additional_elements 1) * element_size) with
        | none => exact ⟨fun h => by simp at h, fun h => by simp at h⟩
        | some m => exact ⟨fun _ => ⟨n1, n2, rfl⟩, fun _ => rfl⟩
  · unfold _zip_realloc_inout
    simp only [hmax]
    by_cases c1 : old > ZIP_UINT64_MAX - max additional_elements 1
    · simp [c1]
    · rw [if_neg c1]
      by_cases c2 : old + max additional_elements 1 > ZIP_UINT64_MAX / element_size
      · simp [c2]
      · rw [if_neg c2]
        cases hr : realloc memory ((old + max additional_elements 1) * element_size) with
        | none => simp
        | some m =>
          intro _
          refine ⟨rfl, rfl, ?_⟩
          show old < old + max additional_elements 1
          omega
  · unfold _zip_realloc_inout
    simp only [hmax]
    by_cases c1 : old > ZIP_UINT64_MAX - max additional_elements 1
    · simp [c1]
    · rw [if_neg c1]
      by_cases c2 : old + max additional_elements 1 > ZIP_UINT64_MAX / element_size
      · simp [c2]
      · rw [if_neg c2]
        cases hr : realloc memory ((old + max additional_elements 1) * element_size) with
        | none => simp
        | some m => simp
  · unfold _zip_realloc_inout _zip_realloc
    simp only [hmax]
    by_cases c1 : old > ZIP_UINT64_MAX - max additional_elements 1
    · simp [c1]
    · rw [if_neg c1, if_neg c1]
      by_cases c2 : old + max additional_elements 1 > ZIP_UINT64_MAX / element_size
      · simp [c2]
      · rw [if_neg c2, if_neg c2]
        rcases hh : alloc_next heap with ⟨ok, rest⟩
        cases ok <;> simp

/-- Witness for C33: a table of 4 elements of 8 bytes grows by 2 when the
allocator succeeds; it is left alone when the allocator fails and when the new
count times the element size exceeds 2^64 - 1. -/
theorem realloc_spec_witness :
    _zip_realloc_inout (fun (_ : Nat) size => some size) 0 4 8 2 = (ZIP_ER_OK, 48, 6) ∧
    _zip_realloc_inout (fun (_ : Nat) _ => none) 7 4 8 2 = (ZIP_ER_MEMORY, 7, 4) ∧
    _zip_realloc_inout (fun (_ : Nat) size => some size) 7 (2 ^ 61) 8 0 = (ZIP_ER_MEMORY, 7, 2 ^ 61) ∧
    ((_zip_realloc_inout (fun (_ : Nat) size => some size) 0 4 8 2).1 = ZIP_ER_OK ↔
      4 + max 2 1 ≤ 2 ^ 64 - 1 ∧ (4 + max 2 1) * 8 ≤ 2 ^ 64 - 1 ∧
      ((fun (_ : Nat) size => some size) 0 ((4 + max 2 1) * 8)).isSome = true) :=
  ⟨by decide, by decide, by decide,
    (realloc_spec (fun (_ : Nat) size => some size) 0 4 8 2 [] (by decide) (by decide)).2.1⟩

/-- The loop of zip_source_read never collects more than len bytes when the
callback never reports more than it was asked for. -/
theorem read_loop_within {τ σ υ : Type} (K : zip_source_class τ σ υ) (len : Nat)
    (h63 : len < 2 ^ 63)
    (hcb : ∀ low id ud k, (K.cb low id ud (.raw [] k) ZIP_SOURCE_READ).ret ≤ (k : Int)) :
    ∀ (fuel : Nat) (src : zip_source_t τ σ υ) (b : Nat) (data : List Nat) r, b ≤ len →
      zip_source_read_loop K len fuel src b data = r →
      r.2.2.1 ≤ len ∧ ∀ v, r.1 = some v → v ≤ (len : Int) := by
  intro fuel
  induction fuel with
  | zero =>
    intro src b data r hb hr
    simp only [zip_source_read_loop] at hr
    subst hr
    exact ⟨hb, fun v hv => by cases hv⟩
  | succ fuel ih =>
    intro src b data r hb hr
    unfold zip_source_read_loop at hr
    have hc := hcb src.src (-1) src.ud (len - b)
    simp only [_zip_source_call] at hr
    generalize K.cb src.src (-1) src.ud (.raw [] (len - b)) ZIP_SOURCE_READ = c at hr hc
    split at hr
    · split at hr
      · split at hr
        · subst hr
          exact ⟨hb, fun v hv => by simp at hv; omega⟩
        · subst hr
          refine ⟨hb, fun v hv => ?_⟩
          simp only [Option.some.injEq] at hv
          rw [← hv, to_int64_small b (by omega)]
          omega
      · split at hr
        · subst hr
          exact ⟨hb, fun v hv => by cases hv⟩
        · exact ih _ _ _ r (by omega) hr
    · subst hr
      exact ⟨hb, fun v hv => by cases hv⟩

/-- The function zip_source_read never returns more than len when the callback
never reports more than it was asked for. -/
theorem read_within {τ σ υ : Type} (K : zip_source_class τ σ υ)
    (hcb : ∀ low id ud k, (K.cb low id ud (.raw [] k) ZIP_SOURCE_READ).ret ≤ (k : Int))
    (src : zip_source_t τ σ υ) (len : Nat) :
    (zip_source_read K src len).1 ≤ (len : Int) := by
  unfold zip_source_read
  split
  · show (-1 : Int) ≤ len; omega
  · split
    · show (-1 : Int) ≤ len; omega
    · rename_i _ hg
      have h63 : len < 2 ^ 63 := by
        simp only [Bool.or_eq_true, decide_eq_true_eq, not_or, not_lt] at hg
        have := hg.2
        unfold ZIP_INT64_MAX at this
        omega
      split
      · show (-1 : Int) ≤ len; omega
      · split
        · show (0 : Int) ≤ len; omega
        · split
          · show (0 : Int) ≤ len; omega
          · have hl := read_loop_within K len h63 hcb len src 0 [] _ (Nat.zero_le _) rfl
            generalize zip_source_read_loop K len len src 0 [] = r at hl
            rcases r with ⟨_ | v, s, b, d⟩
            · simp only
              show to_int64 b ≤ len
              rw [to_int64_small b (by have := hl.1; simp only at this; omega)]
              have := hl.1
              simp only at this
              omega
            · simp only
              exact hl.2 v rfl


/-- The loop of zip_source_read_stream never collects more than len bytes when
the callback never reports more than it was asked for. -/
theorem read_stream_loop_within {τ σ υ : Type} (K : zip_source_class τ σ υ) (len : Nat)
    (hcb : ∀ low id ud us k,
      (K.cb low id ud (.stream ⟨us, [], k⟩) ZIP_SOURCE_READ_STREAM).ret ≤ (k : Int)) :
    ∀ (fuel : Nat) (src : zip_source_t τ σ υ) (stream : zip_stream_t υ) (b : Nat)
      (data : List Nat) r, b ≤ len →
      zip_source_read_stream_loop K len fuel src stream b data = r →
      r.2.2.2.1 ≤ len ∧ ∀ v, r.1 = some v → v = -1 := by
  intro fuel
  induction fuel with
  | zero =>
    intro src stream b data r hb hr
    simp only [zip_source_read_stream_loop] at hr
    subst hr
    exact ⟨hb, fun v hv => by cases hv⟩
  | succ fuel ih =>
    intro src stream b data r hb hr
    unfold zip_source_read_stream_loop at hr
    have hc := hcb src.src stream.parent_stream_id src.ud stream.user_stream (len - b)
    simp only [_zip_source_call] at hr
    generalize K.cb src.src stream.parent_stream_id src.ud
      (.stream ⟨stream.user_stream, [], len - b⟩) ZIP_SOURCE_READ_STREAM = c at hr hc
    split at hr
    · split at hr
      · split at hr
        · subst hr
          exact ⟨hb, fun v hv => by simp at hv; omega⟩
        · subst hr
          exact ⟨hb, fun v hv => by cases hv⟩
      · split at hr
        · subst hr
          exact ⟨hb, fun v hv => by cases hv⟩
        · exact ih _ _ _ _ r (by omega) hr
    · subst hr
      exact ⟨hb, fun v hv => by cases hv⟩

/-- The function zip_source_read_stream never returns more than len when the
callback never reports more than it was asked for. -/
theorem read_stream_within {τ σ υ : Type} (K : zip_source_class τ σ υ)
    (hcb : ∀ low id ud us k,
      (K.cb low id ud (.stream ⟨us, [], k⟩) ZIP_SOURCE_READ_STREAM).ret ≤ (k : Int))
    (src : zip_source_t τ σ υ) (stream_id : Int) (len : Nat) :
    (zip_source_read_stream K src stream_id len).1 ≤ (len : Int) := by
  unfold zip_source_read_stream
  split
  · show (-1 : Int) ≤ len; omega
  · split
    · show (-1 : Int) ≤ len; omega
    · rename_i _ hg
      have h63 : len < 2 ^ 63 := by
        simp only [Bool.or_eq_true, decide_eq_true_eq, not_or, not_lt] at hg
        have := hg.2
        unfold ZIP_INT64_MAX at this
        omega
      split
      · show (-1 : Int) ≤ len; omega
      · rename_i stream _
        split
        · show (-1 : Int) ≤ len; omega
        · split
          · show (0 : Int) ≤ len; omega
          · split
            · show (0 : Int) ≤ len; omega
            · have hl := read_stream_loop_within K len hcb len src stream 0 [] _
                (Nat.zero_le _) rfl
              generalize zip_source_read_stream_loop K len len src stream 0 [] = r at hl
              rcases r with ⟨_ | v, s, st, b, d⟩
              · simp only
                show to_int64 b ≤ len
                have := hl.1
                simp only at this
                rw [to_int64_small b (by omega)]
                omega
              · simp only
                have := hl.2 v rfl
                omega

/-- A source whose callback never reports more bytes than it was asked for
never returns more bytes than requested, in primary and in stream mode. -/
theorem source_reads_within {τ σ υ : Type} (K : zip_source_class τ σ υ)
    (h : reads_within_request K) (src : zip_source_t τ σ υ) (stream_id : Int) (len : Nat) :
    (_zip_source_read (zip_source_ops_of K) src stream_id len).1 ≤ (len : Int) := by
  unfold _zip_source_read
  split
  · exact read_within K h.1 src len
  · exact read_stream_within K h.2 src stream_id len


/-- One window_read_read on a bounded window whose stream offset lies in
[start, end]: the context keeps its range, the offset advances by the count
returned (a failed read counts 0) and stays within the range, the length asked
of the lower source is end - offset at most, and the count returned is at most
len. -/
theorem window_read_read_bounds {τ : Type} (A : zip_source_ops τ) (src : τ) (pid : Int)
    (ctx : window) (stream : window_stream_t) (len : Nat)
    (hv : ctx.end_valid = true) (he : ctx.end_ < 2 ^ 64)
    (ho : stream.offset ≤ ctx.end_)
    (hlow : ∀ s id k, (_zip_source_read A s id k).1 ≤ (k : Int)) :
    ∀ r, window_read_read A src pid ctx stream len = r →
      r.2.2.2.1.start = ctx.start ∧ r.2.2.2.1.end_ = ctx.end_ ∧
      r.2.2.2.1.end_valid = true ∧
      r.2.2.2.2.offset = stream.offset + r.1.toNat ∧
      r.2.2.2.2.offset ≤ ctx.end_ ∧ r.1 ≤ (len : Int) := by
  intro r hr
  unfold window_read_read at hr
  have hsub : sub64 ctx.end_ stream.offset = ctx.end_ - stream.offset :=
    sub64_of_le _ _ ho he
  simp only [hv, Bool.true_and, hsub] at hr
  generalize hk : (if decide (len > ctx.end_ - stream.offset) = true
    then ctx.end_ - stream.offset else len) = k at hr
  have hk1 : k ≤ ctx.end_ - stream.offset := by
    rw [← hk]; split
    · exact Nat.le_refl _
    · rename_i h; simp only [decide_eq_true_eq, not_lt] at h; omega
  have hk2 : k ≤ len := by
    rw [← hk]; split
    · rename_i h; simp only [decide_eq_true_eq] at h; omega
    · exact Nat.le_refl _
  split at hr
  · subst hr
    exact ⟨rfl, rfl, hv, by simp, ho, by simp⟩
  · split at hr
    · subst hr
      exact ⟨rfl, rfl, rfl, by simp, ho, by simp; omega⟩
    · have hl := hlow (window_seek_lower A src pid ctx stream).2 pid k
      generalize _zip_source_read A (window_seek_lower A src pid ctx stream).2 pid k = rd at hr hl
      split at hr
      · subst hr
        exact ⟨rfl, rfl, rfl, by simp, ho, by simp; omega⟩
      · rename_i hn
        have hadd : add64 stream.offset rd.1.toNat = stream.offset + rd.1.toNat :=
          add64_of_lt _ _ (by omega)
        split at hr
        · rename_i h0
          have hz : rd.1.toNat = 0 := by rw [h0.1]; rfl
          subst hr
          refine ⟨rfl, rfl, rfl, ?_, ?_, by simp; omega⟩
          · show add64 stream.offset rd.1.toNat = stream.offset + (-1 : Int).toNat
            rw [hadd, hz]; rfl
          · show add64 stream.offset rd.1.toNat ≤ ctx.end_
            rw [hadd]; omega
        · subst hr
          refine ⟨rfl, rfl, hv, ?_, ?_, by omega⟩
          · exact hadd
          · show add64 stream.offset rd.1.toNat ≤ ctx.end_
            rw [hadd]; omega

/-- A session of reads on a bounded window keeps the range of the context and
the offset of the stream within it; the offset advances by the bytes delivered. -/
theorem window_reads_bounds {τ : Type} (A : zip_source_ops τ) (pid : Int)
    (hlow : ∀ s id k, (_zip_source_read A s id k).1 ≤ (k : Int)) :
    ∀ (lens : List Nat) (s : Nat × τ × window × window_stream_t),
      s.2.2.1.end_valid = true → s.2.2.1.end_ < 2 ^ 64 → s.2.2.2.offset ≤ s.2.2.1.end_ →
      ∀ r, window_reads A pid lens s = r →
        r.2.2.1.start = s.2.2.1.start ∧ r.2.2.1.end_ = s.2.2.1.end_ ∧
        r.2.2.1.end_valid = true ∧
        r.2.2.2.offset + s.1 = s.2.2.2.offset + r.1 ∧
        r.2.2.2.offset ≤ s.2.2.1.end_ ∧ s.2.2.2.offset ≤ r.2.2.2.offset := by
  intro lens
  induction lens with
  | nil =>
    intro s hv he ho r hr
    simp only [window_reads] at hr
    subst hr
    exact ⟨rfl, rfl, hv, rfl, ho, Nat.le_refl _⟩
  | cons len rest ih =>
    intro s hv he ho r hr
    simp only [window_reads] at hr
    obtain ⟨b1, b2, b3, b4, b5, _⟩ :=
      window_read_read_bounds A s.2.1 pid s.2.2.1 s.2.2.2 len hv he ho hlow _ rfl
    obtain ⟨c1, c2, c3, c4, c5, c6⟩ := ih _ b3 (by simp only; rw [b2]; exact he)
      (by simp only; rw [b2]; exact b5) r hr
    simp only at c1 c2 c3 c4 c5 c6
    refine ⟨c1.trans b1, c2.trans b2, c3, ?_, ?_, ?_⟩
    · omega
    · rw [b2] at c5; exact c5
    · omega

/-- C32: the offsets of a bounded window.  The context ctx is that of a
bounded window (end_valid, start <= end < 2^64, and end - start < 2^63, the
length being a zip_int64_t), and the lower source never returns more bytes
than it is asked for.  After a successful window_read_open on the primary
stream (stream_id -1) or on a stream of the lower source the offset is start,
and after any session of reads on that stream, whatever they return:
the range of the context is unchanged, start <= offset <= end, the clamp
end - offset computed in 64 bits is the exact difference, and window_read_tell
returns offset - start, which is the number of bytes the reads have delivered
and is at most end - start. -/
theorem window_offset_in_range {τ : Type} (A : zip_source_ops τ) (BUFSIZE : Nat) (pid : Int)
    (ctx : window) (src : τ) (stream : window_stream_t) (lens : List Nat)
    (hv : ctx.end_valid = true) (hse : ctx.start ≤ ctx.end_) (he : ctx.end_ < 2 ^ 64)
    (hl : ctx.end_ - ctx.start < 2 ^ 63)
    (hlow : ∀ s id k, (_zip_source_read A s id k).1 ≤ (k : Int)) :
    ∀ o, window_read_open A BUFSIZE src pid ctx stream = o → o.1 = 0 →
      o.2.2.2.offset = ctx.start ∧
      ∀ r, window_reads A pid lens (0, o.2.1, o.2.2.1, o.2.2.2) = r →
        r.2.2.1.start = ctx.start ∧ r.2.2.1.end_ = ctx.end_ ∧
        ctx.start ≤ r.2.2.2.offset ∧ r.2.2.2.offset ≤ ctx.end_ ∧
        sub64 r.2.2.1.end_ r.2.2.2.offset = ctx.end_ - r.2.2.2.offset ∧
        window_read_tell r.2.2.1 r.2.2.2 = ((r.2.2.2.offset - ctx.start : Nat) : Int) ∧
        r.2.2.2.offset - ctx.start = r.1 ∧
        r.1 ≤ ctx.end_ - ctx.start := by
  intro o ho h0
  have hopen : o.2.2.1.start = ctx.start ∧ o.2.2.1.end_ = ctx.end_ ∧
      o.2.2.1.end_valid = ctx.end_valid ∧ o.2.2.2.offset = ctx.start := by
    unfold window_read_open at ho
    split at ho
    · split at ho
      · subst ho; simp at h0
      · simp only [] at ho
        split at ho
        · subst ho; simp at h0
        · subst ho; exact ⟨rfl, rfl, rfl, rfl⟩
    · subst ho; exact ⟨rfl, rfl, rfl, rfl⟩
  obtain ⟨o1, o2, o3, o4⟩ := hopen
  refine ⟨o4, ?_⟩
  intro r hr
  obtain ⟨c1, c2, c3, c4, c5, c6⟩ := window_reads_bounds A pid hlow lens
    (0, o.2.1, o.2.2.1, o.2.2.2) (by simp only; rw [o3]; exact hv)
    (by simp only; rw [o2]; exact he) (by simp only; rw [o2, o4]; exact hse) r hr
  simp only at c1 c2 c3 c4 c5 c6
  rw [o4] at c4 c6
  rw [o2] at c5
  have e1 : r.2.2.1.start = ctx.start := c1.trans o1
  have e2 : r.2.2.1.end_ = ctx.end_ := c2.trans o2
  refine ⟨e1, e2, c6, c5, ?_, ?_, by omega, by omega⟩
  · rw [e2]; exact sub64_of_le _ _ c5 he
  · unfold window_read_tell
    rw [e1, sub64_of_le _ _ c6 (by omega)]
    exact to_int64_small _ (by omega)


/-- The end of a bounded window that _zip_source_window_new accepts is a
zip_uint64_t. -/
theorem window_new_end_lt {τ : Type} (heap ctx_heap : List Bool) (src : Option τ)
    (lower_supports : zip_source_cmd → Bool) (start : Nat) (length : Int)
    (archive : Option (Nat × zip_error_t)) (source_index : Nat) (detail : Int)
    (merge : Option zip_error_t) (junk_end : Nat) (error : zip_error_t)
    (s : zip_source_t τ window window_stream_t) (e : zip_error_t) (hne : length ≠ -1)
    (hres : _zip_source_window_new heap ctx_heap src lower_supports start length archive
        source_index detail merge junk_end error = (some s, e)) :
    s.ud.end_ < 2 ^ 64 := by
  unfold _zip_source_window_new at hres
  simp only [zip_source_layered] at hres
  repeat' split at hres
  all_goals first
    | (simp at hres; done)
    | (rename_i heq
       split at heq
       · simp at heq
       · simp only [Prod.mk.injEq, Option.some.injEq] at heq hres
         rw [← hres.1, ← heq.1]
         simp only [zip_source_new, hne, if_false]
         unfold add64
         exact Nat.mod_lt _ (by norm_num))

/-- The context of a bounded window that _zip_source_window_new accepts
is that of a bounded window: end_valid holds, start <= end < 2^64, and
end - start is within zip_int64_t. -/
theorem window_new_bounded {τ : Type} (heap ctx_heap : List Bool) (src : Option τ)
    (lower_supports : zip_source_cmd → Bool) (start : Nat) (length : Int)
    (archive : Option (Nat × zip_error_t)) (source_index : Nat) (detail : Int)
    (merge : Option zip_error_t) (junk_end : Nat) (error : zip_error_t)
    (hs : start < 2 ^ 64) (hl : length < 2 ^ 63) (ha : ∀ p ∈ archive, p.1 < 2 ^ 64)
    (h0 : 0 ≤ length) (s : zip_source_t τ window window_stream_t)
    (hres : (_zip_source_window_new heap ctx_heap src lower_supports start length archive
        source_index detail merge junk_end error).1 = some s) :
    s.ud.end_valid = true ∧ s.ud.start ≤ s.ud.end_ ∧ s.ud.end_ < 2 ^ 64 ∧
      s.ud.end_ - s.ud.start < 2 ^ 63 := by
  obtain ⟨v1, v2, v3, v4⟩ := (window_new_validates heap ctx_heap src lower_supports start length
    archive source_index detail merge junk_end error hs hl ha).2.2.2 s hres h0
  have hlt := window_new_end_lt heap ctx_heap src lower_supports start length archive
    source_index detail merge junk_end error s _ (by omega) (Prod.ext hres rfl)
  refine ⟨v1, v4, hlt, ?_⟩
  rw [v3, v2]
  omega

/-- The callback of the in-memory source with streams never reports more bytes
than it was asked for. -/
theorem memory_reads_within : reads_within_request memory_class := by
  constructor
  · intro low id ud len
    show ((min len (min ud.chunk (ud.data.length - ud.pos)) : Nat) : Int) ≤ len
    omega
  · intro low id ud us len
    show ((min len (min ud.chunk (ud.data.length - us.getD 0)) : Nat) : Int) ≤ len
    omega

/-- Witness for C32: the window [8, 48) on the in-memory source with streams
that delivers the bytes 0 to 63, made by _zip_source_window_new.  The primary
stream is opened and read with buffers of 16, 100 and 5 bytes: 40 bytes are
delivered and window_read_tell returns offset - start = 40; the same on the
stream 0 of the lower source. -/
theorem window_offset_in_range_witness :
    (window_read_open (zip_source_ops_of memory_class) 4096
      (zip_source_open memory_class (memory_new (List.range 64) 64)).2 (-1)
      (memory_window_new (List.range 64) 64 8 40).ud ⟨0⟩).1 = 0 ∧
    (window_reads (zip_source_ops_of memory_class) (-1) [16, 100, 5]
      (0, (window_read_open (zip_source_ops_of memory_class) 4096
        (zip_source_open memory_class (memory_new (List.range 64) 64)).2 (-1)
        (memory_window_new (List.range 64) 64 8 40).ud ⟨0⟩).2)).1 = 40 ∧
    (window_reads (zip_source_ops_of memory_class) (-1) [16, 100, 5]
      (0, (window_read_open (zip_source_ops_of memory_class) 4096
        (zip_source_open memory_class (memory_new (List.range 64) 64)).2 (-1)
        (memory_window_new (List.range 64) 64 8 40).ud ⟨0⟩).2)).2.2.2.offset = 48 ∧
    (window_reads (zip_source_ops_of memory_class) 0 [16, 100, 5]
      (0, (window_read_open (zip_source_ops_of memory_class) 4096
        (zip_source_open_stream memory_class (memory_new (List.range 64) 64)).2 0
        (memory_window_new (List.range 64) 64 8 40).ud ⟨0⟩).2)).1 = 40 ∧
    window_read_tell
      (window_reads (zip_source_ops_of memory_class) (-1) [16, 100, 5]
        (0, (window_read_open (zip_source_ops_of memory_class) 4096
          (zip_source_open memory_class (memory_new (List.range 64) 64)).2 (-1)
          (memory_window_new (List.range 64) 64 8 40).ud ⟨0⟩).2)).2.2.1
      (window_reads (zip_source_ops_of memory_class) (-1) [16, 100, 5]
        (0, (window_read_open (zip_source_ops_of memory_class) 4096
          (zip_source_open memory_class (memory_new (List.range 64) 64)).2 (-1)
          (memory_window_new (List.range 64) 64 8 40).ud ⟨0⟩).2)).2.2.2
      = (((window_reads (zip_source_ops_of memory_class) (-1) [16, 100, 5]
        (0, (window_read_open (zip_source_ops_of memory_class) 4096
          (zip_source_open memory_class (memory_new (List.range 64) 64)).2 (-1)
          (memory_window_new (List.range 64) 64 8 40).ud ⟨0⟩).2)).2.2.2.offset
          - (memory_window_new (List.range 64) 64 8 40).ud.start : Nat) : Int) :=
  ⟨by decide, by decide, by decide, by decide,
    ((window_offset_in_range (zip_source_ops_of memory_class) 4096 (-1)
      (memory_window_new (List.range 64) 64 8 40).ud
      (zip_source_open memory_class (memory_new (List.range 64) 64)).2 ⟨0⟩ [16, 100, 5]
      (by decide) (by decide) (by decide) (by decide)
      (source_reads_within memory_class memory_reads_within) _ rfl (by decide)).2 _ rfl).2.2.2.2.2.1⟩

/-- Loop rule for compress_read: an invariant that every iteration maintains
holds when the loop is left, also at the bound of the model, and R holds when
the function returns from inside the loop. -/
theorem compress_read_loop_rule {τ α : Type} (A : zip_source_ops τ)
    (alg : zip_compression_algorithm_t α) (BUFSIZE : Nat) (pid : Int) (len : Nat)
    (P : compress_read_state τ α → Prop) (R : Int → compress_read_state τ α → Prop)
    (hstep : ∀ st, P st → st.out_offset < len →
      step_post P R (compress_read_step A alg BUFSIZE pid len st)) :
    ∀ (fuel : Nat) (st : compress_read_state τ α) r, P st →
      compress_read_loop A alg BUFSIZE pid len fuel st = r →
      (r.2.1 = none → P r.2.2) ∧ (∀ v, r.2.1 = some v → R v r.2.2) := by
  intro fuel
  induction fuel with
  | zero =>
    intro st r hP hr
    simp only [compress_read_loop] at hr
    subst hr
    exact ⟨fun _ => hP, fun v hv => by cases hv⟩
  | succ fuel ih =>
    intro st r hP hr
    unfold compress_read_loop at hr
    by_cases hlt : st.out_offset < len
    · simp only [hlt, if_true] at hr
      have hs := hstep st hP hlt
      generalize compress_read_step A alg BUFSIZE pid len st = h at hr hs
      cases h with
      | continue_ st1 =>
        simp only at hr
        exact ih st1 r hs hr
      | break_ st1 =>
        simp only at hr
        subst hr
        exact ⟨fun _ => hs, fun v hv => by cases hv⟩
      | return_ v st1 =>
        simp only at hr
        subst hr
        refine ⟨fun hn => (by cases hn), fun v2 hv => ?_⟩
        have hv2 : v = v2 := by simpa using hv
        subst hv2
        exact hs
    · simp only [hlt, if_false] at hr
      subst hr
      exact ⟨fun _ => hP, fun v hv => by cases hv⟩

/-- One iteration of the loop of compress_read maintains flags_inv, and a
return from inside the loop meets flags_ret. -/
theorem compress_read_handle_flags {τ α : Type} (A : zip_source_ops τ)
    (alg : zip_compression_algorithm_t α) (BUFSIZE : Nat) (pid : Int) (strm : stream α)
    (st : compress_read_state τ α) (p : process_result α) (h : flags_inv strm st) :
    step_post (flags_inv strm) (flags_ret strm) (compress_read_handle A alg BUFSIZE pid st p) := by
  obtain ⟨h1, h2, h3⟩ := h
  rcases p with ⟨status, out, ud, perr⟩
  cases status with
  | ZIP_COMPRESSION_OK =>
    simp only [compress_read_handle, step_post, flags_inv]
    exact ⟨h1, h2, h3⟩
  | ZIP_COMPRESSION_END =>
    simp only [compress_read_handle, ne_eq, reduceCtorEq, not_false_eq_true, if_true]
    by_cases c1 : st.strm.first_read < 0
    · simp only [c1, if_true, step_post, flags_inv]
      exact ⟨h1, h2, h3⟩
    · simp only [c1, if_false]
      by_cases c2 : (st.strm.can_store
          && decide (to_uint64 st.strm.first_read ≤ st.out_offset + out.length)) = true
      · simp only [c2, if_true, step_post, flags_ret]
        simp only [Bool.and_eq_true, decide_eq_true_eq] at c2
        exact ⟨h3 c2.1, trivial, trivial, by omega, c2.2, trivial, trivial⟩
      · simp only [c2, Bool.false_eq_true, if_false, step_post, flags_inv]
        exact ⟨h1, h2, h3⟩
  | ZIP_COMPRESSION_NEED_DATA =>
    simp only [compress_read_handle, ne_eq, reduceCtorEq, not_false_eq_true, if_true]
    repeat' split
    all_goals simp only [step_post, flags_inv]
    all_goals first
      | exact ⟨h1, h2, h3⟩
      | exact ⟨h1, h2, fun hc => by simp at hc⟩
  | ZIP_COMPRESSION_ERROR =>
    simp only [compress_read_handle, ne_eq, not_true_eq_false, if_false, step_post, flags_inv]
    split
    · exact ⟨h1, h2, h3⟩
    · exact ⟨h1, h2, h3⟩

/-- One iteration of the loop of compress_read maintains bounds_inv when
process writes at most the room it was given and the read of the lower source
returns M at most. -/
theorem compress_read_handle_bounds {τ α : Type} (A : zip_source_ops τ)
    (alg : zip_compression_algorithm_t α) (BUFSIZE : Nat) (pid : Int) (len : Nat) (M : Int)
    (st : compress_read_state τ α) (p : process_result α) (h : bounds_inv len M st)
    (hp : p.out.length ≤ len - st.out_offset)
    (hlow : (_zip_source_read A st.src pid BUFSIZE).1 ≤ M) (hM : 0 ≤ M) :
    step_post (bounds_inv len M) (fun _ st1 => bounds_inv len M st1 ∨
        (st1.out_offset ≤ len ∧ st1.strm.first_read ≤ M))
      (compress_read_handle A alg BUFSIZE pid st p) := by
  obtain ⟨h1, h2, h3⟩ := h
  rcases p with ⟨status, out, ud, perr⟩
  simp only at hp
  have hb : st.out_offset + out.length ≤ len := by omega
  have hd : (st.data ++ out).length = st.out_offset + out.length := by
    rw [List.length_append, h2]
  cases status with
  | ZIP_COMPRESSION_OK =>
    simp only [compress_read_handle, step_post, bounds_inv]
    exact ⟨hb, hd, h3⟩
  | ZIP_COMPRESSION_END =>
    simp only [compress_read_handle, ne_eq, reduceCtorEq, not_false_eq_true, if_true]
    by_cases c1 : st.strm.first_read < 0
    · simp only [c1, if_true, step_post, bounds_inv]
      exact ⟨hb, hd, h3⟩
    · simp only [c1, if_false]
      by_cases c2 : (st.strm.can_store
          && decide (to_uint64 st.strm.first_read ≤ st.out_offset + out.length)) = true
      · simp only [c2, if_true, step_post]
        exact Or.inr ⟨hb, h3⟩
      · simp only [c2, Bool.false_eq_true, if_false, step_post, bounds_inv]
        exact ⟨hb, hd, h3⟩
  | ZIP_COMPRESSION_NEED_DATA =>
    simp only [compress_read_handle, ne_eq, reduceCtorEq, not_false_eq_true, if_true]
    generalize _zip_source_read A st.src pid BUFSIZE = rd at hlow
    repeat' split
    all_goals simp only [step_post, bounds_inv]
    all_goals first
      | exact ⟨hb, hd, h3⟩
      | exact ⟨hb, hd, hM⟩
      | exact ⟨hb, hd, hlow⟩
  | ZIP_COMPRESSION_ERROR =>
    simp only [compress_read_handle, ne_eq, not_true_eq_false, if_false, step_post, bounds_inv]
    split
    · exact ⟨h1, h2, h3⟩
    · exact ⟨h1, h2, h3⟩


/-- The value of a zip_uint64_t read as zip_int64_t is at most the value. -/
theorem to_int64_le (n : Nat) : to_int64 n ≤ (n : Int) := by
  unfold to_int64
  have h := Nat.mod_le n (2 ^ 64)
  split <;> omega

/-- A non-negative zip_int64_t converted to zip_uint64_t is at most the value. -/
theorem to_uint64_le (i : Int) (h0 : 0 ≤ i) : to_uint64 i ≤ i.toNat := by
  unfold to_uint64
  have h1 : i % 2 ^ 64 ≤ i := by
    by_cases h : i < 2 ^ 64
    · rw [Int.emod_eq_of_lt h0 h]
    · have := Int.emod_lt_of_pos i (show (0 : Int) < 2 ^ 64 by norm_num)
      omega
  have h2 : 0 ≤ i % 2 ^ 64 := Int.emod_nonneg i (by norm_num)
  omega

/-- The loop of compress_read keeps flags_inv, from whatever state of the
stream the call began with. -/
theorem compress_read_loop_flags {τ α : Type} (A : zip_source_ops τ)
    (alg : zip_compression_algorithm_t α) (BUFSIZE : Nat) (pid : Int) (len fuel : Nat)
    (src : τ) (error : zip_error_t) (strm : stream α) :
    ∀ r, compress_read_loop A alg BUFSIZE pid len fuel ⟨src, error, strm, [], 0⟩ = r →
      (r.2.1 = none → flags_inv strm r.2.2) ∧ (∀ v, r.2.1 = some v → flags_ret strm v r.2.2) := by
  intro r hr
  exact compress_read_loop_rule A alg BUFSIZE pid len (flags_inv strm) (flags_ret strm)
    (fun st hP _ => compress_read_handle_flags A alg BUFSIZE pid strm st _ hP)
    fuel _ r ⟨rfl, rfl, fun h => h⟩ hr

/-- The loop of compress_read keeps out_offset within len and first_read
within M when process writes at most the room it is given and the reads of the
lower source return M at most. -/
theorem compress_read_loop_bounds {τ α : Type} (A : zip_source_ops τ)
    (alg : zip_compression_algorithm_t α) (BUFSIZE : Nat) (pid : Int) (len fuel : Nat) (M : Int)
    (src : τ) (error : zip_error_t) (strm : stream α)
    (hcap : ∀ ud cap, (alg.process ud cap).out.length ≤ cap)
    (hlow : ∀ s, (_zip_source_read A s pid BUFSIZE).1 ≤ M) (hM : 0 ≤ M)
    (hfr : strm.first_read ≤ M) :
    ∀ r, compress_read_loop A alg BUFSIZE pid len fuel ⟨src, error, strm, [], 0⟩ = r →
      r.2.2.out_offset ≤ len ∧ r.2.2.strm.first_read ≤ M ∧
      (r.2.1 = none → r.2.2.data.length = r.2.2.out_offset) := by
  intro r hr
  obtain ⟨h1, h2⟩ := compress_read_loop_rule A alg BUFSIZE pid len (bounds_inv len M)
    (fun _ st1 => bounds_inv len M st1 ∨ (st1.out_offset ≤ len ∧ st1.strm.first_read ≤ M))
    (fun st hP _ => compress_read_handle_bounds A alg BUFSIZE pid len M st _ hP
      (hcap _ _) (hlow _) hM)
    fuel _ r ⟨Nat.zero_le _, rfl, hfr⟩ hr
  cases hv : r.2.1 with
  | none =>
    obtain ⟨a, b, c⟩ := h1 hv
    exact ⟨a, c, fun _ => b⟩
  | some v =>
    rcases h2 v hv with ⟨a, b, c⟩ | ⟨a, c⟩
    · exact ⟨a, c, fun h => by cases h⟩
    · exact ⟨a, c, fun h => by cases h⟩


/-- The function compress_open resets end_of_input, end_of_stream, is_stored,
size and first_read, whether it succeeds or fails, and leaves can_store and
the buffer as they were. -/
theorem compress_open_flags {τ α : Type} (A : zip_source_ops τ)
    (alg : zip_compression_algorithm_t α) (src : τ) (e : zip_error_t) (s : stream α) :
    (compress_open A alg src e s).2.2.2.end_of_input = false ∧
    (compress_open A alg src e s).2.2.2.end_of_stream = false ∧
    (compress_open A alg src e s).2.2.2.is_stored = false ∧
    (compress_open A alg src e s).2.2.2.size = 0 ∧
    (compress_open A alg src e s).2.2.2.first_read = -1 ∧
    (compress_open A alg src e s).2.2.2.can_store = s.can_store := by
  unfold compress_open
  simp only []
  split_ifs <;> exact ⟨rfl, rfl, rfl, rfl, rfl, rfl⟩

/-- C37 (amended): the output bound of compress_read, for every lower source
and algorithm, assuming that every call of process writes at most the out_len
it was given and that every read of the lower source returns at most the
BUFSIZE bytes requested, on a stream whose first_read is at most BUFSIZE (as
compress_open leaves it, and as every compress_read leaves it again).  After
any number of iterations of the loop out_offset <= len.  The value returned is
at most len, as is the number of bytes handed back, and first_read is at most
BUFSIZE afterwards.  When the call takes the store shortcut (is_stored goes
from false to true), the number of bytes copied, size = first_read, is the
value returned and is at most len and at most BUFSIZE. -/
theorem compress_read_output_bound {τ α : Type} (A : zip_source_ops τ)
    (alg : zip_compression_algorithm_t α) (BUFSIZE fuel : Nat) (src : τ) (pid : Int)
    (error : zip_error_t) (strm : stream α) (len : Nat)
    (hcap : ∀ ud cap, (alg.process ud cap).out.length ≤ cap)
    (hlow : ∀ s, (_zip_source_read A s pid BUFSIZE).1 ≤ (BUFSIZE : Int))
    (hfr : strm.first_read ≤ (BUFSIZE : Int)) :
    (∀ n, (compress_read_loop A alg BUFSIZE pid len n
      ⟨src, error, strm, [], 0⟩).2.2.out_offset ≤ len) ∧
    (∀ r, compress_read A alg BUFSIZE fuel src pid error strm len = r →
      r.ret ≤ (len : Int) ∧ r.data.length ≤ len ∧ r.strm.first_read ≤ (BUFSIZE : Int) ∧
      (strm.is_stored = false → r.strm.is_stored = true →
        0 ≤ r.strm.first_read ∧ r.strm.size = to_uint64 r.strm.first_read ∧
        r.ret = to_int64 r.strm.size ∧ r.strm.size ≤ len ∧ r.strm.size ≤ BUFSIZE)) ∧
    (∀ e s, (compress_open A alg src e s).2.2.2.first_read ≤ (BUFSIZE : Int)) := by
  have hM : (0 : Int) ≤ (BUFSIZE : Int) := Int.natCast_nonneg _
  refine ⟨fun n => (compress_read_loop_bounds A alg BUFSIZE pid len n BUFSIZE src error strm
    hcap hlow hM hfr _ rfl).1, ?_, ?_⟩
  · intro r hr
    unfold compress_read at hr
    split at hr
    · subst hr
      exact ⟨by show (-1 : Int) ≤ len; omega, Nat.zero_le _, hfr,
        fun h1 h2 => by simp [h1] at h2⟩
    · split at hr
      · subst hr
        exact ⟨by show (0 : Int) ≤ len; omega, Nat.zero_le _, hfr,
          fun h1 h2 => by simp [h1] at h2⟩
      · obtain ⟨b1, b2, b3⟩ := compress_read_loop_bounds A alg BUFSIZE pid len fuel BUFSIZE src
          error strm hcap hlow hM hfr _ rfl
        obtain ⟨f1, f2⟩ := compress_read_loop_flags A alg BUFSIZE pid len fuel src error strm _ rfl
        generalize hl : compress_read_loop A alg BUFSIZE pid len fuel ⟨src, error, strm, [], 0⟩ = l
          at hr b1 b2 b3 f1 f2
        rcases l with ⟨ex, v, st⟩
        simp only at b1 b2 b3 f1 f2
        cases ex with
        | true =>
          simp only at hr
          subst hr
          refine ⟨by show (-1 : Int) ≤ len; omega, Nat.zero_le _, b2, ?_⟩
          intro h1 h2
          cases v with
          | none =>
            have := (f1 rfl).2.1
            simp only at h2
            rw [this, h1] at h2
            cases h2
          | some w =>
            have hx := ((compress_read_loop_is_stored A alg BUFSIZE pid len fuel
              ⟨src, error, strm, [], 0⟩ _ hl).2 w rfl).1
            cases hx
        | false =>
          cases v with
          | some w =>
            simp only at hr
            subst hr
            obtain ⟨g1, g2, g3, g4, g5, g6, g7⟩ := f2 w rfl
            have hs1 : st.strm.size ≤ len := by rw [g6]; omega
            have hs2 : st.strm.size ≤ BUFSIZE := by
              rw [g6]
              have := to_uint64_le _ g4
              omega
            have hw : w ≤ (len : Int) := by
              rw [g7]
              have := to_int64_le st.strm.size
              omega
            refine ⟨hw, ?_, b2, fun _ _ => ⟨g4, g6, g7, hs1, hs2⟩⟩
            simp only [List.length_take]
            omega
          | none =>
            simp only at hr
            obtain ⟨g1, g2, g3⟩ := f1 rfl
            have hd := b3 rfl
            split at hr
            · subst hr
              refine ⟨?_, by simp only; omega, b2, ?_⟩
              · have := to_int64_le st.out_offset
                show to_int64 st.out_offset ≤ (len : Int)
                omega
              · intro h1 h2
                simp only at h2
                rw [g2, h1] at h2
                cases h2
            · subst hr
              refine ⟨?_, Nat.zero_le _, b2, ?_⟩
              · show (if st.error.zip_err = ZIP_ER_OK then (0 : Int) else -1) ≤ (len : Int)
                split <;> omega
              · intro h1 h2
                simp only at h2
                rw [g2, h1] at h2
                cases h2
  · intro e s
    rw [(compress_open_flags A alg src e s).2.2.2.2.1]
    omega


/-- The plug-in of a transducer writes at most the room it is given. -/
theorem transducer_process_within {σ : Type} (T : transducer σ) (ud : transducer_state σ)
    (cap : Nat) : ((transducer_algorithm T).process ud cap).out.length ≤ cap := by
  simp only [transducer_algorithm]
  split
  · split <;> simp
  · simp [List.length_take]

/-- The callback of the in-memory source never reports more bytes than it was
asked for. -/
theorem buffer_reads_within : reads_within_request buffer_class := by
  constructor
  · intro low id ud len
    show ((min len (min ud.chunk (ud.data.length - ud.pos)) : Nat) : Int) ≤ len
    omega
  · intro low id ud us len
    show (-1 : Int) ≤ len
    omega

/-- With a plug-in whose process answers OK without output, the loop of
compress_read does not end: whatever the bound on the iterations, it is used
up with out_offset still 0. -/
theorem stalled_loop_never_ends {τ : Type} (A : zip_source_ops τ) (BUFSIZE : Nat) (pid : Int)
    (len : Nat) (hlen : 0 < len) :
    ∀ (fuel : Nat) (st : compress_read_state τ Unit), st.out_offset = 0 →
      (compress_read_loop A stalling_algorithm BUFSIZE pid len fuel st).1 = true ∧
      (compress_read_loop A stalling_algorithm BUFSIZE pid len fuel st).2.2.out_offset = 0 := by
  intro fuel
  induction fuel with
  | zero =>
    intro st h0
    simp [compress_read_loop, h0, hlen]
  | succ fuel ih =>
    intro st h0
    have hlt : st.out_offset < len := by omega
    unfold compress_read_loop
    simp only [hlt, if_true, compress_read_step, compress_read_handle, stalling_algorithm,
      ne_eq, reduceCtorEq, not_false_eq_true, List.length_nil, Nat.add_zero, List.append_nil]
    exact ih _ h0

set_option maxRecDepth 100000 in
/-- C37, counterexample: the assumption on process alone gives neither the end
of the loop nor the bound on first_read.  (1) The plug-in stalling_algorithm
writes nothing, which is within every out_len, and answers OK: a
compress_read of 16 bytes on an opened in-memory source is still in its loop,
with out_offset = 0, after 10 and after 100 iterations.  (2) A lower source
whose READ hands out its 5 bytes although 2 were requested: with BUFSIZE = 2
and the toy compressor, compress_read of 16 bytes takes the store shortcut
with first_read = 5, so it copies 5 bytes from the buffer of 2 bytes. -/
theorem output_bound_needs_more :
    ((stalling_algorithm.process () 16).status = ZIP_COMPRESSION_OK ∧
      (stalling_algorithm.process () 16).out = []) ∧
    ((compress_read (zip_source_ops_of buffer_class) stalling_algorithm 8192 10
        (zip_source_open buffer_class (buffer_new [65, 66] 2)).2 (-1) zip_error_clear
        (stream_junk ()) 16).exhausted = true ∧
      (compress_read (zip_source_ops_of buffer_class) stalling_algorithm 8192 100
        (zip_source_open buffer_class (buffer_new [65, 66] 2)).2 (-1) zip_error_clear
        (stream_junk ()) 16).exhausted = true ∧
      (compress_read_loop (zip_source_ops_of buffer_class) stalling_algorithm 8192 (-1) 16 100
        ⟨(zip_source_open buffer_class (buffer_new [65, 66] 2)).2, zip_error_clear,
          stream_junk (), [], 0⟩).2.2.out_offset = 0) ∧
    ((_zip_source_read (zip_source_ops_of greedy_class)
        (zip_source_open greedy_class (zip_source_new () ⟨[1, 2, 3, 4, 5], 0, 5⟩
          (fun _ => true) [])).2 (-1) 2).1 = 5 ∧
      (opened_stream (zip_source_ops_of greedy_class)
        (zip_source_open greedy_class (zip_source_new () ⟨[1, 2, 3, 4, 5], 0, 5⟩
          (fun _ => true) [])).2).1 = 0 ∧
      (compress_read (zip_source_ops_of greedy_class) (transducer_algorithm frame_encoder) 2 10
        (opened_stream (zip_source_ops_of greedy_class)
          (zip_source_open greedy_class (zip_source_new () ⟨[1, 2, 3, 4, 5], 0, 5⟩
            (fun _ => true) [])).2).2.1
        (-1) zip_error_clear
        (opened_stream (zip_source_ops_of greedy_class)
          (zip_source_open greedy_class (zip_source_new () ⟨[1, 2, 3, 4, 5], 0, 5⟩
            (fun _ => true) [])).2).2.2.2 16).ret = 5 ∧
      (compress_read (zip_source_ops_of greedy_class) (transducer_algorithm frame_encoder) 2 10
        (opened_stream (zip_source_ops_of greedy_class)
          (zip_source_open greedy_class (zip_source_new () ⟨[1, 2, 3, 4, 5], 0, 5⟩
            (fun _ => true) [])).2).2.1
        (-1) zip_error_clear
        (opened_stream (zip_source_ops_of greedy_class)
          (zip_source_open greedy_class (zip_source_new () ⟨[1, 2, 3, 4, 5], 0, 5⟩
            (fun _ => true) [])).2).2.2.2 16).strm.is_stored = true ∧
      (compress_read (zip_source_ops_of greedy_class) (transducer_algorithm frame_encoder) 2 10
        (opened_stream (zip_source_ops_of greedy_class)
          (zip_source_open greedy_class (zip_source_new () ⟨[1, 2, 3, 4, 5], 0, 5⟩
            (fun _ => true) [])).2).2.1
        (-1) zip_error_clear
        (opened_stream (zip_source_ops_of greedy_class)
          (zip_source_open greedy_class (zip_source_new () ⟨[1, 2, 3, 4, 5], 0, 5⟩
            (fun _ => true) [])).2).2.2.2 16).strm.first_read = 5 ∧
      (compress_read (zip_source_ops_of greedy_class) (transducer_algorithm frame_encoder) 2 10
        (opened_stream (zip_source_ops_of greedy_class)
          (zip_source_open greedy_class (zip_source_new () ⟨[1, 2, 3, 4, 5], 0, 5⟩
            (fun _ => true) [])).2).2.1
        (-1) zip_error_clear
        (opened_stream (zip_source_ops_of greedy_class)
          (zip_source_open greedy_class (zip_source_new () ⟨[1, 2, 3, 4, 5], 0, 5⟩
            (fun _ => true) [])).2).2.2.2 16).exhausted = false) := by
  refine ⟨by decide, by decide, by decide⟩

/-- Witness for C37: scenario 4, an in-memory source delivering "AB" under the
toy compressor with BUFSIZE = 8192.  A read of 3 bytes returns 3 bytes on the
normal path and a read of 16 bytes returns 2 bytes by the store shortcut; the
bounds hold for the read of 16 bytes. -/
theorem compress_read_output_bound_witness :
    (compress_read (zip_source_ops_of buffer_class) (transducer_algorithm frame_encoder) 8192 10
      scenario4_opened.2.1 (-1) scenario4_opened.2.2.1 scenario4_opened.2.2.2 3).ret = 3 ∧
    (compress_read (zip_source_ops_of buffer_class) (transducer_algorithm frame_encoder) 8192 10
      scenario4_opened.2.1 (-1) scenario4_opened.2.2.1 scenario4_opened.2.2.2 16).ret = 2 ∧
    (compress_read (zip_source_ops_of buffer_class) (transducer_algorithm frame_encoder) 8192 10
      scenario4_opened.2.1 (-1) scenario4_opened.2.2.1 scenario4_opened.2.2.2 16).strm.is_stored
        = true ∧
    (compress_read (zip_source_ops_of buffer_class) (transducer_algorithm frame_encoder) 8192 10
      scenario4_opened.2.1 (-1) scenario4_opened.2.2.1 scenario4_opened.2.2.2 16).ret
        ≤ ((16 : Nat) : Int) :=
  ⟨by decide, by decide, by decide,
    ((compress_read_output_bound (zip_source_ops_of buffer_class)
      (transducer_algorithm frame_encoder) 8192 10 scenario4_opened.2.1 (-1)
      scenario4_opened.2.2.1 scenario4_opened.2.2.2 16
      (transducer_process_within frame_encoder)
      (fun s => source_reads_within buffer_class buffer_reads_within s (-1) 8192)
      (by decide)).2.1 _ rfl).1⟩

/-- One compress_read keeps size_inv, the total growing by the value returned,
which is at most len. -/
theorem compress_read_size_inv {τ α : Type} (A : zip_source_ops τ)
    (alg : zip_compression_algorithm_t α) (BUFSIZE fuel : Nat) (src : τ) (pid : Int)
    (error : zip_error_t) (strm : stream α) (len total : Nat)
    (hcap : ∀ ud cap, (alg.process ud cap).out.length ≤ cap)
    (hlow : ∀ s, (_zip_source_read A s pid BUFSIZE).1 ≤ 2 ^ 63 - 1)
    (hlen : len < 2 ^ 63) (htot : total + len < 2 ^ 64) (hJ : size_inv total strm) :
    ∀ r, compress_read A alg BUFSIZE fuel src pid error strm len = r →
      size_inv (total + r.ret.toNat) r.strm ∧ r.ret.toNat ≤ len := by
  obtain ⟨j1, j2, j3, j4⟩ := hJ
  intro r hr
  unfold compress_read at hr
  split at hr
  · subst hr
    exact ⟨⟨j1, j2, j3, j4⟩, Nat.zero_le _⟩
  · split at hr
    · subst hr
      exact ⟨⟨j1, j2, j3, j4⟩, Nat.zero_le _⟩
    · rename_i _ hc
      have heos : strm.end_of_stream = false := by
        cases h : strm.end_of_stream with
        | false => rfl
        | true => simp [h] at hc
      have his : strm.is_stored = false := by
        cases h : strm.is_stored with
        | false => rfl
        | true =>
          have := (j3 h).1
          rw [heos] at this
          cases this
      obtain ⟨b1, b2, b3⟩ := compress_read_loop_bounds A alg BUFSIZE pid len fuel (2 ^ 63 - 1) src
        error strm hcap hlow (by norm_num) (by omega) _ rfl
      obtain ⟨f1, f2⟩ := compress_read_loop_flags A alg BUFSIZE pid len fuel src error strm _ rfl
      generalize hl : compress_read_loop A alg BUFSIZE pid len fuel ⟨src, error, strm, [], 0⟩ = l
        at hr b1 b2 b3 f1 f2
      rcases l with ⟨ex, v, st⟩
      simp only at b1 b2 b3 f1 f2
      have hkeep : v = none → size_inv total st.strm := by
        intro hv
        obtain ⟨g1, g2, g3⟩ := f1 hv
        unfold size_inv
        refine ⟨g1.trans j1, fun hcs _ => j2 (g3 hcs) heos, ?_, by omega⟩
        intro h
        rw [g2, his] at h
        cases h
      cases ex with
      | true =>
        simp only at hr
        subst hr
        cases v with
        | none => exact ⟨hkeep rfl, Nat.zero_le _⟩
        | some w =>
          have hx := ((compress_read_loop_is_stored A alg BUFSIZE pid len fuel
            ⟨src, error, strm, [], 0⟩ _ hl).2 w rfl).1
          cases hx
      | false =>
        cases v with
        | some w =>
          simp only at hr
          subst hr
          obtain ⟨g1, g2, g3, g4, g5, g6, g7⟩ := f2 w rfl
          have ht0 : total = 0 := j2 g1 heos
          have hu : to_uint64 st.strm.first_read = st.strm.first_read.toNat :=
            to_uint64_nonneg _ g4 (by omega)
          have hw : w.toNat = st.strm.size := by
            rw [g7, to_int64_small _ (by rw [g6, hu]; omega)]
            simp
          simp only
          rw [hw, ht0, Nat.zero_add]
          refine ⟨?_, by rw [g6]; omega⟩
          unfold size_inv
          refine ⟨rfl, ?_, fun _ => ⟨g3, g6⟩, by omega⟩
          intro _ h
          rw [g3] at h
          cases h
        | none =>
          simp only at hr
          obtain ⟨g1, g2, g3⟩ := f1 rfl
          split at hr
          · subst hr
            have hret : (to_int64 st.out_offset).toNat = st.out_offset := by
              rw [to_int64_small _ (by omega)]
              simp
            simp only
            rw [hret]
            refine ⟨?_, b1⟩
            unfold size_inv
            refine ⟨?_, ?_, ?_, ?_⟩
            · show add64 st.strm.size st.out_offset = total + st.out_offset
              rw [g1, j1, add64_of_lt _ _ (by omega)]
            · intro h
              simp at h
            · intro h
              simp only at h
              rw [g2, his] at h
              cases h
            · show st.strm.first_read < 2 ^ 63
              omega
          · subst hr
            have hz : (if st.error.zip_err = ZIP_ER_OK then (0 : Int) else -1).toNat = 0 := by
              split <;> rfl
            simp only
            rw [hz]
            exact ⟨hkeep rfl, Nat.zero_le _⟩

/-- A session of reads keeps size_inv; the total is at most the sum of the
buffer lengths. -/
theorem compress_reads_size_inv {τ α : Type} (A : zip_source_ops τ)
    (alg : zip_compression_algorithm_t α) (BUFSIZE fuel : Nat) (pid : Int)
    (hcap : ∀ ud cap, (alg.process ud cap).out.length ≤ cap)
    (hlow : ∀ s, (_zip_source_read A s pid BUFSIZE).1 ≤ 2 ^ 63 - 1) :
    ∀ (lens : List Nat) (s : Nat × τ × zip_error_t × stream α),
      (∀ len ∈ lens, len < 2 ^ 63) → s.1 + lens.sum < 2 ^ 64 → size_inv s.1 s.2.2.2 →
      ∀ t, compress_reads_total A alg BUFSIZE fuel pid lens s = t →
        size_inv t.1 t.2.2.2 ∧ t.1 ≤ s.1 + lens.sum := by
  intro lens
  induction lens with
  | nil =>
    intro s _ _ hJ t ht
    simp only [compress_reads_total] at ht
    subst ht
    exact ⟨hJ, by simp⟩
  | cons len rest ih =>
    intro s hl hs hJ t ht
    simp only [compress_reads_total] at ht
    simp only [List.sum_cons] at hs
    obtain ⟨c1, c2⟩ := compress_read_size_inv A alg BUFSIZE fuel s.2.1 pid s.2.2.1 s.2.2.2 len s.1
      hcap hlow (hl len (by simp)) (by omega) hJ _ rfl
    obtain ⟨d1, d2⟩ := ih _ (fun x hx => hl x (by simp [hx])) (by simp only; omega) c1 t ht
    simp only at d2
    refine ⟨d1, ?_⟩
    simp only [List.sum_cons]
    omega

/-- C34: the size accounting of the compression layer, for every lower source
and algorithm such that process writes at most the out_len it is given and the
reads of the lower source return a zip_int64_t.  A stream is opened by
compress_open and read by any session of compress_read calls with buffer
lengths within zip_int64_t whose sum is within zip_uint64_t.  After the
session stream.size equals the number of bytes the calls have returned, in
particular whenever end_of_stream is set and no error is latched; when
is_stored is set, the end of the stream was reached and size is first_read. -/
theorem size_accounting {τ α : Type} (A : zip_source_ops τ)
    (alg : zip_compression_algorithm_t α) (BUFSIZE fuel : Nat) (pid : Int) (src : τ)
    (error : zip_error_t) (strm : stream α) (lens : List Nat)
    (hcap : ∀ ud cap, (alg.process ud cap).out.length ≤ cap)
    (hlow : ∀ s, (_zip_source_read A s pid BUFSIZE).1 ≤ 2 ^ 63 - 1)
    (hl : ∀ len ∈ lens, len < 2 ^ 63) (hs : lens.sum < 2 ^ 64) :
    ∀ t, compress_reads_total A alg BUFSIZE fuel pid lens
        (0, (compress_open A alg src error strm).2) = t →
      t.2.2.2.size = t.1 ∧
      (t.2.2.2.end_of_stream = true → t.2.2.1.zip_err = ZIP_ER_OK → t.2.2.2.size = t.1) ∧
      (t.2.2.2.is_stored = true →
        t.2.2.2.end_of_stream = true ∧ t.2.2.2.size = to_uint64 t.2.2.2.first_read) := by
  intro t ht
  obtain ⟨o1, o2, o3, o4, o5, o6⟩ := compress_open_flags A alg src error strm
  have hJ : size_inv 0 (compress_open A alg src error strm).2.2.2 := by
    unfold size_inv
    refine ⟨o4, fun _ _ => rfl, ?_, by rw [o5]; norm_num⟩
    intro h
    rw [o3] at h
    cases h
  obtain ⟨⟨d1, d2, d3, d4⟩, _⟩ := compress_reads_size_inv A alg BUFSIZE fuel pid hcap hlow lens
    (0, (compress_open A alg src error strm).2) hl (by simpa using hs) hJ t ht
  exact ⟨d1, fun _ _ => d1, d3⟩

set_option maxRecDepth 100000 in
/-- Witness for C34 on scenario 4 ("AB" under the toy compressor): read with
buffers of 3, 3 and 16 bytes the stream returns 4 bytes on the normal path and
ends with size 4; read with a buffer of 16 bytes it takes the store shortcut,
returns 2 bytes and ends with size 2. -/
theorem size_accounting_witness :
    (compress_reads_total (zip_source_ops_of buffer_class) (transducer_algorithm frame_encoder)
      8192 10 (-1) [3, 3, 16]
      (0, (compress_open (zip_source_ops_of buffer_class) (transducer_algorithm frame_encoder)
        (zip_source_open buffer_class (buffer_new [65, 66] 2)).2
        frame_compress_ctx.error frame_compress_ctx.stream).2)).1 = 4 ∧
    (compress_reads_total (zip_source_ops_of buffer_class) (transducer_algorithm frame_encoder)
      8192 10 (-1) [3, 3, 16]
      (0, (compress_open (zip_source_ops_of buffer_class) (transducer_algorithm frame_encoder)
        (zip_source_open buffer_class (buffer_new [65, 66] 2)).2
        frame_compress_ctx.error frame_compress_ctx.stream).2)).2.2.2.end_of_stream = true ∧
    (compress_reads_total (zip_source_ops_of buffer_class) (transducer_algorithm frame_encoder)
      8192 10 (-1) [16]
      (0, (compress_open (zip_source_ops_of buffer_class) (transducer_algorithm frame_encoder)
        (zip_source_open buffer_class (buffer_new [65, 66] 2)).2
        frame_compress_ctx.error frame_compress_ctx.stream).2)).1 = 2 ∧
    (compress_reads_total (zip_source_ops_of buffer_class) (transducer_algorithm frame_encoder)
      8192 10 (-1) [16]
      (0, (compress_open (zip_source_ops_of buffer_class) (transducer_algorithm frame_encoder)
        (zip_source_open buffer_class (buffer_new [65, 66] 2)).2
        frame_compress_ctx.error frame_compress_ctx.stream).2)).2.2.2.is_stored = true ∧
    (compress_reads_total (zip_source_ops_of buffer_class) (transducer_algorithm frame_encoder)
      8192 10 (-1) [3, 3, 16]
      (0, (compress_open (zip_source_ops_of buffer_class) (transducer_algorithm frame_encoder)
        (zip_source_open buffer_class (buffer_new [65, 66] 2)).2
        frame_compress_ctx.error frame_compress_ctx.stream).2)).2.2.2.size
      = (compress_reads_total (zip_source_ops_of buffer_class)
          (transducer_algorithm frame_encoder) 8192 10 (-1) [3, 3, 16]
          (0, (compress_open (zip_source_ops_of buffer_class)
            (transducer_algorithm frame_encoder)
            (zip_source_open buffer_class (buffer_new [65, 66] 2)).2
            frame_compress_ctx.error frame_compress_ctx.stream).2)).1 :=
  ⟨by decide, by decide, by decide, by decide,
    (size_accounting (zip_source_ops_of buffer_class) (transducer_algorithm frame_encoder)
      8192 10 (-1) (zip_source_open buffer_class (buffer_new [65, 66] 2)).2
      frame_compress_ctx.error frame_compress_ctx.stream [3, 3, 16]
      (transducer_process_within frame_encoder)
      (fun s => Int.le_trans (source_reads_within buffer_class buffer_reads_within s (-1) 8192)
        (by norm_num))
      (by decide) (by decide) _ rfl).1⟩

/-- The function stream_init sets can_store to: compress mode on the default
method; it leaves end_of_input, end_of_stream, is_stored, size and first_read
as the memory held them. -/
theorem stream_init_flags {α : Type} (alg : zip_compression_algorithm_t α) (ctx : context α)
    (strm : stream α) :
    (stream_init alg ctx strm).2.can_store = (ctx.compress && ZIP_CM_IS_DEFAULT ctx.method) ∧
    (stream_init alg ctx strm).2.end_of_input = strm.end_of_input ∧
    (stream_init alg ctx strm).2.end_of_stream = strm.end_of_stream ∧
    (stream_init alg ctx strm).2.is_stored = strm.is_stored ∧
    (stream_init alg ctx strm).2.size = strm.size ∧
    (stream_init alg ctx strm).2.first_read = strm.first_read := by
  unfold stream_init
  cases hc : ctx.compress <;> cases alg.allocate (ZIP_CM_ACTUAL ctx.method) ctx.compression_flags
    <;> simp

/-- A stream whose can_store is false is never stored: compress_read leaves
can_store false and is_stored as it was.  With stream_init_flags and
compress_open_flags: a layer in decompress mode or on a method that is not the
default never sets is_stored. -/
theorem never_stored_without_can_store {τ α : Type} (A : zip_source_ops τ)
    (alg : zip_compression_algorithm_t α) (BUFSIZE fuel : Nat) (src : τ) (pid : Int)
    (error : zip_error_t) (strm : stream α) (len : Nat) (h : strm.can_store = false) :
    (compress_read A alg BUFSIZE fuel src pid error strm len).strm.can_store = false ∧
    (compress_read A alg BUFSIZE fuel src pid error strm len).strm.is_stored
      = strm.is_stored := by
  unfold compress_read
  split
  · exact ⟨h, rfl⟩
  · split
    · exact ⟨h, rfl⟩
    · obtain ⟨f1, f2⟩ := compress_read_loop_flags A alg BUFSIZE pid len fuel src error strm _ rfl
      generalize compress_read_loop A alg BUFSIZE pid len fuel ⟨src, error, strm, [], 0⟩ = l
        at f1 f2
      rcases l with ⟨ex, v, st⟩
      simp only at f1 f2
      cases v with
      | some w =>
        have := (f2 w rfl).1
        rw [h] at this
        cases this
      | none =>
        obtain ⟨g1, g2, g3⟩ := f1 rfl
        have hcs : st.strm.can_store = false := by
          cases hc : st.strm.can_store with
          | false => rfl
          | true =>
            have := g3 hc
            rw [h] at this
            cases this
        cases ex with
        | true => exact ⟨hcs, g2⟩
        | false =>
          simp only
          split
          · exact ⟨rfl, g2⟩
          · exact ⟨hcs, g2⟩

/-- The clean-up call on the lower source leaves the stream table of the
source itself alone. -/
theorem open_stream_undo_lower_table {τ σ υ : Type} (K : zip_source_class τ σ υ)
    (src : zip_source_t τ σ υ) (pid : Int) :
    (open_stream_undo_lower K src pid).streams = src.streams ∧
    (open_stream_undo_lower K src pid).nstreams = src.nstreams ∧
    (open_stream_undo_lower K src pid).nfree_stream_ids = src.nfree_stream_ids ∧
    (open_stream_undo_lower K src pid).free_stream_ids = src.free_stream_ids := by
  unfold open_stream_undo_lower lower_close_stream
  split
  · cases K.lower <;> exact ⟨rfl, rfl, rfl, rfl⟩
  · exact ⟨rfl, rfl, rfl, rfl⟩

/-- Slots appended empty read as the slots that were not there. -/
theorem stream_at_append_none {υ : Type} (l : List (Option (zip_stream_t υ))) (k i : Nat) :
    ((l ++ List.replicate k none).get? i).join = (l.get? i).join := by
  by_cases h : i < l.length
  · simp [List.getElem?_append_left h]
  · have h2 : l.length ≤ i := by omega
    rw [List.get?_eq_getElem?, List.get?_eq_getElem?, List.getElem?_append_right h2,
      List.getElem?_eq_none h2]
    by_cases h3 : i - l.length < k
    · simp [List.getElem?_replicate, h3]
    · simp [List.getElem?_replicate, h3]

/-- The tail of zip_source_open_stream fails only when the allocation of the
stream record fails; nstreams is then one less, the free list and the slots
are as they were. -/
theorem open_stream_store_failed {τ σ υ : Type} (K : zip_source_class τ σ υ)
    (src : zip_source_t τ σ υ) (pid : Int) (args : zip_source_args_stream_t υ) (id : Nat)
    (hid : id < 2 ^ 63) (h : (open_stream_store K src pid args id).1 < 0) :
    (open_stream_store K src pid args id).2.nstreams = decr64 src.nstreams ∧
    (open_stream_store K src pid args id).2.nfree_stream_ids = src.nfree_stream_ids ∧
    (open_stream_store K src pid args id).2.free_stream_ids = src.free_stream_ids ∧
    (open_stream_store K src pid args id).2.streams = src.streams := by
  unfold open_stream_store at h ⊢
  rcases hh : alloc_next src.heap with ⟨b, heap⟩
  cases b
  · obtain ⟨u1, u2, u3, u4⟩ := open_stream_undo_lower_table K
      (_zip_source_call K { src with heap := heap, nstreams := decr64 src.nstreams } pid
        (.stream args) ZIP_SOURCE_CLOSE_STREAM).2.2 pid
    simp only [hh]
    exact ⟨u2, u3, u4, u1⟩
  · simp only [hh] at h
    rw [to_int64_small id hid] at h
    omega

/-- The slot phase of zip_source_open_stream, when it fails on a table whose
IDs are within zip_int64_t: either the stream table is as before, or the ID
had been taken from the free list and the allocation of the stream record
failed. -/
theorem open_stream_slot_failed {τ σ υ : Type} (K : zip_source_class τ σ υ)
    (src : zip_source_t τ σ υ) (pid : Int) (args : zip_source_args_stream_t υ)
    (hn : src.nstreams < 2 ^ 63) (hids : ∀ i, src.free_stream_ids.getD i 0 < 2 ^ 63)
    (h : (open_stream_slot K src pid args).1 < 0) :
    same_table (open_stream_slot K src pid args).2 src ∨
      lost_free_id (open_stream_slot K src pid args).2 src := by
  have hdi : decr64 (incr64 src.nstreams) = src.nstreams := by
    unfold decr64 incr64; omega
  unfold open_stream_slot at h ⊢
  split
  · rename_i hpos
    simp only [hpos, if_true] at h
    obtain ⟨s1, s2, s3, s4⟩ := open_stream_store_failed K _ pid args _ (hids _) h
    right
    exact ⟨hpos, s1, s2, s3, fun i => by unfold stream_at; rw [s4]⟩
  · rename_i hpos
    simp only [hpos, if_false] at h
    left
    split
    · rename_i hgrow
      simp only [hgrow, if_true] at h
      rcases hre : _zip_realloc src.heap src.nstreams_alloced 8 (src.nstreams_alloced / 2)
        with ⟨e, na, hp⟩
      simp only [hre] at h ⊢
      cases e <;> first
        | (obtain ⟨u1, u2, u3, u4⟩ := open_stream_undo_lower_table K
            (_zip_source_call K { src with heap := hp } pid (.stream args)
              ZIP_SOURCE_CLOSE_STREAM).2.2 pid
           exact ⟨u2, u3, u4, fun i => by unfold stream_at; simp only []; rw [u1]; rfl⟩)
        | (obtain ⟨s1, s2, s3, s4⟩ := open_stream_store_failed K _ pid args _ hn h
           refine ⟨s1.trans hdi, s2, s3, fun i => ?_⟩
           unfold stream_at
           rw [s4]
           exact stream_at_append_none _ _ _)
    · rename_i hgrow
      simp only [hgrow, if_false] at h
      obtain ⟨s1, s2, s3, s4⟩ := open_stream_store_failed K _ pid args _ hn h
      exact ⟨s1.trans hdi, s2, s3, fun i => by unfold stream_at; rw [s4]⟩


/-- The clean-up after a failed callback, on a source with the table of src,
leaves the table of src. -/
theorem undo_same_table {τ σ υ : Type} (K : zip_source_class τ σ υ)
    (src src1 : zip_source_t τ σ υ) (pid : Int)
    (ht : src1.streams = src.streams ∧ src1.nstreams = src.nstreams ∧
      src1.nfree_stream_ids = src.nfree_stream_ids ∧
      src1.free_stream_ids = src.free_stream_ids) :
    same_table (open_stream_undo_lower K src1 pid) src ∧
    ∀ e, same_table { open_stream_undo_lower K src1 pid with error := e } src := by
  obtain ⟨u1, u2, u3, u4⟩ := open_stream_undo_lower_table K src1 pid
  obtain ⟨t1, t2, t3, t4⟩ := ht
  have hs : ∀ i, stream_at (open_stream_undo_lower K src1 pid) i = stream_at src i := by
    intro i
    unfold stream_at
    rw [u1, t1]
  exact ⟨⟨u2.trans t2, u3.trans t3, u4.trans t4, hs⟩,
    fun _ => ⟨u2.trans t2, u3.trans t3, u4.trans t4, hs⟩⟩

/-- The slot phase on a source with the table of src. -/
theorem slot_failed_from {τ σ υ : Type} (K : zip_source_class τ σ υ)
    (src src1 : zip_source_t τ σ υ) (pid : Int) (args : zip_source_args_stream_t υ)
    (ht : src1.streams = src.streams ∧ src1.nstreams = src.nstreams ∧
      src1.nfree_stream_ids = src.nfree_stream_ids ∧
      src1.free_stream_ids = src.free_stream_ids)
    (hn : src.nstreams < 2 ^ 63) (hids : ∀ i, src.free_stream_ids.getD i 0 < 2 ^ 63)
    (h : (open_stream_slot K src1 pid args).1 < 0) :
    same_table (open_stream_slot K src1 pid args).2 src ∨
      lost_free_id (open_stream_slot K src1 pid args).2 src := by
  obtain ⟨t1, t2, t3, t4⟩ := ht
  have hs : ∀ i, stream_at src1 i = stream_at src i := by
    intro i
    unfold stream_at
    rw [t1]
  rcases open_stream_slot_failed K src1 pid args (by rw [t2]; exact hn)
    (by rw [t4]; exact hids) h with ⟨a1, a2, a3, a4⟩ | ⟨a0, a1, a2, a3, a4⟩
  · exact Or.inl ⟨a1.trans t2, a2.trans t3, a3.trans t4, fun i => (a4 i).trans (hs i)⟩
  · exact Or.inr ⟨by rw [← t3]; exact a0, by rw [a1, t2], by rw [a2, t3], a3.trans t4,
      fun i => (a4 i).trans (hs i)⟩

/-- A failed zip_source_open_stream, on a table whose IDs are within
zip_int64_t, leaves nstreams, the free list and every slot of
streams[] as before the call on every path but one, on which the ID had been
taken from the free list and the allocation of the stream record failed. -/
theorem open_stream_failed_table {τ σ υ : Type} (K : zip_source_class τ σ υ)
    (src : zip_source_t τ σ υ) (hn : src.nstreams < 2 ^ 63)
    (hids : ∀ i, src.free_stream_ids.getD i 0 < 2 ^ 63) :
    ∀ r, zip_source_open_stream K src = r → r.1 < 0 →
      same_table r.2 src ∨ lost_free_id r.2 src := by
  intro r hr hneg
  unfold zip_source_open_stream at hr
  cases hl : K.lower with
  | none =>
    simp only [hl, ZIP_SOURCE_IS_LAYERED, Option.isSome_none, Bool.false_and,
      Bool.false_eq_true, if_false, _zip_source_call] at hr
    repeat' split at hr
    all_goals subst hr
    all_goals first
      | exact Or.inl ⟨rfl, rfl, rfl, fun _ => rfl⟩
      | (refine Or.inl (undo_same_table K src _ _ ?_).1
         exact ⟨rfl, rfl, rfl, rfl⟩)
      | (refine slot_failed_from K src _ _ _ ?_ hn hids hneg
         exact ⟨rfl, rfl, rfl, rfl⟩)
  | some A =>
    simp only [hl, ZIP_SOURCE_IS_LAYERED, Option.isSome_some, Bool.true_and,
      _zip_source_call] at hr
    repeat' split at hr
    all_goals subst hr
    all_goals first
      | exact Or.inl ⟨rfl, rfl, rfl, fun _ => rfl⟩
      | (refine Or.inl (undo_same_table K src _ _ ?_).1
         exact ⟨rfl, rfl, rfl, rfl⟩)
      | (refine slot_failed_from K src _ _ _ ?_ hn hids hneg
         exact ⟨rfl, rfl, rfl, rfl⟩)

end Libzip
